import Mathlib

/-!
# UnrealRose: the ROSE Online import plugin (RoseImport.cpp)

A shallow embedding of the import routines of
`Plugins/RoseImport/Source/RoseImport/Private/RoseImport.cpp`.

Conventions of the embedding:

* a `TArray` is a `List`; an indexed read or write outside the array is the
  range check of `TArray::operator[]` failing, which ends the run: every
  routine that indexes returns an `Option`, `none` being that failure;
* `UE_DEBUG_BREAK()` does not end the run: the routine goes on with the next
  statement, so a break is counted in a `breaks` field of the result;
* a failing `check(...)` ends the run, like a failing range check;
* `for (int i = 0; i < n; ++i) body` is `forLoop n body`, a left fold of the
  body over `0, 1, ..., n - 1` that stops at the first failure;
* a finite `float` is the rational it stands for; copies and comparisons are
  exact, and every single-precision operation (`+`, `*`, `/`, the conversion
  `(float)k`) is the exact operation followed by `Float32.round`, the rounding
  to the nearest single-precision value (ties to even); a literal such as
  `0.0001f` is the single-precision value nearest to it; a division by zero
  gives an infinity or a NaN (`Float32.div`); a float stored in a `uint16` is
  truncated toward zero;
* array sizes and offsets are natural numbers (the 32-bit counters of the
  source do not wrap on arrays that fit in memory); the `uint32` sizes and
  index expressions of `PluginButtonClicked` are taken modulo `2^32`;
* files are read through a `Host` record and a `MapFiles` record, as are the
  engine conversions that have no rational counterpart.
-/

namespace UnrealRose

/-! ## Engine value types -/

/-- The engine constant `INDEX_NONE`. -/
def INDEX_NONE : Int := -1

/-- Engine type `FVector`: three floats. -/
structure FVector where
  X : ℚ
  Y : ℚ
  Z : ℚ
deriving DecidableEq, Repr

/-- Engine type `FVector2D`: two floats. -/
structure FVector2D where
  X : ℚ
  Y : ℚ
deriving DecidableEq, Repr

/-- Engine type `FQuat`: four floats. -/
structure FQuat where
  X : ℚ
  Y : ℚ
  Z : ℚ
  W : ℚ
deriving DecidableEq, Repr

/-- Engine type `FRotator`: pitch, yaw and roll. -/
structure FRotator where
  Pitch : ℚ
  Yaw : ℚ
  Roll : ℚ
deriving DecidableEq, Repr

/-! ## Single-precision arithmetic -/

/-- Rounding of a rational to the nearest integer, a tie going to the even
one. -/
def roundHalfEven (q : ℚ) : Int :=
  if q - ⌊q⌋ < 1 / 2 then ⌊q⌋
  else if 1 / 2 < q - ⌊q⌋ then ⌊q⌋ + 1
  else if ⌊q⌋ % 2 = 0 then ⌊q⌋ else ⌊q⌋ + 1

/-- The single-precision value nearest to a positive rational `x`: with
`2^e <= x < 2^(e+1)` the values of that binade are the multiples of
`2^(e-23)` (24 significant bits), and `x` goes to the nearest one, a tie to the
one with the even significand. -/
def Float32.roundPos (x : ℚ) : ℚ :=
  (roundHalfEven (x / 2 ^ (Int.log 2 x - 23)) : ℚ) * 2 ^ (Int.log 2 x - 23)

/-- The rounding of every single-precision operation (round to nearest, ties
to even): the single-precision value nearest to the exact result `x`. The
exponent is not bounded: the values met here are 0 or in the normal range of
the format, where there is neither overflow nor a subnormal result. -/
def Float32.round (x : ℚ) : ℚ :=
  if x = 0 then 0
  else if x < 0 then -Float32.roundPos (-x)
  else Float32.roundPos x

/-- The conversion `(float)k` of an integer: the single-precision value
nearest to `k` (exact for `|k| <= 2^24`). -/
def Float32.ofInt (k : Int) : ℚ :=
  Float32.round k

/-- The literal `0.0001f`: the single-precision value nearest to `1/10000`,
which is `13743895 / 2^37`, a little below `1/10000`. -/
def Float32.oneTenThousandth : ℚ :=
  mkRat 13743895 137438953472

/-- The outcome of a single-precision division: a finite value, an infinity
or a NaN. -/
inductive Float32.Quotient where
  | finite (value : ℚ)
  | infinity (negative : Bool)
  | nan
deriving DecidableEq, Repr

/-- The single-precision division `a / b` of two finite values: the rounded
quotient; with `b = 0`, a NaN for `0 / 0` and else the infinity with the sign
of `a`. -/
def Float32.div (a b : ℚ) : Float32.Quotient :=
  if b = 0 then
    if a = 0 then Float32.Quotient.nan else Float32.Quotient.infinity (decide (a < 0))
  else Float32.Quotient.finite (Float32.round (a / b))

/-! ## Array operations -/

/-- Loop `for (int i = 0; i < n; ++i) body`: the body is run for
`i = 0, ..., n - 1` on the state, and a failing iteration ends the run. -/
def forLoop {σ : Type} (n : Nat) (body : Nat → σ → Option σ) (s : σ) : Option σ :=
  (List.range n).foldlM (fun st i => body i st) s

/-- Loop `for (int j = 0; j < xs.Num(); ++j) { const T& x = xs[j]; body }`
over the elements of an array: the element is read at the head of every
iteration. -/
def forEachIdx {α σ : Type} (xs : List α) (body : Nat → α → σ → Option σ) (s : σ) : Option σ :=
  forLoop xs.length (fun j st => do
    let x ← xs[j]?
    body j x st) s

/-- Write `xs[i] = v` of a `TArray`: fails when `i` is out of range. -/
def setAt {α : Type} (xs : List α) (i : Nat) (v : α) : Option (List α) :=
  if i < xs.length then some (xs.set i v) else none

/-- Update `xs[i].field = ...` of a `TArray` element in place: fails when `i`
is out of range. -/
def modifyAt {α : Type} (xs : List α) (i : Nat) (f : α → α) : Option (List α) :=
  match xs[i]? with
  | some x => some (xs.set i (f x))
  | none => none

/-! ## The ROSE data model (headers `Zmd.h`, `Zms.h`, `Zmo.h`, `Zsc.h`, `Chr.h`) -/

/-- Modelled from the spec: `Zmd.h` is missing. A bone of a skeleton: name,
parent (an index into the same bone sequence), translation and rotation. -/
structure Zmd.Bone where
  name : String
  parent : Nat
  translation : FVector
  rotation : FQuat
deriving DecidableEq, Repr

/-- Modelled from the spec: `Zmd.h` is missing. A skeleton is its ordered
sequence of bones. -/
structure Zmd where
  bones : List Zmd.Bone
deriving DecidableEq, Repr

/-- Modelled from the spec: `Zms.h` is missing. The bone-weight record of a
vertex: four slots of (bone index, weight), read as `boneIdx[k]` and
`weight[k]`. -/
structure Zms.BoneWeight where
  boneIdx0 : Nat
  boneIdx1 : Nat
  boneIdx2 : Nat
  boneIdx3 : Nat
  weight0 : ℚ
  weight1 : ℚ
  weight2 : ℚ
  weight3 : ℚ
deriving DecidableEq, Repr

/-- Modelled from the spec: `Zms.h` is missing. A mesh: parallel vertex
arrays (positions, optional normals, four optional UV channels, optional bone
weights) and a triangle index array. -/
structure Zms where
  vertexPositions : List FVector
  vertexNormals : List FVector
  vertexUvs0 : List FVector2D
  vertexUvs1 : List FVector2D
  vertexUvs2 : List FVector2D
  vertexUvs3 : List FVector2D
  boneWeights : List Zms.BoneWeight
  indexes : List Nat
deriving DecidableEq, Repr

/-- The member array `vertexUvs[4]` of a mesh: its four UV channels. -/
def Zms.vertexUvs (m : Zms) : List (List FVector2D) :=
  [m.vertexUvs0, m.vertexUvs1, m.vertexUvs2, m.vertexUvs3]

/-- Modelled from the spec: `Zmo.h` is missing. A channel of a motion: a type
tag, the index of the bone it drives and one value per frame. `Other` stands
for every tag that is none of Position, Rotation, Scale. -/
inductive Zmo.Channel where
  | Position (index : Nat) (frames : List FVector)
  | Rotation (index : Nat) (frames : List FQuat)
  | Scale (index : Nat) (frames : List FVector)
  | Other (index : Nat) (tag : Nat)
deriving DecidableEq, Repr

/-- The member `index` of a channel. -/
def Zmo.Channel.index : Zmo.Channel → Nat
  | .Position i _ => i
  | .Rotation i _ => i
  | .Scale i _ => i
  | .Other i _ => i

/-- Modelled from the spec: `Zmo.h` is missing. A motion: header and
channels. -/
structure Zmo where
  frameCount : Nat
  framesPerSecond : Nat
  channels : List Zmo.Channel
deriving DecidableEq, Repr

/-- Modelled from the spec: `Zsc.h` is missing. A texture record of a scene
catalog. -/
structure Zsc.Texture where
  filePath : String
  alphaEnabled : Bool
  alphaTestEnabled : Bool
  alphaReference : Nat
  twoSided : Bool
deriving DecidableEq, Repr

/-- Modelled from the spec: `Zsc.h` is missing. A part of a model. The
sentinel `0xFFFF` in `dummyIdx` and `boneIdx` means that the field is not
set. -/
structure Zsc.Part where
  meshIdx : Nat
  texIdx : Nat
  position : FVector
  rotation : FQuat
  scale : FVector
  collisionType : Nat
  dummyIdx : Nat
  boneIdx : Nat
  animPath : String
deriving DecidableEq, Repr

/-- Modelled from the spec: `Zsc.h` is missing. A model is its ordered
sequence of parts. -/
structure Zsc.Model where
  parts : List Zsc.Part
deriving DecidableEq, Repr

/-- Modelled from the spec: `Zsc.h` is missing. A scene catalog: texture
table, mesh path table and model table. -/
structure Zsc where
  textures : List Zsc.Texture
  meshes : List String
  models : List Zsc.Model
deriving DecidableEq, Repr

/-- Modelled from the spec: `Chr.h` is missing. An animation slot of a
character, as read by `ImportChar`. -/
structure Chr.Animation where
  type : Nat
  animationIdx : Nat
deriving DecidableEq, Repr

/-- Modelled from the spec: `Chr.h` is missing. A character, as read by
`ImportChar`: its skeleton, the models it is made of and its animations. -/
structure Chr.Character where
  skeletonIdx : Nat
  models : List Nat
  animations : List Chr.Animation
deriving DecidableEq, Repr

/-- Modelled from the spec: `Chr.h` is missing. The character list, as read
by `ImportChar`. -/
structure Chr where
  skeletons : List String
  animations : List String
  characters : List Chr.Character
deriving DecidableEq, Repr

/-- What the import routines take from their surroundings: the global
`RoseBasePath`, the files behind the `Zms`, `Zmo` and `Zmd` constructors, and
the engine conversion `FQuat::Rotator`, and the two constants
`Zsc::CollisionType::ModeMask` and `Zsc::CollisionType::NoCameraCollide` of
the missing header `Zsc.h`. -/
structure Host where
  RoseBasePath : String
  loadZms : String → Zms
  loadZmo : String → Zmo
  loadZmd : String → Zmd
  Rotator : FQuat → FRotator
  ModeMask : Nat
  NoCameraCollide : Nat

/-! ## `BuildAssetPath` (lines 129-158) -/

/-- Engine function `FString::ToUpper`: the letters `a`..`z` are raised, every
other character is kept. -/
def ToUpper (s : String) : String :=
  String.mk (s.data.map Char.toUpper)

/-- Engine function `FPaths::NormalizeFilename`: every backslash becomes a
slash. -/
def NormalizeFilename (s : String) : String :=
  String.mk (s.data.map (fun c => if c = '\\' then '/' else c))

/-- Pieces of a character list between slashes, the empty ones included. -/
def splitSlash : List Char → List (List Char)
  | [] => [[]]
  | c :: cs =>
    match splitSlash cs with
    | [] => [[]]
    | p :: ps => if c = '/' then [] :: p :: ps else (c :: p) :: ps

/-- Engine function `FString::ParseIntoArray(Out, TEXT("/"), true)`: the
pieces between slashes, the empty ones culled. -/
def ParseIntoArray (s : String) : List String :=
  ((splitSlash s.data).filter (fun p => !p.isEmpty)).map String.mk

/-- Engine function `TArray::Pop`: the last element and the array without it;
fails on an empty array. -/
def Pop {α : Type} (xs : List α) : Option (α × List α) :=
  match xs.getLast? with
  | some x => some (x, xs.dropLast)
  | none => none

/-- Engine function `FPaths::GetBaseFilename` on a name without directory
part: the name up to its last dot, or the whole name when it has no dot. -/
def GetBaseFilename (f : String) : String :=
  if '.' ∈ f.data then
    String.mk ((f.data.reverse.dropWhile (fun c => c ≠ '.')).drop 1).reverse
  else f

/-- Engine function `FString::Join(Parts, TEXT("/"))`. -/
def Join (parts : List String) : String :=
  "/".intercalate parts

/-- Outcome of `BuildAssetPath`: the two output strings and the number of
debug breaks met on the way. -/
structure AssetPath where
  PackageName : String
  AssetName : String
  breaks : Nat
deriving DecidableEq, Repr

/-- Source function `BuildAssetPath` (lines 129-158). -/
def BuildAssetPath (RosePath : String) (Postfix : String) : Option AssetPath := do
  let NormPath := NormalizeFilename (ToUpper RosePath)
  let PathParts := ParseIntoArray NormPath
  let (FileName, PathParts) ← Pop PathParts
  let AssetName := GetBaseFilename FileName
  let AssetName := if !Postfix.isEmpty then AssetName ++ Postfix else AssetName
  let b1 := if PathParts.length ≤ 0 then 1 else 0
  let p0 ← PathParts[0]?
  let b2 := if p0 ≠ "3DDATA" then 1 else 0
  let PathParts := PathParts.eraseIdx 0
  let q0 ← PathParts[0]?
  let PathParts :=
    if q0 = "JUNON" ∨ q0 = "LUNAR" ∨ q0 = "ORO" then "MAPS" :: PathParts else PathParts
  some { PackageName := "/" ++ Join PathParts, AssetName := AssetName, breaks := b1 + b2 }

/-! ## Assets made by the host -/

/-- The texture asset returned by the host call
`ImportTexture(PackageName, AssetName, SourcePath)`, known by the arguments
of the call. -/
structure UTexture where
  PackageName : String
  AssetName : String
  SourcePath : String
deriving DecidableEq, Repr

/-- The material asset returned by the host call
`ImportMaterial(PackageName, MaterialName, TexData, Texture)`, known by the
arguments of the call. -/
structure UMaterialInterface where
  PackageName : String
  MaterialName : String
  TexData : Zsc.Texture
  Texture : UTexture
deriving DecidableEq, Repr

/-- Host call `ImportTexture` (lines 191-236). -/
def ImportTexture (PackageName AssetName SourcePath : String) : UTexture :=
  { PackageName := PackageName, AssetName := AssetName, SourcePath := SourcePath }

/-- Host call `ImportMaterial` (lines 323-362). -/
def ImportMaterial (PackageName MaterialName : String) (TexData : Zsc.Texture)
    (Texture : UTexture) : UMaterialInterface :=
  { PackageName := PackageName, MaterialName := MaterialName, TexData := TexData,
    Texture := Texture }

/-! ## `ImportSkelData` and `ImportMeshData` (lines 364-390) -/

/-- Source struct `ImportSkelData`: the skeleton against which a mesh or an
animation is brought in. -/
structure ImportSkelData where
  data : Zmd
  SkelPackage : String
  SkelName : String
deriving DecidableEq, Repr

/-- Source struct `ImportMeshData::Item`. -/
structure ImportMeshData.Item where
  data : Zms
  matIdx : Nat
  vertOffset : Nat
  indexOffset : Nat
  faceOffset : Nat
deriving DecidableEq, Repr

/-- Constructor `Item(_data, _matIdx)`: the three offsets start at 0. -/
def ImportMeshData.Item.new (data : Zms) (matIdx : Nat) : ImportMeshData.Item :=
  { data := data, matIdx := matIdx, vertOffset := 0, indexOffset := 0, faceOffset := 0 }

/-- Source struct `ImportMeshData`. -/
structure ImportMeshData where
  meshes : List ImportMeshData.Item
  materials : List UMaterialInterface
deriving DecidableEq, Repr

/-- A freshly declared `ImportMeshData meshData;`. -/
def ImportMeshData.empty : ImportMeshData :=
  { meshes := [], materials := [] }

/-! ## `ImportAvatarItem` (lines 784-822) and `ImportChar` (lines 727-782) -/

/-- A part that marks no attachment point: `dummyIdx` and `boneIdx` both hold
the sentinel `0xFFFF`. -/
def Zsc.Part.isRenderable (p : Zsc.Part) : Bool :=
  p.dummyIdx = 0xFFFF ∧ p.boneIdx = 0xFFFF

/-- The renderable parts of a part list, each with its position in the list,
in file order. -/
def renderableParts (parts : List Zsc.Part) : List (Nat × Zsc.Part) :=
  parts.enum.filter (fun jp => jp.2.isRenderable)

/-- Sample host: every mesh file holds one triangle, every other file is
empty. -/
def sampleHost : Host :=
  { RoseBasePath := "C:/ROSE/",
    loadZms := fun _ =>
      { vertexPositions := [⟨0, 0, 0⟩, ⟨1, 0, 0⟩, ⟨0, 1, 0⟩], vertexNormals := [],
        vertexUvs0 := [⟨0, 0⟩, ⟨1, 0⟩, ⟨0, 1⟩], vertexUvs1 := [], vertexUvs2 := [],
        vertexUvs3 := [], boneWeights := [⟨0, 0, 0, 0, 1, 0, 0, 0⟩, ⟨0, 0, 0, 0, 1, 0, 0, 0⟩,
          ⟨0, 0, 0, 0, 1, 0, 0, 0⟩], indexes := [0, 1, 2] },
    loadZmo := fun _ => { frameCount := 0, framesPerSecond := 30, channels := [] },
    loadZmd := fun _ => { bones := [] },
    Rotator := fun q => ⟨q.X, q.Y, q.Z⟩,
    ModeMask := 3,
    NoCameraCollide := 8 }

/-- Sample part of a catalog with the given `dummyIdx` and `boneIdx`. -/
def samplePart (dummyIdx boneIdx : Nat) : Zsc.Part :=
  { meshIdx := 0, texIdx := 0, position := ⟨0, 0, 0⟩, rotation := ⟨0, 0, 0, 1⟩,
    scale := ⟨1, 1, 1⟩, collisionType := 0, dummyIdx := dummyIdx, boneIdx := boneIdx,
    animPath := "" }

/-- Sample catalog: one texture, one mesh, and one model of three parts, the
second of which is bound to dummy point 3. -/
def sampleCatalog : Zsc :=
  { textures := [⟨"3DDATA/AVATAR/BODY.DDS", false, false, 0, false⟩],
    meshes := ["3DDATA/AVATAR/BODY.ZMS"],
    models := [⟨[samplePart 0xFFFF 0xFFFF, samplePart 3 0xFFFF, samplePart 0xFFFF 0xFFFF]⟩] }

/-- Sample character list: one character made of the sample model. -/
def sampleChars : Chr :=
  { skeletons := ["3DDATA/AVATAR/BODY.ZMD"], animations := [],
    characters := [⟨0, [0], []⟩] }

/-- State of the part loop of `ImportAvatarItem`. -/
structure AvatarState where
  meshData : ImportMeshData
  breaks : Nat
deriving DecidableEq, Repr

/-- Body of the part loop of `ImportAvatarItem` (lines 793-813). -/
def ImportAvatarItem.body (host : Host) (meshs : Zsc) (modelIdx : Nat)
    (j : Nat) (part : Zsc.Part) (st : AvatarState) : Option AvatarState := do
  let tex ← meshs.textures[part.texIdx]?
  if part.dummyIdx ≠ 0xFFFF ∨ part.boneIdx ≠ 0xFFFF then
    some st
  else do
    let ZmsPath ← meshs.meshes[part.meshIdx]?
    let texPath ← BuildAssetPath tex.filePath "_Texture"
    let UnrealTexture :=
      ImportTexture texPath.PackageName texPath.AssetName (host.RoseBasePath ++ tex.filePath)
    let matPath ← BuildAssetPath ZmsPath ""
    let MaterialName := "Model_" ++ toString modelIdx ++ "_" ++ toString j ++ "_Material"
    let UnrealMaterial := ImportMaterial matPath.PackageName MaterialName tex UnrealTexture
    let materials := st.meshData.materials ++ [UnrealMaterial]
    let meshZms := host.loadZms (host.RoseBasePath ++ ZmsPath)
    let meshes := st.meshData.meshes ++ [ImportMeshData.Item.new meshZms j]
    some { meshData := { meshes := meshes, materials := materials },
           breaks := st.breaks + texPath.breaks + matPath.breaks }

/-- Outcome of `ImportAvatarItem` up to its call of `ImportSkeletalMesh`: the
catalog as it is after the part loop, the package and name of the skeletal
mesh, the mesh data handed to `ImportSkeletalMesh`, and the debug breaks. -/
structure AvatarImport where
  meshs : Zsc
  ModelPackage : String
  ModelName : String
  meshData : ImportMeshData
  breaks : Nat
deriving DecidableEq, Repr

/-- Source function `ImportAvatarItem`, lines 784-818: the model lookup, the
part loop and the arguments of the call `ImportSkeletalMesh(ModelPackage,
ModelName, meshData, skelData)` of line 819. -/
def ImportAvatarItem (host : Host) (ItemTypeName : String) (meshs : Zsc) (modelIdx : Nat) :
    Option AvatarImport := do
  let model ← meshs.models[modelIdx]?
  let b0 := if model.parts.length = 0 then 1 else 0
  let st ← forEachIdx model.parts (ImportAvatarItem.body host meshs modelIdx)
    { meshData := ImportMeshData.empty, breaks := b0 }
  some { meshs := meshs, ModelPackage := "/AVATAR",
         ModelName := ItemTypeName ++ "_" ++ toString modelIdx,
         meshData := st.meshData, breaks := st.breaks }

/-- State of the loops of `ImportChar`: the mesh data and the counter
`texIdx`. -/
structure CharState where
  meshData : ImportMeshData
  texIdx : Nat
deriving DecidableEq, Repr

/-- Body of the inner loop of `ImportChar` (lines 746-764). -/
def ImportChar.partBody (host : Host) (meshs : Zsc) (CharName PackageName : String)
    (_j : Nat) (part : Zsc.Part) (st : CharState) : Option CharState := do
  let tex ← meshs.textures[part.texIdx]?
  if part.dummyIdx ≠ 0xFFFF ∨ part.boneIdx ≠ 0xFFFF then
    some st
  else do
    let TextureName := CharName ++ "_" ++ toString st.texIdx ++ "_Texture"
    let UnrealTexture := ImportTexture PackageName TextureName (host.RoseBasePath ++ tex.filePath)
    let MaterialName := CharName ++ "_" ++ toString st.texIdx ++ "_Material"
    let UnrealMaterial := ImportMaterial PackageName MaterialName tex UnrealTexture
    let materials := st.meshData.materials ++ [UnrealMaterial]
    let meshPath ← meshs.meshes[part.meshIdx]?
    let meshZms := host.loadZms (host.RoseBasePath ++ meshPath)
    let meshes := st.meshData.meshes ++ [ImportMeshData.Item.new meshZms st.texIdx]
    some { meshData := { meshes := meshes, materials := materials }, texIdx := st.texIdx + 1 }

/-- Body of the outer loop of `ImportChar` (lines 743-765). -/
def ImportChar.modelBody (host : Host) (meshs : Zsc) (CharName PackageName : String)
    (_i : Nat) (mi : Nat) (st : CharState) : Option CharState := do
  let model ← meshs.models[mi]?
  forEachIdx model.parts (ImportChar.partBody host meshs CharName PackageName) st

/-- Outcome of `ImportChar` up to its call of `ImportSkeletalMesh`: the
catalog as it is after the loops, the skeleton, the package and name of the
skeletal mesh, the mesh data handed to `ImportSkeletalMesh`, and the debug
breaks. -/
structure CharImport where
  meshs : Zsc
  skelData : ImportSkelData
  PackageName : String
  CharName : String
  meshData : ImportMeshData
  breaks : Nat
deriving DecidableEq, Repr

/-- Source function `ImportChar`, lines 727-766: the character and skeleton
lookups, the unconditional debug break of line 737, the loops over the
models and their parts, and the arguments of the call
`ImportSkeletalMesh(PackageName, CharName, meshData, skelData)` of line 768. -/
def ImportChar (host : Host) (chars : Chr) (meshs : Zsc) (charIdx : Nat) : Option CharImport := do
  let CharName := "Char_" ++ toString charIdx
  let PackageName := "/" ++ CharName
  let mchar ← chars.characters[charIdx]?
  let skelPath ← chars.skeletons[mchar.skeletonIdx]?
  let meshZmd := host.loadZmd (host.RoseBasePath ++ skelPath)
  let skelData : ImportSkelData := { data := meshZmd, SkelPackage := "", SkelName := "" }
  let st ← forEachIdx mchar.models
    (ImportChar.modelBody host meshs CharName PackageName)
    { meshData := ImportMeshData.empty, texIdx := 0 }
  some { meshs := meshs, skelData := skelData, PackageName := PackageName,
         CharName := CharName, meshData := st.meshData, breaks := 1 }

/-! ## `ImportWorldZscModel` (lines 859-1184) -/

/-- Engine type `FRawMesh`, the members written by `ImportWorldZscModel`.
`WedgeTexCoords` is the member array of `MAX_MESH_TEXTURE_COORDS = 8` wedge UV
arrays. -/
structure FRawMesh where
  VertexPositions : List FVector
  WedgeIndices : List Nat
  WedgeTexCoords : List (List FVector2D)
  FaceMaterialIndices : List Nat
  FaceSmoothingMasks : List Nat
deriving DecidableEq, Repr

/-- A freshly declared `FRawMesh RawMesh;`: every array is empty. -/
def FRawMesh.empty : FRawMesh :=
  { VertexPositions := [], WedgeIndices := [], WedgeTexCoords := List.replicate 8 [],
    FaceMaterialIndices := [], FaceSmoothingMasks := [] }

/-- Body of the position loop (line 933). -/
def ImportWorldZscModel.positionBody (i : Nat) (pos : FVector) (RawMesh : FRawMesh) :
    Option FRawMesh := do
  let VertexPositions ← setAt RawMesh.VertexPositions i pos
  some { RawMesh with VertexPositions := VertexPositions }

/-- Body of the wedge index loop (line 941). -/
def ImportWorldZscModel.indexBody (i : Nat) (index : Nat) (RawMesh : FRawMesh) :
    Option FRawMesh := do
  let WedgeIndices ← setAt RawMesh.WedgeIndices i index
  some { RawMesh with WedgeIndices := WedgeIndices }

/-- Body of the wedge loop of UV channel `k` (line 949), `uvs` being
`meshZms.vertexUvs[k]`. -/
def ImportWorldZscModel.wedgeUvBody (uvs : List FVector2D) (k : Nat) (i : Nat) (index : Nat)
    (RawMesh : FRawMesh) : Option FRawMesh := do
  let uv ← uvs[index]?
  let wk ← RawMesh.WedgeTexCoords[k]?
  let wk ← setAt wk i uv
  let WedgeTexCoords ← setAt RawMesh.WedgeTexCoords k wk
  some { RawMesh with WedgeTexCoords := WedgeTexCoords }

/-- Body of the loop over the UV channels `k` (lines 946-951). -/
def ImportWorldZscModel.uvBody (meshZms : Zms) (k : Nat) (RawMesh : FRawMesh) :
    Option FRawMesh := do
  let uvs ← meshZms.vertexUvs[k]?
  if uvs.length > 0 then do
    let WedgeTexCoords ← modifyAt RawMesh.WedgeTexCoords k
      (fun w => w ++ List.replicate meshZms.indexes.length ⟨0, 0⟩)
    forEachIdx meshZms.indexes (ImportWorldZscModel.wedgeUvBody uvs k)
      { RawMesh with WedgeTexCoords := WedgeTexCoords }
  else
    some RawMesh

/-- Body of the face loop (lines 958-959). -/
def ImportWorldZscModel.faceBody (i : Nat) (RawMesh : FRawMesh) : Option FRawMesh := do
  let FaceMaterialIndices ← setAt RawMesh.FaceMaterialIndices i 0
  let FaceSmoothingMasks ← setAt RawMesh.FaceSmoothingMasks i 1
  some { RawMesh with FaceMaterialIndices := FaceMaterialIndices,
                      FaceSmoothingMasks := FaceSmoothingMasks }

/-- The block of `ImportWorldZscModel` that fills `RawMesh` from the mesh
file (lines 931-960): positions, wedge indices, wedge UVs and faces. -/
def ImportWorldZscModel.rawMesh (meshZms : Zms) : Option FRawMesh := do
  let RawMesh := FRawMesh.empty
  let RawMesh := { RawMesh with VertexPositions :=
    RawMesh.VertexPositions ++ List.replicate meshZms.vertexPositions.length ⟨0, 0, 0⟩ }
  let RawMesh ← forEachIdx meshZms.vertexPositions ImportWorldZscModel.positionBody RawMesh
  let RawMesh := { RawMesh with WedgeIndices :=
    RawMesh.WedgeIndices ++ List.replicate meshZms.indexes.length 0 }
  let RawMesh ← forEachIdx meshZms.indexes ImportWorldZscModel.indexBody RawMesh
  let RawMesh ← forLoop 4 (ImportWorldZscModel.uvBody meshZms) RawMesh
  let faceCount := meshZms.indexes.length / 3
  let RawMesh := { RawMesh with
    FaceMaterialIndices := RawMesh.FaceMaterialIndices ++ List.replicate faceCount 0,
    FaceSmoothingMasks := RawMesh.FaceSmoothingMasks ++ List.replicate faceCount 0 }
  forLoop faceCount ImportWorldZscModel.faceBody RawMesh

/-- A key handed to `FRichCurve::AddKey(Time, Value)`. -/
structure FKey where
  Time : Float32.Quotient
  Value : ℚ
deriving DecidableEq, Repr

/-- Engine type `UCurveVector`: its three float curves, each known by the
keys handed to `AddKey`, in the order of the calls. -/
structure UCurveVector where
  FloatCurves0 : List FKey
  FloatCurves1 : List FKey
  FloatCurves2 : List FKey
deriving DecidableEq, Repr

/-- A curve object fresh from `CreateCurveObject`: no key yet. -/
def UCurveVector.empty : UCurveVector :=
  { FloatCurves0 := [], FloatCurves1 := [], FloatCurves2 := [] }

/-- State of the channel loop of the timeline import (lines 1055-1121). -/
structure TimelineState where
  RCurve : UCurveVector
  PCurve : UCurveVector
  SCurve : UCurveVector
  UsesRotation : Bool
  UsesPosition : Bool
  UsesScale : Bool
  breaks : Nat
deriving DecidableEq, Repr

/-- Frame loop of a Position or Scale channel (lines 1071-1082 and
1105-1116): a key is added to a component's curve at frame `k` when `k == 0`
or the component differs from its value at frame `k - 1`. -/
def ImportWorldZscModel.vectorKeys (framesPerSecond : Nat) (frames : List FVector)
    (Curve : UCurveVector) : Option UCurveVector :=
  forEachIdx frames (fun k frame (Curve : UCurveVector) => do
    let t := Float32.div (Float32.ofInt k) (Float32.ofInt framesPerSecond)
    let addX ← if k = 0 then some true else (frames[k - 1]?).map (fun prev => decide (frame.X ≠ prev.X))
    let Curve := if addX then { Curve with FloatCurves0 := Curve.FloatCurves0 ++ [⟨t, frame.X⟩] }
      else Curve
    let addY ← if k = 0 then some true else (frames[k - 1]?).map (fun prev => decide (frame.Y ≠ prev.Y))
    let Curve := if addY then { Curve with FloatCurves1 := Curve.FloatCurves1 ++ [⟨t, frame.Y⟩] }
      else Curve
    let addZ ← if k = 0 then some true else (frames[k - 1]?).map (fun prev => decide (frame.Z ≠ prev.Z))
    let Curve := if addZ then { Curve with FloatCurves2 := Curve.FloatCurves2 ++ [⟨t, frame.Z⟩] }
      else Curve
    some Curve) Curve

/-- Frame loop of a Rotation channel (lines 1088-1100): a key is added to all
three curves at every frame. -/
def ImportWorldZscModel.rotationKeys (host : Host) (framesPerSecond : Nat) (frames : List FQuat)
    (Curve : UCurveVector) : Option UCurveVector :=
  forEachIdx frames (fun k q (Curve : UCurveVector) =>
    let t := Float32.div (Float32.ofInt k) (Float32.ofInt framesPerSecond)
    let frame := host.Rotator q
    some { FloatCurves0 := Curve.FloatCurves0 ++ [⟨t, frame.Pitch⟩],
           FloatCurves1 := Curve.FloatCurves1 ++ [⟨t, frame.Yaw⟩],
           FloatCurves2 := Curve.FloatCurves2 ++ [⟨t, frame.Roll⟩] }) Curve

/-- Body of the channel loop of the timeline import (lines 1063-1120). -/
def ImportWorldZscModel.channelBody (host : Host) (anim : Zmo) (_i : Nat)
    (channel : Zmo.Channel) (st : TimelineState) : Option TimelineState := do
  let st := if channel.index ≠ 0 then { st with breaks := st.breaks + 1 } else st
  match channel with
  | .Position _ frames =>
    let PCurve ← ImportWorldZscModel.vectorKeys anim.framesPerSecond frames st.PCurve
    some { st with UsesPosition := true, PCurve := PCurve }
  | .Rotation _ frames =>
    let RCurve ← ImportWorldZscModel.rotationKeys host anim.framesPerSecond frames st.RCurve
    some { st with UsesRotation := true, RCurve := RCurve }
  | .Scale _ frames =>
    let SCurve ← ImportWorldZscModel.vectorKeys anim.framesPerSecond frames st.SCurve
    some { st with UsesScale := true, SCurve := SCurve }
  | .Other _ _ =>
    some { st with breaks := st.breaks + 1 }

/-- The timeline made for an animated part (lines 1045-1140): its length, the
curves after the channel loop, and the vector tracks added to the template,
by name, in the order they are added. -/
structure Timeline where
  TimelineName : String
  TimelineLength : Float32.Quotient
  curves : TimelineState
  VectorTracks : List String
deriving DecidableEq, Repr

/-- The timeline import of an animated part `j` (lines 1033-1140). -/
def ImportWorldZscModel.timeline (host : Host) (j : Nat) (anim : Zmo) : Option Timeline := do
  let st ← forEachIdx anim.channels (ImportWorldZscModel.channelBody host anim)
    { RCurve := UCurveVector.empty, PCurve := UCurveVector.empty, SCurve := UCurveVector.empty,
      UsesRotation := false, UsesPosition := false, UsesScale := false, breaks := 0 }
  let tracks := (if st.UsesRotation then ["Rotation"] else [])
    ++ (if st.UsesPosition then ["Position"] else [])
    ++ (if st.UsesScale then ["Scale"] else [])
  some { TimelineName := "Part_" ++ toString j ++ "_Anim",
         TimelineLength :=
           Float32.div (Float32.ofInt anim.frameCount) (Float32.ofInt anim.framesPerSecond),
         curves := st, VectorTracks := tracks }

/-- Engine type `UStaticMesh`, the members set by `ImportWorldZscModel`. -/
structure UStaticMesh where
  PackageName : String
  Name : String
  LightMapResolution : Nat
  LightMapCoordinateIndex : Nat
  StaticMaterials : List UMaterialInterface
  RawMesh : FRawMesh
deriving DecidableEq, Repr

/-- Engine enum `EComponentMobility`, the two values used. -/
inductive EComponentMobility where
  | Static
  | Movable
deriving DecidableEq, Repr

/-- The collision responses a mesh component can be given (lines 1022-1030):
block all channels, block all but the camera channel, or ignore all. -/
inductive CollisionResponse where
  | BlockAll
  | BlockAllIgnoreCamera
  | IgnoreAll
deriving DecidableEq, Repr

/-- The static mesh component made for part `j` and its node in the
blueprint's construction script. -/
structure MeshComponent where
  partIdx : Nat
  StaticMesh : UStaticMesh
  isRootNode : Bool
  RelativeLocation : FVector
  RelativeRotation : FRotator
  RelativeScale3D : FVector
  Mobility : EComponentMobility
  Collision : CollisionResponse
  timeline : Option Timeline
deriving DecidableEq, Repr

/-- The blueprint made by `ImportWorldZscModel`: its package and name, and
the mesh components in the order they are made. -/
structure UBlueprint where
  PackageName : String
  AssetName : String
  components : List MeshComponent
  breaks : Nat
deriving DecidableEq, Repr

/-- Body of the part loop of `ImportWorldZscModel` (lines 878-1180). The host
calls that make packages and objects are taken to succeed. -/
def ImportWorldZscModel.body (host : Host) (meshs : Zsc) (modelIdx : Nat)
    (j : Nat) (part : Zsc.Part) (bp : UBlueprint) : Option UBlueprint := do
  let tex ← meshs.textures[part.texIdx]?
  let mesh ← meshs.meshes[part.meshIdx]?
  let modelPath ← BuildAssetPath mesh ""
  let texPath ← BuildAssetPath tex.filePath "_Texture"
  let UnrealTexture :=
    ImportTexture texPath.PackageName texPath.AssetName (host.RoseBasePath ++ tex.filePath)
  let meshPath2 ← meshs.meshes[part.meshIdx]?
  let matPath ← BuildAssetPath meshPath2 ""
  let MaterialName := "Model_" ++ toString modelIdx ++ "_" ++ toString j ++ "_Material"
  let UnrealMaterial := ImportMaterial matPath.PackageName MaterialName tex UnrealTexture
  let meshZms := host.loadZms (host.RoseBasePath ++ mesh)
  let RawMesh ← ImportWorldZscModel.rawMesh meshZms
  let StaticMesh : UStaticMesh :=
    { PackageName := modelPath.PackageName, Name := modelPath.AssetName,
      LightMapResolution := 128, LightMapCoordinateIndex := 1,
      StaticMaterials := [UnrealMaterial], RawMesh := RawMesh }
  let Mobility := if part.animPath.isEmpty then EComponentMobility.Static
    else EComponentMobility.Movable
  let Collision :=
    if part.collisionType &&& host.ModeMask ≠ 0 then
      (if part.collisionType &&& host.NoCameraCollide ≠ 0 then
        CollisionResponse.BlockAllIgnoreCamera else CollisionResponse.BlockAll)
    else CollisionResponse.IgnoreAll
  let timeline ←
    if !part.animPath.isEmpty then
      (ImportWorldZscModel.timeline host j
        (host.loadZmo (host.RoseBasePath ++ part.animPath))).map some
    else some none
  let MeshComp : MeshComponent :=
    { partIdx := j, StaticMesh := StaticMesh, isRootNode := bp.components.isEmpty,
      RelativeLocation := part.position, RelativeRotation := host.Rotator part.rotation,
      RelativeScale3D := part.scale, Mobility := Mobility, Collision := Collision,
      timeline := timeline }
  let tlBreaks := match timeline with
    | some tl => tl.curves.breaks
    | none => 0
  some { bp with components := bp.components ++ [MeshComp],
                 breaks := bp.breaks + modelPath.breaks + texPath.breaks + matPath.breaks
                   + tlBreaks }

/-- Source function `ImportWorldZscModel` (lines 859-1184). -/
def ImportWorldZscModel (host : Host) (MdlTypeName : String) (meshs : Zsc) (modelIdx : Nat) :
    Option UBlueprint := do
  let model ← meshs.models[modelIdx]?
  forEachIdx model.parts (ImportWorldZscModel.body host meshs modelIdx)
    { PackageName := "/MAPS", AssetName := MdlTypeName ++ "_" ++ toString modelIdx,
      components := [], breaks := 0 }

/-! ## `ApplySkeletonToMesh` (lines 392-432) -/

/-- Engine type `FMeshBoneInfo`: name, export name and parent index of a
reference bone. -/
structure FMeshBoneInfo where
  Name : String
  ExportName : String
  ParentIndex : Int
deriving DecidableEq, Repr

/-- Engine type `FTransform`, as built by `FTransform(Rotation, Translation)`. -/
structure FTransform where
  Rotation : FQuat
  Translation : FVector
deriving DecidableEq, Repr

/-- Engine type `FReferenceSkeleton`: the bones handed to
`FReferenceSkeletonModifier::Add`, in the order of the calls, each with its
pose. -/
structure FReferenceSkeleton where
  RefBoneInfo : List FMeshBoneInfo
  RefBonePose : List FTransform
deriving DecidableEq, Repr

/-- The reference skeleton of a freshly made skeletal mesh: no bone. -/
def FReferenceSkeleton.empty : FReferenceSkeleton :=
  { RefBoneInfo := [], RefBonePose := [] }

/-- Engine function `FReferenceSkeletonModifier::Add`. -/
def FReferenceSkeleton.Add (rs : FReferenceSkeleton) (BoneInfo : FMeshBoneInfo)
    (BoneTransform : FTransform) : FReferenceSkeleton :=
  { RefBoneInfo := rs.RefBoneInfo ++ [BoneInfo], RefBonePose := rs.RefBonePose ++ [BoneTransform] }

/-- Body of the bone loop of `ApplySkeletonToMesh` (lines 397-402). -/
def ApplySkeletonToMesh.body (i : Nat) (bone : Zmd.Bone) (RefSkeleton : FReferenceSkeleton) :
    Option FReferenceSkeleton :=
  let ueParent : Int := if i > 0 then (bone.parent : Int) else INDEX_NONE
  let BoneInfo : FMeshBoneInfo := { Name := bone.name, ExportName := bone.name, ParentIndex := ueParent }
  let BoneTransform : FTransform := { Rotation := bone.rotation, Translation := bone.translation }
  some (RefSkeleton.Add BoneInfo BoneTransform)

/-- Source function `ApplySkeletonToMesh`, lines 392-403: the reference
skeleton of the mesh after the bone loop. -/
def ApplySkeletonToMesh (RefSkeleton : FReferenceSkeleton) (skelData : ImportSkelData) :
    Option FReferenceSkeleton :=
  forEachIdx skelData.data.bones ApplySkeletonToMesh.body RefSkeleton

/-! ## `ImportSkeletalAnim` (lines 627-710) -/

/-- Engine type `FRawAnimSequenceTrack`. -/
structure FRawAnimSequenceTrack where
  PosKeys : List FVector
  RotKeys : List FQuat
  ScaleKeys : List FVector
deriving DecidableEq, Repr

/-- State of the channel loop of `ImportSkeletalAnim`: the tracks and the
number of times the break of line 688 was met. -/
structure AnimState where
  tracks : List FRawAnimSequenceTrack
  breaks : Nat
deriving DecidableEq, Repr

/-- Body of the first loop of `ImportSkeletalAnim` (lines 654-660): the track
of a bone starts with its bind pose. -/
def ImportSkeletalAnim.trackBody (_i : Nat) (bone : Zmd.Bone)
    (tracks : List FRawAnimSequenceTrack) : Option (List FRawAnimSequenceTrack) :=
  let track : FRawAnimSequenceTrack :=
    { PosKeys := [] ++ [bone.translation], RotKeys := [] ++ [bone.rotation],
      ScaleKeys := [] ++ [⟨1, 1, 1⟩] }
  some (tracks ++ [track])

/-- Body of the channel loop of `ImportSkeletalAnim` (lines 664-689). -/
def ImportSkeletalAnim.channelBody (_i : Nat) (channel : Zmo.Channel) (st : AnimState) :
    Option AnimState := do
  let _ ← st.tracks[channel.index]?
  match channel with
  | .Position _ frames =>
    let tracks ← modifyAt st.tracks channel.index (fun track => { track with PosKeys := [] })
    let tracks ← forEachIdx frames (fun _j frame tracks =>
      modifyAt tracks channel.index
        (fun track => { track with PosKeys := track.PosKeys ++ [frame] })) tracks
    some { st with tracks := tracks }
  | .Rotation _ frames =>
    let tracks ← modifyAt st.tracks channel.index (fun track => { track with RotKeys := [] })
    let tracks ← forEachIdx frames (fun _j frame tracks =>
      modifyAt tracks channel.index
        (fun track => { track with RotKeys := track.RotKeys ++ [frame] })) tracks
    some { st with tracks := tracks }
  | .Scale _ frames =>
    let tracks ← modifyAt st.tracks channel.index (fun track => { track with ScaleKeys := [] })
    let tracks ← forEachIdx frames (fun _j frame tracks =>
      modifyAt tracks channel.index
        (fun track => { track with ScaleKeys := track.ScaleKeys ++ [frame] })) tracks
    some { st with tracks := tracks }
  | .Other _ _ =>
    some { st with breaks := st.breaks + 1 }

/-- The animation sequence made by `ImportSkeletalAnim`: its length, the
number handed to `SetRawNumberOfFrame`, the raw tracks handed to
`AddNewRawTrack` with the names they are registered under, and the number of
times the break of line 688 was met. -/
structure UAnimSequence where
  SequenceLength : Float32.Quotient
  NumFrames : Nat
  RawTracks : List (String × FRawAnimSequenceTrack)
  breaks : Nat
deriving DecidableEq, Repr

/-- Source function `ImportSkeletalAnim` (lines 627-710). The host calls that
make the package and the sequence object are taken to succeed. -/
def ImportSkeletalAnim (skelData : ImportSkelData) (anim : Zmo) : Option UAnimSequence := do
  let tracks ← forEachIdx skelData.data.bones ImportSkeletalAnim.trackBody []
  let st ← forEachIdx anim.channels ImportSkeletalAnim.channelBody
    { tracks := tracks, breaks := 0 }
  let RawTracks ← forEachIdx st.tracks (fun i track (raw : List (String × FRawAnimSequenceTrack)) => do
    let bone ← skelData.data.bones[i]?
    some (raw ++ [(bone.name, track)])) []
  some { SequenceLength :=
           Float32.div (Float32.ofInt anim.frameCount) (Float32.ofInt anim.framesPerSecond),
         NumFrames := anim.frameCount, RawTracks := RawTracks, breaks := st.breaks }

/-! ## `ImportSkeletalMesh` (lines 434-625) -/

/-- The member array `boneIdx[4]` of a bone-weight record. -/
def Zms.BoneWeight.boneIdx (w : Zms.BoneWeight) : List Nat :=
  [w.boneIdx0, w.boneIdx1, w.boneIdx2, w.boneIdx3]

/-- The member array `weight[4]` of a bone-weight record. -/
def Zms.BoneWeight.weight (w : Zms.BoneWeight) : List ℚ :=
  [w.weight0, w.weight1, w.weight2, w.weight3]

/-- Engine type `FMeshWedge`: the vertex of a wedge and its first UV. -/
structure FMeshWedge where
  iVertex : Nat
  UVs0 : FVector2D
deriving DecidableEq, Repr

/-- Engine type `FMeshFace`: the three wedges, the three normals and the
material index of a face. -/
structure FMeshFace where
  iWedge0 : Nat
  iWedge1 : Nat
  iWedge2 : Nat
  TangentZ0 : FVector
  TangentZ1 : FVector
  TangentZ2 : FVector
  MeshMaterialIndex : Nat
deriving DecidableEq, Repr

/-- Engine type `FVertInfluence`. -/
structure FVertInfluence where
  Weight : ℚ
  VertIndex : Nat
  BoneIndex : Nat
deriving DecidableEq, Repr

/-- State of the offset loop of `ImportSkeletalMesh` (lines 491-501). -/
structure OffsetState where
  meshList : List ImportMeshData.Item
  totalVertCount : Nat
  totalIndexCount : Nat
  totalFaceCount : Nat
deriving DecidableEq, Repr

/-- Body of the offset loop of `ImportSkeletalMesh` (lines 495-500). -/
def ImportSkeletalMesh.offsetBody (i : Nat) (st : OffsetState) : Option OffsetState := do
  let meshList ← modifyAt st.meshList i (fun it => { it with vertOffset := st.totalVertCount })
  let meshList ← modifyAt meshList i (fun it => { it with indexOffset := st.totalIndexCount })
  let meshList ← modifyAt meshList i (fun it => { it with faceOffset := st.totalFaceCount })
  let it ← meshList[i]?
  some { meshList := meshList,
         totalVertCount := st.totalVertCount + it.data.vertexPositions.length,
         totalIndexCount := st.totalIndexCount + it.data.indexes.length,
         totalFaceCount := st.totalFaceCount + it.data.indexes.length / 3 }

/-- The offset loop of `ImportSkeletalMesh` (lines 491-501). -/
def ImportSkeletalMesh.offsets (meshList : List ImportMeshData.Item) : Option OffsetState :=
  forLoop meshList.length ImportSkeletalMesh.offsetBody
    { meshList := meshList, totalVertCount := 0, totalIndexCount := 0, totalFaceCount := 0 }

/-- State of the copy loops of `ImportSkeletalMesh` (lines 503-566): the
five arrays of the LOD, the flag `hasNormals`, and how often each of the
three debug breaks (lines 529, 558 and 561) was met. -/
structure SkelMeshState where
  LODPoints : List FVector
  LODWedges : List FMeshWedge
  LODFaces : List FMeshFace
  LODInfluences : List FVertInfluence
  LODPointToRawMap : List Nat
  hasNormals : Bool
  wedgeBreaks : Nat
  vertBreaks : Nat
  boneBreaks : Nat
deriving DecidableEq, Repr

/-- Body of the point loop (lines 518-520). -/
def ImportSkeletalMesh.pointBody (item : ImportMeshData.Item) (j : Nat) (pos : FVector)
    (st : SkelMeshState) : Option SkelMeshState := do
  let vertIdx := item.vertOffset + j
  let LODPoints ← setAt st.LODPoints vertIdx pos
  let LODPointToRawMap ← setAt st.LODPointToRawMap vertIdx vertIdx
  some { st with LODPoints := LODPoints, LODPointToRawMap := LODPointToRawMap }

/-- Body of the wedge loop (lines 524-530). -/
def ImportSkeletalMesh.wedgeBody (totalVertCount : Nat) (item : ImportMeshData.Item) (j : Nat)
    (index : Nat) (st : SkelMeshState) : Option SkelMeshState := do
  let wedgeIdx := item.indexOffset + j
  let LODWedges ← modifyAt st.LODWedges wedgeIdx
    (fun w => { w with iVertex := item.vertOffset + index })
  let uvs ← item.data.vertexUvs[0]?
  let uv ← uvs[index]?
  let LODWedges ← modifyAt LODWedges wedgeIdx (fun w => { w with UVs0 := uv })
  let w ← LODWedges[wedgeIdx]?
  let wedgeBreaks := if w.iVertex ≥ totalVertCount then st.wedgeBreaks + 1 else st.wedgeBreaks
  some { st with LODWedges := LODWedges, wedgeBreaks := wedgeBreaks }

/-- Body of the face loop (lines 535-544). -/
def ImportSkeletalMesh.faceBody (item : ImportMeshData.Item) (j : Nat)
    (st : SkelMeshState) : Option SkelMeshState := do
  let faceIdx := item.faceOffset + j
  let LODFaces ← modifyAt st.LODFaces faceIdx
    (fun f => { f with iWedge0 := item.indexOffset + (j * 3 + 0) })
  let LODFaces ← modifyAt LODFaces faceIdx
    (fun f => { f with iWedge1 := item.indexOffset + (j * 3 + 1) })
  let LODFaces ← modifyAt LODFaces faceIdx
    (fun f => { f with iWedge2 := item.indexOffset + (j * 3 + 2) })
  let LODFaces ←
    if st.hasNormals then do
      let i0 ← item.data.indexes[j * 3 + 0]?
      let n0 ← item.data.vertexNormals[i0]?
      let LODFaces ← modifyAt LODFaces faceIdx (fun f => { f with TangentZ0 := n0 })
      let i1 ← item.data.indexes[j * 3 + 1]?
      let n1 ← item.data.vertexNormals[i1]?
      let LODFaces ← modifyAt LODFaces faceIdx (fun f => { f with TangentZ1 := n1 })
      let i2 ← item.data.indexes[j * 3 + 2]?
      let n2 ← item.data.vertexNormals[i2]?
      modifyAt LODFaces faceIdx (fun f => { f with TangentZ2 := n2 })
    else some LODFaces
  let LODFaces ← modifyAt LODFaces faceIdx (fun f => { f with MeshMaterialIndex := item.matIdx })
  some { st with LODFaces := LODFaces }

/-- Body of the loop over the four weight slots of vertex `j` (lines
550-563). -/
def ImportSkeletalMesh.slotBody (totalVertCount : Nat) (skelData : ImportSkelData)
    (item : ImportMeshData.Item) (j : Nat) (k : Nat) (st : SkelMeshState) :
    Option SkelMeshState := do
  let bw ← item.data.boneWeights[j]?
  let BoneIndex ← bw.boneIdx[k]?
  let bw ← item.data.boneWeights[j]?
  let Weight ← bw.weight[k]?
  let vi : FVertInfluence :=
    { Weight := Weight, VertIndex := item.vertOffset + j, BoneIndex := BoneIndex }
  if vi.Weight < Float32.oneTenThousandth then
    some st
  else
    let vertBreaks := if vi.VertIndex ≥ totalVertCount then st.vertBreaks + 1 else st.vertBreaks
    let boneBreaks :=
      if vi.BoneIndex ≥ skelData.data.bones.length then st.boneBreaks + 1 else st.boneBreaks
    some { st with LODInfluences := st.LODInfluences ++ [vi], vertBreaks := vertBreaks,
                   boneBreaks := boneBreaks }

/-- Body of the mesh loop (lines 511-565). -/
def ImportSkeletalMesh.meshBody (totalVertCount : Nat) (skelData : ImportSkelData) (_i : Nat)
    (item : ImportMeshData.Item) (st : SkelMeshState) : Option SkelMeshState := do
  let tmesh := item.data
  let st := if tmesh.vertexNormals.length = 0 then { st with hasNormals := false } else st
  let st ← forEachIdx tmesh.vertexPositions (ImportSkeletalMesh.pointBody item) st
  let st ← forEachIdx tmesh.indexes (ImportSkeletalMesh.wedgeBody totalVertCount item) st
  let faceCount := tmesh.indexes.length / 3
  let st ← forLoop faceCount (ImportSkeletalMesh.faceBody item) st
  forLoop tmesh.vertexPositions.length (fun j st =>
    forLoop 4 (ImportSkeletalMesh.slotBody totalVertCount skelData item j) st) st

/-- Outcome of the copy loops of `ImportSkeletalMesh`: the mesh list with its
offsets, the three totals, and the arrays after the loops. -/
structure SkelMeshImport where
  meshList : List ImportMeshData.Item
  totalVertCount : Nat
  totalIndexCount : Nat
  totalFaceCount : Nat
  lod : SkelMeshState
deriving DecidableEq, Repr

/-- Lines 483-566 of `ImportSkeletalMesh`: the offset loop, the allocation of
the arrays and the copy loops over the meshes, as they run once they are
reached. The block reads `meshData` and `skelData` and writes only its own
local arrays. -/
def ImportSkeletalMesh.copyLoops (meshData : ImportMeshData) (skelData : ImportSkelData) :
    Option SkelMeshImport := do
  let off ← ImportSkeletalMesh.offsets meshData.meshes
  let zeroWedge : FMeshWedge := { iVertex := 0, UVs0 := ⟨0, 0⟩ }
  let zeroFace : FMeshFace :=
    { iWedge0 := 0, iWedge1 := 0, iWedge2 := 0, TangentZ0 := ⟨0, 0, 0⟩, TangentZ1 := ⟨0, 0, 0⟩,
      TangentZ2 := ⟨0, 0, 0⟩, MeshMaterialIndex := 0 }
  let st : SkelMeshState :=
    { LODPoints := [] ++ List.replicate off.totalVertCount ⟨0, 0, 0⟩,
      LODWedges := [] ++ List.replicate off.totalIndexCount zeroWedge,
      LODFaces := [] ++ List.replicate off.totalFaceCount zeroFace,
      LODInfluences := [],
      LODPointToRawMap := [] ++ List.replicate off.totalVertCount 0,
      hasNormals := true, wedgeBreaks := 0, vertBreaks := 0, boneBreaks := 0 }
  let st ← forEachIdx off.meshList
    (ImportSkeletalMesh.meshBody off.totalVertCount skelData) st
  some { meshList := off.meshList,
         totalVertCount := off.totalVertCount, totalIndexCount := off.totalIndexCount,
         totalFaceCount := off.totalFaceCount, lod := st }

/-- Engine type `USkeleton`, known by the name of its asset. -/
structure USkeleton where
  Name : String
deriving DecidableEq, Repr

/-- Engine type `USkeletalMesh`, the members used by `ImportSkeletalMesh`:
the materials, the reference skeleton, the member `Skeleton`, and the LOD
models of the imported resource. -/
structure USkeletalMesh where
  Materials : List UMaterialInterface
  RefSkeleton : FReferenceSkeleton
  Skeleton : Option USkeleton
  LODModels : List Unit
deriving DecidableEq, Repr

/-- The object made by `NewObject<USkeletalMesh>()` (line 440): no material,
no bone, no skeleton, no LOD model. -/
def USkeletalMesh.new : USkeletalMesh :=
  { Materials := [], RefSkeleton := FReferenceSkeleton.empty, Skeleton := none, LODModels := [] }

/-- What `ImportSkeletalMesh` hands to `BuildSkeletalMesh` (lines 576-589):
the mesh with its materials and reference skeleton, and the arrays of the copy
loops. -/
structure SkelMeshBuild where
  SkeletalMesh : USkeletalMesh
  arrays : SkelMeshImport
deriving DecidableEq, Repr

/-- Source function `ImportSkeletalMesh` (lines 434-625), up to the call of
`BuildSkeletalMesh`; `none` is the `NULL` returned at line 461 or a failed
range check. The host calls that make the package and the mesh object are
taken to succeed. `ApplySkeletonToMesh` returns the member `Mesh->Skeleton`
(line 431), which nothing assigns on a mesh fresh from `NewObject`, so the
function returns at line 461; past that line it would read `LODModels[0]`
(line 478) of the array emptied at line 466. -/
def ImportSkeletalMesh (meshData : ImportMeshData) (skelData : ImportSkelData) :
    Option SkelMeshBuild := do
  let SkeletalMesh := USkeletalMesh.new
  let Materials ← forEachIdx meshData.materials
    (fun _i m (ms : List UMaterialInterface) => some (ms ++ [m])) SkeletalMesh.Materials
  let SkeletalMesh := { SkeletalMesh with Materials := Materials }
  let RefSkeleton ← ApplySkeletonToMesh SkeletalMesh.RefSkeleton skelData
  let SkeletalMesh := { SkeletalMesh with RefSkeleton := RefSkeleton }
  match SkeletalMesh.Skeleton with
  | none => none
  | some _Skeleton =>
    if SkeletalMesh.LODModels.length = 0 then do
      let SkeletalMesh := { SkeletalMesh with LODModels := [] }
      let _LODModel ← SkeletalMesh.LODModels[0]?
      let arrays ← ImportSkeletalMesh.copyLoops meshData skelData
      some { SkeletalMesh := SkeletalMesh, arrays := arrays }
    else none

/-! ## Sample skeleton, motion and meshes -/

/-- Sample skeleton of the spec's scenario: a root and two children in a
chain; the parent field of the root holds 0. -/
def sampleSkel : ImportSkelData :=
  { data := { bones := [⟨"Root", 0, ⟨0, 0, 0⟩, ⟨0, 0, 0, 1⟩⟩,
                        ⟨"child1", 0, ⟨1, 0, 0⟩, ⟨0, 0, 0, 1⟩⟩,
                        ⟨"child2", 1, ⟨0, 2, 0⟩, ⟨0, 0, 0, 1⟩⟩] },
    SkelPackage := "", SkelName := "" }

/-- Sample motion of two frames: a Position and a Rotation channel on bone 1
and a second Position channel on bone 1. -/
def sampleAnim : Zmo :=
  { frameCount := 2, framesPerSecond := 30,
    channels := [.Position 1 [⟨1, 1, 1⟩, ⟨2, 2, 2⟩],
                 .Rotation 1 [⟨0, 0, 0, 1⟩, ⟨0, 1, 0, 0⟩],
                 .Position 1 [⟨3, 3, 3⟩, ⟨4, 4, 4⟩]] }

/-- Sample mesh of the spec's scenario: 4 vertices and 2 triangles through the
indices `[0,1,2, 1,3,2]`. -/
def sampleQuad : Zms :=
  { vertexPositions := [⟨0, 0, 0⟩, ⟨1, 0, 0⟩, ⟨0, 1, 0⟩, ⟨1, 1, 0⟩], vertexNormals := [],
    vertexUvs0 := [⟨0, 0⟩, ⟨1, 0⟩, ⟨0, 1⟩, ⟨1, 1⟩], vertexUvs1 := [], vertexUvs2 := [],
    vertexUvs3 := [],
    boneWeights := [⟨0, 0, 0, 0, 1, 0, 0, 0⟩, ⟨0, 0, 0, 0, 1, 0, 0, 0⟩,
      ⟨1, 0, 0, 0, 1, 0, 0, 0⟩, ⟨1, 2, 0, 0, mkRat 1 2, mkRat 1 2, 0, 0⟩],
    indexes := [0, 1, 2, 1, 3, 2] }

/-- Sample mesh data: the quad twice. -/
def sampleMeshData : ImportMeshData :=
  { meshes := [ImportMeshData.Item.new sampleQuad 0, ImportMeshData.Item.new sampleQuad 1],
    materials := [] }

/-- Sample skeleton whose root carries a stray parent field: the root holds
parent 7, its only child parent 0. -/
def sampleSkelStrayRoot : ImportSkelData :=
  { data := { bones := [⟨"Root", 7, ⟨0, 0, 0⟩, ⟨0, 0, 0, 1⟩⟩,
                        ⟨"child", 0, ⟨1, 0, 0⟩, ⟨0, 0, 0, 1⟩⟩] },
    SkelPackage := "", SkelName := "" }

/-! ## Reference descriptions used in the proofs about `ImportSkeletalAnim` -/

/-- The track a bone starts with: its bind pose and the unit scale. -/
def bindPoseTrack (bone : Zmd.Bone) : FRawAnimSequenceTrack :=
  { PosKeys := [bone.translation], RotKeys := [bone.rotation], ScaleKeys := [⟨1, 1, 1⟩] }

/-- What one channel does to the track of bone `i`: a Position, Rotation or
Scale channel that targets bone `i` replaces the keys of its kind by its
frames; any other channel leaves the track as it is. -/
def applyChannel (i : Nat) (track : FRawAnimSequenceTrack) (channel : Zmo.Channel) :
    FRawAnimSequenceTrack :=
  match channel with
  | .Position k frames => if k = i then { track with PosKeys := frames } else track
  | .Rotation k frames => if k = i then { track with RotKeys := frames } else track
  | .Scale k frames => if k = i then { track with ScaleKeys := frames } else track
  | .Other _ _ => track

/-- A channel whose type tag is none of Position, Rotation, Scale. -/
def Zmo.Channel.isOther : Zmo.Channel → Bool
  | .Other _ _ => true
  | _ => false

/-- Sample motion with a channel on bone 3 of a skeleton of three bones. -/
def sampleAnimOutOfRange : Zmo :=
  { frameCount := 1, framesPerSecond := 30, channels := [.Position 3 [⟨1, 1, 1⟩]] }

/-! ## Reference description used in the proofs about the raw mesh -/

/-- The wedge UV array of a UV channel: empty when the channel is absent,
else the channel's value at each index of the index array. -/
def wedgeUvs (uvs : List FVector2D) (indexes : List Nat) : List FVector2D :=
  if uvs.length > 0 then indexes.map (fun index => (uvs[index]?).getD ⟨0, 0⟩) else []

/-! ## Reference descriptions used in the proofs about `ImportSkeletalMesh` -/

/-- Sum of the vertex counts of the first `i` meshes of a list. -/
def vertsBefore (meshes : List ImportMeshData.Item) (i : Nat) : Nat :=
  ((meshes.take i).map (fun it => it.data.vertexPositions.length)).sum

/-- Sum of the index counts of the first `i` meshes of a list. -/
def indexesBefore (meshes : List ImportMeshData.Item) (i : Nat) : Nat :=
  ((meshes.take i).map (fun it => it.data.indexes.length)).sum

/-- Sum of the face counts `indexCount / 3` of the first `i` meshes of a
list. -/
def facesBefore (meshes : List ImportMeshData.Item) (i : Nat) : Nat :=
  ((meshes.take i).map (fun it => it.data.indexes.length / 3)).sum

/-- The mesh list with the offsets of mesh `i` set to the three sums over
the meshes before it, for the meshes `i < k`. -/
def withOffsets (meshes : List ImportMeshData.Item) (k : Nat) : List ImportMeshData.Item :=
  meshes.mapIdx (fun i it =>
    if i < k then { it with vertOffset := vertsBefore meshes i,
                            indexOffset := indexesBefore meshes i,
                            faceOffset := facesBefore meshes i }
    else it)

/-- Modelled from the spec: `Til.h` is missing. A cell of the tile-info grid of
a map tile: its brush index, read by the painter into an `int32`. -/
structure Til.Cell where
  Brush : Int
deriving DecidableEq, Repr

/-- Modelled from the spec: `Til.h` is missing. The tile-info grid of a map
tile: a flat row-major array of 16 x 16 cells. -/
structure Til where
  Data : List Til.Cell
deriving DecidableEq, Repr

/-- Modelled from the spec: `Him.h` is missing. The heightmap of a map tile: a
flat row-major array of 65 x 65 height samples. -/
structure Him where
  heights : List ℚ
deriving DecidableEq, Repr

/-- Modelled from the spec: `Ifo.h` is missing. A placement record of a
building. -/
structure Ifo.FBuildingBlock where
  ObjectID : Nat
  Position : FVector
  Rotation : FQuat
  Scale : FVector
deriving DecidableEq, Repr

/-- Modelled from the spec: `Ifo.h` is missing. A placement record of a
decoration. -/
structure Ifo.FObjectBlock where
  ObjectID : Nat
  Position : FVector
  Rotation : FQuat
  Scale : FVector
deriving DecidableEq, Repr

/-- Modelled from the spec: `Ifo.h` is missing. A placement record of a
collision volume. -/
structure Ifo.FCollisionBlock where
  ObjectID : Nat
  Position : FVector
  Rotation : FQuat
  Scale : FVector
deriving DecidableEq, Repr

/-- Modelled from the spec: `Ifo.h` is missing. The object placements of a map
tile: three independent ordered sequences. -/
structure Ifo where
  Buildings : List Ifo.FBuildingBlock
  Objects : List Ifo.FObjectBlock
  Collisions : List Ifo.FCollisionBlock
deriving DecidableEq, Repr

/-- The files behind the `Zsc`, `Til`, `Him` and `Ifo` constructors called by
`PluginButtonClicked`, by path. -/
structure MapFiles where
  loadZsc : String → Zsc
  loadTil : String → Til
  loadHim : String → Him
  loadIfo : String → Ifo

/-! ## `SpawnWorldModel` (lines 1186-1198) -/

/-- The actor spawned from a blueprint: its name, the blueprint it is an
instance of, and its placement. -/
structure AActor where
  Name : String
  Model : UBlueprint
  Pos : FVector
  Rot : FRotator
  Scale : FVector
deriving DecidableEq, Repr

/-- Source function `GetExistingAsset<UBlueprint>` (lines 178-189) on the
blueprints made so far: the object path is built from the package name and the
asset name, so the asset loaded is the blueprint stored under that pair, if
there is one. -/
def GetExistingAsset (assets : List UBlueprint) (PackageName AssetName : String) :
    Option UBlueprint :=
  assets.find? (fun bp => bp.PackageName = PackageName ∧ bp.AssetName = AssetName)

/-- Source function `SpawnWorldModel` (lines 1186-1198): `none` is the `NULL`
returned when no blueprint is stored under the package and asset name. -/
def SpawnWorldModel (host : Host) (assets : List UBlueprint) (NewName PackageName AssetName : String)
    (Rot : FQuat) (Pos Scale : FVector) : Option AActor :=
  match GetExistingAsset assets PackageName AssetName with
  | some Model =>
    some { Name := NewName, Model := Model, Pos := Pos, Rot := host.Rotator Rot, Scale := Scale }
  | none => none

/-! ## `PluginButtonClicked` (lines 1238-1420) -/

/-- Engine function `FMath::Clamp(X, Min, Max)`:
`X < Min ? Min : X < Max ? X : Max`. -/
def Clamp (X Min Max : ℚ) : ℚ :=
  if X < Min then Min else if X < Max then X else Max

/-- The float expression of line 1345,
`FMath::Clamp(hmValue + 25600.0f, 0.0f, 51200.0f) / 51200.0f * 65535.0f`, in
single precision: the sum, the quotient and the product are each rounded. -/
def ueValue (hmValue : ℚ) : ℚ :=
  Float32.round (Float32.round (Clamp (Float32.round (hmValue + 25600)) 0 51200 / 51200) * 65535)

/-- Conversion of a float to an integer in an assignment: the fractional part
is dropped (rounding toward zero). -/
def truncate (x : ℚ) : Int :=
  if 0 ≤ x then ⌊x⌋ else ⌈x⌉

/-- The store of a float into a `uint16` array element (line 1347): the value
is truncated and kept modulo `2^16`. -/
def toUint16 (x : ℚ) : Nat :=
  (truncate x % 65536).toNat

/-- The conversion of an `int` expression to `uint32` (lines 1292-1293): the
value modulo `2^32`. -/
def toUint32 (z : Int) : Nat :=
  (z % 4294967296).toNat

/-- The format of line 1366: `FString::Printf(TEXT("JDTC_%d"), obj.ObjectID)`. -/
def PluginButtonClicked.buildingAssetName (ObjectID : Nat) : String :=
  "JDTC_" ++ toString ObjectID

/-- The format of line 1374: `FString::Printf(TEXT("JDTD_%d"), obj.ObjectID)`. -/
def PluginButtonClicked.objectAssetName (ObjectID : Nat) : String :=
  "JDTD_" ++ toString ObjectID

/-- The loop of lines 1256-1260 (and 1266-1270): every model of the catalog
that has a part is handed to `ImportWorldZscModel`; the blueprints made are
collected in the order they are made. -/
def PluginButtonClicked.importModels (host : Host) (MdlTypeName : String) (meshs : Zsc)
    (assets : List UBlueprint) : Option (List UBlueprint) :=
  forEachIdx meshs.models (fun i model (assets : List UBlueprint) =>
    if model.parts.length > 0 then do
      let bp ← ImportWorldZscModel host MdlTypeName meshs i
      some (assets ++ [bp])
    else some assets) assets

/-- State of the tile loops of `PluginButtonClicked`: the height buffer, the
eight weight layers, the height bounds and the actors spawned so far. -/
structure TerrainState where
  Data : List Nat
  WeightData : List (List Nat)
  MinHeight : ℚ
  MaxHeight : ℚ
  actors : List AActor
deriving DecidableEq, Repr

/-- Body of the pixel loops (lines 1329-1332): the write
`WeightData[BrushIdx][PixelY * TileSizeX + PixelX] = 50`. -/
def PluginButtonClicked.pixelBody (TileSizeX outTileX outTileY sx sy BrushIdx py px : Nat)
    (WeightData : List (List Nat)) : Option (List (List Nat)) := do
  let PixelX := (outTileX + sx) * 4 + px
  let PixelY := (outTileY + sy) * 4 + py
  let layer ← WeightData[BrushIdx]?
  let layer ← setAt layer ((PixelY * TileSizeX + PixelX) % 4294967296) 50
  setAt WeightData BrushIdx layer

/-- Body of the cell loops (lines 1324-1334): the brush of the cell is read
and checked, then a block of 5 x 5 pixels is painted in its layer. A failing
`check` ends the run. -/
def PluginButtonClicked.cellBody (TileSizeX outTileX outTileY : Nat) (tilData : Til)
    (sy sx : Nat) (WeightData : List (List Nat)) : Option (List (List Nat)) := do
  let cell ← tilData.Data[sy * 16 + sx]?
  let BrushIdx : Int := cell.Brush
  if BrushIdx ≥ 0 ∧ BrushIdx < 8 then
    forLoop 5 (fun py WeightData =>
      forLoop 5 (fun px WeightData =>
        PluginButtonClicked.pixelBody TileSizeX outTileX outTileY sx sy BrushIdx.toNat py px
          WeightData) WeightData) WeightData
  else none

/-- The weight painting of one tile (lines 1322-1336). -/
def PluginButtonClicked.paintTile (TileSizeX outTileX outTileY : Nat) (tilData : Til)
    (WeightData : List (List Nat)) : Option (List (List Nat)) :=
  forLoop 16 (fun sy WeightData =>
    forLoop 16 (fun sx WeightData =>
      PluginButtonClicked.cellBody TileSizeX outTileX outTileY tilData sy sx WeightData)
      WeightData) WeightData

/-- Body of the sample loops (lines 1343-1354): a height sample is read,
converted and stored, and the height bounds are updated. -/
def PluginButtonClicked.sampleBody (SizeX outBaseX outBaseY : Nat) (himData : Him)
    (sy sx : Nat) (st : TerrainState) : Option TerrainState := do
  let outIdx := ((outBaseY + sy) * SizeX + (outBaseX + sx)) % 4294967296
  let hmValue ← himData.heights[sy * 65 + sx]?
  let Data ← setAt st.Data outIdx (toUint16 (ueValue hmValue))
  let MinHeight := if hmValue < st.MinHeight then hmValue else st.MinHeight
  let MaxHeight := if hmValue > st.MaxHeight then hmValue else st.MaxHeight
  some { st with Data := Data, MinHeight := MinHeight, MaxHeight := MaxHeight }

/-- The height import of one tile (lines 1341-1356). -/
def PluginButtonClicked.heightTile (SizeX outBaseX outBaseY : Nat) (himData : Him)
    (st : TerrainState) : Option TerrainState :=
  forLoop 65 (fun sy st =>
    forLoop 65 (fun sx st =>
      PluginButtonClicked.sampleBody SizeX outBaseX outBaseY himData sy sx st) st) st

/-- Body of the building loop (lines 1364-1367). -/
def PluginButtonClicked.buildingBody (host : Host) (assets : List UBlueprint) (ix iy : Nat)
    (i : Nat) (obj : Ifo.FBuildingBlock) (st : TerrainState) : Option TerrainState :=
  let ObjName := "Bldg_" ++ toString ix ++ "_" ++ toString iy ++ "_" ++ toString i
  let AssetName := PluginButtonClicked.buildingAssetName obj.ObjectID
  match SpawnWorldModel host assets ObjName "/MAPS" AssetName obj.Rotation obj.Position
      obj.Scale with
  | some ObjActor => some { st with actors := st.actors ++ [ObjActor] }
  | none => some st

/-- Body of the decoration loop (lines 1372-1378). -/
def PluginButtonClicked.objectBody (host : Host) (assets : List UBlueprint) (ix iy : Nat)
    (i : Nat) (obj : Ifo.FObjectBlock) (st : TerrainState) : Option TerrainState :=
  let ObjName := "Deco_" ++ toString ix ++ "_" ++ toString iy ++ "_" ++ toString i
  let AssetName := PluginButtonClicked.objectAssetName obj.ObjectID
  match SpawnWorldModel host assets ObjName "/MAPS" AssetName obj.Rotation obj.Position
      obj.Scale with
  | some ObjActor => some { st with actors := st.actors ++ [{ ObjActor with Scale := obj.Scale }] }
  | none => some st

/-- Body of the tile loops (lines 1314-1381) for the tile `(ix, iy)`. Both
`IMPORT_BUILDINGS` and `IMPORT_OBJECTS` are the constant `true`;
`IMPORT_COLLISIONS` is the constant `false`, so the collision loop of lines
1382-1415 is never run. -/
def PluginButtonClicked.tileBody (host : Host) (files : MapFiles) (assets : List UBlueprint)
    (startX startY SizeX TileSizeX : Nat) (iy ix : Nat) (st : TerrainState) :
    Option TerrainState := do
  let outTileX := (ix - startX) * 16
  let outTileY := (iy - startY) * 16
  let outBaseX := (ix - startX) * 64
  let outBaseY := (iy - startY) * 64
  let TilPath := "3DDATA/MAPS/JUNON/JDT01/" ++ toString ix ++ "_" ++ toString iy ++ ".til"
  let tilData := files.loadTil (host.RoseBasePath ++ TilPath)
  let WeightData ← PluginButtonClicked.paintTile TileSizeX outTileX outTileY tilData st.WeightData
  let st := { st with WeightData := WeightData }
  let HimPath := "3DDATA/MAPS/JUNON/JDT01/" ++ toString ix ++ "_" ++ toString iy ++ ".him"
  let himData := files.loadHim (host.RoseBasePath ++ HimPath)
  let st ← PluginButtonClicked.heightTile SizeX outBaseX outBaseY himData st
  let IfoPath := "3DDATA/MAPS/JUNON/JDT01/" ++ toString ix ++ "_" ++ toString iy ++ ".ifo"
  let ifoData := files.loadIfo (host.RoseBasePath ++ IfoPath)
  let st ← forEachIdx ifoData.Buildings (PluginButtonClicked.buildingBody host assets ix iy) st
  forEachIdx ifoData.Objects (PluginButtonClicked.objectBody host assets ix iy) st

/-- The expression of lines 1292-1293: `4 * 16 * (end - start + 1)`, computed
in `int` and converted to `uint32`. -/
def PluginButtonClicked.RoseSize (start stop : Nat) : Nat :=
  toUint32 (4 * 16 * ((stop : Int) - start + 1))

/-- The expression of lines 1294-1295: `(RoseSize / 63 + 1) * 63 + 1` in
`uint32` arithmetic. -/
def PluginButtonClicked.Size (RoseSize : Nat) : Nat :=
  ((RoseSize / 63 + 1) * 63 + 1) % 4294967296

/-- The landscape buffers after the tile loops: the two sizes and the state
of the loops. -/
structure Terrain where
  SizeX : Nat
  SizeY : Nat
  state : TerrainState
deriving DecidableEq, Repr

/-- Lines 1287-1417 of `PluginButtonClicked` for the tile block
`startX..endX` x `startY..endY` (the four locals of lines 1287-1290): the
sizes, the buffers and the loops over the tiles. The `uint32` sizes and the
index expressions are computed modulo `2^32`. -/
def PluginButtonClicked.terrain (host : Host) (files : MapFiles) (assets : List UBlueprint)
    (startX startY endX endY : Nat) : Option Terrain := do
  let RoseSizeX := PluginButtonClicked.RoseSize startX endX
  let RoseSizeY := PluginButtonClicked.RoseSize startY endY
  let SizeX := PluginButtonClicked.Size RoseSizeX
  let SizeY := PluginButtonClicked.Size RoseSizeY
  let TileSizeX := SizeX
  let TileSizeY := SizeY
  let Data : List Nat := [] ++ List.replicate (SizeX * SizeY % 4294967296) 0
  let Data ← forLoop Data.length (fun i Data => setAt Data i 0x8000) Data
  let WeightData : List (List Nat) := List.replicate 8 []
  let WeightData ← forLoop 8 (fun i WeightData =>
    modifyAt WeightData i
      (fun layer => layer ++ List.replicate (TileSizeX * TileSizeY % 4294967296) 0)) WeightData
  let st : TerrainState :=
    { Data := Data, WeightData := WeightData, MinHeight := 1000000, MaxHeight := -1000000,
      actors := [] }
  let st ← forLoop (endY + 1 - startY) (fun ky st =>
    forLoop (endX + 1 - startX) (fun kx st =>
      PluginButtonClicked.tileBody host files assets startX startY SizeX TileSizeX
        (startY + ky) (startX + kx) st) st) st
  some { SizeX := SizeX, SizeY := SizeY, state := st }

/-- Outcome of `PluginButtonClicked`: the blueprints made from the two
catalogs and the landscape buffers. -/
structure MapImport where
  assets : List UBlueprint
  terrain : Terrain
deriving DecidableEq, Repr

/-- Source function `FRoseImportModule::PluginButtonClicked`, lines 1254-1420
(the function returns at line 1420): the construction catalog and the
decoration catalog are brought in, then the tile block 31..34 x 30..33. The
asset store holds the blueprints made by this run. -/
def PluginButtonClicked (host : Host) (files : MapFiles) : Option MapImport := do
  let meshsc := files.loadZsc (host.RoseBasePath ++ "3DDATA/JUNON/LIST_CNST_JDT.ZSC")
  let assets ← PluginButtonClicked.importModels host "JDTC" meshsc []
  let meshsd := files.loadZsc (host.RoseBasePath ++ "3DDATA/JUNON/LIST_DECO_JDT.ZSC")
  let assets ← PluginButtonClicked.importModels host "JDTD" meshsd assets
  let startX := 31
  let startY := 30
  let endX := 34
  let endY := 33
  let terrain ← PluginButtonClicked.terrain host files assets startX startY endX endY
  some { assets := assets, terrain := terrain }

/-- Sample map files: both catalogs are the sample catalog, every tile-info
grid holds brush 1 in each of its 256 cells, every heightmap is flat at height
0, and every tile places building 0 and decoration 0. -/
def sampleMapFiles : MapFiles :=
  { loadZsc := fun _ => sampleCatalog,
    loadTil := fun _ => { Data := List.replicate 256 ⟨1⟩ },
    loadHim := fun _ => { heights := List.replicate 4225 0 },
    loadIfo := fun _ =>
      { Buildings := [⟨0, ⟨0, 0, 0⟩, ⟨0, 0, 0, 1⟩, ⟨1, 1, 1⟩⟩],
        Objects := [⟨0, ⟨5, 5, 0⟩, ⟨0, 0, 0, 1⟩, ⟨2, 2, 2⟩⟩],
        Collisions := [] } }

/-! ## Reference descriptions used in the proofs about the height conversion -/

/-- The height conversion of the description, over exact rationals:
`clamp(h + 25600, 0, 51200) / 51200 * 65535`, the expression of line 1345
without its three roundings. -/
def ueValue.exact (hmValue : ℚ) : ℚ :=
  Clamp (hmValue + 25600) 0 51200 / 51200 * 65535

/-- The inverse of the height conversion, `v / 65535 * 51200 - 25600`: the raw
height that a stored value stands for. The source has no such function; it is
the map against which the round trip of the conversion is measured. -/
def heightOfUe (v : ℚ) : ℚ :=
  v / 65535 * 51200 - 25600

/-! ## Reference description used in the proofs about the height loops -/

/-- State of the sample loops of the tile at `(oX, oY)` after the first `n`
samples in row-major order, started from the state `st`: sample `(sy, sx)` with
`sy * 65 + sx < n` has been converted and stored in the cell
`(oY + sy) * SizeX + (oX + sx)`, every other cell of the height buffer is as
it was, and so are the weight layers and the actors. -/
def PluginButtonClicked.heightsWritten (SizeX oX oY : Nat) (himData : Him) (st : TerrainState)
    (n : Nat) (s : TerrainState) : Prop :=
  s.WeightData = st.WeightData ∧ s.actors = st.actors ∧ s.Data.length = st.Data.length ∧
  (∀ sy sx : Nat, sx < 65 → sy * 65 + sx < n →
    ∃ h, himData.heights[sy * 65 + sx]? = some h ∧
      s.Data[(oY + sy) * SizeX + (oX + sx)]? = some (toUint16 (ueValue h))) ∧
  (∀ p : Nat, (∀ sy sx : Nat, sx < 65 → sy * 65 + sx < n → p ≠ (oY + sy) * SizeX + (oX + sx)) →
    s.Data[p]? = st.Data[p]?)

/-! ## Reference description of `BuildAssetPath` -/

/-- Pieces of a character list between separators, a separator being a slash
or a backslash; the empty pieces are included. -/
def splitSeparators : List Char → List (List Char)
  | [] => [[]]
  | c :: cs =>
    match splitSeparators cs with
    | [] => [[]]
    | p :: ps => if c = '/' ∨ c = '\\' then [] :: p :: ps else (c :: p) :: ps

/-- The components of a path: its pieces between slashes or backslashes, the
empty ones dropped. -/
def pathComponents (path : String) : List String :=
  ((splitSeparators path.data).filter (fun p => !p.isEmpty)).map String.mk

/-- Reference description of `BuildAssetPath`, for a path whose components are
the directories `d0, d1, ...` (at least two) followed by a file name, with
`uppercase(d0) = "3DDATA"`: the package name is `"/"` followed by the
uppercased directories from `d1` on, joined by `"/"`, with `"MAPS"` put in
front when `uppercase(d1)` is `JUNON`, `LUNAR` or `ORO`; the asset name is the
uppercased file name without its extension, followed by the postfix. Other
paths are outside the description. -/
def BuildAssetPath.reference (RosePath Postfix : String) : Option (String × String) :=
  match (pathComponents RosePath).reverse with
  | [] => none
  | file :: dirsReversed =>
    match dirsReversed.reverse with
    | d0 :: d1 :: rest =>
      if ToUpper d0 = "3DDATA" then
        let dirs := (d1 :: rest).map ToUpper
        let dirs :=
          if ToUpper d1 = "JUNON" ∨ ToUpper d1 = "LUNAR" ∨ ToUpper d1 = "ORO" then
            "MAPS" :: dirs
          else dirs
        some ("/" ++ "/".intercalate dirs, ToUpper (GetBaseFilename file) ++ Postfix)
      else none
    | _ => none

/-! ## `BuildAssetPath` with its failing access told apart -/

/-- The array accesses of `BuildAssetPath` that can fail: `PathParts.Pop()` of
line 135 on an empty array, the read `PathParts[0]` of line 146, and the read
`PathParts[0]` of line 151 after `RemoveAt(0)`. The two reads carry the number
of debug breaks met before them. -/
inductive BuildAssetPath.Fault where
  | pop
  | firstRead (breaks : Nat)
  | secondRead (breaks : Nat)
deriving DecidableEq, Repr

/-- Source function `BuildAssetPath` (lines 129-158), as `BuildAssetPath`
above but returning the access that failed instead of `none`. -/
def BuildAssetPath.checked (RosePath : String) (Postfix : String) :
    Except BuildAssetPath.Fault AssetPath :=
  let NormPath := NormalizeFilename (ToUpper RosePath)
  let PathParts := ParseIntoArray NormPath
  match Pop PathParts with
  | none => .error .pop
  | some (FileName, PathParts) =>
    let AssetName := GetBaseFilename FileName
    let AssetName := if !Postfix.isEmpty then AssetName ++ Postfix else AssetName
    let b1 := if PathParts.length ≤ 0 then 1 else 0
    match PathParts[0]? with
    | none => .error (.firstRead b1)
    | some p0 =>
      let b2 := if p0 ≠ "3DDATA" then 1 else 0
      let PathParts := PathParts.eraseIdx 0
      match PathParts[0]? with
      | none => .error (.secondRead (b1 + b2))
      | some q0 =>
        let PathParts :=
          if q0 = "JUNON" ∨ q0 = "LUNAR" ∨ q0 = "ORO" then "MAPS" :: PathParts else PathParts
        .ok { PackageName := "/" ++ Join PathParts, AssetName := AssetName, breaks := b1 + b2 }

/-! ## `GetOrMakeBaseMaterial` (lines 238-321) -/

/-- Engine enum `EBlendMode`, the three values used. -/
inductive EBlendMode where
  | BLEND_Opaque
  | BLEND_Masked
  | BLEND_Translucent
deriving DecidableEq, Repr

/-- Engine type `UMaterialExpressionTextureSampleParameter2D`, the members set
by `GetOrMakeBaseMaterial`; `usesDefaultTexture` records the call
`SetDefaultTexture()`. -/
structure UMaterialExpressionTextureSampleParameter2D where
  ParameterName : String
  usesDefaultTexture : Bool
  SamplerType : String
  MaterialExpressionEditorX : Int
  MaterialExpressionEditorY : Int
deriving DecidableEq, Repr

/-- Engine type `UMaterial`, the members read or set by
`GetOrMakeBaseMaterial`. An input (`BaseColor`, `OpacityMask`) holds the output
index handed to `ConnectExpression`, or nothing when it is not connected. -/
structure UMaterial where
  Name : String
  BlendMode : EBlendMode
  OpacityMaskClipValue : ℚ
  TwoSided : Bool
  Expressions : List UMaterialExpressionTextureSampleParameter2D
  BaseColor : Option Nat
  OpacityMask : Option Nat
  bUsedWithSkeletalMesh : Bool
deriving DecidableEq, Repr

/-- Lines 239-252 of `GetOrMakeBaseMaterial`: the name of the base material of
a texture record. -/
def GetOrMakeBaseMaterial.MaterialName (MatInfo : Zsc.Texture) : String :=
  let MaterialName :=
    if MatInfo.alphaTestEnabled then "AlphaRefMaterial"
    else if MatInfo.alphaEnabled then "AlphaMaterial"
    else "BaseMaterial"
  if MatInfo.twoSided then MaterialName ++ "_DS" else MaterialName

/-- Lines 263-318 of `GetOrMakeBaseMaterial`: the material made when none is
found. `defaults` is a `UMaterial` as the factory leaves it; the factory call is
taken to succeed. -/
def GetOrMakeBaseMaterial.create (defaults : UMaterial) (MatInfo : Zsc.Texture) : UMaterial :=
  let MaterialName := GetOrMakeBaseMaterial.MaterialName MatInfo
  let Material := { defaults with Name := MaterialName }
  let Material :=
    if MatInfo.alphaTestEnabled then
      { Material with BlendMode := EBlendMode.BLEND_Masked, OpacityMaskClipValue := mkRat 1 2 }
    else if MatInfo.alphaEnabled then
      { Material with BlendMode := EBlendMode.BLEND_Translucent }
    else
      { Material with BlendMode := EBlendMode.BLEND_Opaque }
  let Material := if MatInfo.twoSided then { Material with TwoSided := true } else Material
  let UnrealTextureExpression : UMaterialExpressionTextureSampleParameter2D :=
    { ParameterName := "Texture", usesDefaultTexture := true, SamplerType := "SAMPLERTYPE_Color",
      MaterialExpressionEditorX := -320, MaterialExpressionEditorY := 240 }
  let Material := { Material with Expressions := Material.Expressions ++ [UnrealTextureExpression] }
  let Material := { Material with BaseColor := some 0 }
  let Material :=
    if MatInfo.alphaTestEnabled then { Material with OpacityMask := some 4 } else Material
  { Material with bUsedWithSkeletalMesh := true }

/-- Source function `GetOrMakeBaseMaterial` (lines 238-321) on the store of the
materials that `LoadObject` can find, by name: the material found under the
name is returned as it is; otherwise a material is made and stored. The result
is the material and the store after the call. -/
def GetOrMakeBaseMaterial (defaults : UMaterial) (store : List UMaterial)
    (MatInfo : Zsc.Texture) : UMaterial × List UMaterial :=
  let MaterialName := GetOrMakeBaseMaterial.MaterialName MatInfo
  match store.find? (fun m => m.Name = MaterialName) with
  | some Material => (Material, store)
  | none =>
    let Material := GetOrMakeBaseMaterial.create defaults MatInfo
    (Material, store ++ [Material])

/-- Sample of a material as the factory leaves it: opaque, clip value 0.3333,
one-sided, no expression, nothing connected. -/
def sampleNewMaterial : UMaterial :=
  { Name := "", BlendMode := EBlendMode.BLEND_Opaque, OpacityMaskClipValue := mkRat 3333 10000,
    TwoSided := false, Expressions := [], BaseColor := none, OpacityMask := none,
    bUsedWithSkeletalMesh := false }

/-! ## Reference descriptions used in the proofs about the tile block -/

/-- The cell of the height buffer written for sample `(sx, sy)` of the tile at
offset `(kx, ky)` from the start of the block: row `ky * 64 + sy`, column
`kx * 64 + sx`. -/
def PluginButtonClicked.cellOf (SizeX kx ky sx sy : Nat) : Nat :=
  (ky * 64 + sy) * SizeX + (kx * 64 + sx)

/-- The heightmap that the tile loops load for the tile `(ix, iy)`. -/
def PluginButtonClicked.himOf (host : Host) (files : MapFiles) (ix iy : Nat) : Him :=
  files.loadHim (host.RoseBasePath
    ++ ("3DDATA/MAPS/JUNON/JDT01/" ++ toString ix ++ "_" ++ toString iy ++ ".him"))

/-- The tile at offset `(kx1, ky1)` is processed before the tile at offset
`(kx2, ky2)`: the loop over `iy` is the outer one. -/
def PluginButtonClicked.tileBefore (ky1 kx1 ky2 kx2 : Nat) : Prop :=
  ky1 < ky2 ∨ (ky1 = ky2 ∧ kx1 < kx2)

/-- State of the height buffer when the tile loops stand before the tile at
offset `(kx, ky)` of a block with `n` tiles per row: every sample of a tile
processed so far whose cell is not written again by a tile processed after it
(and so far) is held by its cell, converted. -/
def PluginButtonClicked.blockWritten (host : Host) (files : MapFiles)
    (startX startY SizeX n ky kx : Nat) (s : TerrainState) : Prop :=
  ∀ ky1 kx1 sy sx : Nat, kx1 < n → PluginButtonClicked.tileBefore ky1 kx1 ky kx →
    sy < 65 → sx < 65 →
    (∀ ky2 kx2 sy2 sx2 : Nat, kx2 < n → PluginButtonClicked.tileBefore ky2 kx2 ky kx →
      PluginButtonClicked.tileBefore ky1 kx1 ky2 kx2 → sy2 < 65 → sx2 < 65 →
      PluginButtonClicked.cellOf SizeX kx2 ky2 sx2 sy2
        ≠ PluginButtonClicked.cellOf SizeX kx1 ky1 sx sy) →
    ∃ h, (PluginButtonClicked.himOf host files (startX + kx1) (startY + ky1)).heights[
        sy * 65 + sx]? = some h ∧
      s.Data[PluginButtonClicked.cellOf SizeX kx1 ky1 sx sy]? = some (toUint16 (ueValue h))

/-! ## Reference description used in the proofs about the influence list -/

/-- Frame `k` of a component with the values `vals` is a key frame, in the
words of the description: `k = 0`, or the value differs from the value at
frame `k - 1`. -/
def ImportWorldZscModel.isKeyFrame (vals : List ℚ) (k : Nat) : Bool :=
  decide (k = 0 ∨ vals[k]? ≠ vals[k - 1]?)

/-- The key frames of a component, in frame order. -/
def ImportWorldZscModel.keyFrames (vals : List ℚ) : List Nat :=
  (List.range vals.length).filter (ImportWorldZscModel.isKeyFrame vals)

/-- The keys of a component in the description: the key
`(k / framesPerSecond, value)` for each key frame `k`, the time being the
single-precision quotient `(float)k / (float)framesPerSecond`. -/
def ImportWorldZscModel.componentKeys (framesPerSecond : Nat) (vals : List ℚ) : List FKey :=
  (ImportWorldZscModel.keyFrames vals).map (fun (k : Nat) =>
    { Time := Float32.div (Float32.ofInt k) (Float32.ofInt framesPerSecond),
      Value := (vals[k]?).getD 0 })

/-- The keys that a channel gives to the curve of component `sel` of `PCurve`
in the description: those of the component for a Position channel, none for
any other channel. -/
def ImportWorldZscModel.positionKeysOf (framesPerSecond : Nat) (sel : FVector → ℚ) :
    Zmo.Channel → List FKey
  | .Position _ frames => ImportWorldZscModel.componentKeys framesPerSecond (frames.map sel)
  | _ => []

/-- The keys that a channel gives to the curve of component `sel` of `SCurve`
in the description: those of the component for a Scale channel, none for any
other channel. -/
def ImportWorldZscModel.scaleKeysOf (framesPerSecond : Nat) (sel : FVector → ℚ) :
    Zmo.Channel → List FKey
  | .Scale _ frames => ImportWorldZscModel.componentKeys framesPerSecond (frames.map sel)
  | _ => []

/-- The keys that a channel gives to the curve of component `sel` of `RCurve`
in the description: for a Rotation channel one key per frame, with the
component of the frame's rotator; none for any other channel. -/
def ImportWorldZscModel.rotationKeysOf (host : Host) (framesPerSecond : Nat)
    (sel : FRotator → ℚ) : Zmo.Channel → List FKey
  | .Rotation _ frames => frames.enum.map (fun kq =>
      { Time := Float32.div (Float32.ofInt kq.1) (Float32.ofInt framesPerSecond),
        Value := sel (host.Rotator kq.2) })
  | _ => []

/-- Sample motion for the timeline: one Position channel of three frames
`(1,1,1)`, `(1,2,1)`, `(1,2,3)` at 30 frames per second. -/
def sampleTimelineAnim : Zmo :=
  { frameCount := 3, framesPerSecond := 30,
    channels := [.Position 0 [⟨1, 1, 1⟩, ⟨1, 2, 1⟩, ⟨1, 2, 3⟩]] }

/-! # Theorems

## Loops -/

theorem forLoop_zero {σ : Type} (body : Nat → σ → Option σ) (s : σ) :
    forLoop 0 body s = some s := by
  simp [forLoop]

theorem forLoop_succ {σ : Type} (n : Nat) (body : Nat → σ → Option σ) (s : σ) :
    forLoop (n + 1) body s = (forLoop n body s).bind (body n) := by
  simp [forLoop, List.range_succ, List.foldlM_append]

theorem forLoop_congr {σ : Type} (n : Nat) (f g : Nat → σ → Option σ) (s : σ)
    (h : ∀ j, j < n → ∀ st, f j st = g j st) : forLoop n f s = forLoop n g s := by
  induction n with
  | zero => simp [forLoop_zero]
  | succ n ih =>
    rw [forLoop_succ, forLoop_succ, ih (fun j hj => h j (Nat.lt_succ_of_lt hj))]
    cases forLoop n g s with
    | none => rfl
    | some st => exact h n (Nat.lt_succ_self n) st

theorem forEachIdx_append_singleton {α σ : Type} (xs : List α) (x : α)
    (body : Nat → α → σ → Option σ) (s : σ) :
    forEachIdx (xs ++ [x]) body s = (forEachIdx xs body s).bind (body xs.length x) := by
  unfold forEachIdx
  rw [List.length_append, List.length_singleton, forLoop_succ]
  have hc : forLoop xs.length (fun j st => do let y ← (xs ++ [x])[j]?; body j y st) s
      = forLoop xs.length (fun j st => do let y ← xs[j]?; body j y st) s := by
    apply forLoop_congr
    intro j hj st
    simp [List.getElem?_append_left hj]
  rw [hc]
  cases forLoop xs.length (fun j st => do let y ← xs[j]?; body j y st) s with
  | none => rfl
  | some st => simp

theorem forEachIdx_eq_foldlM {α σ : Type} (xs : List α) (body : Nat → α → σ → Option σ) (s : σ) :
    forEachIdx xs body s = xs.enum.foldlM (fun st jx => body jx.1 jx.2 st) s := by
  induction xs using List.reverseRecOn with
  | nil => simp [forEachIdx, forLoop_zero]
  | append_singleton xs x ih =>
    rw [forEachIdx_append_singleton, ih, List.enum_append, List.foldlM_append]
    cases List.foldlM (fun st jx => body jx.1 jx.2 st) s xs.enum with
    | none => rfl
    | some st =>
      simp

/-! ## Single-precision rounding -/

theorem roundHalfEven_floor (q : ℚ) : ⌊q⌋ ≤ roundHalfEven q ∧ roundHalfEven q ≤ ⌊q⌋ + 1 := by
  unfold roundHalfEven
  split_ifs <;> omega

theorem roundHalfEven_near (q : ℚ) :
    q - 1 / 2 ≤ (roundHalfEven q : ℚ) ∧ (roundHalfEven q : ℚ) ≤ q + 1 / 2 := by
  have f1 := Int.floor_le q
  have f2 := Int.lt_floor_add_one q
  unfold roundHalfEven
  split_ifs <;> push_cast <;> constructor <;> linarith

theorem roundHalfEven_intCast (n : ℤ) : roundHalfEven (n : ℚ) = n := by
  unfold roundHalfEven
  rw [Int.floor_intCast]
  norm_num

theorem roundHalfEven_mono (q1 q2 : ℚ) (h : q1 ≤ q2) : roundHalfEven q1 ≤ roundHalfEven q2 := by
  have hf : ⌊q1⌋ ≤ ⌊q2⌋ := Int.floor_mono h
  rcases Nat.lt_or_ge 0 (⌊q2⌋ - ⌊q1⌋).toNat with hlt | hge
  · have a := (roundHalfEven_floor q1).2
    have b := (roundHalfEven_floor q2).1
    omega
  · have e : ⌊q1⌋ = ⌊q2⌋ := by omega
    unfold roundHalfEven
    rw [e]
    have hq : q1 - ⌊q2⌋ ≤ q2 - ⌊q2⌋ := by linarith
    split_ifs <;> first | omega | (exfalso; linarith)

theorem roundHalfEven_eq_ceil (q : ℚ) (n : ℤ) (h1 : (n : ℚ) + 1 / 2 < q) (h2 : q < n + 1) :
    roundHalfEven q = n + 1 := by
  have e : ⌊q⌋ = n := by
    rw [Int.floor_eq_iff]
    constructor
    · linarith
    · exact h2
  unfold roundHalfEven
  rw [e, if_neg (by linarith), if_pos (by linarith)]

theorem Float32.two_zpow_pos (e : ℤ) : (0 : ℚ) < 2 ^ e := zpow_pos (by norm_num) e

theorem Float32.log_spec (x : ℚ) (hx : 0 < x) :
    (2 : ℚ) ^ Int.log 2 x ≤ x ∧ x < 2 ^ (Int.log 2 x + 1) := by
  have a := Int.zpow_log_le_self (R := ℚ) (b := 2) (by norm_num) hx
  have b := Int.lt_zpow_succ_log_self (R := ℚ) (b := 2) (by norm_num) x
  simp only [Nat.cast_ofNat] at a b
  exact ⟨a, b⟩

theorem Float32.log_eq (x : ℚ) (e : ℤ) (h1 : (2 : ℚ) ^ e ≤ x) (h2 : x < 2 ^ (e + 1)) :
    Int.log 2 x = e := by
  have hx : 0 < x := lt_of_lt_of_le (Float32.two_zpow_pos e) h1
  have a := (Int.zpow_le_iff_le_log (R := ℚ) (b := 2) (by norm_num) (x := e) hx).mp
    (by simpa using h1)
  have b := (Int.lt_zpow_iff_log_lt (R := ℚ) (b := 2) (by norm_num) (x := e + 1) hx).mp
    (by simpa using h2)
  omega

theorem Float32.ulp_mul (e : ℤ) : (8388608 : ℚ) * 2 ^ (e - 23) = 2 ^ e := by
  rw [zpow_sub₀ (by norm_num : (2 : ℚ) ≠ 0)]
  norm_num
  ring

theorem Float32.ulp_mul_succ (e : ℤ) : (16777216 : ℚ) * 2 ^ (e - 23) = 2 ^ (e + 1) := by
  rw [zpow_sub₀ (by norm_num : (2 : ℚ) ≠ 0), zpow_add_one₀ (by norm_num : (2 : ℚ) ≠ 0)]
  norm_num
  ring

theorem Float32.significand_range (x : ℚ) (hx : 0 < x) :
    (8388608 : ℚ) ≤ x / 2 ^ (Int.log 2 x - 23) ∧ x / 2 ^ (Int.log 2 x - 23) ≤ 16777216 := by
  obtain ⟨a, b⟩ := Float32.log_spec x hx
  have hu := Float32.two_zpow_pos (Int.log 2 x - 23)
  constructor
  · rw [le_div_iff₀ hu, Float32.ulp_mul]
    exact a
  · rw [div_le_iff₀ hu, Float32.ulp_mul_succ]
    exact le_of_lt b

theorem Float32.roundPos_range (x : ℚ) (hx : 0 < x) :
    (2 : ℚ) ^ Int.log 2 x ≤ Float32.roundPos x ∧
    Float32.roundPos x ≤ 2 ^ (Int.log 2 x + 1) := by
  obtain ⟨a, b⟩ := Float32.significand_range x hx
  have hu := Float32.two_zpow_pos (Int.log 2 x - 23)
  have m1 : (8388608 : ℤ) ≤ roundHalfEven (x / 2 ^ (Int.log 2 x - 23)) := by
    have := roundHalfEven_mono ((8388608 : ℤ) : ℚ) _ (by exact_mod_cast a)
    rwa [roundHalfEven_intCast] at this
  have m2 : roundHalfEven (x / 2 ^ (Int.log 2 x - 23)) ≤ (16777216 : ℤ) := by
    have := roundHalfEven_mono _ ((16777216 : ℤ) : ℚ) (by exact_mod_cast b)
    rwa [roundHalfEven_intCast] at this
  have c1 : (8388608 : ℚ) ≤ (roundHalfEven (x / 2 ^ (Int.log 2 x - 23)) : ℚ) := by
    exact_mod_cast m1
  have c2 : (roundHalfEven (x / 2 ^ (Int.log 2 x - 23)) : ℚ) ≤ 16777216 := by
    exact_mod_cast m2
  unfold Float32.roundPos
  constructor
  · rw [← Float32.ulp_mul]
    exact mul_le_mul_of_nonneg_right c1 (le_of_lt hu)
  · rw [← Float32.ulp_mul_succ]
    exact mul_le_mul_of_nonneg_right c2 (le_of_lt hu)

theorem Float32.roundPos_pos (x : ℚ) (hx : 0 < x) : 0 < Float32.roundPos x :=
  lt_of_lt_of_le (Float32.two_zpow_pos _) (Float32.roundPos_range x hx).1

theorem Float32.roundPos_mono (x y : ℚ) (hx : 0 < x) (h : x ≤ y) :
    Float32.roundPos x ≤ Float32.roundPos y := by
  have hy : 0 < y := lt_of_lt_of_le hx h
  have he : Int.log 2 x ≤ Int.log 2 y := Int.log_mono_right hx h
  rcases Nat.lt_or_ge 0 (Int.log 2 y - Int.log 2 x).toNat with hlt | hge
  · have a := (Float32.roundPos_range x hx).2
    have b := (Float32.roundPos_range y hy).1
    have c : (2 : ℚ) ^ (Int.log 2 x + 1) ≤ 2 ^ Int.log 2 y :=
      zpow_le_zpow_right₀ (by norm_num) (by omega)
    linarith
  · have e : Int.log 2 x = Int.log 2 y := by omega
    unfold Float32.roundPos
    rw [e]
    have hu := Float32.two_zpow_pos (Int.log 2 y - 23)
    have hq : x / 2 ^ (Int.log 2 y - 23) ≤ y / 2 ^ (Int.log 2 y - 23) :=
      div_le_div_of_nonneg_right h (le_of_lt hu)
    have hm := roundHalfEven_mono _ _ hq
    have hm2 : (roundHalfEven (x / 2 ^ (Int.log 2 y - 23)) : ℚ)
        ≤ (roundHalfEven (y / 2 ^ (Int.log 2 y - 23)) : ℚ) := by exact_mod_cast hm
    exact mul_le_mul_of_nonneg_right hm2 (le_of_lt hu)

theorem Float32.roundPos_error (x : ℚ) (hx : 0 < x) :
    |Float32.roundPos x - x| ≤ x / 16777216 := by
  obtain ⟨a, _⟩ := Float32.log_spec x hx
  have hu := Float32.two_zpow_pos (Int.log 2 x - 23)
  obtain ⟨n1, n2⟩ := roundHalfEven_near (x / 2 ^ (Int.log 2 x - 23))
  have ex : x = x / 2 ^ (Int.log 2 x - 23) * 2 ^ (Int.log 2 x - 23) := by
    field_simp
  have hb : (2 : ℚ) ^ (Int.log 2 x - 23) / 2 ≤ x / 16777216 := by
    have := Float32.ulp_mul (Int.log 2 x)
    linarith
  unfold Float32.roundPos
  rw [abs_sub_le_iff]
  generalize hq : x / 2 ^ (Int.log 2 x - 23) = q at n1 n2 ex
  generalize hm : (roundHalfEven q : ℚ) = m at n1 n2
  generalize hU : (2 : ℚ) ^ (Int.log 2 x - 23) = U at hu ex hb
  constructor
  · have : m * U - x ≤ U / 2 := by
      rw [ex]
      nlinarith
    linarith
  · have : x - m * U ≤ U / 2 := by
      rw [ex]
      nlinarith
    linarith

theorem Float32.roundPos_eq (x : ℚ) (e m : ℤ) (h1 : (2 : ℚ) ^ e ≤ x) (h2 : x < 2 ^ (e + 1))
    (hm : roundHalfEven (x / 2 ^ (e - 23)) = m) :
    Float32.roundPos x = (m : ℚ) * 2 ^ (e - 23) := by
  unfold Float32.roundPos
  rw [Float32.log_eq x e h1 h2, hm]

theorem Float32.round_zero : Float32.round 0 = 0 := by
  unfold Float32.round
  rw [if_pos rfl]

theorem Float32.round_of_pos (x : ℚ) (hx : 0 < x) : Float32.round x = Float32.roundPos x := by
  unfold Float32.round
  rw [if_neg (ne_of_gt hx), if_neg (not_lt.mpr (le_of_lt hx))]

theorem Float32.round_of_neg (x : ℚ) (hx : x < 0) :
    Float32.round x = -Float32.roundPos (-x) := by
  unfold Float32.round
  rw [if_neg (ne_of_lt hx), if_pos hx]

theorem Float32.round_nonneg (x : ℚ) (hx : 0 ≤ x) : 0 ≤ Float32.round x := by
  rcases eq_or_lt_of_le hx with h | h
  · rw [← h, Float32.round_zero]
  · rw [Float32.round_of_pos x h]
    exact le_of_lt (Float32.roundPos_pos x h)

theorem Float32.round_nonpos (x : ℚ) (hx : x ≤ 0) : Float32.round x ≤ 0 := by
  rcases eq_or_lt_of_le hx with h | h
  · rw [h, Float32.round_zero]
  · rw [Float32.round_of_neg x h]
    have := Float32.roundPos_pos (-x) (by linarith)
    linarith

theorem Float32.round_mono (x y : ℚ) (h : x ≤ y) : Float32.round x ≤ Float32.round y := by
  rcases lt_trichotomy 0 x with hx | hx | hx
  · rw [Float32.round_of_pos x hx, Float32.round_of_pos y (lt_of_lt_of_le hx h)]
    exact Float32.roundPos_mono x y hx h
  · rw [← hx, Float32.round_zero]
    exact Float32.round_nonneg y (by linarith)
  · rcases lt_or_le y 0 with hy | hy
    · rw [Float32.round_of_neg x hx, Float32.round_of_neg y hy]
      have := Float32.roundPos_mono (-y) (-x) (by linarith) (by linarith)
      linarith
    · have a := Float32.round_nonpos x (le_of_lt hx)
      have b := Float32.round_nonneg y hy
      linarith

theorem Float32.round_error (x : ℚ) : |Float32.round x - x| ≤ |x| / 16777216 := by
  rcases lt_trichotomy 0 x with hx | hx | hx
  · rw [Float32.round_of_pos x hx, abs_of_pos hx]
    exact Float32.roundPos_error x hx
  · rw [← hx, Float32.round_zero]
    norm_num
  · rw [Float32.round_of_neg x hx, abs_of_neg hx]
    have := Float32.roundPos_error (-x) (by linarith)
    rw [abs_sub_le_iff] at this ⊢
    constructor <;> linarith [this.1, this.2]

theorem Float32.round_eq (x : ℚ) (e m : ℤ) (h1 : (2 : ℚ) ^ e ≤ x) (h2 : x < 2 ^ (e + 1))
    (hm : roundHalfEven (x / 2 ^ (e - 23)) = m) :
    Float32.round x = (m : ℚ) * 2 ^ (e - 23) := by
  rw [Float32.round_of_pos x (lt_of_lt_of_le (Float32.two_zpow_pos e) h1)]
  exact Float32.roundPos_eq x e m h1 h2 hm

theorem Float32.round_51200 : Float32.round 51200 = 51200 := by
  rw [Float32.round_eq 51200 15 13107200 (by norm_num) (by norm_num)
    (by
      have : (51200 : ℚ) / 2 ^ ((15 : ℤ) - 23) = ((13107200 : ℤ) : ℚ) := by norm_num
      rw [this, roundHalfEven_intCast])]
  norm_num

theorem Float32.round_65535 : Float32.round 65535 = 65535 := by
  rw [Float32.round_eq 65535 15 16776960 (by norm_num) (by norm_num)
    (by
      have : (65535 : ℚ) / 2 ^ ((15 : ℤ) - 23) = ((16776960 : ℤ) : ℚ) := by norm_num
      rw [this, roundHalfEven_intCast])]
  norm_num

theorem Float32.round_one : Float32.round 1 = 1 := by
  rw [Float32.round_eq 1 0 8388608 (by norm_num) (by norm_num)
    (by
      have : (1 : ℚ) / 2 ^ ((0 : ℤ) - 23) = ((8388608 : ℤ) : ℚ) := by norm_num
      rw [this, roundHalfEven_intCast])]
  norm_num

theorem Float32.round_25600 : Float32.round 25600 = 25600 := by
  rw [Float32.round_eq 25600 14 13107200 (by norm_num) (by norm_num)
    (by
      have : (25600 : ℚ) / 2 ^ ((14 : ℤ) - 23) = ((13107200 : ℤ) : ℚ) := by norm_num
      rw [this, roundHalfEven_intCast])]
  norm_num

theorem Float32.round_half : Float32.round (1 / 2) = 1 / 2 := by
  rw [Float32.round_eq (1 / 2) (-1) 8388608 (by norm_num) (by norm_num)
    (by
      have : (1 / 2 : ℚ) / 2 ^ ((-1 : ℤ) - 23) = ((8388608 : ℤ) : ℚ) := by norm_num
      rw [this, roundHalfEven_intCast])]
  norm_num

theorem Float32.round_32767_half : Float32.round (65535 / 2) = 65535 / 2 := by
  rw [Float32.round_eq (65535 / 2) 14 16776960 (by norm_num) (by norm_num)
    (by
      have : (65535 / 2 : ℚ) / 2 ^ ((14 : ℤ) - 23) = ((16776960 : ℤ) : ℚ) := by norm_num
      rw [this, roundHalfEven_intCast])]
  norm_num

theorem ImportAvatarItem.body_skip (host : Host) (meshs : Zsc) (modelIdx j : Nat)
    (part : Zsc.Part) (s st : AvatarState) (hr : part.isRenderable = false)
    (h : ImportAvatarItem.body host meshs modelIdx j part s = some st) : st = s := by
  have hc : part.dummyIdx ≠ 0xFFFF ∨ part.boneIdx ≠ 0xFFFF := by
    simp [Zsc.Part.isRenderable] at hr
    by_cases h1 : part.dummyIdx = 0xFFFF
    · exact Or.inr (hr h1)
    · exact Or.inl h1
  unfold ImportAvatarItem.body at h
  cases ht : meshs.textures[part.texIdx]? with
  | none => simp [ht] at h
  | some tex =>
    simp [ht, hc] at h
    exact h.symm

theorem ImportAvatarItem.body_render (host : Host) (meshs : Zsc) (modelIdx j : Nat)
    (part : Zsc.Part) (s st : AvatarState) (hr : part.isRenderable = true)
    (h : ImportAvatarItem.body host meshs modelIdx j part s = some st) :
    ∃ tex path tp mp, meshs.textures[part.texIdx]? = some tex ∧
      meshs.meshes[part.meshIdx]? = some path ∧
      BuildAssetPath tex.filePath "_Texture" = some tp ∧ BuildAssetPath path "" = some mp ∧
      st.meshData.meshes = s.meshData.meshes ++
        [ImportMeshData.Item.new (host.loadZms (host.RoseBasePath ++ path)) j] ∧
      st.meshData.materials = s.meshData.materials ++
        [ImportMaterial mp.PackageName
          ("Model_" ++ toString modelIdx ++ "_" ++ toString j ++ "_Material") tex
          (ImportTexture tp.PackageName tp.AssetName (host.RoseBasePath ++ tex.filePath))] := by
  have hc : ¬ (part.dummyIdx ≠ 0xFFFF ∨ part.boneIdx ≠ 0xFFFF) := by
    simp [Zsc.Part.isRenderable] at hr
    simp [hr.1, hr.2]
  unfold ImportAvatarItem.body at h
  cases ht : meshs.textures[part.texIdx]? with
  | none => simp [ht] at h
  | some tex =>
    cases hm : meshs.meshes[part.meshIdx]? with
    | none => simp [ht, hc, hm] at h
    | some path =>
      cases h1 : BuildAssetPath tex.filePath "_Texture" with
      | none => simp [ht, hc, hm, h1] at h
      | some tp =>
        cases h2 : BuildAssetPath path "" with
        | none => simp [ht, hc, hm, h1, h2] at h
        | some mp =>
          simp [ht, hc, hm, h1, h2] at h
          refine ⟨tex, path, tp, mp, rfl, rfl, h1, h2, ?_, ?_⟩
          · rw [← h]
          · rw [← h]

theorem ImportAvatarItem.fold_spec (host : Host) (meshs : Zsc) (modelIdx : Nat)
    (xs : List Zsc.Part) (k : Nat) (s st : AvatarState)
    (h : (xs.enumFrom k).foldlM
      (fun st jx => ImportAvatarItem.body host meshs modelIdx jx.1 jx.2 st) s = some st) :
    ∃ ms mats, st.meshData.meshes = s.meshData.meshes ++ ms ∧
      st.meshData.materials = s.meshData.materials ++ mats ∧
      List.Forall₂ (fun (it : ImportMeshData.Item) (jp : Nat × Zsc.Part) => it.matIdx = jp.1 ∧
          ∃ path, meshs.meshes[jp.2.meshIdx]? = some path ∧
            it.data = host.loadZms (host.RoseBasePath ++ path))
        ms ((xs.enumFrom k).filter (fun jp => jp.2.isRenderable)) ∧
      List.Forall₂ (fun (m : UMaterialInterface) (jp : Nat × Zsc.Part) =>
          m.MaterialName = "Model_" ++ toString modelIdx ++ "_" ++ toString jp.1 ++ "_Material" ∧
          meshs.textures[jp.2.texIdx]? = some m.TexData)
        mats ((xs.enumFrom k).filter (fun jp => jp.2.isRenderable)) := by
  induction xs generalizing k s with
  | nil =>
    simp at h
    cases h
    exact ⟨[], [], by simp, by simp, by simp, by simp⟩
  | cons x xs ih =>
    rw [List.enumFrom_cons, List.foldlM_cons] at h
    cases hb : ImportAvatarItem.body host meshs modelIdx k x s with
    | none => simp [hb] at h
    | some s1 =>
      simp [hb] at h
      obtain ⟨ms, mats, h1, h2, h3, h4⟩ := ih (k + 1) s1 h
      cases hr : x.isRenderable with
      | false =>
        have := ImportAvatarItem.body_skip host meshs modelIdx k x s s1 hr hb
        subst this
        refine ⟨ms, mats, h1, h2, ?_, ?_⟩
        · simpa [List.enumFrom_cons, List.filter_cons, hr] using h3
        · simpa [List.enumFrom_cons, List.filter_cons, hr] using h4
      | true =>
        obtain ⟨tex, path, tp, mp, e1, e2, _, _, e5, e6⟩ :=
          ImportAvatarItem.body_render host meshs modelIdx k x s s1 hr hb
        refine ⟨ImportMeshData.Item.new (host.loadZms (host.RoseBasePath ++ path)) k :: ms,
          ImportMaterial mp.PackageName
            ("Model_" ++ toString modelIdx ++ "_" ++ toString k ++ "_Material") tex
            (ImportTexture tp.PackageName tp.AssetName (host.RoseBasePath ++ tex.filePath))
            :: mats, ?_, ?_, ?_, ?_⟩
        · rw [h1, e5]; simp
        · rw [h2, e6]; simp
        · simp only [List.enumFrom_cons, List.filter_cons, hr, if_true]
          exact List.Forall₂.cons ⟨rfl, path, e2, rfl⟩ h3
        · simp only [List.enumFrom_cons, List.filter_cons, hr, if_true]
          exact List.Forall₂.cons ⟨rfl, e1⟩ h4

theorem ImportAvatarItem.fold_isSome (host : Host) (meshs : Zsc) (modelIdx : Nat)
    (xs : List Zsc.Part) (k : Nat) (s : AvatarState)
    (htex : ∀ p ∈ xs, p.texIdx < meshs.textures.length)
    (hok : ∀ p ∈ xs, p.isRenderable = true → ∃ tex path,
      meshs.textures[p.texIdx]? = some tex ∧ meshs.meshes[p.meshIdx]? = some path ∧
      (BuildAssetPath tex.filePath "_Texture").isSome ∧ (BuildAssetPath path "").isSome) :
    ((xs.enumFrom k).foldlM
      (fun st jx => ImportAvatarItem.body host meshs modelIdx jx.1 jx.2 st) s).isSome := by
  induction xs generalizing k s with
  | nil => simp
  | cons x xs ih =>
    rw [List.enumFrom_cons, List.foldlM_cons]
    have hx := htex x (List.mem_cons_self _ _)
    have hb : ∃ s1, ImportAvatarItem.body host meshs modelIdx k x s = some s1 := by
      unfold ImportAvatarItem.body
      cases hr : x.isRenderable with
      | false =>
        have hc : x.dummyIdx ≠ 0xFFFF ∨ x.boneIdx ≠ 0xFFFF := by
          simp [Zsc.Part.isRenderable] at hr
          by_cases h1 : x.dummyIdx = 0xFFFF
          · exact Or.inr (hr h1)
          · exact Or.inl h1
        simp [List.getElem?_eq_getElem hx, hc]
      | true =>
        obtain ⟨tex, path, e1, e2, e3, e4⟩ := hok x (List.mem_cons_self _ _) hr
        have hc : ¬ (x.dummyIdx ≠ 0xFFFF ∨ x.boneIdx ≠ 0xFFFF) := by
          simp [Zsc.Part.isRenderable] at hr
          simp [hr.1, hr.2]
        obtain ⟨tp, e3⟩ := Option.isSome_iff_exists.mp e3
        obtain ⟨mp, e4⟩ := Option.isSome_iff_exists.mp e4
        simp [e1, e2, e3, e4, hc]
    obtain ⟨s1, hb⟩ := hb
    simp only [hb, Option.bind_eq_bind, Option.some_bind]
    exact ih (k + 1) s1 (fun p hp => htex p (List.mem_cons_of_mem _ hp))
      (fun p hp => hok p (List.mem_cons_of_mem _ hp))

theorem ImportChar.partBody_skip (host : Host) (meshs : Zsc) (cn pn : String) (j : Nat)
    (part : Zsc.Part) (s st : CharState) (hr : part.isRenderable = false)
    (h : ImportChar.partBody host meshs cn pn j part s = some st) : st = s := by
  have hc : part.dummyIdx ≠ 0xFFFF ∨ part.boneIdx ≠ 0xFFFF := by
    simp [Zsc.Part.isRenderable] at hr
    by_cases h1 : part.dummyIdx = 0xFFFF
    · exact Or.inr (hr h1)
    · exact Or.inl h1
  unfold ImportChar.partBody at h
  cases ht : meshs.textures[part.texIdx]? with
  | none => simp [ht] at h
  | some tex =>
    simp [ht, hc] at h
    exact h.symm

theorem ImportChar.partBody_render (host : Host) (meshs : Zsc) (cn pn : String) (j : Nat)
    (part : Zsc.Part) (s st : CharState) (hr : part.isRenderable = true)
    (h : ImportChar.partBody host meshs cn pn j part s = some st) :
    ∃ tex path, meshs.textures[part.texIdx]? = some tex ∧
      meshs.meshes[part.meshIdx]? = some path ∧
      st.meshData.meshes = s.meshData.meshes ++
        [ImportMeshData.Item.new (host.loadZms (host.RoseBasePath ++ path)) s.texIdx] ∧
      st.meshData.materials = s.meshData.materials ++
        [ImportMaterial pn (cn ++ "_" ++ toString s.texIdx ++ "_Material") tex
          (ImportTexture pn (cn ++ "_" ++ toString s.texIdx ++ "_Texture")
            (host.RoseBasePath ++ tex.filePath))] := by
  have hc : ¬ (part.dummyIdx ≠ 0xFFFF ∨ part.boneIdx ≠ 0xFFFF) := by
    simp [Zsc.Part.isRenderable] at hr
    simp [hr.1, hr.2]
  unfold ImportChar.partBody at h
  cases ht : meshs.textures[part.texIdx]? with
  | none => simp [ht] at h
  | some tex =>
    cases hm : meshs.meshes[part.meshIdx]? with
    | none => simp [ht, hc, hm] at h
    | some path =>
      simp [ht, hc, hm] at h
      refine ⟨tex, path, rfl, rfl, ?_, ?_⟩
      · rw [← h]
      · rw [← h]

theorem ImportChar.partFold_spec (host : Host) (meshs : Zsc) (cn pn : String)
    (xs : List Zsc.Part) (k : Nat) (s st : CharState)
    (h : (xs.enumFrom k).foldlM
      (fun st jx => ImportChar.partBody host meshs cn pn jx.1 jx.2 st) s = some st) :
    ∃ ms mats, st.meshData.meshes = s.meshData.meshes ++ ms ∧
      st.meshData.materials = s.meshData.materials ++ mats ∧
      List.Forall₂ (fun (it : ImportMeshData.Item) (p : Zsc.Part) =>
          ∃ path, meshs.meshes[p.meshIdx]? = some path ∧
            it.data = host.loadZms (host.RoseBasePath ++ path))
        ms (xs.filter Zsc.Part.isRenderable) ∧
      List.Forall₂ (fun (m : UMaterialInterface) (p : Zsc.Part) =>
          meshs.textures[p.texIdx]? = some m.TexData)
        mats (xs.filter Zsc.Part.isRenderable) := by
  induction xs generalizing k s with
  | nil =>
    simp at h
    cases h
    exact ⟨[], [], by simp, by simp, by simp, by simp⟩
  | cons x xs ih =>
    rw [List.enumFrom_cons, List.foldlM_cons] at h
    cases hb : ImportChar.partBody host meshs cn pn k x s with
    | none => simp [hb] at h
    | some s1 =>
      simp [hb] at h
      obtain ⟨ms, mats, h1, h2, h3, h4⟩ := ih (k + 1) s1 h
      cases hr : x.isRenderable with
      | false =>
        have := ImportChar.partBody_skip host meshs cn pn k x s s1 hr hb
        subst this
        refine ⟨ms, mats, h1, h2, ?_, ?_⟩
        · simpa [List.filter_cons, hr] using h3
        · simpa [List.filter_cons, hr] using h4
      | true =>
        obtain ⟨tex, path, e1, e2, e5, e6⟩ :=
          ImportChar.partBody_render host meshs cn pn k x s s1 hr hb
        refine ⟨ImportMeshData.Item.new (host.loadZms (host.RoseBasePath ++ path)) s.texIdx :: ms,
          ImportMaterial pn (cn ++ "_" ++ toString s.texIdx ++ "_Material") tex
            (ImportTexture pn (cn ++ "_" ++ toString s.texIdx ++ "_Texture")
              (host.RoseBasePath ++ tex.filePath)) :: mats, ?_, ?_, ?_, ?_⟩
        · rw [h1, e5]; simp
        · rw [h2, e6]; simp
        · simp only [List.filter_cons, hr, if_true]
          exact List.Forall₂.cons ⟨path, e2, rfl⟩ h3
        · simp only [List.filter_cons, hr, if_true]
          exact List.Forall₂.cons e1 h4

theorem ImportChar.modelFold_spec (host : Host) (meshs : Zsc) (cn pn : String)
    (mis : List Nat) (k : Nat) (s st : CharState)
    (h : (mis.enumFrom k).foldlM
      (fun st jx => ImportChar.modelBody host meshs cn pn jx.1 jx.2 st) s = some st) :
    ∃ models ms mats,
      List.Forall₂ (fun (mi : Nat) (model : Zsc.Model) => meshs.models[mi]? = some model)
        mis models ∧
      st.meshData.meshes = s.meshData.meshes ++ ms ∧
      st.meshData.materials = s.meshData.materials ++ mats ∧
      List.Forall₂ (fun (it : ImportMeshData.Item) (p : Zsc.Part) =>
          ∃ path, meshs.meshes[p.meshIdx]? = some path ∧
            it.data = host.loadZms (host.RoseBasePath ++ path))
        ms ((models.map Zsc.Model.parts).flatten.filter Zsc.Part.isRenderable) ∧
      List.Forall₂ (fun (m : UMaterialInterface) (p : Zsc.Part) =>
          meshs.textures[p.texIdx]? = some m.TexData)
        mats ((models.map Zsc.Model.parts).flatten.filter Zsc.Part.isRenderable) := by
  induction mis generalizing k s with
  | nil =>
    simp at h
    cases h
    exact ⟨[], [], [], by simp, by simp, by simp, by simp, by simp⟩
  | cons mi mis ih =>
    rw [List.enumFrom_cons, List.foldlM_cons] at h
    cases hb : ImportChar.modelBody host meshs cn pn k mi s with
    | none => simp [hb] at h
    | some s1 =>
      simp [hb] at h
      obtain ⟨models, ms, mats, h0, h1, h2, h3, h4⟩ := ih (k + 1) s1 h
      unfold ImportChar.modelBody at hb
      cases hm : meshs.models[mi]? with
      | none => simp [hm] at hb
      | some model =>
        simp [hm] at hb
        rw [forEachIdx_eq_foldlM] at hb
        obtain ⟨ms0, mats0, g1, g2, g3, g4⟩ :=
          ImportChar.partFold_spec host meshs cn pn model.parts 0 s s1 hb
        refine ⟨model :: models, ms0 ++ ms, mats0 ++ mats, List.Forall₂.cons hm h0, ?_, ?_, ?_, ?_⟩
        · rw [h1, g1]; simp
        · rw [h2, g2]; simp
        · simp only [List.map_cons, List.flatten_cons, List.filter_append]
          exact List.rel_append g3 h3
        · simp only [List.map_cons, List.flatten_cons, List.filter_append]
          exact List.rel_append g4 h4

theorem ImportChar.partFold_isSome (host : Host) (meshs : Zsc) (cn pn : String)
    (xs : List Zsc.Part) (k : Nat) (s : CharState)
    (htex : ∀ p ∈ xs, p.texIdx < meshs.textures.length)
    (hmesh : ∀ p ∈ xs, p.isRenderable = true → p.meshIdx < meshs.meshes.length) :
    ((xs.enumFrom k).foldlM
      (fun st jx => ImportChar.partBody host meshs cn pn jx.1 jx.2 st) s).isSome := by
  induction xs generalizing k s with
  | nil => simp
  | cons x xs ih =>
    rw [List.enumFrom_cons, List.foldlM_cons]
    have hx := htex x (List.mem_cons_self _ _)
    have hb : ∃ s1, ImportChar.partBody host meshs cn pn k x s = some s1 := by
      unfold ImportChar.partBody
      cases hr : x.isRenderable with
      | false =>
        have hc : x.dummyIdx ≠ 0xFFFF ∨ x.boneIdx ≠ 0xFFFF := by
          simp [Zsc.Part.isRenderable] at hr
          by_cases h1 : x.dummyIdx = 0xFFFF
          · exact Or.inr (hr h1)
          · exact Or.inl h1
        simp [List.getElem?_eq_getElem hx, hc]
      | true =>
        have hm := hmesh x (List.mem_cons_self _ _) hr
        have hc : ¬ (x.dummyIdx ≠ 0xFFFF ∨ x.boneIdx ≠ 0xFFFF) := by
          simp [Zsc.Part.isRenderable] at hr
          simp [hr.1, hr.2]
        simp [List.getElem?_eq_getElem hx, List.getElem?_eq_getElem hm, hc]
    obtain ⟨s1, hb⟩ := hb
    simp only [hb, Option.bind_eq_bind, Option.some_bind]
    exact ih (k + 1) s1 (fun p hp => htex p (List.mem_cons_of_mem _ hp))
      (fun p hp => hmesh p (List.mem_cons_of_mem _ hp))

theorem ImportChar.modelFold_isSome (host : Host) (meshs : Zsc) (cn pn : String)
    (mis : List Nat) (k : Nat) (s : CharState)
    (hok : ∀ mi ∈ mis, ∃ model, meshs.models[mi]? = some model ∧
      (∀ p ∈ model.parts, p.texIdx < meshs.textures.length) ∧
      (∀ p ∈ model.parts, p.isRenderable = true → p.meshIdx < meshs.meshes.length)) :
    ((mis.enumFrom k).foldlM
      (fun st jx => ImportChar.modelBody host meshs cn pn jx.1 jx.2 st) s).isSome := by
  induction mis generalizing k s with
  | nil => simp
  | cons mi mis ih =>
    rw [List.enumFrom_cons, List.foldlM_cons]
    obtain ⟨model, hm, h1, h2⟩ := hok mi (List.mem_cons_self _ _)
    have hb : ∃ s1, ImportChar.modelBody host meshs cn pn k mi s = some s1 := by
      unfold ImportChar.modelBody
      simp only [hm, Option.bind_eq_bind, Option.some_bind]
      rw [forEachIdx_eq_foldlM]
      exact Option.isSome_iff_exists.mp
        (ImportChar.partFold_isSome host meshs cn pn model.parts 0 s h1 h2)
    obtain ⟨s1, hb⟩ := hb
    simp only [hb, Option.bind_eq_bind, Option.some_bind]
    exact ih (k + 1) s1 (fun p hp => hok p (List.mem_cons_of_mem _ hp))

theorem length_filter_enumFrom {α : Type} (f : α → Bool) (xs : List α) (k : Nat) :
    ((xs.enumFrom k).filter (fun jp => f jp.2)).length = xs.countP f := by
  induction xs generalizing k with
  | nil => simp
  | cons x xs ih =>
    simp only [List.enumFrom_cons, List.filter_cons, List.countP_cons]
    cases f x <;> simp [ih]

/-- C1. `ImportAvatarItem` and `ImportChar` add exactly one mesh item and one
material for each part whose `dummyIdx` and `boneIdx` both equal `0xFFFF`, in
the parts' file order, and nothing for any other part: the mesh items and the
materials correspond position by position to the renderable parts (of the
model, resp. of the character's models one after the other), so both lists
have as many entries as there are such parts, and the catalog is unchanged.
Both routines do return when the indices they look up are in range (and, for
`ImportAvatarItem`, `BuildAssetPath` accepts the paths of the renderable
parts). -/
theorem ImportAvatarItem_ImportChar_renderable_parts (host : Host) (meshs : Zsc) :
    (∀ (ItemTypeName : String) (modelIdx : Nat) (r : AvatarImport),
      ImportAvatarItem host ItemTypeName meshs modelIdx = some r →
      ∃ model, meshs.models[modelIdx]? = some model ∧
        List.Forall₂ (fun (it : ImportMeshData.Item) (jp : Nat × Zsc.Part) => it.matIdx = jp.1 ∧
            ∃ path, meshs.meshes[jp.2.meshIdx]? = some path ∧
              it.data = host.loadZms (host.RoseBasePath ++ path))
          r.meshData.meshes (renderableParts model.parts) ∧
        List.Forall₂ (fun (m : UMaterialInterface) (jp : Nat × Zsc.Part) =>
            m.MaterialName
              = "Model_" ++ toString modelIdx ++ "_" ++ toString jp.1 ++ "_Material" ∧
            meshs.textures[jp.2.texIdx]? = some m.TexData)
          r.meshData.materials (renderableParts model.parts) ∧
        r.meshData.meshes.length = model.parts.countP Zsc.Part.isRenderable ∧
        r.meshData.materials.length = model.parts.countP Zsc.Part.isRenderable ∧
        r.meshs = meshs) ∧
    (∀ (ItemTypeName : String) (modelIdx : Nat) (model : Zsc.Model),
      meshs.models[modelIdx]? = some model →
      (∀ p ∈ model.parts, p.texIdx < meshs.textures.length) →
      (∀ p ∈ model.parts, p.isRenderable = true → ∃ tex path,
        meshs.textures[p.texIdx]? = some tex ∧ meshs.meshes[p.meshIdx]? = some path ∧
        (BuildAssetPath tex.filePath "_Texture").isSome ∧ (BuildAssetPath path "").isSome) →
      (ImportAvatarItem host ItemTypeName meshs modelIdx).isSome) ∧
    (∀ (chars : Chr) (charIdx : Nat) (r : CharImport),
      ImportChar host chars meshs charIdx = some r →
      ∃ mchar models, chars.characters[charIdx]? = some mchar ∧
        List.Forall₂ (fun (mi : Nat) (model : Zsc.Model) => meshs.models[mi]? = some model)
          mchar.models models ∧
        List.Forall₂ (fun (it : ImportMeshData.Item) (p : Zsc.Part) =>
            ∃ path, meshs.meshes[p.meshIdx]? = some path ∧
              it.data = host.loadZms (host.RoseBasePath ++ path))
          r.meshData.meshes ((models.map Zsc.Model.parts).flatten.filter Zsc.Part.isRenderable) ∧
        List.Forall₂ (fun (m : UMaterialInterface) (p : Zsc.Part) =>
            meshs.textures[p.texIdx]? = some m.TexData)
          r.meshData.materials
          ((models.map Zsc.Model.parts).flatten.filter Zsc.Part.isRenderable) ∧
        r.meshData.meshes.length
          = (models.map Zsc.Model.parts).flatten.countP Zsc.Part.isRenderable ∧
        r.meshData.materials.length
          = (models.map Zsc.Model.parts).flatten.countP Zsc.Part.isRenderable ∧
        r.meshs = meshs) ∧
    (∀ (chars : Chr) (charIdx : Nat) (mchar : Chr.Character),
      chars.characters[charIdx]? = some mchar →
      mchar.skeletonIdx < chars.skeletons.length →
      (∀ mi ∈ mchar.models, ∃ model, meshs.models[mi]? = some model ∧
        (∀ p ∈ model.parts, p.texIdx < meshs.textures.length) ∧
        (∀ p ∈ model.parts, p.isRenderable = true → p.meshIdx < meshs.meshes.length)) →
      (ImportChar host chars meshs charIdx).isSome) := by
  refine ⟨?_, ?_, ?_, ?_⟩
  · intro name modelIdx r h
    unfold ImportAvatarItem at h
    cases hm : meshs.models[modelIdx]? with
    | none => simp [hm] at h
    | some model =>
      simp only [hm, Option.bind_eq_bind, Option.some_bind] at h
      rw [forEachIdx_eq_foldlM] at h
      obtain ⟨st, hf, h⟩ := Option.bind_eq_some.mp h
      · simp only [Option.some.injEq] at h
        obtain ⟨ms, mats, h1, h2, h3, h4⟩ :=
          ImportAvatarItem.fold_spec host meshs modelIdx model.parts 0 _ st hf
        simp only [ImportMeshData.empty, List.nil_append] at h1 h2
        subst h
        refine ⟨model, rfl, ?_, ?_, ?_, ?_, rfl⟩
        · simpa [h1, renderableParts, List.enum] using h3
        · simpa [h2, renderableParts, List.enum] using h4
        · simp only [h1]
          rw [h3.length_eq, length_filter_enumFrom]
        · simp only [h2]
          rw [h4.length_eq, length_filter_enumFrom]
  · intro name modelIdx model hm htex hok
    unfold ImportAvatarItem
    simp only [hm, Option.bind_eq_bind, Option.some_bind]
    rw [forEachIdx_eq_foldlM]
    obtain ⟨st, hst⟩ := Option.isSome_iff_exists.mp
      (ImportAvatarItem.fold_isSome host meshs modelIdx model.parts 0
        { meshData := ImportMeshData.empty,
          breaks := if model.parts.length = 0 then 1 else 0 } htex hok)
    simp only [List.enum, hst, Option.some_bind, Option.isSome_some]
  · intro chars charIdx r h
    unfold ImportChar at h
    cases hc : chars.characters[charIdx]? with
    | none => simp [hc] at h
    | some mchar =>
      cases hs : chars.skeletons[mchar.skeletonIdx]? with
      | none => simp [hc, hs] at h
      | some skelPath =>
        simp only [hc, hs, Option.bind_eq_bind, Option.some_bind] at h
        rw [forEachIdx_eq_foldlM] at h
        obtain ⟨st, hf, h⟩ := Option.bind_eq_some.mp h
        · simp only [Option.some.injEq] at h
          obtain ⟨models, ms, mats, h0, h1, h2, h3, h4⟩ :=
            ImportChar.modelFold_spec host meshs _ _ mchar.models 0 _ st hf
          simp only [ImportMeshData.empty, List.nil_append] at h1 h2
          subst h
          refine ⟨mchar, models, rfl, h0, ?_, ?_, ?_, ?_, rfl⟩
          · simpa [h1] using h3
          · simpa [h2] using h4
          · simp only [h1]
            rw [h3.length_eq, List.countP_eq_length_filter]
          · simp only [h2]
            rw [h4.length_eq, List.countP_eq_length_filter]
  · intro chars charIdx mchar hc hs hok
    unfold ImportChar
    simp only [hc, List.getElem?_eq_getElem hs, Option.bind_eq_bind, Option.some_bind]
    rw [forEachIdx_eq_foldlM]
    obtain ⟨st, hst⟩ := Option.isSome_iff_exists.mp
      (ImportChar.modelFold_isSome host meshs ("Char_" ++ toString charIdx)
        ("/" ++ ("Char_" ++ toString charIdx)) mchar.models 0
        { meshData := ImportMeshData.empty, texIdx := 0 } hok)
    simp only [List.enum, hst, Option.some_bind, Option.isSome_some]

/-- C1, witness: on the sample catalog, whose model has three parts of which
the second is bound to a dummy point, both routines return and build two mesh
items and two materials. -/
theorem ImportAvatarItem_ImportChar_renderable_parts_witness :
    (∃ r, ImportAvatarItem sampleHost "Body" sampleCatalog 0 = some r ∧
      r.meshData.meshes.length = 2 ∧ r.meshData.materials.length = 2) ∧
    (∃ r, ImportChar sampleHost sampleChars sampleCatalog 0 = some r ∧
      r.meshData.meshes.length = 2 ∧ r.meshData.materials.length = 2) := by
  have hA : (ImportAvatarItem sampleHost "Body" sampleCatalog 0).isSome = true := by decide
  have hC : (ImportChar sampleHost sampleChars sampleCatalog 0).isSome = true := by decide
  obtain ⟨r, hr⟩ := Option.isSome_iff_exists.mp hA
  obtain ⟨c, hc⟩ := Option.isSome_iff_exists.mp hC
  have T := ImportAvatarItem_ImportChar_renderable_parts sampleHost sampleCatalog
  obtain ⟨model, hm, _, _, h3, h4, _⟩ := T.1 "Body" 0 r hr
  obtain ⟨mchar, models, hm2, hF, _, _, h5, h6, _⟩ := T.2.2.1 sampleChars 0 c hc
  have e1 : model
      = ⟨[samplePart 0xFFFF 0xFFFF, samplePart 3 0xFFFF, samplePart 0xFFFF 0xFFFF]⟩ := by
    simpa [sampleCatalog] using hm.symm
  have e2 : mchar = ⟨0, [0], []⟩ := by
    simpa [sampleChars] using hm2.symm
  subst e1 e2
  obtain ⟨model2, rest, g1, g2, rfl⟩ := List.forall₂_cons_left_iff.mp hF
  have e3 : model2
      = ⟨[samplePart 0xFFFF 0xFFFF, samplePart 3 0xFFFF, samplePart 0xFFFF 0xFFFF]⟩ := by
    simpa [sampleCatalog] using g1.symm
  have e4 : rest = [] := List.forall₂_nil_left_iff.mp g2
  subst e3 e4
  refine ⟨⟨r, hr, ?_, ?_⟩, ⟨c, hc, ?_, ?_⟩⟩
  · rw [h3]; decide
  · rw [h4]; decide
  · rw [h5]; decide
  · rw [h6]; decide

/-! ## Induction over loops -/

theorem forLoop_induction {σ : Type} (n : Nat) (body : Nat → σ → Option σ) (s : σ)
    (P : Nat → σ → Prop) (h0 : P 0 s)
    (hstep : ∀ j st st', j < n → P j st → body j st = some st' → P (j + 1) st')
    (r : σ) (h : forLoop n body s = some r) : P n r := by
  induction n generalizing r with
  | zero =>
    rw [forLoop_zero] at h
    cases h
    exact h0
  | succ n ih =>
    rw [forLoop_succ] at h
    obtain ⟨st, h1, h2⟩ := Option.bind_eq_some.mp h
    exact hstep n st r (Nat.lt_succ_self n)
      (ih (fun j st st' hj => hstep j st st' (Nat.lt_succ_of_lt hj)) st h1) h2

theorem forLoop_total {σ : Type} (n : Nat) (body : Nat → σ → Option σ) (s : σ)
    (P : Nat → σ → Prop) (h0 : P 0 s)
    (hstep : ∀ j st, j < n → P j st → ∃ st', body j st = some st' ∧ P (j + 1) st') :
    ∃ r, forLoop n body s = some r ∧ P n r := by
  induction n with
  | zero => exact ⟨s, forLoop_zero body s, h0⟩
  | succ n ih =>
    obtain ⟨st, h1, h2⟩ := ih (fun j st hj => hstep j st (Nat.lt_succ_of_lt hj))
    obtain ⟨st', h3, h4⟩ := hstep n st (Nat.lt_succ_self n) h2
    exact ⟨st', by rw [forLoop_succ, h1]; exact h3, h4⟩

theorem forEachIdx_induction {α σ : Type} (xs : List α) (body : Nat → α → σ → Option σ) (s : σ)
    (P : Nat → σ → Prop) (h0 : P 0 s)
    (hstep : ∀ j x st st', xs[j]? = some x → P j st → body j x st = some st' → P (j + 1) st')
    (r : σ) (h : forEachIdx xs body s = some r) : P xs.length r := by
  unfold forEachIdx at h
  refine forLoop_induction xs.length _ s P h0 ?_ r h
  intro j st st' hj hP hb
  simp only [List.getElem?_eq_getElem hj, Option.bind_eq_bind, Option.some_bind] at hb
  exact hstep j xs[j] st st' (List.getElem?_eq_getElem hj) hP hb

theorem forEachIdx_total {α σ : Type} (xs : List α) (body : Nat → α → σ → Option σ) (s : σ)
    (P : Nat → σ → Prop) (h0 : P 0 s)
    (hstep : ∀ j x st, xs[j]? = some x → P j st → ∃ st', body j x st = some st' ∧ P (j + 1) st') :
    ∃ r, forEachIdx xs body s = some r ∧ P xs.length r := by
  unfold forEachIdx
  refine forLoop_total xs.length _ s P h0 ?_
  intro j st hj hP
  simp only [List.getElem?_eq_getElem hj, Option.bind_eq_bind, Option.some_bind]
  exact hstep j xs[j] st (List.getElem?_eq_getElem hj) hP

theorem modifyAt_eq_some {α : Type} (xs ys : List α) (i : Nat) (f : α → α) :
    modifyAt xs i f = some ys ↔ ∃ x, xs[i]? = some x ∧ ys = xs.set i (f x) := by
  unfold modifyAt
  cases h : xs[i]? with
  | none => simp
  | some x =>
    simp only [Option.some.injEq, exists_eq_left']
    exact eq_comm

theorem modifyAt_of_lt {α : Type} (xs : List α) (i : Nat) (f : α → α) (h : i < xs.length) :
    modifyAt xs i f = some (xs.set i (f xs[i])) := by
  unfold modifyAt
  simp [List.getElem?_eq_getElem h]

theorem setAt_eq_some {α : Type} (xs ys : List α) (i : Nat) (v : α) :
    setAt xs i v = some ys ↔ i < xs.length ∧ ys = xs.set i v := by
  unfold setAt
  by_cases h : i < xs.length
  · simp [h, eq_comm]
  · simp [h]

/-! ## C2: `ImportWorldZscModel` builds a mesh for every part -/

/-- C2, evaluation at the failing input. The model of the sample catalog has
three parts, the second of which has `dummyIdx = 3`; `ImportWorldZscModel`
builds a static mesh and a mesh component for all three, the second
included, whereas `ImportAvatarItem` skips that part. -/
theorem ImportWorldZscModel_builds_attachment_part :
    ((sampleCatalog.models[0]?).map (fun m => m.parts.map Zsc.Part.dummyIdx))
      = some [0xFFFF, 3, 0xFFFF] ∧
    (ImportWorldZscModel sampleHost "JDTC" sampleCatalog 0).map
      (fun bp => bp.components.map MeshComponent.partIdx) = some [0, 1, 2] ∧
    (ImportAvatarItem sampleHost "JDTC" sampleCatalog 0).map
      (fun r => r.meshData.meshes.map ImportMeshData.Item.matIdx) = some [0, 2] := by
  decide

/-! ## C3 and C6: the reference skeleton built by `ApplySkeletonToMesh` -/

theorem ApplySkeletonToMesh.fold_eq (xs : List Zmd.Bone) (k : Nat) (s : FReferenceSkeleton) :
    (xs.enumFrom k).foldlM (fun st ib => ApplySkeletonToMesh.body ib.1 ib.2 st) s
      = some { RefBoneInfo := s.RefBoneInfo ++ (xs.enumFrom k).map (fun ib =>
                 { Name := ib.2.name, ExportName := ib.2.name,
                   ParentIndex := if ib.1 = 0 then INDEX_NONE else (ib.2.parent : Int) }),
               RefBonePose := s.RefBonePose ++ xs.map (fun b =>
                 { Rotation := b.rotation, Translation := b.translation }) } := by
  induction xs generalizing k s with
  | nil => simp
  | cons x xs ih =>
    have hb : ApplySkeletonToMesh.body k x s = some
        { RefBoneInfo := s.RefBoneInfo
            ++ [⟨x.name, x.name, if k > 0 then (x.parent : Int) else INDEX_NONE⟩],
          RefBonePose := s.RefBonePose ++ [⟨x.rotation, x.translation⟩] } := rfl
    rw [List.enumFrom_cons, List.foldlM_cons]
    simp only [hb, Option.bind_eq_bind, Option.some_bind]
    rw [ih]
    by_cases hk : k = 0
    · subst hk
      simp
    · have : k > 0 := Nat.pos_of_ne_zero hk
      simp [hk, this]

theorem ApplySkeletonToMesh_eq (rs : FReferenceSkeleton) (skelData : ImportSkelData) :
    ApplySkeletonToMesh rs skelData
      = some { RefBoneInfo := rs.RefBoneInfo ++ skelData.data.bones.enum.map (fun ib =>
                 { Name := ib.2.name, ExportName := ib.2.name,
                   ParentIndex := if ib.1 = 0 then INDEX_NONE else (ib.2.parent : Int) }),
               RefBonePose := rs.RefBonePose ++ skelData.data.bones.map (fun b =>
                 { Rotation := b.rotation, Translation := b.translation }) } := by
  unfold ApplySkeletonToMesh
  rw [forEachIdx_eq_foldlM]
  exact ApplySkeletonToMesh.fold_eq skelData.data.bones 0 rs

/-- C3. `ApplySkeletonToMesh` returns, and adds to the reference skeleton one
bone per Zmd bone, in sequence order, each with that bone's name, rotation and
translation; bone 0 is added with parent `INDEX_NONE` whatever its parent
field holds, every bone `i > 0` with exactly its own parent field. -/
theorem ApplySkeletonToMesh_adds_bones (rs : FReferenceSkeleton) (skelData : ImportSkelData) :
    ∃ r, ApplySkeletonToMesh rs skelData = some r ∧
      r.RefBoneInfo.length = rs.RefBoneInfo.length + skelData.data.bones.length ∧
      r.RefBonePose.length = rs.RefBonePose.length + skelData.data.bones.length ∧
      (∀ i, i < rs.RefBoneInfo.length → r.RefBoneInfo[i]? = rs.RefBoneInfo[i]?) ∧
      (∀ i, i < rs.RefBonePose.length → r.RefBonePose[i]? = rs.RefBonePose[i]?) ∧
      (∀ i bone, skelData.data.bones[i]? = some bone →
        r.RefBoneInfo[rs.RefBoneInfo.length + i]? = some
          { Name := bone.name, ExportName := bone.name,
            ParentIndex := if i = 0 then INDEX_NONE else (bone.parent : Int) } ∧
        r.RefBonePose[rs.RefBonePose.length + i]? = some
          { Rotation := bone.rotation, Translation := bone.translation }) := by
  refine ⟨_, ApplySkeletonToMesh_eq rs skelData, ?_, ?_, ?_, ?_, ?_⟩
  · simp [List.enum]
  · simp
  · intro i hi
    simp [List.getElem?_append_left hi]
  · intro i hi
    simp [List.getElem?_append_left hi]
  · intro i bone hb
    constructor
    · rw [List.getElem?_append_right (Nat.le_add_right _ _)]
      simp [List.enum, List.getElem?_map, List.getElem?_enumFrom, hb]
    · rw [List.getElem?_append_right (Nat.le_add_right _ _)]
      simp [List.getElem?_map, hb]

/-- C3, witness: a root whose parent field holds 7 is added with parent
`INDEX_NONE`, its child with its own parent field 0. -/
theorem ApplySkeletonToMesh_adds_bones_witness :
    ∃ r, ApplySkeletonToMesh FReferenceSkeleton.empty sampleSkelStrayRoot = some r ∧
      r.RefBoneInfo[0]? = some { Name := "Root", ExportName := "Root", ParentIndex := INDEX_NONE } ∧
      r.RefBoneInfo[1]? = some { Name := "child", ExportName := "child", ParentIndex := 0 } := by
  obtain ⟨r, h, _, _, _, _, hb⟩ :=
    ApplySkeletonToMesh_adds_bones FReferenceSkeleton.empty sampleSkelStrayRoot
  refine ⟨r, h, ?_, ?_⟩
  · have := (hb 0 ⟨"Root", 7, ⟨0, 0, 0⟩, ⟨0, 0, 0, 1⟩⟩ (by decide)).1
    simpa [FReferenceSkeleton.empty] using this
  · have := (hb 1 ⟨"child", 0, ⟨1, 0, 0⟩, ⟨0, 0, 0, 1⟩⟩ (by decide)).1
    simpa [FReferenceSkeleton.empty] using this

theorem ApplySkeletonToMesh_lookup (skelData : ImportSkelData) :
    ∃ r, ApplySkeletonToMesh FReferenceSkeleton.empty skelData = some r ∧
      r.RefBoneInfo.length = skelData.data.bones.length ∧
      ∀ i, r.RefBoneInfo[i]? = (skelData.data.bones[i]?).map (fun b =>
        (⟨b.name, b.name, if i = 0 then INDEX_NONE else (b.parent : Int)⟩ : FMeshBoneInfo)) := by
  refine ⟨_, ApplySkeletonToMesh_eq FReferenceSkeleton.empty skelData, ?_, ?_⟩
  · simp [FReferenceSkeleton.empty, List.enum]
  · intro i
    simp only [FReferenceSkeleton.empty, List.nil_append, List.enum, List.getElem?_map,
      List.getElem?_enumFrom]
    cases skelData.data.bones[i]? <;> simp

/-- C6. If every bone `i > 0` of the skeleton has a parent index `< i`, the
reference skeleton that `ApplySkeletonToMesh` builds on a fresh mesh has one
bone per Zmd bone, bone 0 is the only bone whose parent is `INDEX_NONE`, the
parent of every other bone `i` lies in `[0, i)`, and following the parents
from any bone `i` reaches bone 0 after at most `i` steps: a single rooted tree
with no forward reference and no cycle. -/
theorem ApplySkeletonToMesh_rooted_tree (skelData : ImportSkelData)
    (hpar : ∀ i bone, skelData.data.bones[i]? = some bone → 0 < i → bone.parent < i) :
    ∃ r, ApplySkeletonToMesh FReferenceSkeleton.empty skelData = some r ∧
      r.RefBoneInfo.length = skelData.data.bones.length ∧
      (∀ (i : Nat) (info : FMeshBoneInfo), r.RefBoneInfo[i]? = some info →
        (info.ParentIndex = INDEX_NONE ↔ i = 0) ∧
        (0 < i → 0 ≤ info.ParentIndex ∧ info.ParentIndex < (i : Int))) ∧
      (∀ i, i < skelData.data.bones.length → ∃ k, k ≤ i ∧
        (fun j => ((r.RefBoneInfo[j]?).map (fun b => b.ParentIndex.toNat)).getD 0)^[k] i = 0) := by
  obtain ⟨r, hr, hlen, hget⟩ := ApplySkeletonToMesh_lookup skelData
  have hinfo : ∀ (i : Nat) (info : FMeshBoneInfo), r.RefBoneInfo[i]? = some info →
      (info.ParentIndex = INDEX_NONE ↔ i = 0) ∧
      (0 < i → 0 ≤ info.ParentIndex ∧ info.ParentIndex < (i : Int)) := by
    intro i info hi
    rw [hget i] at hi
    cases hb : skelData.data.bones[i]? with
    | none => simp [hb] at hi
    | some b =>
      simp only [hb, Option.map_some', Option.some.injEq] at hi
      subst hi
      by_cases h0 : i = 0
      · subst h0
        simp
      · have hpos : 0 < i := Nat.pos_of_ne_zero h0
        have hlt := hpar i b hb hpos
        simp only [h0, if_false, INDEX_NONE, iff_false]
        refine ⟨by omega, fun _ => ⟨by omega, by omega⟩⟩
  refine ⟨r, hr, hlen, hinfo, ?_⟩
  intro i
  induction i using Nat.strong_induction_on with
  | _ i ih =>
    intro hi
    by_cases h0 : i = 0
    · exact ⟨0, Nat.zero_le _, by simp [h0]⟩
    · have hpos : 0 < i := Nat.pos_of_ne_zero h0
      have hir : i < r.RefBoneInfo.length := by omega
      obtain ⟨info, hinf⟩ : ∃ info, r.RefBoneInfo[i]? = some info :=
        ⟨r.RefBoneInfo[i], List.getElem?_eq_getElem hir⟩
      obtain ⟨hge, hlt⟩ := (hinfo i info hinf).2 hpos
      have hp : info.ParentIndex.toNat < i := by omega
      obtain ⟨k, hk, hit⟩ := ih info.ParentIndex.toNat hp (by omega)
      refine ⟨k + 1, by omega, ?_⟩
      rw [Function.iterate_succ_apply]
      simpa [hinf] using hit

/-- C6, witness: the bones root, child1 (parent 0), child2 (parent 1) satisfy
the hypothesis and give the parents `[INDEX_NONE, 0, 1]`. -/
theorem ApplySkeletonToMesh_rooted_tree_witness :
    (ApplySkeletonToMesh FReferenceSkeleton.empty sampleSkel).map
        (fun r => r.RefBoneInfo.map FMeshBoneInfo.ParentIndex) = some [INDEX_NONE, 0, 1] ∧
    ∃ r, ApplySkeletonToMesh FReferenceSkeleton.empty sampleSkel = some r ∧
      r.RefBoneInfo.length = 3 ∧
      ∃ k, k ≤ 2 ∧
        (fun j => ((r.RefBoneInfo[j]?).map (fun b => b.ParentIndex.toNat)).getD 0)^[k] 2 = 0 := by
  have hyp : ∀ i bone, sampleSkel.data.bones[i]? = some bone → 0 < i → bone.parent < i := by
    intro i bone hb hpos
    match i, hb with
    | 1, hb => simp [sampleSkel] at hb; subst hb; decide
    | 2, hb => simp [sampleSkel] at hb; subst hb; decide
    | i + 3, hb => simp [sampleSkel] at hb
  obtain ⟨r, hr, hlen, _, hroot⟩ := ApplySkeletonToMesh_rooted_tree sampleSkel hyp
  exact ⟨by decide, r, hr, hlen, hroot 2 (by decide)⟩

/-! ## C4, C5 and C7: the tracks built by `ImportSkeletalAnim` -/

theorem ImportSkeletalAnim.trackFold (xs : List Zmd.Bone) (k : Nat)
    (acc : List FRawAnimSequenceTrack) :
    (xs.enumFrom k).foldlM (fun st ib => ImportSkeletalAnim.trackBody ib.1 ib.2 st) acc
      = some (acc ++ xs.map bindPoseTrack) := by
  induction xs generalizing k acc with
  | nil => simp
  | cons x xs ih =>
    have hb : ImportSkeletalAnim.trackBody k x acc = some (acc ++ [bindPoseTrack x]) := rfl
    rw [List.enumFrom_cons, List.foldlM_cons]
    simp only [hb, Option.bind_eq_bind, Option.some_bind]
    rw [ih]
    simp

theorem modifyAt_fold {α β : Type} (g : β → α → α) (frames : List β) (k n : Nat)
    (ts : List α) (t0 : α) (h : ts[k]? = some t0) :
    (frames.enumFrom n).foldlM (fun st jf => modifyAt st k (g jf.2)) ts
      = some (ts.set k (frames.foldl (fun t f => g f t) t0)) := by
  induction frames generalizing n ts t0 with
  | nil =>
    simp only [List.enumFrom_nil, List.foldlM_nil, List.foldl_nil]
    have hk : k < ts.length := (List.getElem?_eq_some.mp h).1
    have : ts.set k t0 = ts := by
      apply List.ext_getElem?
      intro p
      rw [List.getElem?_set]
      by_cases hp : k = p
      · subst hp; simp [hk, h]
      · simp [hp]
    rw [this]
    rfl
  | cons f fs ih =>
    rw [List.enumFrom_cons, List.foldlM_cons]
    have hk : k < ts.length := (List.getElem?_eq_some.mp h).1
    have h1 : modifyAt ts k (g f) = some (ts.set k (g f t0)) :=
      (modifyAt_eq_some _ _ _ _).mpr ⟨t0, h, rfl⟩
    simp only [h1, Option.bind_eq_bind, Option.some_bind]
    have h2 : (ts.set k (g f t0))[k]? = some (g f t0) := by
      simp [List.getElem?_set, hk]
    rw [ih (n + 1) (ts.set k (g f t0)) (g f t0) h2]
    simp [List.set_set]

theorem modifyAt_loop {α β : Type} (g : β → α → α) (frames : List β) (k : Nat)
    (ts : List α) (t0 : α) (h : ts[k]? = some t0) :
    forEachIdx frames (fun _j f st => modifyAt st k (g f)) ts
      = some (ts.set k (frames.foldl (fun t f => g f t) t0)) := by
  rw [forEachIdx_eq_foldlM]
  exact modifyAt_fold g frames k 0 ts t0 h

theorem foldl_PosKeys (frames : List FVector) (t : FRawAnimSequenceTrack) :
    frames.foldl (fun t f => { t with PosKeys := t.PosKeys ++ [f] }) t
      = { t with PosKeys := t.PosKeys ++ frames } := by
  induction frames generalizing t with
  | nil => simp
  | cons f fs ih => simp [ih]

theorem foldl_RotKeys (frames : List FQuat) (t : FRawAnimSequenceTrack) :
    frames.foldl (fun t f => { t with RotKeys := t.RotKeys ++ [f] }) t
      = { t with RotKeys := t.RotKeys ++ frames } := by
  induction frames generalizing t with
  | nil => simp
  | cons f fs ih => simp [ih]

theorem foldl_ScaleKeys (frames : List FVector) (t : FRawAnimSequenceTrack) :
    frames.foldl (fun t f => { t with ScaleKeys := t.ScaleKeys ++ [f] }) t
      = { t with ScaleKeys := t.ScaleKeys ++ frames } := by
  induction frames generalizing t with
  | nil => simp
  | cons f fs ih => simp [ih]

theorem set_eq_mapIdx {α : Type} (ts : List α) (k : Nat) (t0 : α) (f : α → α)
    (h : ts[k]? = some t0) :
    ts.set k (f t0) = ts.mapIdx (fun i t => if k = i then f t else t) := by
  apply List.ext_getElem?
  intro p
  rw [List.getElem?_set, List.getElem?_mapIdx]
  have hk : k < ts.length := (List.getElem?_eq_some.mp h).1
  by_cases hp : k = p
  · subst hp
    simp [hk, h]
  · cases ts[p]? <;> simp [hp]

theorem ImportSkeletalAnim.channelBody_eq (j : Nat) (c : Zmo.Channel) (st : AnimState)
    (h : c.index < st.tracks.length) :
    ImportSkeletalAnim.channelBody j c st
      = some { tracks := st.tracks.mapIdx (fun i t => applyChannel i t c),
               breaks := st.breaks + (if c.isOther then 1 else 0) } := by
  have h0 : st.tracks[c.index]? = some st.tracks[c.index] := List.getElem?_eq_getElem h
  unfold ImportSkeletalAnim.channelBody
  simp only [h0, Option.bind_eq_bind, Option.some_bind]
  cases c with
  | Position k frames =>
    simp only [Zmo.Channel.index] at h h0 ⊢
    simp only [modifyAt_of_lt _ _ _ h, Option.some_bind]
    have h2 : (st.tracks.set k { st.tracks[k] with PosKeys := [] })[k]?
        = some { st.tracks[k] with PosKeys := [] } := by
      simp [List.getElem?_set, h]
    rw [modifyAt_loop (fun f t => { t with PosKeys := t.PosKeys ++ [f] }) frames k _ _ h2]
    simp only [Option.some_bind, foldl_PosKeys, List.set_set, List.nil_append,
      Zmo.Channel.isOther, applyChannel]
    rw [set_eq_mapIdx st.tracks k st.tracks[k] (fun t => { t with PosKeys := frames }) h0]
    simp
  | Rotation k frames =>
    simp only [Zmo.Channel.index] at h h0 ⊢
    simp only [modifyAt_of_lt _ _ _ h, Option.some_bind]
    have h2 : (st.tracks.set k { st.tracks[k] with RotKeys := [] })[k]?
        = some { st.tracks[k] with RotKeys := [] } := by
      simp [List.getElem?_set, h]
    rw [modifyAt_loop (fun f t => { t with RotKeys := t.RotKeys ++ [f] }) frames k _ _ h2]
    simp only [Option.some_bind, foldl_RotKeys, List.set_set, List.nil_append,
      Zmo.Channel.isOther, applyChannel]
    rw [set_eq_mapIdx st.tracks k st.tracks[k] (fun t => { t with RotKeys := frames }) h0]
    simp
  | Scale k frames =>
    simp only [Zmo.Channel.index] at h h0 ⊢
    simp only [modifyAt_of_lt _ _ _ h, Option.some_bind]
    have h2 : (st.tracks.set k { st.tracks[k] with ScaleKeys := [] })[k]?
        = some { st.tracks[k] with ScaleKeys := [] } := by
      simp [List.getElem?_set, h]
    rw [modifyAt_loop (fun f t => { t with ScaleKeys := t.ScaleKeys ++ [f] }) frames k _ _ h2]
    simp only [Option.some_bind, foldl_ScaleKeys, List.set_set, List.nil_append,
      Zmo.Channel.isOther, applyChannel]
    rw [set_eq_mapIdx st.tracks k st.tracks[k] (fun t => { t with ScaleKeys := frames }) h0]
    simp
  | Other k tag =>
    simp only [Zmo.Channel.isOther, applyChannel, if_true, Option.some.injEq,
      AnimState.mk.injEq, and_true]
    apply List.ext_getElem?
    intro p
    rw [List.getElem?_mapIdx]
    cases st.tracks[p]? <;> rfl

theorem ImportSkeletalAnim.channelBody_none (j : Nat) (c : Zmo.Channel) (st : AnimState)
    (h : st.tracks.length ≤ c.index) : ImportSkeletalAnim.channelBody j c st = none := by
  unfold ImportSkeletalAnim.channelBody
  simp [List.getElem?_eq_none h]

theorem ImportSkeletalAnim.channelFold (cs : List Zmo.Channel) (n : Nat) (st : AnimState)
    (h : ∀ c ∈ cs, c.index < st.tracks.length) :
    (cs.enumFrom n).foldlM (fun st jc => ImportSkeletalAnim.channelBody jc.1 jc.2 st) st
      = some { tracks := st.tracks.mapIdx (fun i t => cs.foldl (applyChannel i) t),
               breaks := st.breaks + cs.countP Zmo.Channel.isOther } := by
  induction cs generalizing n st with
  | nil =>
    simp only [List.enumFrom_nil, List.foldlM_nil, List.foldl_nil, List.countP_nil,
      Nat.add_zero]
    have : st.tracks.mapIdx (fun _ t => t) = st.tracks := by
      apply List.ext_getElem?
      intro p
      rw [List.getElem?_mapIdx]
      cases st.tracks[p]? <;> rfl
    rw [this]
    rfl
  | cons c cs ih =>
    rw [List.enumFrom_cons, List.foldlM_cons]
    simp only [ImportSkeletalAnim.channelBody_eq n c st (h c (List.mem_cons_self _ _)),
      Option.bind_eq_bind, Option.some_bind]
    rw [ih (n + 1) _ (by
      intro c' hc'
      simpa using h c' (List.mem_cons_of_mem _ hc'))]
    simp only [List.mapIdx_mapIdx, List.foldl_cons, List.countP_cons, Function.comp_def]
    cases c.isOther <;> simp
    omega

theorem ImportSkeletalAnim.channelFold_none (cs : List Zmo.Channel) (n : Nat) (st : AnimState)
    (h : ∃ c ∈ cs, st.tracks.length ≤ c.index) :
    (cs.enumFrom n).foldlM (fun st jc => ImportSkeletalAnim.channelBody jc.1 jc.2 st) st
      = none := by
  induction cs generalizing n st with
  | nil =>
    obtain ⟨c, hc, _⟩ := h
    cases hc
  | cons c cs ih =>
    rw [List.enumFrom_cons, List.foldlM_cons]
    by_cases hc : c.index < st.tracks.length
    · simp only [ImportSkeletalAnim.channelBody_eq n c st hc, Option.bind_eq_bind,
        Option.some_bind]
      apply ih
      obtain ⟨c', hc', hle⟩ := h
      rcases List.mem_cons.mp hc' with rfl | hmem
      · omega
      · exact ⟨c', hmem, by simpa using hle⟩
    · rw [ImportSkeletalAnim.channelBody_none n c st (by omega)]
      rfl

theorem ImportSkeletalAnim.registerFold (bones : List Zmd.Bone) (ts : List FRawAnimSequenceTrack)
    (k : Nat) (acc : List (String × FRawAnimSequenceTrack))
    (h : k + ts.length ≤ bones.length) :
    (ts.enumFrom k).foldlM (fun raw it =>
        (bones[it.1]?).bind (fun bone => some (raw ++ [(bone.name, it.2)]))) acc
      = some (acc ++ List.zipWith (fun b t => (b.name, t)) (bones.drop k) ts) := by
  induction ts generalizing k acc with
  | nil => simp
  | cons t ts ih =>
    rw [List.enumFrom_cons, List.foldlM_cons]
    simp only [List.length_cons] at h
    have hk : k < bones.length := by omega
    simp only [List.getElem?_eq_getElem hk, Option.bind_eq_bind, Option.some_bind]
    rw [ih (k + 1) _ (by omega)]
    rw [List.drop_eq_getElem_cons hk]
    simp only [List.zipWith_cons_cons, List.append_assoc, List.singleton_append]

theorem ImportSkeletalAnim_eq (skelData : ImportSkelData) (anim : Zmo)
    (h : ∀ c ∈ anim.channels, c.index < skelData.data.bones.length) :
    ImportSkeletalAnim skelData anim
      = some { SequenceLength :=
                 Float32.div (Float32.ofInt anim.frameCount)
                   (Float32.ofInt anim.framesPerSecond),
               NumFrames := anim.frameCount,
               RawTracks := List.zipWith (fun b t => (b.name, t)) skelData.data.bones
                 ((skelData.data.bones.map bindPoseTrack).mapIdx
                   (fun i t => anim.channels.foldl (applyChannel i) t)),
               breaks := anim.channels.countP Zmo.Channel.isOther } := by
  unfold ImportSkeletalAnim
  rw [forEachIdx_eq_foldlM, List.enum, ImportSkeletalAnim.trackFold]
  simp only [Option.bind_eq_bind, Option.some_bind, List.nil_append]
  rw [forEachIdx_eq_foldlM, List.enum, ImportSkeletalAnim.channelFold _ _ _ (by simpa using h)]
  simp only [Option.some_bind]
  rw [forEachIdx_eq_foldlM, List.enum,
    ImportSkeletalAnim.registerFold skelData.data.bones _ 0 [] (by simp)]
  simp

theorem ImportSkeletalAnim_none (skelData : ImportSkelData) (anim : Zmo)
    (h : ∃ c ∈ anim.channels, skelData.data.bones.length ≤ c.index) :
    ImportSkeletalAnim skelData anim = none := by
  unfold ImportSkeletalAnim
  rw [forEachIdx_eq_foldlM, List.enum, ImportSkeletalAnim.trackFold]
  simp only [Option.bind_eq_bind, Option.some_bind, List.nil_append]
  rw [forEachIdx_eq_foldlM, List.enum, ImportSkeletalAnim.channelFold_none _ _ _ (by simpa using h)]
  rfl

theorem ImportSkeletalAnim_track (skelData : ImportSkelData) (anim : Zmo)
    (h : ∀ c ∈ anim.channels, c.index < skelData.data.bones.length) :
    ∃ r, ImportSkeletalAnim skelData anim = some r ∧
      r.NumFrames = anim.frameCount ∧
      r.breaks = anim.channels.countP Zmo.Channel.isOther ∧
      r.RawTracks.length = skelData.data.bones.length ∧
      ∀ i bone, skelData.data.bones[i]? = some bone →
        r.RawTracks[i]?
          = some (bone.name, anim.channels.foldl (applyChannel i) (bindPoseTrack bone)) := by
  refine ⟨_, ImportSkeletalAnim_eq skelData anim h, rfl, rfl, ?_, ?_⟩
  · simp
  · intro i bone hb
    simp [List.getElem?_zipWith, List.getElem?_mapIdx, List.getElem?_map, hb]

theorem applyChannel_fold_pos_untargeted (i : Nat) (cs : List Zmo.Channel)
    (t : FRawAnimSequenceTrack) (h : ∀ k f, Zmo.Channel.Position k f ∈ cs → k ≠ i) :
    (cs.foldl (applyChannel i) t).PosKeys = t.PosKeys := by
  induction cs generalizing t with
  | nil => rfl
  | cons c cs ih =>
    rw [List.foldl_cons, ih _ (fun k f hm => h k f (List.mem_cons_of_mem _ hm))]
    cases c with
    | Position k f =>
      have := h k f (List.mem_cons_self _ _)
      simp [applyChannel, this]
    | Rotation k f => simp only [applyChannel]; split <;> rfl
    | Scale k f => simp only [applyChannel]; split <;> rfl
    | Other k tag => rfl

theorem applyChannel_fold_rot_untargeted (i : Nat) (cs : List Zmo.Channel)
    (t : FRawAnimSequenceTrack) (h : ∀ k f, Zmo.Channel.Rotation k f ∈ cs → k ≠ i) :
    (cs.foldl (applyChannel i) t).RotKeys = t.RotKeys := by
  induction cs generalizing t with
  | nil => rfl
  | cons c cs ih =>
    rw [List.foldl_cons, ih _ (fun k f hm => h k f (List.mem_cons_of_mem _ hm))]
    cases c with
    | Rotation k f =>
      have := h k f (List.mem_cons_self _ _)
      simp [applyChannel, this]
    | Position k f => simp only [applyChannel]; split <;> rfl
    | Scale k f => simp only [applyChannel]; split <;> rfl
    | Other k tag => rfl

theorem applyChannel_fold_scale_untargeted (i : Nat) (cs : List Zmo.Channel)
    (t : FRawAnimSequenceTrack) (h : ∀ k f, Zmo.Channel.Scale k f ∈ cs → k ≠ i) :
    (cs.foldl (applyChannel i) t).ScaleKeys = t.ScaleKeys := by
  induction cs generalizing t with
  | nil => rfl
  | cons c cs ih =>
    rw [List.foldl_cons, ih _ (fun k f hm => h k f (List.mem_cons_of_mem _ hm))]
    cases c with
    | Scale k f =>
      have := h k f (List.mem_cons_self _ _)
      simp [applyChannel, this]
    | Position k f => simp only [applyChannel]; split <;> rfl
    | Rotation k f => simp only [applyChannel]; split <;> rfl
    | Other k tag => rfl

theorem ImportSkeletalAnim_some_inRange (skelData : ImportSkelData) (anim : Zmo)
    (r : UAnimSequence) (hr : ImportSkeletalAnim skelData anim = some r) :
    ∀ c ∈ anim.channels, c.index < skelData.data.bones.length := by
  intro c hc
  by_contra hlt
  rw [ImportSkeletalAnim_none skelData anim ⟨c, hc, by omega⟩] at hr
  cases hr

/-- C4. In every run of `ImportSkeletalAnim` that returns, for every bone that
no channel of a given kind targets, the bone's track has exactly one key of
that kind: the bind-pose translation for position, the bind-pose rotation for
rotation, and `(1,1,1)` for scale. The run does return when every channel's
bone index is below the bone count. -/
theorem ImportSkeletalAnim_untargeted_bone_keeps_bind_pose (skelData : ImportSkelData)
    (anim : Zmo) :
    (∀ r, ImportSkeletalAnim skelData anim = some r →
      ∀ i bone, skelData.data.bones[i]? = some bone →
        ∃ t, r.RawTracks[i]? = some (bone.name, t) ∧
          ((∀ k f, Zmo.Channel.Position k f ∈ anim.channels → k ≠ i) →
            t.PosKeys = [bone.translation]) ∧
          ((∀ k f, Zmo.Channel.Rotation k f ∈ anim.channels → k ≠ i) →
            t.RotKeys = [bone.rotation]) ∧
          ((∀ k f, Zmo.Channel.Scale k f ∈ anim.channels → k ≠ i) →
            t.ScaleKeys = [⟨1, 1, 1⟩])) ∧
    ((∀ c ∈ anim.channels, c.index < skelData.data.bones.length) →
      (ImportSkeletalAnim skelData anim).isSome) := by
  constructor
  · intro r hr0
    obtain ⟨r', hr, _, _, _, ht⟩ := ImportSkeletalAnim_track skelData anim
      (ImportSkeletalAnim_some_inRange skelData anim r hr0)
    rw [hr0] at hr
    cases hr
    intro i bone hb
    refine ⟨_, ht i bone hb, ?_, ?_, ?_⟩
    · intro hp
      rw [applyChannel_fold_pos_untargeted i _ _ hp]
      rfl
    · intro hp
      rw [applyChannel_fold_rot_untargeted i _ _ hp]
      rfl
    · intro hp
      rw [applyChannel_fold_scale_untargeted i _ _ hp]
      rfl
  · intro h
    rw [ImportSkeletalAnim_eq skelData anim h]
    rfl

/-- C4, witness: in the sample motion every channel targets bone 1, so bone 2
keeps its three bind-pose keys, and bone 1, which no Scale channel targets,
keeps the scale key `(1,1,1)`. -/
theorem ImportSkeletalAnim_untargeted_bone_keeps_bind_pose_witness :
    ∃ r, ImportSkeletalAnim sampleSkel sampleAnim = some r ∧
      (r.RawTracks[2]?).map (fun nt => (nt.2.PosKeys, nt.2.RotKeys, nt.2.ScaleKeys))
        = some ([⟨0, 2, 0⟩], [⟨0, 0, 0, 1⟩], [⟨1, 1, 1⟩]) ∧
      (r.RawTracks[1]?).map (fun nt => nt.2.ScaleKeys) = some [⟨1, 1, 1⟩] := by
  have hidx : ∀ c ∈ sampleAnim.channels, c.index < sampleSkel.data.bones.length := by decide
  obtain ⟨r, hr⟩ := Option.isSome_iff_exists.mp
    ((ImportSkeletalAnim_untargeted_bone_keeps_bind_pose sampleSkel sampleAnim).2 hidx)
  have ht := (ImportSkeletalAnim_untargeted_bone_keeps_bind_pose sampleSkel sampleAnim).1 r hr
  refine ⟨r, hr, ?_, ?_⟩
  · obtain ⟨t, e, h1, h2, h3⟩ := ht 2 ⟨"child2", 1, ⟨0, 2, 0⟩, ⟨0, 0, 0, 1⟩⟩ (by decide)
    rw [e]
    simp only [Option.map_some']
    have p1 : ∀ k f, Zmo.Channel.Position k f ∈ sampleAnim.channels → k ≠ 2 := by
      intro k f hm
      simp only [sampleAnim, List.mem_cons, Zmo.Channel.Position.injEq, List.mem_nil_iff,
        or_false] at hm
      rcases hm with ⟨rfl, _⟩ | hm | ⟨rfl, _⟩
      · decide
      · cases hm
      · decide
    have p2 : ∀ k f, Zmo.Channel.Rotation k f ∈ sampleAnim.channels → k ≠ 2 := by
      intro k f hm
      simp only [sampleAnim, List.mem_cons, Zmo.Channel.Rotation.injEq, List.mem_nil_iff,
        or_false] at hm
      rcases hm with hm | ⟨rfl, _⟩ | hm
      · cases hm
      · decide
      · cases hm
    have p3 : ∀ k f, Zmo.Channel.Scale k f ∈ sampleAnim.channels → k ≠ 2 := by
      intro k f hm
      simp only [sampleAnim, List.mem_cons, List.mem_nil_iff, or_false] at hm
      rcases hm with hm | hm | hm <;> cases hm
    rw [h1 p1, h2 p2, h3 p3]
  · obtain ⟨t, e, _, _, h3⟩ := ht 1 ⟨"child1", 0, ⟨1, 0, 0⟩, ⟨0, 0, 0, 1⟩⟩ (by decide)
    rw [e]
    simp only [Option.map_some']
    have p3 : ∀ k f, Zmo.Channel.Scale k f ∈ sampleAnim.channels → k ≠ 1 := by
      intro k f hm
      simp only [sampleAnim, List.mem_cons, List.mem_nil_iff, or_false] at hm
      rcases hm with hm | hm | hm <;> cases hm
    rw [h3 p3]

theorem ImportSkeletalAnim.channelBody_some (j : Nat) (c : Zmo.Channel) (st st' : AnimState)
    (h : ImportSkeletalAnim.channelBody j c st = some st') :
    st'.tracks = st.tracks.mapIdx (fun i t => applyChannel i t c) := by
  by_cases hc : c.index < st.tracks.length
  · rw [ImportSkeletalAnim.channelBody_eq j c st hc] at h
    cases h
    rfl
  · rw [ImportSkeletalAnim.channelBody_none j c st (by omega)] at h
    cases h

theorem ImportSkeletalAnim.channelBody_frame (j : Nat) (c : Zmo.Channel) (st st' : AnimState)
    (h : ImportSkeletalAnim.channelBody j c st = some st') (p : Nat) (hp : p ≠ c.index) :
    st'.tracks[p]? = st.tracks[p]? := by
  rw [ImportSkeletalAnim.channelBody_some j c st st' h, List.getElem?_mapIdx]
  have hne : ¬ c.index = p := fun e => hp e.symm
  cases st.tracks[p]? with
  | none => rfl
  | some t =>
    cases c <;> simp_all [applyChannel, Zmo.Channel.index]

/-- C5. In every run of `ImportSkeletalAnim` that returns, the number handed
to `SetRawNumberOfFrame` is the header's `frameCount`, and for every bone
targeted by a Position, Rotation or Scale channel the bone's keys of that kind
are exactly the frames of the last such channel in file order, in frame order,
without the bind-pose key; so a frame array of length `frameCount` gives
`frameCount` keys. A channel of one kind leaves the keys of the other two
kinds of every track, and every track but its own, as they were. The run does
return when every channel's bone index is below the bone count. -/
theorem ImportSkeletalAnim_targeted_bone_takes_last_channel (skelData : ImportSkelData)
    (anim : Zmo) :
    (∀ r, ImportSkeletalAnim skelData anim = some r →
      r.NumFrames = anim.frameCount ∧
      ∀ i bone, skelData.data.bones[i]? = some bone →
        ∃ t, r.RawTracks[i]? = some (bone.name, t) ∧
          (∀ pre frames post, anim.channels = pre ++ Zmo.Channel.Position i frames :: post →
            (∀ k f, Zmo.Channel.Position k f ∈ post → k ≠ i) →
            t.PosKeys = frames ∧
            (frames.length = anim.frameCount → t.PosKeys.length = r.NumFrames)) ∧
          (∀ pre frames post, anim.channels = pre ++ Zmo.Channel.Rotation i frames :: post →
            (∀ k f, Zmo.Channel.Rotation k f ∈ post → k ≠ i) →
            t.RotKeys = frames ∧
            (frames.length = anim.frameCount → t.RotKeys.length = r.NumFrames)) ∧
          (∀ pre frames post, anim.channels = pre ++ Zmo.Channel.Scale i frames :: post →
            (∀ k f, Zmo.Channel.Scale k f ∈ post → k ≠ i) →
            t.ScaleKeys = frames ∧
            (frames.length = anim.frameCount → t.ScaleKeys.length = r.NumFrames))) ∧
    (∀ j k frames st st',
      ImportSkeletalAnim.channelBody j (Zmo.Channel.Position k frames) st = some st' →
      st'.tracks.map FRawAnimSequenceTrack.RotKeys = st.tracks.map FRawAnimSequenceTrack.RotKeys ∧
      st'.tracks.map FRawAnimSequenceTrack.ScaleKeys
        = st.tracks.map FRawAnimSequenceTrack.ScaleKeys ∧
      ∀ p, p ≠ k → st'.tracks[p]? = st.tracks[p]?) ∧
    (∀ j k frames st st',
      ImportSkeletalAnim.channelBody j (Zmo.Channel.Rotation k frames) st = some st' →
      st'.tracks.map FRawAnimSequenceTrack.PosKeys = st.tracks.map FRawAnimSequenceTrack.PosKeys ∧
      st'.tracks.map FRawAnimSequenceTrack.ScaleKeys
        = st.tracks.map FRawAnimSequenceTrack.ScaleKeys ∧
      ∀ p, p ≠ k → st'.tracks[p]? = st.tracks[p]?) ∧
    (∀ j k frames st st',
      ImportSkeletalAnim.channelBody j (Zmo.Channel.Scale k frames) st = some st' →
      st'.tracks.map FRawAnimSequenceTrack.PosKeys = st.tracks.map FRawAnimSequenceTrack.PosKeys ∧
      st'.tracks.map FRawAnimSequenceTrack.RotKeys = st.tracks.map FRawAnimSequenceTrack.RotKeys ∧
      ∀ p, p ≠ k → st'.tracks[p]? = st.tracks[p]?) ∧
    ((∀ c ∈ anim.channels, c.index < skelData.data.bones.length) →
      (ImportSkeletalAnim skelData anim).isSome) := by
  refine ⟨?_, ?_, ?_, ?_, ?_⟩
  · intro r hr0
    obtain ⟨r', hr, hn, _, _, ht⟩ := ImportSkeletalAnim_track skelData anim
      (ImportSkeletalAnim_some_inRange skelData anim r hr0)
    rw [hr0] at hr
    cases hr
    refine ⟨hn, ?_⟩
    intro i bone hb
    refine ⟨_, ht i bone hb, ?_, ?_, ?_⟩
    · intro pre frames post hsplit hpost
      have : (anim.channels.foldl (applyChannel i) (bindPoseTrack bone)).PosKeys = frames := by
        rw [hsplit, List.foldl_append, List.foldl_cons,
          applyChannel_fold_pos_untargeted i post _ hpost]
        simp [applyChannel]
      exact ⟨this, fun hl => by rw [this, hl, hn]⟩
    · intro pre frames post hsplit hpost
      have : (anim.channels.foldl (applyChannel i) (bindPoseTrack bone)).RotKeys = frames := by
        rw [hsplit, List.foldl_append, List.foldl_cons,
          applyChannel_fold_rot_untargeted i post _ hpost]
        simp [applyChannel]
      exact ⟨this, fun hl => by rw [this, hl, hn]⟩
    · intro pre frames post hsplit hpost
      have : (anim.channels.foldl (applyChannel i) (bindPoseTrack bone)).ScaleKeys = frames := by
        rw [hsplit, List.foldl_append, List.foldl_cons,
          applyChannel_fold_scale_untargeted i post _ hpost]
        simp [applyChannel]
      exact ⟨this, fun hl => by rw [this, hl, hn]⟩
  · intro j k frames st st' h
    refine ⟨?_, ?_, fun p hp => ImportSkeletalAnim.channelBody_frame j _ st st' h p hp⟩
    · rw [ImportSkeletalAnim.channelBody_some j _ st st' h]
      apply List.ext_getElem?
      intro p
      simp only [List.getElem?_map, List.getElem?_mapIdx]
      cases st.tracks[p]? with
      | none => rfl
      | some t => simp only [Option.map_some', applyChannel]; split <;> rfl
    · rw [ImportSkeletalAnim.channelBody_some j _ st st' h]
      apply List.ext_getElem?
      intro p
      simp only [List.getElem?_map, List.getElem?_mapIdx]
      cases st.tracks[p]? with
      | none => rfl
      | some t => simp only [Option.map_some', applyChannel]; split <;> rfl
  · intro j k frames st st' h
    refine ⟨?_, ?_, fun p hp => ImportSkeletalAnim.channelBody_frame j _ st st' h p hp⟩
    · rw [ImportSkeletalAnim.channelBody_some j _ st st' h]
      apply List.ext_getElem?
      intro p
      simp only [List.getElem?_map, List.getElem?_mapIdx]
      cases st.tracks[p]? with
      | none => rfl
      | some t => simp only [Option.map_some', applyChannel]; split <;> rfl
    · rw [ImportSkeletalAnim.channelBody_some j _ st st' h]
      apply List.ext_getElem?
      intro p
      simp only [List.getElem?_map, List.getElem?_mapIdx]
      cases st.tracks[p]? with
      | none => rfl
      | some t => simp only [Option.map_some', applyChannel]; split <;> rfl
  · intro j k frames st st' h
    refine ⟨?_, ?_, fun p hp => ImportSkeletalAnim.channelBody_frame j _ st st' h p hp⟩
    · rw [ImportSkeletalAnim.channelBody_some j _ st st' h]
      apply List.ext_getElem?
      intro p
      simp only [List.getElem?_map, List.getElem?_mapIdx]
      cases st.tracks[p]? with
      | none => rfl
      | some t => simp only [Option.map_some', applyChannel]; split <;> rfl
    · rw [ImportSkeletalAnim.channelBody_some j _ st st' h]
      apply List.ext_getElem?
      intro p
      simp only [List.getElem?_map, List.getElem?_mapIdx]
      cases st.tracks[p]? with
      | none => rfl
      | some t => simp only [Option.map_some', applyChannel]; split <;> rfl
  · intro h
    rw [ImportSkeletalAnim_eq skelData anim h]
    rfl

/-- C5, witness: in the sample motion of two frames, bone 1 is targeted by two
Position channels and one Rotation channel; its position keys are the two
frames of the second Position channel, its rotation keys the two frames of
the Rotation channel, and the number of frames is 2. -/
theorem ImportSkeletalAnim_targeted_bone_takes_last_channel_witness :
    ∃ r, ImportSkeletalAnim sampleSkel sampleAnim = some r ∧ r.NumFrames = 2 ∧
      (r.RawTracks[1]?).map (fun nt => (nt.2.PosKeys, nt.2.RotKeys))
        = some ([⟨3, 3, 3⟩, ⟨4, 4, 4⟩], [⟨0, 0, 0, 1⟩, ⟨0, 1, 0, 0⟩]) := by
  have T := ImportSkeletalAnim_targeted_bone_takes_last_channel sampleSkel sampleAnim
  have hidx : ∀ c ∈ sampleAnim.channels, c.index < sampleSkel.data.bones.length := by decide
  obtain ⟨r, hr⟩ := Option.isSome_iff_exists.mp (T.2.2.2.2 hidx)
  obtain ⟨hn, ht⟩ := T.1 r hr
  obtain ⟨t, e, h1, h2, _⟩ := ht 1 ⟨"child1", 0, ⟨1, 0, 0⟩, ⟨0, 0, 0, 1⟩⟩ (by decide)
  refine ⟨r, hr, hn, ?_⟩
  rw [e]
  simp only [Option.map_some']
  have p1 := (h1 [.Position 1 [⟨1, 1, 1⟩, ⟨2, 2, 2⟩], .Rotation 1 [⟨0, 0, 0, 1⟩, ⟨0, 1, 0, 0⟩]]
    [⟨3, 3, 3⟩, ⟨4, 4, 4⟩] [] rfl (by intro k f hm; cases hm)).1
  have p2 := (h2 [.Position 1 [⟨1, 1, 1⟩, ⟨2, 2, 2⟩]] [⟨0, 0, 0, 1⟩, ⟨0, 1, 0, 0⟩]
    [.Position 1 [⟨3, 3, 3⟩, ⟨4, 4, 4⟩]] rfl (by
      intro k f hm
      simp only [List.mem_cons, List.mem_nil_iff, or_false] at hm
      cases hm)).1
  rw [p1, p2]

/-- C7. Every run of `ImportSkeletalAnim` that returns has built exactly one
track per skeleton bone, track `i` being registered under bone `i`'s name. The
lookup `tracks[channel->index]` of a channel succeeds exactly when the
channel's index is below the number of tracks, which the channel loop never
changes; so the run returns when every channel's bone index is below the bone
count, and, as nothing checks the index before the lookup, it fails on the
range check as soon as one channel's index is not. -/
theorem ImportSkeletalAnim_one_track_per_bone (skelData : ImportSkelData) (anim : Zmo) :
    (∀ r, ImportSkeletalAnim skelData anim = some r →
      r.RawTracks.length = skelData.data.bones.length ∧
      r.RawTracks.map Prod.fst = skelData.data.bones.map Zmd.Bone.name) ∧
    (∀ j c st, (ImportSkeletalAnim.channelBody j c st).isSome ↔ c.index < st.tracks.length) ∧
    (∀ j c st st', ImportSkeletalAnim.channelBody j c st = some st' →
      st'.tracks.length = st.tracks.length) ∧
    ((∀ c ∈ anim.channels, c.index < skelData.data.bones.length) →
      (ImportSkeletalAnim skelData anim).isSome) ∧
    ((∃ c ∈ anim.channels, skelData.data.bones.length ≤ c.index) →
      ImportSkeletalAnim skelData anim = none) := by
  refine ⟨?_, ?_, ?_, ?_, ImportSkeletalAnim_none skelData anim⟩
  · intro r hr0
    obtain ⟨r', hr, _, _, hlen, ht⟩ := ImportSkeletalAnim_track skelData anim
      (ImportSkeletalAnim_some_inRange skelData anim r hr0)
    rw [hr0] at hr
    cases hr
    refine ⟨hlen, ?_⟩
    apply List.ext_getElem?
    intro i
    simp only [List.getElem?_map]
    by_cases hi : i < skelData.data.bones.length
    · rw [ht i _ (List.getElem?_eq_getElem hi), List.getElem?_eq_getElem hi]
      rfl
    · rw [List.getElem?_eq_none (by omega), List.getElem?_eq_none (by omega)]
      rfl
  · intro j c st
    by_cases hc : c.index < st.tracks.length
    · simp [ImportSkeletalAnim.channelBody_eq j c st hc, hc]
    · simp [ImportSkeletalAnim.channelBody_none j c st (by omega), hc]
  · intro j c st st' h
    rw [ImportSkeletalAnim.channelBody_some j c st st' h]
    simp
  · intro h
    rw [ImportSkeletalAnim_eq skelData anim h]
    rfl

/-- C7, witness: the sample motion, whose channels all target bone 1 of the
three sample bones, is imported into three tracks under the three bone names;
a motion with a channel on bone 3 is not imported. -/
theorem ImportSkeletalAnim_one_track_per_bone_witness :
    (∃ r, ImportSkeletalAnim sampleSkel sampleAnim = some r ∧
      r.RawTracks.map Prod.fst = ["Root", "child1", "child2"]) ∧
    ImportSkeletalAnim sampleSkel sampleAnimOutOfRange = none := by
  have T := ImportSkeletalAnim_one_track_per_bone sampleSkel sampleAnim
  have hidx : ∀ c ∈ sampleAnim.channels, c.index < sampleSkel.data.bones.length := by decide
  obtain ⟨r, hr⟩ := Option.isSome_iff_exists.mp (T.2.2.2.1 hidx)
  refine ⟨⟨r, hr, ?_⟩, ?_⟩
  · rw [(T.1 r hr).2]
    decide
  · exact (ImportSkeletalAnim_one_track_per_bone sampleSkel sampleAnimOutOfRange).2.2.2.2
      ⟨.Position 3 [⟨1, 1, 1⟩], by decide, by decide⟩

/-! ## Array fills -/

theorem set_lookup_self {α : Type} (xs : List α) (k : Nat) (x : α) (h : xs[k]? = some x) :
    xs.set k x = xs := by
  apply List.ext_getElem?
  intro p
  rw [List.getElem?_set]
  have hk : k < xs.length := (List.getElem?_eq_some.mp h).1
  by_cases hp : k = p
  · subst hp
    simp [hk, h]
  · simp [hp]

theorem foldlM_none_of_bad {α σ : Type} (f : σ → α → Option σ) (bad : α → Prop)
    (hbad : ∀ s x, bad x → f s x = none) (xs : List α) (s : σ) (h : ∃ x ∈ xs, bad x) :
    xs.foldlM f s = none := by
  induction xs generalizing s with
  | nil =>
    obtain ⟨x, hx, _⟩ := h
    cases hx
  | cons x xs ih =>
    rw [List.foldlM_cons]
    cases hfx : f s x with
    | none => rfl
    | some s' =>
      simp only [Option.bind_eq_bind, Option.some_bind]
      apply ih
      obtain ⟨y, hy, hby⟩ := h
      rcases List.mem_cons.mp hy with rfl | hmem
      · rw [hbad s y hby] at hfx
        cases hfx
      · exact ⟨y, hmem, hby⟩

theorem forEachIdx_none_of_bad {α σ : Type} (xs : List α) (body : Nat → α → σ → Option σ)
    (bad : α → Prop) (hbad : ∀ j x s, bad x → body j x s = none) (s : σ)
    (h : ∃ x ∈ xs, bad x) : forEachIdx xs body s = none := by
  rw [forEachIdx_eq_foldlM]
  apply foldlM_none_of_bad _ (fun jx => bad jx.2) (fun s jx hb => hbad jx.1 jx.2 s hb)
  obtain ⟨x, hx, hb⟩ := h
  obtain ⟨n, hn⟩ := List.getElem?_of_mem hx
  exact ⟨(n, x), List.mk_mem_enum_iff_getElem?.mpr hn, hb⟩

theorem forEachIdx_fill {α σ : Type} (xs : List α) (body : Nat → α → σ → Option σ)
    (get : σ → List α) (put : σ → List α → σ) (s : σ)
    (hbody : ∀ i x st, body i x st = (setAt (get st) i x).bind (fun l => some (put st l)))
    (hgp : ∀ st l, get (put st l) = l) (hpp : ∀ st l l', put (put st l) l' = put st l')
    (hpg : ∀ st, put st (get st) = st) (hlen : (get s).length = xs.length) :
    forEachIdx xs body s = some (put s xs) := by
  obtain ⟨r, hr, l, hl, hlen', hP⟩ := forEachIdx_total xs body s
    (fun j st => ∃ l, st = put s l ∧ l.length = xs.length ∧ ∀ p, p < j → l[p]? = xs[p]?)
    ⟨get s, (hpg s).symm, hlen, fun p hp => absurd hp (Nat.not_lt_zero p)⟩
    (by
      intro j x st hx ⟨l, hl, hlen', hP⟩
      have hj : j < xs.length := (List.getElem?_eq_some.mp hx).1
      refine ⟨put s (l.set j x), ?_, l.set j x, rfl, by simpa using hlen', ?_⟩
      · rw [hbody, hl, hgp]
        simp [setAt, hlen', hj, hpp]
      · intro p hp
        by_cases hpj : p = j
        · subst hpj
          rw [List.getElem?_set_self (by omega), hx]
        · rw [List.getElem?_set_ne (fun e => hpj e.symm)]
          exact hP p (by omega))
  rw [hr, hl]
  congr 2
  apply List.ext_getElem?
  intro p
  by_cases hp : p < xs.length
  · exact hP p hp
  · rw [List.getElem?_eq_none (by omega), List.getElem?_eq_none (by omega)]

/-! ## C8: the raw mesh of `ImportWorldZscModel` -/

theorem ImportWorldZscModel.positionLoop (xs : List FVector) (rm : FRawMesh)
    (hlen : rm.VertexPositions.length = xs.length) :
    forEachIdx xs ImportWorldZscModel.positionBody rm = some { rm with VertexPositions := xs } :=
  forEachIdx_fill xs ImportWorldZscModel.positionBody (fun st => st.VertexPositions)
    (fun st l => { st with VertexPositions := l }) rm (fun _ _ _ => rfl) (fun _ _ => rfl)
    (fun _ _ _ => rfl) (fun _ => rfl) hlen

theorem ImportWorldZscModel.indexLoop (xs : List Nat) (rm : FRawMesh)
    (hlen : rm.WedgeIndices.length = xs.length) :
    forEachIdx xs ImportWorldZscModel.indexBody rm = some { rm with WedgeIndices := xs } :=
  forEachIdx_fill xs ImportWorldZscModel.indexBody (fun st => st.WedgeIndices)
    (fun st l => { st with WedgeIndices := l }) rm (fun _ _ _ => rfl) (fun _ _ => rfl)
    (fun _ _ _ => rfl) (fun _ => rfl) hlen

theorem ImportWorldZscModel.faceLoop (n : Nat) (rm : FRawMesh)
    (h1 : rm.FaceMaterialIndices.length = n) (h2 : rm.FaceSmoothingMasks.length = n) :
    forLoop n ImportWorldZscModel.faceBody rm
      = some { rm with FaceMaterialIndices := List.replicate n 0,
                       FaceSmoothingMasks := List.replicate n 1 } := by
  obtain ⟨r, hr, a, b, hab, ha, hb, hP⟩ := forLoop_total n ImportWorldZscModel.faceBody rm
    (fun j st => ∃ a b, st = { rm with FaceMaterialIndices := a, FaceSmoothingMasks := b } ∧
      a.length = n ∧ b.length = n ∧ ∀ p, p < j → a[p]? = some 0 ∧ b[p]? = some 1)
    ⟨rm.FaceMaterialIndices, rm.FaceSmoothingMasks, rfl, h1, h2,
      fun p hp => absurd hp (Nat.not_lt_zero p)⟩
    (by
      intro j st hj ⟨a, b, hab, ha, hb, hP⟩
      refine ⟨{ rm with FaceMaterialIndices := a.set j 0, FaceSmoothingMasks := b.set j 1 },
        ?_, a.set j 0, b.set j 1, rfl, by simpa using ha, by simpa using hb, ?_⟩
      · subst hab
        simp [ImportWorldZscModel.faceBody, setAt, ha, hb, hj]
      · intro p hp
        by_cases hpj : p = j
        · subst hpj
          rw [List.getElem?_set_self (by omega), List.getElem?_set_self (by omega)]
          exact ⟨rfl, rfl⟩
        · rw [List.getElem?_set_ne (fun e => hpj e.symm),
            List.getElem?_set_ne (fun e => hpj e.symm)]
          exact hP p (by omega))
  rw [hr, hab]
  have ea : a = List.replicate n 0 := by
    apply List.ext_getElem?
    intro p
    by_cases hp : p < n
    · rw [(hP p hp).1, List.getElem?_replicate_of_lt hp]
    · rw [List.getElem?_eq_none (by omega), List.getElem?_eq_none (by simp; omega)]
  have eb : b = List.replicate n 1 := by
    apply List.ext_getElem?
    intro p
    by_cases hp : p < n
    · rw [(hP p hp).2, List.getElem?_replicate_of_lt hp]
    · rw [List.getElem?_eq_none (by omega), List.getElem?_eq_none (by simp; omega)]
  rw [ea, eb]

theorem ImportWorldZscModel.wedgeUvLoop_eq (uvs : List FVector2D) (k : Nat) (indexes : List Nat)
    (rm : FRawMesh) (wk0 : List FVector2D) (hk : rm.WedgeTexCoords[k]? = some wk0)
    (hlen : wk0.length = indexes.length) (hin : ∀ index ∈ indexes, index < uvs.length) :
    forEachIdx indexes (ImportWorldZscModel.wedgeUvBody uvs k) rm
      = some { rm with WedgeTexCoords :=
          (rm.WedgeTexCoords.set k (indexes.map (fun index => (uvs[index]?).getD ⟨0, 0⟩))) } := by
  have hkl : k < rm.WedgeTexCoords.length := (List.getElem?_eq_some.mp hk).1
  obtain ⟨r, hr, wk, hwk, hlen', hP⟩ := forEachIdx_total indexes
    (ImportWorldZscModel.wedgeUvBody uvs k) rm
    (fun j st => ∃ wk, st = { rm with WedgeTexCoords := rm.WedgeTexCoords.set k wk } ∧
      wk.length = indexes.length ∧
      ∀ p, p < j → wk[p]? = (indexes[p]?).map (fun index => (uvs[index]?).getD ⟨0, 0⟩))
    ⟨wk0, by rw [set_lookup_self _ _ _ hk], hlen, fun p hp => absurd hp (Nat.not_lt_zero p)⟩
    (by
      intro j index st hx ⟨wk, hwk, hlen', hP⟩
      have hj : j < indexes.length := (List.getElem?_eq_some.mp hx).1
      have hidx : index < uvs.length := hin index (List.mem_iff_getElem?.mpr ⟨j, hx⟩)
      refine ⟨{ rm with WedgeTexCoords := rm.WedgeTexCoords.set k (wk.set j uvs[index]) },
        ?_, wk.set j uvs[index], rfl, by simpa using hlen', ?_⟩
      · subst hwk
        simp [ImportWorldZscModel.wedgeUvBody, setAt, List.getElem?_eq_getElem hidx, hkl,
          hlen', hj, List.set_set]
      · intro p hp
        by_cases hpj : p = j
        · subst hpj
          rw [List.getElem?_set_self (by omega), hx]
          simp [List.getElem?_eq_getElem hidx]
        · rw [List.getElem?_set_ne (fun e => hpj e.symm)]
          exact hP p (by omega))
  rw [hr, hwk]
  congr 3
  apply List.ext_getElem?
  intro p
  by_cases hp : p < indexes.length
  · rw [hP p hp, List.getElem?_map]
  · rw [List.getElem?_eq_none (by omega), List.getElem?_eq_none (by simp; omega)]

theorem ImportWorldZscModel.wedgeUvLoop_none (uvs : List FVector2D) (k : Nat)
    (indexes : List Nat) (rm : FRawMesh) (hbad : ∃ index ∈ indexes, uvs.length ≤ index) :
    forEachIdx indexes (ImportWorldZscModel.wedgeUvBody uvs k) rm = none := by
  apply forEachIdx_none_of_bad indexes _ (fun index => uvs.length ≤ index) _ rm hbad
  intro j index s hb
  simp [ImportWorldZscModel.wedgeUvBody, List.getElem?_eq_none hb]

theorem ImportWorldZscModel.uvBody_eq (m : Zms) (k : Nat) (uvs : List FVector2D)
    (rm : FRawMesh) (hu : m.vertexUvs[k]? = some uvs) (hk : rm.WedgeTexCoords[k]? = some [])
    (hin : uvs.length > 0 → ∀ index ∈ m.indexes, index < uvs.length) :
    ImportWorldZscModel.uvBody m k rm
      = some { rm with WedgeTexCoords := rm.WedgeTexCoords.set k (wedgeUvs uvs m.indexes) } := by
  have hkl : k < rm.WedgeTexCoords.length := (List.getElem?_eq_some.mp hk).1
  unfold ImportWorldZscModel.uvBody
  simp only [hu, Option.bind_eq_bind, Option.some_bind]
  by_cases hpos : uvs.length > 0
  · simp only [hpos, if_true]
    rw [(modifyAt_eq_some _ _ _ _).mpr ⟨[], hk, rfl⟩]
    simp only [Option.some_bind, List.nil_append]
    rw [ImportWorldZscModel.wedgeUvLoop_eq uvs k m.indexes _
      (List.replicate m.indexes.length ⟨0, 0⟩) (by simp [List.getElem?_set_self hkl])
      (by simp) (hin hpos)]
    simp [wedgeUvs, hpos, List.set_set]
  · simp only [hpos, if_false, wedgeUvs]
    rw [set_lookup_self _ _ _ hk]

theorem ImportWorldZscModel.uvBody_none (m : Zms) (k : Nat) (uvs : List FVector2D)
    (rm : FRawMesh) (hu : m.vertexUvs[k]? = some uvs) (hpos : uvs.length > 0)
    (hbad : ∃ index ∈ m.indexes, uvs.length ≤ index) :
    ImportWorldZscModel.uvBody m k rm = none := by
  unfold ImportWorldZscModel.uvBody
  simp only [hu, Option.bind_eq_bind, Option.some_bind, hpos, if_true]
  cases hm : modifyAt rm.WedgeTexCoords k
      (fun w => w ++ List.replicate m.indexes.length ⟨0, 0⟩) with
  | none => rfl
  | some W =>
    simp only [Option.some_bind]
    exact ImportWorldZscModel.wedgeUvLoop_none uvs k m.indexes _ hbad

theorem forLoop_none_of_bad {σ : Type} (n : Nat) (body : Nat → σ → Option σ) (s : σ) (k : Nat)
    (hk : k < n) (hbad : ∀ st, body k st = none) : forLoop n body s = none := by
  induction n with
  | zero => omega
  | succ n ih =>
    rw [forLoop_succ]
    by_cases hkn : k = n
    · subst hkn
      cases forLoop k body s with
      | none => rfl
      | some st => exact hbad st
    · rw [ih (by omega)]
      rfl

theorem Zms.vertexUvs_lt (m : Zms) (k : Nat) (uvs : List FVector2D)
    (h : m.vertexUvs[k]? = some uvs) : k < 4 := by
  have := (List.getElem?_eq_some.mp h).1
  simpa [Zms.vertexUvs] using this

theorem ImportWorldZscModel.uvLoop_eq (m : Zms) (rm : FRawMesh)
    (hW : rm.WedgeTexCoords = List.replicate 8 [])
    (hin : ∀ (k : Nat) (uvs : List FVector2D), m.vertexUvs[k]? = some uvs → uvs.length > 0 →
      ∀ index ∈ m.indexes, index < uvs.length) :
    forLoop 4 (ImportWorldZscModel.uvBody m) rm
      = some { rm with WedgeTexCoords :=
          [wedgeUvs m.vertexUvs0 m.indexes, wedgeUvs m.vertexUvs1 m.indexes,
           wedgeUvs m.vertexUvs2 m.indexes, wedgeUvs m.vertexUvs3 m.indexes, [], [], [], []] } := by
  rw [forLoop_succ, forLoop_succ, forLoop_succ, forLoop_succ, forLoop_zero]
  simp only [Option.some_bind]
  rw [ImportWorldZscModel.uvBody_eq m 0 m.vertexUvs0 rm (show m.vertexUvs[0]? = some m.vertexUvs0 from rfl) (by rw [hW]; rfl)
    (hin 0 m.vertexUvs0 (show m.vertexUvs[0]? = some m.vertexUvs0 from rfl))]
  simp only [Option.some_bind]
  rw [ImportWorldZscModel.uvBody_eq m 1 m.vertexUvs1 _ (show m.vertexUvs[1]? = some m.vertexUvs1 from rfl) (by simp only [hW]; rfl)
    (hin 1 m.vertexUvs1 (show m.vertexUvs[1]? = some m.vertexUvs1 from rfl))]
  simp only [Option.some_bind]
  rw [ImportWorldZscModel.uvBody_eq m 2 m.vertexUvs2 _ (show m.vertexUvs[2]? = some m.vertexUvs2 from rfl) (by simp only [hW]; rfl)
    (hin 2 m.vertexUvs2 (show m.vertexUvs[2]? = some m.vertexUvs2 from rfl))]
  simp only [Option.some_bind]
  rw [ImportWorldZscModel.uvBody_eq m 3 m.vertexUvs3 _ (show m.vertexUvs[3]? = some m.vertexUvs3 from rfl) (by simp only [hW]; rfl)
    (hin 3 m.vertexUvs3 (show m.vertexUvs[3]? = some m.vertexUvs3 from rfl))]
  simp only [hW]
  rfl

theorem ImportWorldZscModel.rawMesh_eq (m : Zms)
    (hin : ∀ (k : Nat) (uvs : List FVector2D), m.vertexUvs[k]? = some uvs → uvs.length > 0 →
      ∀ index ∈ m.indexes, index < uvs.length) :
    ImportWorldZscModel.rawMesh m
      = some { VertexPositions := m.vertexPositions,
               WedgeIndices := m.indexes,
               WedgeTexCoords :=
                 [wedgeUvs m.vertexUvs0 m.indexes, wedgeUvs m.vertexUvs1 m.indexes,
                  wedgeUvs m.vertexUvs2 m.indexes, wedgeUvs m.vertexUvs3 m.indexes,
                  [], [], [], []],
               FaceMaterialIndices := List.replicate (m.indexes.length / 3) 0,
               FaceSmoothingMasks := List.replicate (m.indexes.length / 3) 1 } := by
  unfold ImportWorldZscModel.rawMesh
  dsimp only
  rw [ImportWorldZscModel.positionLoop _ _ (by simp [FRawMesh.empty])]
  simp only [Option.bind_eq_bind, Option.some_bind]
  rw [ImportWorldZscModel.indexLoop _ _ (by simp [FRawMesh.empty])]
  simp only [Option.some_bind]
  rw [ImportWorldZscModel.uvLoop_eq m _ (by simp [FRawMesh.empty]) hin]
  simp only [Option.some_bind]
  rw [ImportWorldZscModel.faceLoop _ _ (by simp [FRawMesh.empty]) (by simp [FRawMesh.empty])]

theorem ImportWorldZscModel.rawMesh_none (m : Zms)
    (hbad : ∃ (k : Nat) (uvs : List FVector2D), m.vertexUvs[k]? = some uvs ∧ uvs.length > 0 ∧
      ∃ index ∈ m.indexes, uvs.length ≤ index) :
    ImportWorldZscModel.rawMesh m = none := by
  obtain ⟨k, uvs, hu, hpos, hb⟩ := hbad
  unfold ImportWorldZscModel.rawMesh
  dsimp only
  rw [ImportWorldZscModel.positionLoop _ _ (by simp [FRawMesh.empty])]
  simp only [Option.bind_eq_bind, Option.some_bind]
  rw [ImportWorldZscModel.indexLoop _ _ (by simp [FRawMesh.empty])]
  simp only [Option.some_bind]
  rw [forLoop_none_of_bad 4 (ImportWorldZscModel.uvBody m) _ k (Zms.vertexUvs_lt m k uvs hu)
    (fun st => ImportWorldZscModel.uvBody_none m k uvs st hu hpos hb)]
  rfl

theorem wedgeUvs_lookup (m : Zms) (k : Nat) (uvs : List FVector2D)
    (hu : m.vertexUvs[k]? = some uvs) :
    [wedgeUvs m.vertexUvs0 m.indexes, wedgeUvs m.vertexUvs1 m.indexes,
      wedgeUvs m.vertexUvs2 m.indexes, wedgeUvs m.vertexUvs3 m.indexes, [], [], [], []][k]?
      = some (wedgeUvs uvs m.indexes) := by
  match k, hu with
  | 0, hu =>
    have : m.vertexUvs0 = uvs := by simpa [Zms.vertexUvs] using hu
    subst this; rfl
  | 1, hu =>
    have : m.vertexUvs1 = uvs := by simpa [Zms.vertexUvs] using hu
    subst this; rfl
  | 2, hu =>
    have : m.vertexUvs2 = uvs := by simpa [Zms.vertexUvs] using hu
    subst this; rfl
  | 3, hu =>
    have : m.vertexUvs3 = uvs := by simpa [Zms.vertexUvs] using hu
    subst this; rfl
  | k + 4, hu => simp [Zms.vertexUvs] at hu

/-- C8. In every run of the raw-mesh block of `ImportWorldZscModel` that
returns, `RawMesh.VertexPositions` equals the mesh's positions,
`RawMesh.WedgeIndices` equals the index array, and for every UV channel `k` in
`0..3`: when the channel is absent (empty) the wedge UV array `k` is empty,
and when it is present the wedge UV array `k` has one entry per index, entry
`i` being `vertexUvs[k][indexes[i]]`. The block does return for a mesh whose
indices are all below the vertex count and whose UV channels are each empty or
as long as the position array. -/
theorem ImportWorldZscModel_rawMesh_per_wedge (meshZms : Zms) :
    (∀ raw, ImportWorldZscModel.rawMesh meshZms = some raw →
      raw.VertexPositions = meshZms.vertexPositions ∧
      raw.WedgeIndices = meshZms.indexes ∧
      ∀ (k : Nat) (uvs : List FVector2D), meshZms.vertexUvs[k]? = some uvs →
        ∃ wk, raw.WedgeTexCoords[k]? = some wk ∧
          (uvs = [] → wk = []) ∧
          (uvs ≠ [] → wk.length = meshZms.indexes.length ∧
            ∀ (i index : Nat), meshZms.indexes[i]? = some index →
              ∃ uv, uvs[index]? = some uv ∧ wk[i]? = some uv)) ∧
    ((∀ index ∈ meshZms.indexes, index < meshZms.vertexPositions.length) →
      (∀ (k : Nat) (uvs : List FVector2D), meshZms.vertexUvs[k]? = some uvs →
        uvs = [] ∨ uvs.length = meshZms.vertexPositions.length) →
      (ImportWorldZscModel.rawMesh meshZms).isSome) := by
  constructor
  · intro raw hraw
    by_cases hin : ∀ (k : Nat) (uvs : List FVector2D), meshZms.vertexUvs[k]? = some uvs →
        uvs.length > 0 → ∀ index ∈ meshZms.indexes, index < uvs.length
    · rw [ImportWorldZscModel.rawMesh_eq meshZms hin] at hraw
      cases hraw
      refine ⟨rfl, rfl, ?_⟩
      intro k uvs hu
      refine ⟨wedgeUvs uvs meshZms.indexes, wedgeUvs_lookup meshZms k uvs hu, ?_, ?_⟩
      · intro he
        simp [wedgeUvs, he]
      · intro hne
        have hpos : uvs.length > 0 := List.length_pos.mpr hne
        refine ⟨by simp [wedgeUvs, hpos], ?_⟩
        intro i index hi
        have hlt : index < uvs.length :=
          hin k uvs hu hpos index (List.mem_iff_getElem?.mpr ⟨i, hi⟩)
        refine ⟨uvs[index], List.getElem?_eq_getElem hlt, ?_⟩
        simp [wedgeUvs, hpos, List.getElem?_map, hi, List.getElem?_eq_getElem hlt]
    · exfalso
      have hbad : ∃ (k : Nat) (uvs : List FVector2D), meshZms.vertexUvs[k]? = some uvs ∧
          uvs.length > 0 ∧ ∃ index ∈ meshZms.indexes, uvs.length ≤ index := by
        by_contra hno
        apply hin
        intro k uvs hu hpos index hmem
        by_contra hlt
        exact hno ⟨k, uvs, hu, hpos, index, hmem, by omega⟩
      rw [ImportWorldZscModel.rawMesh_none meshZms hbad] at hraw
      cases hraw
  · intro hidx hlen
    rw [ImportWorldZscModel.rawMesh_eq meshZms]
    · rfl
    · intro k uvs hu hpos index hmem
      rcases hlen k uvs hu with he | he
      · rw [he] at hpos
        exact absurd hpos (by decide)
      · rw [he]
        exact hidx index hmem

/-- C8, witness: the quad of the spec's scenario (4 vertices, indices
`[0,1,2, 1,3,2]`, UV channel 0 present, channels 1 to 3 absent) is converted:
the wedge indices are the index array, wedge UV array 0 has 6 entries, wedge
UV array 1 is empty. -/
theorem ImportWorldZscModel_rawMesh_per_wedge_witness :
    ∃ raw, ImportWorldZscModel.rawMesh sampleQuad = some raw ∧
      raw.WedgeIndices = [0, 1, 2, 1, 3, 2] ∧
      (∃ wk, raw.WedgeTexCoords[0]? = some wk ∧ wk.length = 6 ∧ wk[4]? = some ⟨1, 1⟩) ∧
      raw.WedgeTexCoords[1]? = some [] := by
  have T := ImportWorldZscModel_rawMesh_per_wedge sampleQuad
  have hsome : (ImportWorldZscModel.rawMesh sampleQuad).isSome := by
    apply T.2
    · decide
    · intro k uvs hu
      match k, hu with
      | 0, hu => right; simp [Zms.vertexUvs, sampleQuad] at hu; subst hu; rfl
      | 1, hu => left; simp [Zms.vertexUvs, sampleQuad] at hu; exact hu
      | 2, hu => left; simp [Zms.vertexUvs, sampleQuad] at hu; exact hu
      | 3, hu => left; simp [Zms.vertexUvs, sampleQuad] at hu; exact hu
      | k + 4, hu => simp [Zms.vertexUvs] at hu
  obtain ⟨raw, hraw⟩ := Option.isSome_iff_exists.mp hsome
  obtain ⟨_, hW, hUV⟩ := T.1 raw hraw
  refine ⟨raw, hraw, hW, ?_, ?_⟩
  · obtain ⟨wk, hwk, _, h2⟩ := hUV 0 sampleQuad.vertexUvs0 rfl
    obtain ⟨hl, hv⟩ := h2 (by decide)
    obtain ⟨uv, huv, hwuv⟩ := hv 4 3 (by decide)
    refine ⟨wk, hwk, hl, ?_⟩
    rw [hwuv, ← huv]
    decide
  · obtain ⟨wk, hwk, h1, _⟩ := hUV 1 sampleQuad.vertexUvs1 rfl
    rw [hwk, h1 rfl]

/-! ## C9 and C10: the offsets, wedges and faces of `ImportSkeletalMesh` -/

theorem vertsBefore_succ (meshes : List ImportMeshData.Item) (k : Nat) (it : ImportMeshData.Item)
    (h : meshes[k]? = some it) :
    vertsBefore meshes (k + 1) = vertsBefore meshes k + it.data.vertexPositions.length := by
  simp [vertsBefore, List.take_succ, h]

theorem indexesBefore_succ (meshes : List ImportMeshData.Item) (k : Nat)
    (it : ImportMeshData.Item) (h : meshes[k]? = some it) :
    indexesBefore meshes (k + 1) = indexesBefore meshes k + it.data.indexes.length := by
  simp [indexesBefore, List.take_succ, h]

theorem facesBefore_succ (meshes : List ImportMeshData.Item) (k : Nat) (it : ImportMeshData.Item)
    (h : meshes[k]? = some it) :
    facesBefore meshes (k + 1) = facesBefore meshes k + it.data.indexes.length / 3 := by
  simp [facesBefore, List.take_succ, h]

theorem withOffsets_lookup (meshes : List ImportMeshData.Item) (k i : Nat) :
    (withOffsets meshes k)[i]? = (meshes[i]?).map (fun it =>
      if i < k then { it with vertOffset := vertsBefore meshes i,
                              indexOffset := indexesBefore meshes i,
                              faceOffset := facesBefore meshes i }
      else it) := by
  simp [withOffsets, List.getElem?_mapIdx]

theorem withOffsets_zero (meshes : List ImportMeshData.Item) : withOffsets meshes 0 = meshes := by
  apply List.ext_getElem?
  intro i
  rw [withOffsets_lookup]
  cases meshes[i]? <;> simp

theorem modifyAt_set {α : Type} (xs : List α) (k : Nat) (a : α) (f : α → α)
    (h : k < xs.length) : modifyAt (xs.set k a) k f = some (xs.set k (f a)) := by
  rw [(modifyAt_eq_some _ _ _ _).mpr ⟨a, List.getElem?_set_self h, rfl⟩, List.set_set]

theorem ImportSkeletalMesh.offsetBody_eq (meshes : List ImportMeshData.Item) (k : Nat)
    (it : ImportMeshData.Item) (h : meshes[k]? = some it) :
    ImportSkeletalMesh.offsetBody k
        { meshList := withOffsets meshes k, totalVertCount := vertsBefore meshes k,
          totalIndexCount := indexesBefore meshes k, totalFaceCount := facesBefore meshes k }
      = some { meshList := withOffsets meshes (k + 1),
               totalVertCount := vertsBefore meshes (k + 1),
               totalIndexCount := indexesBefore meshes (k + 1),
               totalFaceCount := facesBefore meshes (k + 1) } := by
  have hk : k < meshes.length := (List.getElem?_eq_some.mp h).1
  have hk' : k < (withOffsets meshes k).length := by simpa [withOffsets] using hk
  have h0 : (withOffsets meshes k)[k]? = some it := by
    rw [withOffsets_lookup, h]
    simp
  have hget : (withOffsets meshes k)[k] = it := by
    have := List.getElem?_eq_getElem hk'
    rw [h0] at this
    exact (Option.some.inj this).symm
  unfold ImportSkeletalMesh.offsetBody
  simp only [modifyAt_of_lt _ _ _ hk', Option.bind_eq_bind, Option.some_bind, hget,
    modifyAt_set _ _ _ _ hk', List.getElem?_set_self hk']
  rw [vertsBefore_succ meshes k it h, indexesBefore_succ meshes k it h,
    facesBefore_succ meshes k it h]
  congr 2
  apply List.ext_getElem?
  intro i
  rw [List.getElem?_set, withOffsets_lookup, withOffsets_lookup]
  by_cases hik : k = i
  · subst hik
    simp [hk, hk', h]
  · simp only [hik, if_false]
    cases meshes[i]? with
    | none => rfl
    | some x =>
      simp only [Option.map_some']
      by_cases hlt : i < k
      · have : i < k + 1 := by omega
        simp [hlt, this]
      · have : ¬ i < k + 1 := by omega
        simp [hlt, this]

theorem ImportSkeletalMesh.offsets_eq (meshes : List ImportMeshData.Item) :
    ImportSkeletalMesh.offsets meshes
      = some { meshList := withOffsets meshes meshes.length,
               totalVertCount := vertsBefore meshes meshes.length,
               totalIndexCount := indexesBefore meshes meshes.length,
               totalFaceCount := facesBefore meshes meshes.length } := by
  obtain ⟨r, hr, hP⟩ := forLoop_total meshes.length ImportSkeletalMesh.offsetBody
    { meshList := meshes, totalVertCount := 0, totalIndexCount := 0, totalFaceCount := 0 }
    (fun k st => st = ⟨withOffsets meshes k, vertsBefore meshes k, indexesBefore meshes k,
      facesBefore meshes k⟩)
    (by simp [withOffsets_zero, vertsBefore, indexesBefore, facesBefore])
    (by
      intro k st hk hP
      subst hP
      exact ⟨_, ImportSkeletalMesh.offsetBody_eq meshes k meshes[k]
        (List.getElem?_eq_getElem hk), rfl⟩)
  unfold ImportSkeletalMesh.offsets
  rw [hr, hP]

theorem ImportSkeletalMesh.pointBody_some (item : ImportMeshData.Item) (j : Nat) (pos : FVector)
    (st st' : SkelMeshState) (h : ImportSkeletalMesh.pointBody item j pos st = some st') :
    ∃ a b, st' = { st with LODPoints := a, LODPointToRawMap := b } ∧
      a.length = st.LODPoints.length ∧ b.length = st.LODPointToRawMap.length := by
  unfold ImportSkeletalMesh.pointBody at h
  simp only [Option.bind_eq_bind, Option.bind_eq_some, setAt_eq_some] at h
  obtain ⟨a, ⟨_, ha⟩, b, ⟨_, hb⟩, h⟩ := h
  refine ⟨a, b, (Option.some.inj h).symm, ?_, ?_⟩
  · rw [ha]; simp
  · rw [hb]; simp

theorem ImportSkeletalMesh.pointLoop_some (item : ImportMeshData.Item) (xs : List FVector)
    (st st' : SkelMeshState)
    (h : forEachIdx xs (ImportSkeletalMesh.pointBody item) st = some st') :
    ∃ a b, st' = { st with LODPoints := a, LODPointToRawMap := b } ∧
      a.length = st.LODPoints.length ∧ b.length = st.LODPointToRawMap.length := by
  refine forEachIdx_induction xs _ st
    (fun _ s => ∃ a b, s = { st with LODPoints := a, LODPointToRawMap := b } ∧
      a.length = st.LODPoints.length ∧ b.length = st.LODPointToRawMap.length)
    ⟨st.LODPoints, st.LODPointToRawMap, rfl, rfl, rfl⟩ ?_ st' h
  intro j x s s' _ ⟨a, b, hs, ha, hb⟩ hb'
  obtain ⟨a', b', hs', ha', hb''⟩ := ImportSkeletalMesh.pointBody_some item j x s s' hb'
  subst hs
  exact ⟨a', b', hs', by rw [ha']; exact ha, by rw [hb'']; exact hb⟩

theorem ImportSkeletalMesh.wedgeBody_some (total : Nat) (item : ImportMeshData.Item)
    (j index : Nat) (st st' : SkelMeshState)
    (h : ImportSkeletalMesh.wedgeBody total item j index st = some st') :
    ∃ w0 uv, st.LODWedges[item.indexOffset + j]? = some w0 ∧
      item.data.vertexUvs0[index]? = some uv ∧
      st' = { st with
        LODWedges := st.LODWedges.set (item.indexOffset + j) ⟨item.vertOffset + index, uv⟩,
        wedgeBreaks := if item.vertOffset + index ≥ total then st.wedgeBreaks + 1
          else st.wedgeBreaks } := by
  unfold ImportSkeletalMesh.wedgeBody at h
  cases hw : st.LODWedges[item.indexOffset + j]? with
  | none => simp [modifyAt, hw] at h
  | some w0 =>
    have hlt : item.indexOffset + j < st.LODWedges.length := (List.getElem?_eq_some.mp hw).1
    have e0 : item.data.vertexUvs[0]? = some item.data.vertexUvs0 := rfl
    cases hu : item.data.vertexUvs0[index]? with
    | none =>
      simp [(modifyAt_eq_some _ _ _ _).mpr ⟨w0, hw, rfl⟩, e0, hu] at h
    | some uv =>
      simp only [(modifyAt_eq_some _ _ _ _).mpr ⟨w0, hw, rfl⟩, e0, hu, Option.bind_eq_bind,
        Option.some_bind, modifyAt_set _ _ _ _ hlt, List.getElem?_set_self hlt,
        Option.some.injEq] at h
      exact ⟨w0, uv, rfl, rfl, h.symm⟩

theorem ImportSkeletalMesh.wedgeLoop_some (total : Nat) (item : ImportMeshData.Item)
    (st st' : SkelMeshState)
    (h : forEachIdx item.data.indexes (ImportSkeletalMesh.wedgeBody total item) st = some st') :
    ∃ W b, st' = { st with LODWedges := W, wedgeBreaks := b } ∧
      W.length = st.LODWedges.length ∧
      (∀ p, (p < item.indexOffset ∨ item.indexOffset + item.data.indexes.length ≤ p) →
        W[p]? = st.LODWedges[p]?) ∧
      (∀ j index, item.data.indexes[j]? = some index →
        ∃ w, W[item.indexOffset + j]? = some w ∧ w.iVertex = item.vertOffset + index ∧
          item.data.vertexUvs0[index]? = some w.UVs0) ∧
      ((∀ index ∈ item.data.indexes, item.vertOffset + index < total) →
        b = st.wedgeBreaks) := by
  have key := forEachIdx_induction item.data.indexes
    (ImportSkeletalMesh.wedgeBody total item) st
    (fun n s => ∃ W b, s = { st with LODWedges := W, wedgeBreaks := b } ∧
      W.length = st.LODWedges.length ∧
      (∀ p, (p < item.indexOffset ∨ item.indexOffset + n ≤ p) → W[p]? = st.LODWedges[p]?) ∧
      (∀ j index, j < n → item.data.indexes[j]? = some index →
        ∃ w, W[item.indexOffset + j]? = some w ∧ w.iVertex = item.vertOffset + index ∧
          item.data.vertexUvs0[index]? = some w.UVs0) ∧
      ((∀ index ∈ item.data.indexes, item.vertOffset + index < total) →
        b = st.wedgeBreaks))
    ⟨st.LODWedges, st.wedgeBreaks, rfl, rfl, fun _ _ => rfl,
      fun j _ hj => absurd hj (Nat.not_lt_zero j), fun _ => rfl⟩
    (by
      intro n index s s' hx ⟨W, b, hs, hlen, hout, hin, hbr⟩ hb
      obtain ⟨w0, uv, hw0, huv, hs'⟩ := ImportSkeletalMesh.wedgeBody_some total item n index s s' hb
      subst hs
      simp only at hw0 hs'
      have hlt : item.indexOffset + n < W.length := (List.getElem?_eq_some.mp hw0).1
      refine ⟨W.set (item.indexOffset + n) ⟨item.vertOffset + index, uv⟩, _, hs', ?_, ?_, ?_, ?_⟩
      · simpa using hlen
      · intro p hp
        rw [List.getElem?_set_ne (by omega)]
        exact hout p (by omega)
      · intro j idx hj hidx
        by_cases hjn : j = n
        · subst hjn
          rw [hx] at hidx
          cases hidx
          exact ⟨_, List.getElem?_set_self hlt, rfl, huv⟩
        · rw [List.getElem?_set_ne (by omega)]
          exact hin j idx (by omega) hidx
      · intro hall
        have h1 : item.vertOffset + index < total :=
          hall index (List.mem_iff_getElem?.mpr ⟨n, hx⟩)
        have h2 : ¬ (item.vertOffset + index ≥ total) := by omega
        simp only [h2, if_false]
        exact hbr hall)
    st' h
  obtain ⟨W, b, hs, hlen, hout, hin, hbr⟩ := key
  exact ⟨W, b, hs, hlen, hout,
    fun j index hj => hin j index (List.getElem?_eq_some.mp hj).1 hj, hbr⟩

theorem ImportSkeletalMesh.faceBody_some (item : ImportMeshData.Item) (j : Nat)
    (st st' : SkelMeshState) (h : ImportSkeletalMesh.faceBody item j st = some st') :
    ∃ f0 f1, st.LODFaces[item.faceOffset + j]? = some f0 ∧
      st' = { st with LODFaces := st.LODFaces.set (item.faceOffset + j) f1 } ∧
      f1.iWedge0 = item.indexOffset + (j * 3 + 0) ∧
      f1.iWedge1 = item.indexOffset + (j * 3 + 1) ∧
      f1.iWedge2 = item.indexOffset + (j * 3 + 2) ∧
      f1.MeshMaterialIndex = item.matIdx := by
  unfold ImportSkeletalMesh.faceBody at h
  cases hf : st.LODFaces[item.faceOffset + j]? with
  | none => simp [modifyAt, hf] at h
  | some f0 =>
    have hlt : item.faceOffset + j < st.LODFaces.length := (List.getElem?_eq_some.mp hf).1
    simp only [(modifyAt_eq_some _ _ _ _).mpr ⟨f0, hf, rfl⟩, Option.bind_eq_bind,
      Option.some_bind, modifyAt_set _ _ _ _ hlt] at h
    cases hN : st.hasNormals with
    | true =>
      simp only [hN, if_true, Option.bind_eq_some, modifyAt_set _ _ _ _ hlt,
        Option.some.injEq] at h
      obtain ⟨i0, _, n0, _, i1, _, n1, _, i2, _, n2, _, h⟩ := h
      refine ⟨f0, ⟨item.indexOffset + (j * 3 + 0), item.indexOffset + (j * 3 + 1),
        item.indexOffset + (j * 3 + 2), n0, n1, n2, item.matIdx⟩, rfl, ?_, rfl, rfl, rfl, rfl⟩
      rw [← h]
    | false =>
      simp only [hN, Bool.false_eq_true, if_false, Option.some_bind, modifyAt_set _ _ _ _ hlt,
        Option.some.injEq] at h
      refine ⟨f0, ⟨item.indexOffset + (j * 3 + 0), item.indexOffset + (j * 3 + 1),
        item.indexOffset + (j * 3 + 2), f0.TangentZ0, f0.TangentZ1, f0.TangentZ2,
        item.matIdx⟩, rfl, ?_, rfl, rfl, rfl, rfl⟩
      rw [← h]

theorem ImportSkeletalMesh.faceLoop_some (item : ImportMeshData.Item) (n : Nat)
    (st st' : SkelMeshState)
    (h : forLoop n (ImportSkeletalMesh.faceBody item) st = some st') :
    ∃ F, st' = { st with LODFaces := F } ∧
      F.length = st.LODFaces.length ∧
      (∀ p, (p < item.faceOffset ∨ item.faceOffset + n ≤ p) → F[p]? = st.LODFaces[p]?) ∧
      (∀ j, j < n →
        ∃ f, F[item.faceOffset + j]? = some f ∧
          f.iWedge0 = item.indexOffset + (j * 3 + 0) ∧
          f.iWedge1 = item.indexOffset + (j * 3 + 1) ∧
          f.iWedge2 = item.indexOffset + (j * 3 + 2) ∧
          f.MeshMaterialIndex = item.matIdx) := by
  refine forLoop_induction n (ImportSkeletalMesh.faceBody item) st
    (fun m s => ∃ F, s = { st with LODFaces := F } ∧
      F.length = st.LODFaces.length ∧
      (∀ p, (p < item.faceOffset ∨ item.faceOffset + m ≤ p) → F[p]? = st.LODFaces[p]?) ∧
      (∀ j, j < m →
        ∃ f, F[item.faceOffset + j]? = some f ∧
          f.iWedge0 = item.indexOffset + (j * 3 + 0) ∧
          f.iWedge1 = item.indexOffset + (j * 3 + 1) ∧
          f.iWedge2 = item.indexOffset + (j * 3 + 2) ∧
          f.MeshMaterialIndex = item.matIdx))
    ⟨st.LODFaces, rfl, rfl, fun _ _ => rfl, fun j hj => absurd hj (Nat.not_lt_zero j)⟩
    ?_ st' h
  intro m s s' _ ⟨F, hs, hlen, hout, hin⟩ hb
  obtain ⟨f0, f1, hf0, hs', e0, e1, e2, e3⟩ := ImportSkeletalMesh.faceBody_some item m s s' hb
  subst hs
  simp only at hf0 hs'
  have hlt : item.faceOffset + m < F.length := (List.getElem?_eq_some.mp hf0).1
  refine ⟨F.set (item.faceOffset + m) f1, hs', by simpa using hlen, ?_, ?_⟩
  · intro p hp
    rw [List.getElem?_set_ne (by omega)]
    exact hout p (by omega)
  · intro j hj
    by_cases hjm : j = m
    · subst hjm
      exact ⟨f1, List.getElem?_set_self hlt, e0, e1, e2, e3⟩
    · rw [List.getElem?_set_ne (by omega)]
      exact hin j (by omega)

theorem ImportSkeletalMesh.slotBody_some (total : Nat) (skelData : ImportSkelData)
    (item : ImportMeshData.Item) (j k : Nat) (st st' : SkelMeshState)
    (h : ImportSkeletalMesh.slotBody total skelData item j k st = some st') :
    ∃ I vb bb, st' = { st with LODInfluences := I, vertBreaks := vb, boneBreaks := bb } := by
  unfold ImportSkeletalMesh.slotBody at h
  simp only [Option.bind_eq_bind, Option.bind_eq_some] at h
  obtain ⟨bw, _, bi, _, bw', _, w, _, h⟩ := h
  split at h
  · cases h
    exact ⟨_, _, _, rfl⟩
  · cases h
    exact ⟨_, _, _, rfl⟩

theorem ImportSkeletalMesh.influenceLoop_some (total : Nat) (skelData : ImportSkelData)
    (item : ImportMeshData.Item) (n : Nat) (st st' : SkelMeshState)
    (h : forLoop n (fun j st =>
      forLoop 4 (ImportSkeletalMesh.slotBody total skelData item j) st) st = some st') :
    ∃ I vb bb, st' = { st with LODInfluences := I, vertBreaks := vb, boneBreaks := bb } := by
  refine forLoop_induction n _ st
    (fun _ s => ∃ I vb bb, s = { st with LODInfluences := I, vertBreaks := vb, boneBreaks := bb })
    ⟨_, _, _, rfl⟩ ?_ st' h
  intro j s s' _ ⟨I, vb, bb, hs⟩ hb
  refine forLoop_induction 4 _ s
    (fun _ s => ∃ I vb bb, s = { st with LODInfluences := I, vertBreaks := vb, boneBreaks := bb })
    ⟨I, vb, bb, hs⟩ ?_ s' hb
  intro k t t' _ ⟨I', vb', bb', ht⟩ hk
  obtain ⟨I'', vb'', bb'', ht'⟩ := ImportSkeletalMesh.slotBody_some total skelData item j k t t' hk
  subst ht
  exact ⟨I'', vb'', bb'', ht'⟩

theorem ImportSkeletalMesh.meshBody_some (total : Nat) (skelData : ImportSkelData) (i : Nat)
    (item : ImportMeshData.Item) (st st' : SkelMeshState)
    (h : ImportSkeletalMesh.meshBody total skelData i item st = some st') :
    st'.LODWedges.length = st.LODWedges.length ∧
    (∀ p, (p < item.indexOffset ∨ item.indexOffset + item.data.indexes.length ≤ p) →
      st'.LODWedges[p]? = st.LODWedges[p]?) ∧
    (∀ j index, item.data.indexes[j]? = some index →
      ∃ w, st'.LODWedges[item.indexOffset + j]? = some w ∧
        w.iVertex = item.vertOffset + index ∧ item.data.vertexUvs0[index]? = some w.UVs0) ∧
    ((∀ index ∈ item.data.indexes, item.vertOffset + index < total) →
      st'.wedgeBreaks = st.wedgeBreaks) ∧
    st'.LODFaces.length = st.LODFaces.length ∧
    (∀ p, (p < item.faceOffset ∨ item.faceOffset + item.data.indexes.length / 3 ≤ p) →
      st'.LODFaces[p]? = st.LODFaces[p]?) ∧
    (∀ j, j < item.data.indexes.length / 3 →
      ∃ f, st'.LODFaces[item.faceOffset + j]? = some f ∧
        f.iWedge0 = item.indexOffset + (j * 3 + 0) ∧
        f.iWedge1 = item.indexOffset + (j * 3 + 1) ∧
        f.iWedge2 = item.indexOffset + (j * 3 + 2) ∧
        f.MeshMaterialIndex = item.matIdx) := by
  unfold ImportSkeletalMesh.meshBody at h
  simp only [Option.bind_eq_bind, Option.bind_eq_some] at h
  obtain ⟨s1, h1, s2, h2, s3, h3, h4⟩ := h
  obtain ⟨a, b, e1, _, _⟩ := ImportSkeletalMesh.pointLoop_some item _ _ s1 h1
  obtain ⟨W, wb, e2, hWlen, hWout, hWin, hWbr⟩ := ImportSkeletalMesh.wedgeLoop_some total item s1 s2 h2
  obtain ⟨F, e3, hFlen, hFout, hFin⟩ := ImportSkeletalMesh.faceLoop_some item _ s2 s3 h3
  obtain ⟨I, vb, bb, e4⟩ := ImportSkeletalMesh.influenceLoop_some total skelData item _ s3 st' h4
  have q1 : s1.LODWedges = st.LODWedges := by rw [e1]; split <;> rfl
  have q2 : s1.wedgeBreaks = st.wedgeBreaks := by rw [e1]; split <;> rfl
  have q3 : s1.LODFaces = st.LODFaces := by rw [e1]; split <;> rfl
  have r1 : st'.LODWedges = W := by rw [e4, e3, e2]
  have r2 : st'.wedgeBreaks = wb := by rw [e4, e3, e2]
  have r3 : st'.LODFaces = F := by rw [e4, e3]
  have r4 : s2.LODFaces = st.LODFaces := by rw [e2]; exact q3
  rw [r1, r2, r3]
  rw [q1] at hWlen hWout
  rw [q2] at hWbr
  rw [r4] at hFlen hFout
  exact ⟨hWlen, hWout, hWin, hWbr, hFlen, hFout, hFin⟩

theorem prefixSum_succ_le {α : Type} (f : α → Nat) (l : List α) (b : Nat) :
    ((l.take b).map f).sum ≤ ((l.take (b + 1)).map f).sum := by
  rw [List.take_succ]
  simp

theorem prefixSum_mono {α : Type} (f : α → Nat) (l : List α) (a b : Nat) (h : a ≤ b) :
    ((l.take a).map f).sum ≤ ((l.take b).map f).sum := by
  induction b with
  | zero =>
    have : a = 0 := by omega
    subst this
    exact Nat.le_refl _
  | succ b ih =>
    by_cases hab : a = b + 1
    · subst hab
      exact Nat.le_refl _
    · exact Nat.le_trans (ih (by omega)) (prefixSum_succ_le f l b)

theorem withOffsets_item (meshes : List ImportMeshData.Item) (i : Nat)
    (item : ImportMeshData.Item) (h : (withOffsets meshes meshes.length)[i]? = some item) :
    ∃ it0, meshes[i]? = some it0 ∧ item.data = it0.data ∧ item.matIdx = it0.matIdx ∧
      item.vertOffset = vertsBefore meshes i ∧ item.indexOffset = indexesBefore meshes i ∧
      item.faceOffset = facesBefore meshes i := by
  rw [withOffsets_lookup] at h
  cases hm : meshes[i]? with
  | none => simp [hm] at h
  | some it0 =>
    have hi : i < meshes.length := (List.getElem?_eq_some.mp hm).1
    simp only [hm, Option.map_some', hi, if_true, Option.some.injEq] at h
    subst h
    exact ⟨it0, rfl, rfl, rfl, rfl, rfl, rfl⟩

theorem ImportSkeletalMesh.meshLoop_some (total : Nat) (skelData : ImportSkelData)
    (meshes : List ImportMeshData.Item) (st st' : SkelMeshState)
    (htotal : total = vertsBefore meshes meshes.length)
    (h : forEachIdx (withOffsets meshes meshes.length)
      (ImportSkeletalMesh.meshBody total skelData) st = some st') :
    st'.LODWedges.length = st.LODWedges.length ∧
    st'.LODFaces.length = st.LODFaces.length ∧
    ((∀ it ∈ meshes, ∀ index ∈ it.data.indexes, index < it.data.vertexPositions.length) →
      st'.wedgeBreaks = st.wedgeBreaks) ∧
    (∀ (i : Nat) (item : ImportMeshData.Item),
      (withOffsets meshes meshes.length)[i]? = some item →
      (∀ j index, item.data.indexes[j]? = some index →
        ∃ w, st'.LODWedges[item.indexOffset + j]? = some w ∧
          w.iVertex = item.vertOffset + index ∧ item.data.vertexUvs0[index]? = some w.UVs0) ∧
      (∀ j, j < item.data.indexes.length / 3 →
        ∃ f, st'.LODFaces[item.faceOffset + j]? = some f ∧
          f.iWedge0 = item.indexOffset + (j * 3 + 0) ∧
          f.iWedge1 = item.indexOffset + (j * 3 + 1) ∧
          f.iWedge2 = item.indexOffset + (j * 3 + 2) ∧
          f.MeshMaterialIndex = item.matIdx)) := by
  have key := forEachIdx_induction (withOffsets meshes meshes.length)
    (ImportSkeletalMesh.meshBody total skelData) st
    (fun n s =>
      s.LODWedges.length = st.LODWedges.length ∧
      s.LODFaces.length = st.LODFaces.length ∧
      ((∀ it ∈ meshes, ∀ index ∈ it.data.indexes, index < it.data.vertexPositions.length) →
        s.wedgeBreaks = st.wedgeBreaks) ∧
      (∀ (i : Nat) (item : ImportMeshData.Item), i < n →
        (withOffsets meshes meshes.length)[i]? = some item →
        (∀ j index, item.data.indexes[j]? = some index →
          ∃ w, s.LODWedges[item.indexOffset + j]? = some w ∧
            w.iVertex = item.vertOffset + index ∧ item.data.vertexUvs0[index]? = some w.UVs0) ∧
        (∀ j, j < item.data.indexes.length / 3 →
          ∃ f, s.LODFaces[item.faceOffset + j]? = some f ∧
            f.iWedge0 = item.indexOffset + (j * 3 + 0) ∧
            f.iWedge1 = item.indexOffset + (j * 3 + 1) ∧
            f.iWedge2 = item.indexOffset + (j * 3 + 2) ∧
            f.MeshMaterialIndex = item.matIdx)))
    ⟨rfl, rfl, fun _ => rfl, fun i _ hi => absurd hi (Nat.not_lt_zero i)⟩
    (by
      intro n item s s' hx ⟨hWl, hFl, hbr, hprev⟩ hb
      obtain ⟨m1, m2, m3, m4, m5, m6, m7⟩ :=
        ImportSkeletalMesh.meshBody_some total skelData n item s s' hb
      obtain ⟨it0, hit0, hdata, _, hvo, hio, hfo⟩ := withOffsets_item meshes n item hx
      refine ⟨by rw [m1, hWl], by rw [m5, hFl], ?_, ?_⟩
      · intro hall
        rw [m4, hbr hall]
        intro index hmem
        rw [hdata] at hmem
        have hlt := hall it0 (List.mem_iff_getElem?.mpr ⟨n, hit0⟩) index hmem
        have h1 := vertsBefore_succ meshes n it0 hit0
        have h2 : vertsBefore meshes (n + 1) ≤ vertsBefore meshes meshes.length :=
          prefixSum_mono _ meshes (n + 1) meshes.length
            (by have := (List.getElem?_eq_some.mp hit0).1; omega)
        omega
      · intro i item' hi hx'
        by_cases hin : i = n
        · subst hin
          rw [hx] at hx'
          cases hx'
          exact ⟨m3, m7⟩
        · have hlt : i < n := by omega
          obtain ⟨p1, p2⟩ := hprev i item' hlt hx'
          obtain ⟨it1, hit1, hdata1, _, _, hio1, hfo1⟩ := withOffsets_item meshes i item' hx'
          have g1 := indexesBefore_succ meshes i it1 hit1
          have g2 : indexesBefore meshes (i + 1) ≤ indexesBefore meshes n :=
            prefixSum_mono _ meshes (i + 1) n (by omega)
          have g3 := facesBefore_succ meshes i it1 hit1
          have g4 : facesBefore meshes (i + 1) ≤ facesBefore meshes n :=
            prefixSum_mono _ meshes (i + 1) n (by omega)
          constructor
          · intro j index hj
            have hjl : j < it1.data.indexes.length := by
              rw [← hdata1]; exact (List.getElem?_eq_some.mp hj).1
            rw [m2 _ (Or.inl (by omega))]
            exact p1 j index hj
          · intro j hj
            rw [hdata1] at hj
            rw [m6 _ (Or.inl (by omega))]
            exact p2 j (by rw [hdata1]; exact hj))
    st' h
  obtain ⟨k1, k2, k3, k4⟩ := key
  exact ⟨k1, k2, k3, fun i item hx => k4 i item (List.getElem?_eq_some.mp hx).1 hx⟩

theorem appendFold {α : Type} (xs : List α) (k : Nat) (acc : List α) :
    (xs.enumFrom k).foldlM (fun (ms : List α) (im : Nat × α) => some (ms ++ [im.2])) acc
      = some (acc ++ xs) := by
  induction xs generalizing k acc with
  | nil => simp
  | cons x xs ih =>
    rw [List.enumFrom_cons, List.foldlM_cons]
    simp only [Option.bind_eq_bind, Option.some_bind]
    rw [ih]
    simp

theorem ImportSkeletalMesh_unfold (meshData : ImportMeshData) (skelData : ImportSkelData) :
    ImportSkeletalMesh.copyLoops meshData skelData
      = (forEachIdx (withOffsets meshData.meshes meshData.meshes.length)
          (ImportSkeletalMesh.meshBody (vertsBefore meshData.meshes meshData.meshes.length)
            skelData)
          { LODPoints := List.replicate (vertsBefore meshData.meshes meshData.meshes.length)
              ⟨0, 0, 0⟩,
            LODWedges := List.replicate (indexesBefore meshData.meshes meshData.meshes.length)
              ⟨0, ⟨0, 0⟩⟩,
            LODFaces := List.replicate (facesBefore meshData.meshes meshData.meshes.length)
              ⟨0, 0, 0, ⟨0, 0, 0⟩, ⟨0, 0, 0⟩, ⟨0, 0, 0⟩, 0⟩,
            LODInfluences := [],
            LODPointToRawMap := List.replicate
              (vertsBefore meshData.meshes meshData.meshes.length) 0,
            hasNormals := true, wedgeBreaks := 0, vertBreaks := 0, boneBreaks := 0 }).map
        (fun st =>
          { meshList := withOffsets meshData.meshes meshData.meshes.length,
            totalVertCount := vertsBefore meshData.meshes meshData.meshes.length,
            totalIndexCount := indexesBefore meshData.meshes meshData.meshes.length,
            totalFaceCount := facesBefore meshData.meshes meshData.meshes.length,
            lod := st }) := by
  unfold ImportSkeletalMesh.copyLoops
  rw [ImportSkeletalMesh.offsets_eq]
  simp only [Option.bind_eq_bind, Option.some_bind, List.nil_append]
  cases forEachIdx (withOffsets meshData.meshes meshData.meshes.length)
      (ImportSkeletalMesh.meshBody (vertsBefore meshData.meshes meshData.meshes.length)
        skelData) _ <;> rfl

theorem ImportSkeletalMesh.pointLoop_total (item : ImportMeshData.Item) (xs : List FVector)
    (st : SkelMeshState) (h1 : item.vertOffset + xs.length ≤ st.LODPoints.length)
    (h2 : item.vertOffset + xs.length ≤ st.LODPointToRawMap.length) :
    ∃ st', forEachIdx xs (ImportSkeletalMesh.pointBody item) st = some st' := by
  obtain ⟨r, hr, _⟩ := forEachIdx_total xs (ImportSkeletalMesh.pointBody item) st
    (fun _ s => s.LODPoints.length = st.LODPoints.length ∧
      s.LODPointToRawMap.length = st.LODPointToRawMap.length)
    ⟨rfl, rfl⟩
    (by
      intro j x s hx ⟨g1, g2⟩
      have hj : j < xs.length := (List.getElem?_eq_some.mp hx).1
      have a1 : item.vertOffset + j < s.LODPoints.length := by omega
      have a2 : item.vertOffset + j < s.LODPointToRawMap.length := by omega
      cases hb : ImportSkeletalMesh.pointBody item j x s with
      | none =>
        exfalso
        simp [ImportSkeletalMesh.pointBody, setAt, a1, a2] at hb
      | some s' =>
        obtain ⟨a, b, e, la, lb⟩ := ImportSkeletalMesh.pointBody_some item j x s s' hb
        refine ⟨s', rfl, ?_, ?_⟩
        · rw [e]; simpa [la] using g1
        · rw [e]; simpa [lb] using g2)
  exact ⟨r, hr⟩

theorem ImportSkeletalMesh.wedgeLoop_total (total : Nat) (item : ImportMeshData.Item)
    (st : SkelMeshState)
    (h1 : item.indexOffset + item.data.indexes.length ≤ st.LODWedges.length)
    (h2 : ∀ index ∈ item.data.indexes, index < item.data.vertexUvs0.length) :
    ∃ st', forEachIdx item.data.indexes (ImportSkeletalMesh.wedgeBody total item) st
      = some st' := by
  obtain ⟨r, hr, _⟩ := forEachIdx_total item.data.indexes
    (ImportSkeletalMesh.wedgeBody total item) st
    (fun _ s => s.LODWedges.length = st.LODWedges.length) rfl
    (by
      intro j index s hx g1
      have hj : j < item.data.indexes.length := (List.getElem?_eq_some.mp hx).1
      have a1 : item.indexOffset + j < s.LODWedges.length := by omega
      have a2 : index < item.data.vertexUvs0.length :=
        h2 index (List.mem_iff_getElem?.mpr ⟨j, hx⟩)
      have e0 : item.data.vertexUvs[0]? = some item.data.vertexUvs0 := rfl
      cases hb : ImportSkeletalMesh.wedgeBody total item j index s with
      | none =>
        exfalso
        simp [ImportSkeletalMesh.wedgeBody, modifyAt_of_lt _ _ _ a1, e0,
          List.getElem?_eq_getElem a2, modifyAt_set _ _ _ _ a1,
          List.getElem?_set_self a1] at hb
      | some s' =>
        obtain ⟨w0, uv, _, _, e⟩ := ImportSkeletalMesh.wedgeBody_some total item j index s s' hb
        refine ⟨s', rfl, ?_⟩
        rw [e]
        simpa using g1)
  exact ⟨r, hr⟩

theorem ImportSkeletalMesh.faceLoop_total (item : ImportMeshData.Item) (st : SkelMeshState)
    (h1 : item.faceOffset + item.data.indexes.length / 3 ≤ st.LODFaces.length)
    (h2 : st.hasNormals = true →
      ∀ index ∈ item.data.indexes, index < item.data.vertexNormals.length) :
    ∃ st', forLoop (item.data.indexes.length / 3) (ImportSkeletalMesh.faceBody item) st
      = some st' := by
  obtain ⟨r, hr, _⟩ := forLoop_total (item.data.indexes.length / 3)
    (ImportSkeletalMesh.faceBody item) st
    (fun _ s => s.LODFaces.length = st.LODFaces.length ∧ s.hasNormals = st.hasNormals)
    ⟨rfl, rfl⟩
    (by
      intro j s hj ⟨g1, g2⟩
      have a1 : item.faceOffset + j < s.LODFaces.length := by omega
      have b0 : j * 3 + 0 < item.data.indexes.length := by omega
      have b1 : j * 3 + 1 < item.data.indexes.length := by omega
      have b2 : j * 3 + 2 < item.data.indexes.length := by omega
      cases hb : ImportSkeletalMesh.faceBody item j s with
      | none =>
        exfalso
        cases hN : s.hasNormals with
        | false =>
          simp [ImportSkeletalMesh.faceBody, modifyAt_of_lt _ _ _ a1, hN,
            modifyAt_set _ _ _ _ a1] at hb
        | true =>
          have hn := h2 (by rw [← g2, hN])
          have c0 := hn _ (List.getElem_mem b0)
          have c1 := hn _ (List.getElem_mem b1)
          have c2 := hn _ (List.getElem_mem b2)
          simp only [ImportSkeletalMesh.faceBody, modifyAt_of_lt _ _ _ a1, hN, if_true,
            Option.bind_eq_bind, Option.some_bind, modifyAt_set _ _ _ _ a1,
            List.getElem?_eq_getElem b0, List.getElem?_eq_getElem b1,
            List.getElem?_eq_getElem b2, List.getElem?_eq_getElem c0,
            List.getElem?_eq_getElem c1, List.getElem?_eq_getElem c2] at hb
          cases hb
      | some s' =>
        obtain ⟨f0, f1, _, e, _⟩ := ImportSkeletalMesh.faceBody_some item j s s' hb
        refine ⟨s', rfl, ?_, ?_⟩
        · rw [e]; simpa using g1
        · rw [e]; exact g2)
  exact ⟨r, hr⟩

theorem ImportSkeletalMesh.influenceLoop_total (total : Nat) (skelData : ImportSkelData)
    (item : ImportMeshData.Item) (n : Nat) (st : SkelMeshState)
    (h1 : n ≤ item.data.boneWeights.length) :
    ∃ st', forLoop n (fun j st =>
      forLoop 4 (ImportSkeletalMesh.slotBody total skelData item j) st) st = some st' := by
  obtain ⟨r, hr, _⟩ := forLoop_total n (fun j st =>
      forLoop 4 (ImportSkeletalMesh.slotBody total skelData item j) st) st
    (fun _ _ => True) trivial
    (by
      intro j s hj _
      have a1 : j < item.data.boneWeights.length := by omega
      obtain ⟨r, hr, _⟩ := forLoop_total 4
        (ImportSkeletalMesh.slotBody total skelData item j) s (fun _ _ => True) trivial
        (by
          intro k t hk _
          have e1 : (item.data.boneWeights[j]).boneIdx.length = 4 := rfl
          have e2 : (item.data.boneWeights[j]).weight.length = 4 := rfl
          have k1 : k < (item.data.boneWeights[j]).boneIdx.length := by omega
          have k2 : k < (item.data.boneWeights[j]).weight.length := by omega
          cases hb : ImportSkeletalMesh.slotBody total skelData item j k t with
          | none =>
            exfalso
            simp only [ImportSkeletalMesh.slotBody, List.getElem?_eq_getElem a1,
              List.getElem?_eq_getElem k1, List.getElem?_eq_getElem k2, Option.bind_eq_bind,
              Option.some_bind] at hb
            split at hb <;> cases hb
          | some t' => exact ⟨t', rfl, trivial⟩)
      exact ⟨r, hr, trivial⟩)
  exact ⟨r, hr⟩

theorem ImportSkeletalMesh.meshBody_total (total : Nat) (skelData : ImportSkelData) (i : Nat)
    (item : ImportMeshData.Item) (st : SkelMeshState)
    (hp1 : item.vertOffset + item.data.vertexPositions.length ≤ st.LODPoints.length)
    (hp2 : item.vertOffset + item.data.vertexPositions.length ≤ st.LODPointToRawMap.length)
    (hw : item.indexOffset + item.data.indexes.length ≤ st.LODWedges.length)
    (hf : item.faceOffset + item.data.indexes.length / 3 ≤ st.LODFaces.length)
    (huv : ∀ index ∈ item.data.indexes, index < item.data.vertexUvs0.length)
    (hbw : item.data.vertexPositions.length ≤ item.data.boneWeights.length)
    (hnorm : item.data.vertexNormals.length ≠ 0 →
      ∀ index ∈ item.data.indexes, index < item.data.vertexNormals.length) :
    ∃ st', ImportSkeletalMesh.meshBody total skelData i item st = some st' ∧
      st'.LODPoints.length = st.LODPoints.length ∧
      st'.LODPointToRawMap.length = st.LODPointToRawMap.length := by
  have hst0 : ∃ st0 : SkelMeshState,
      st0 = (if item.data.vertexNormals.length = 0 then { st with hasNormals := false } else st) ∧
      st0.LODPoints = st.LODPoints ∧ st0.LODPointToRawMap = st.LODPointToRawMap ∧
      st0.LODWedges = st.LODWedges ∧ st0.LODFaces = st.LODFaces ∧
      (st0.hasNormals = true → item.data.vertexNormals.length ≠ 0) := by
    refine ⟨_, rfl, ?_, ?_, ?_, ?_, ?_⟩
    · split <;> rfl
    · split <;> rfl
    · split <;> rfl
    · split <;> rfl
    · split
      · intro h; cases h
      · intro _; assumption
  obtain ⟨st0, hdef, z1, z2, z3, z4, z5⟩ := hst0
  obtain ⟨s1, h1⟩ := ImportSkeletalMesh.pointLoop_total item item.data.vertexPositions st0
    (by rw [z1]; exact hp1) (by rw [z2]; exact hp2)
  obtain ⟨a, b, e1, la, lb⟩ := ImportSkeletalMesh.pointLoop_some item _ st0 s1 h1
  obtain ⟨s2, h2⟩ := ImportSkeletalMesh.wedgeLoop_total total item s1
    (by rw [e1]; simpa [z3] using hw) huv
  obtain ⟨W, wb, e2, lW, _⟩ := ImportSkeletalMesh.wedgeLoop_some total item s1 s2 h2
  obtain ⟨s3, h3⟩ := ImportSkeletalMesh.faceLoop_total item s2
    (by rw [e2, e1]; simpa [z4] using hf)
    (by
      intro hN
      apply hnorm
      apply z5
      rw [e2, e1] at hN
      exact hN)
  obtain ⟨F, e3, _⟩ := ImportSkeletalMesh.faceLoop_some item _ s2 s3 h3
  obtain ⟨s4, h4⟩ := ImportSkeletalMesh.influenceLoop_total total skelData item
    item.data.vertexPositions.length s3 hbw
  obtain ⟨I, vb, bb, e4⟩ := ImportSkeletalMesh.influenceLoop_some total skelData item _ s3 s4 h4
  refine ⟨s4, ?_, ?_, ?_⟩
  · unfold ImportSkeletalMesh.meshBody
    simp only [Option.bind_eq_bind]
    rw [← hdef, h1]
    simp only [Option.some_bind]
    rw [h2]
    simp only [Option.some_bind]
    rw [h3]
    simp only [Option.some_bind]
    exact h4
  · rw [e4, e3, e2, e1]
    simpa [z1] using la
  · rw [e4, e3, e2, e1]
    simpa [z2] using lb

theorem ImportSkeletalMesh.meshLoop_total (skelData : ImportSkelData)
    (meshes : List ImportMeshData.Item) (st : SkelMeshState)
    (l1 : st.LODPoints.length = vertsBefore meshes meshes.length)
    (l2 : st.LODPointToRawMap.length = vertsBefore meshes meshes.length)
    (l3 : st.LODWedges.length = indexesBefore meshes meshes.length)
    (l4 : st.LODFaces.length = facesBefore meshes meshes.length)
    (huv : ∀ it ∈ meshes, ∀ index ∈ it.data.indexes, index < it.data.vertexUvs0.length)
    (hbw : ∀ it ∈ meshes, it.data.vertexPositions.length ≤ it.data.boneWeights.length)
    (hnorm : ∀ it ∈ meshes, it.data.vertexNormals.length ≠ 0 →
      ∀ index ∈ it.data.indexes, index < it.data.vertexNormals.length) :
    ∃ st', forEachIdx (withOffsets meshes meshes.length)
      (ImportSkeletalMesh.meshBody (vertsBefore meshes meshes.length) skelData) st
        = some st' := by
  obtain ⟨r, hr, _⟩ := forEachIdx_total (withOffsets meshes meshes.length)
    (ImportSkeletalMesh.meshBody (vertsBefore meshes meshes.length) skelData) st
    (fun _ s => s.LODPoints.length = vertsBefore meshes meshes.length ∧
      s.LODPointToRawMap.length = vertsBefore meshes meshes.length ∧
      s.LODWedges.length = indexesBefore meshes meshes.length ∧
      s.LODFaces.length = facesBefore meshes meshes.length)
    ⟨l1, l2, l3, l4⟩
    (by
      intro n item s hx ⟨g1, g2, g3, g4⟩
      obtain ⟨it0, hit0, hdata, _, hvo, hio, hfo⟩ := withOffsets_item meshes n item hx
      have hmem : it0 ∈ meshes := List.mem_iff_getElem?.mpr ⟨n, hit0⟩
      have hn : n + 1 ≤ meshes.length := by
        have := (List.getElem?_eq_some.mp hit0).1
        omega
      have v1 := vertsBefore_succ meshes n it0 hit0
      have v2 : vertsBefore meshes (n + 1) ≤ vertsBefore meshes meshes.length :=
        prefixSum_mono _ meshes (n + 1) meshes.length hn
      have i1 := indexesBefore_succ meshes n it0 hit0
      have i2 : indexesBefore meshes (n + 1) ≤ indexesBefore meshes meshes.length :=
        prefixSum_mono _ meshes (n + 1) meshes.length hn
      have f1 := facesBefore_succ meshes n it0 hit0
      have f2 : facesBefore meshes (n + 1) ≤ facesBefore meshes meshes.length :=
        prefixSum_mono _ meshes (n + 1) meshes.length hn
      obtain ⟨s', hb, q1, q2⟩ := ImportSkeletalMesh.meshBody_total
        (vertsBefore meshes meshes.length) skelData n item s
        (by rw [hdata, g1]; omega) (by rw [hdata, g2]; omega) (by rw [hdata, g3]; omega)
        (by rw [hdata, g4]; omega) (by rw [hdata]; exact huv it0 hmem)
        (by rw [hdata]; exact hbw it0 hmem) (by rw [hdata]; exact hnorm it0 hmem)
      obtain ⟨m1, _, _, _, m5, _, _⟩ := ImportSkeletalMesh.meshBody_some
        (vertsBefore meshes meshes.length) skelData n item s s' hb
      exact ⟨s', hb, by rw [q1, g1], by rw [q2, g2], by rw [m1, g3], by rw [m5, g4]⟩)
  exact ⟨r, hr⟩

theorem ImportSkeletalMesh_isSome (meshData : ImportMeshData) (skelData : ImportSkelData)
    (huv : ∀ it ∈ meshData.meshes, ∀ index ∈ it.data.indexes,
      index < it.data.vertexUvs0.length)
    (hbw : ∀ it ∈ meshData.meshes,
      it.data.vertexPositions.length ≤ it.data.boneWeights.length)
    (hnorm : ∀ it ∈ meshData.meshes, it.data.vertexNormals.length ≠ 0 →
      ∀ index ∈ it.data.indexes, index < it.data.vertexNormals.length) :
    (ImportSkeletalMesh.copyLoops meshData skelData).isSome := by
  rw [ImportSkeletalMesh_unfold]
  obtain ⟨st', h⟩ := ImportSkeletalMesh.meshLoop_total skelData meshData.meshes
    { LODPoints := List.replicate (vertsBefore meshData.meshes meshData.meshes.length)
        ⟨0, 0, 0⟩,
      LODWedges := List.replicate (indexesBefore meshData.meshes meshData.meshes.length)
        ⟨0, ⟨0, 0⟩⟩,
      LODFaces := List.replicate (facesBefore meshData.meshes meshData.meshes.length)
        ⟨0, 0, 0, ⟨0, 0, 0⟩, ⟨0, 0, 0⟩, ⟨0, 0, 0⟩, 0⟩,
      LODInfluences := [],
      LODPointToRawMap := List.replicate
        (vertsBefore meshData.meshes meshData.meshes.length) 0,
      hasNormals := true, wedgeBreaks := 0, vertBreaks := 0, boneBreaks := 0 }
    (by simp) (by simp) (by simp) (by simp) huv hbw hnorm
  rw [h]
  rfl

theorem ImportSkeletalMesh_some (meshData : ImportMeshData) (skelData : ImportSkelData)
    (r : SkelMeshImport) (h : ImportSkeletalMesh.copyLoops meshData skelData = some r) :
    r.meshList = withOffsets meshData.meshes meshData.meshes.length ∧
    r.totalVertCount = vertsBefore meshData.meshes meshData.meshes.length ∧
    r.totalIndexCount = indexesBefore meshData.meshes meshData.meshes.length ∧
    r.totalFaceCount = facesBefore meshData.meshes meshData.meshes.length ∧
    r.lod.LODWedges.length = r.totalIndexCount ∧
    r.lod.LODFaces.length = r.totalFaceCount ∧
    ((∀ it ∈ meshData.meshes, ∀ index ∈ it.data.indexes,
        index < it.data.vertexPositions.length) → r.lod.wedgeBreaks = 0) ∧
    (∀ (i : Nat) (item : ImportMeshData.Item), r.meshList[i]? = some item →
      (∀ j index, item.data.indexes[j]? = some index →
        ∃ w, r.lod.LODWedges[item.indexOffset + j]? = some w ∧
          w.iVertex = item.vertOffset + index ∧ item.data.vertexUvs0[index]? = some w.UVs0) ∧
      (∀ j, j < item.data.indexes.length / 3 →
        ∃ f, r.lod.LODFaces[item.faceOffset + j]? = some f ∧
          f.iWedge0 = item.indexOffset + (j * 3 + 0) ∧
          f.iWedge1 = item.indexOffset + (j * 3 + 1) ∧
          f.iWedge2 = item.indexOffset + (j * 3 + 2) ∧
          f.MeshMaterialIndex = item.matIdx)) := by
  rw [ImportSkeletalMesh_unfold] at h
  obtain ⟨st', hst, hr⟩ := Option.map_eq_some'.mp h
  obtain ⟨k1, k2, k3, k4⟩ := ImportSkeletalMesh.meshLoop_some _ skelData meshData.meshes _ st'
    rfl hst
  subst hr
  refine ⟨rfl, rfl, rfl, rfl, ?_, ?_, ?_, k4⟩
  · simpa using k1
  · simpa using k2
  · intro hall
    simpa using k3 hall

/-- `ImportSkeletalMesh` as a whole never reaches its copy loops: whatever the
mesh data and the skeleton, the skeleton returned by `ApplySkeletonToMesh` is
the member `Mesh->Skeleton` of the mesh made at line 440, which is `NULL`, and
the function returns `NULL` at line 461. -/
theorem ImportSkeletalMesh_returns_NULL (meshData : ImportMeshData) (skelData : ImportSkelData) :
    ImportSkeletalMesh meshData skelData = none := by
  unfold ImportSkeletalMesh
  simp only [Option.bind_eq_bind]
  cases forEachIdx meshData.materials
      (fun _i m (ms : List UMaterialInterface) => some (ms ++ [m])) USkeletalMesh.new.Materials with
  | none => rfl
  | some M =>
    simp only [Option.some_bind]
    cases ApplySkeletonToMesh USkeletalMesh.new.RefSkeleton skelData with
    | none => rfl
    | some R => rfl

/-- C9. For every list of meshes in which each triangle index is below its own
mesh's vertex count: in every run of the copy loops of `ImportSkeletalMesh`
(lines 483-566) that returns, the break of line 529 was never met; `vertOffset` of mesh `i` is the sum of the
vertex counts of the meshes before it and `totalVertCount` the sum over all
meshes; and the wedge of index `j` of mesh `i` carries
`iVertex = vertOffset + index`, which lies in that mesh's own vertex range
`[vertOffset, vertOffset + vertexCount)` and below `totalVertCount`. Also in
a run that does not return the break is never met: the offset loop always
returns, the vertex range of each mesh ends at or below `totalVertCount`, and
no iteration of the wedge loop meets the break when the index is below the
vertex count and the mesh's vertex range ends at or below the total. The
loops do return when, moreover, UV channel 0 and the
bone weights of each mesh are as long as its positions and its normals are
absent or as long as its positions. The function as a whole returns `NULL` at
line 461, before the loops, so it never meets the break either. -/
theorem ImportSkeletalMesh_wedge_vertex_in_range (meshData : ImportMeshData)
    (skelData : ImportSkelData)
    (hidx : ∀ it ∈ meshData.meshes, ∀ index ∈ it.data.indexes,
      index < it.data.vertexPositions.length) :
    ImportSkeletalMesh meshData skelData = none ∧
    (∀ r, ImportSkeletalMesh.copyLoops meshData skelData = some r →
      r.lod.wedgeBreaks = 0 ∧
      r.meshList.length = meshData.meshes.length ∧
      r.totalVertCount
        = (meshData.meshes.map (fun it => it.data.vertexPositions.length)).sum ∧
      ∀ (i : Nat) (item : ImportMeshData.Item), r.meshList[i]? = some item →
        (∃ it0, meshData.meshes[i]? = some it0 ∧ item.data = it0.data) ∧
        item.vertOffset
          = ((meshData.meshes.take i).map (fun it => it.data.vertexPositions.length)).sum ∧
        ∀ (j index : Nat), item.data.indexes[j]? = some index →
          ∃ w, r.lod.LODWedges[item.indexOffset + j]? = some w ∧
            w.iVertex = item.vertOffset + index ∧
            item.vertOffset ≤ w.iVertex ∧
            w.iVertex < item.vertOffset + item.data.vertexPositions.length ∧
            w.iVertex < r.totalVertCount) ∧
    (∃ off, ImportSkeletalMesh.offsets meshData.meshes = some off ∧
      ∀ (i : Nat) (item : ImportMeshData.Item), off.meshList[i]? = some item →
        item.vertOffset + item.data.vertexPositions.length ≤ off.totalVertCount ∧
        ∀ index ∈ item.data.indexes, index < item.data.vertexPositions.length) ∧
    (∀ (total : Nat) (item : ImportMeshData.Item) (j index : Nat) (st st' : SkelMeshState),
      ImportSkeletalMesh.wedgeBody total item j index st = some st' →
      index < item.data.vertexPositions.length →
      item.vertOffset + item.data.vertexPositions.length ≤ total →
      st'.wedgeBreaks = st.wedgeBreaks) ∧
    ((∀ it ∈ meshData.meshes,
        it.data.vertexUvs0.length = it.data.vertexPositions.length ∧
        it.data.boneWeights.length = it.data.vertexPositions.length ∧
        (it.data.vertexNormals.length = 0 ∨
          it.data.vertexNormals.length = it.data.vertexPositions.length)) →
      (ImportSkeletalMesh.copyLoops meshData skelData).isSome) := by
  refine ⟨ImportSkeletalMesh_returns_NULL meshData skelData, ?_, ?_, ?_, ?_⟩
  · intro r hr
    obtain ⟨e1, e2, _, _, _, _, hbr, hw⟩ := ImportSkeletalMesh_some meshData skelData r hr
    refine ⟨hbr hidx, ?_, ?_, ?_⟩
    · rw [e1]; simp [withOffsets]
    · rw [e2]; simp [vertsBefore]
    · intro i item hx
      rw [e1] at hx
      obtain ⟨it0, hit0, hdata, _, hvo, _, _⟩ := withOffsets_item meshData.meshes i item hx
      rw [← e1] at hx
      refine ⟨⟨it0, hit0, hdata⟩, hvo, ?_⟩
      intro j index hj
      obtain ⟨w, hw1, hw2, _⟩ := (hw i item hx).1 j index hj
      have hlt : index < item.data.vertexPositions.length := by
        rw [hdata]
        apply hidx it0 (List.mem_iff_getElem?.mpr ⟨i, hit0⟩)
        rw [← hdata]
        exact List.mem_iff_getElem?.mpr ⟨j, hj⟩
      have v1 := vertsBefore_succ meshData.meshes i it0 hit0
      have v2 : vertsBefore meshData.meshes (i + 1)
          ≤ vertsBefore meshData.meshes meshData.meshes.length :=
        prefixSum_mono _ meshData.meshes (i + 1) meshData.meshes.length
          (by have := (List.getElem?_eq_some.mp hit0).1; omega)
      refine ⟨w, hw1, hw2, by omega, by omega, ?_⟩
      rw [e2, hw2, hvo]
      rw [hdata] at hlt
      omega
  · refine ⟨_, ImportSkeletalMesh.offsets_eq meshData.meshes, ?_⟩
    intro i item hx
    obtain ⟨it0, hit0, hdata, _, hvo, _, _⟩ := withOffsets_item meshData.meshes i item hx
    have v1 := vertsBefore_succ meshData.meshes i it0 hit0
    have v2 : vertsBefore meshData.meshes (i + 1)
        ≤ vertsBefore meshData.meshes meshData.meshes.length :=
      prefixSum_mono _ meshData.meshes (i + 1) meshData.meshes.length
        (by have := (List.getElem?_eq_some.mp hit0).1; omega)
    constructor
    · show item.vertOffset + item.data.vertexPositions.length
        ≤ vertsBefore meshData.meshes meshData.meshes.length
      rw [hdata, hvo]
      omega
    · rw [hdata]
      exact hidx it0 (List.mem_iff_getElem?.mpr ⟨i, hit0⟩)
  · intro total item j index st st' hb hlt hle
    obtain ⟨w0, uv, _, _, e⟩ := ImportSkeletalMesh.wedgeBody_some total item j index st st' hb
    rw [e]
    have : ¬ (item.vertOffset + index ≥ total) := by omega
    simp [this]
  · intro hwf
    apply ImportSkeletalMesh_isSome
    · intro it hit index hmem
      rw [(hwf it hit).1]
      exact hidx it hit index hmem
    · intro it hit
      rw [(hwf it hit).2.1]
    · intro it hit hne index hmem
      rcases (hwf it hit).2.2 with h0 | h1
      · exact absurd h0 hne
      · rw [h1]
        exact hidx it hit index hmem

/-- C9, witness: for the sample mesh data (the quad of 4 vertices and indices
`[0,1,2, 1,3,2]`, twice) the copy loops return with no wedge break, the vertex
offsets are 0 and 4, `totalVertCount` is 8 and the wedges carry the vertices
`[0,1,2,1,3,2, 4,5,6,5,7,6]`. -/
theorem ImportSkeletalMesh_wedge_vertex_in_range_witness :
    (ImportSkeletalMesh.copyLoops sampleMeshData sampleSkel).map (fun r =>
        (r.meshList.map ImportMeshData.Item.vertOffset, r.totalVertCount,
          r.lod.LODWedges.map FMeshWedge.iVertex))
      = some ([0, 4], 8, [0, 1, 2, 1, 3, 2, 4, 5, 6, 5, 7, 6]) ∧
    ∃ r, ImportSkeletalMesh.copyLoops sampleMeshData sampleSkel = some r ∧ r.lod.wedgeBreaks = 0 := by
  have hidx : ∀ it ∈ sampleMeshData.meshes, ∀ index ∈ it.data.indexes,
      index < it.data.vertexPositions.length := by decide
  have T := (ImportSkeletalMesh_wedge_vertex_in_range sampleMeshData sampleSkel hidx).2
  have hsome := T.2.2.2 (by decide)
  obtain ⟨r, hr⟩ := Option.isSome_iff_exists.mp hsome
  exact ⟨by decide, r, hr, (T.1 r hr).1⟩

theorem Clamp_range (X : ℚ) : 0 ≤ Clamp X 0 51200 ∧ Clamp X 0 51200 ≤ 51200 := by
  unfold Clamp
  split_ifs with h1 h2
  · norm_num
  · constructor
    · linarith
    · linarith
  · norm_num

theorem Clamp_mono (X Y : ℚ) (h : X ≤ Y) : Clamp X 0 51200 ≤ Clamp Y 0 51200 := by
  unfold Clamp
  split_ifs <;> linarith

theorem Clamp_of_mem (X : ℚ) (h0 : 0 ≤ X) (h1 : X ≤ 51200) : Clamp X 0 51200 = X := by
  unfold Clamp
  split_ifs <;> linarith

theorem Clamp_of_nonpos (X : ℚ) (h : X ≤ 0) : Clamp X 0 51200 = 0 := by
  unfold Clamp
  split_ifs <;> linarith

theorem Clamp_of_ge (X : ℚ) (h : 51200 ≤ X) : Clamp X 0 51200 = 51200 := by
  unfold Clamp
  split_ifs <;> linarith

theorem ueValue.exact_range (h : ℚ) : 0 ≤ ueValue.exact h ∧ ueValue.exact h ≤ 65535 := by
  unfold ueValue.exact
  obtain ⟨a, b⟩ := Clamp_range (h + 25600)
  constructor
  · positivity
  · have : Clamp (h + 25600) 0 51200 / 51200 * 65535 ≤ 51200 / 51200 * 65535 := by
      gcongr
    linarith

theorem ueValue.exact_mono (h1 h2 : ℚ) (h : h1 ≤ h2) : ueValue.exact h1 ≤ ueValue.exact h2 := by
  unfold ueValue.exact
  have := Clamp_mono (h1 + 25600) (h2 + 25600) (by linarith)
  gcongr

theorem ueValue.quotient_range (h : ℚ) :
    0 ≤ Float32.round (Clamp (Float32.round (h + 25600)) 0 51200 / 51200) ∧
    Float32.round (Clamp (Float32.round (h + 25600)) 0 51200 / 51200) ≤ 1 := by
  obtain ⟨a, b⟩ := Clamp_range (Float32.round (h + 25600))
  constructor
  · exact Float32.round_nonneg _ (by positivity)
  · have : Clamp (Float32.round (h + 25600)) 0 51200 / 51200 ≤ 1 := by
      rw [div_le_iff₀ (by norm_num)]
      linarith
    have := Float32.round_mono _ _ this
    rwa [Float32.round_one] at this

theorem ueValue_range (h : ℚ) : 0 ≤ ueValue h ∧ ueValue h ≤ 65535 := by
  unfold ueValue
  obtain ⟨a, b⟩ := ueValue.quotient_range h
  constructor
  · exact Float32.round_nonneg _ (by positivity)
  · have : Float32.round (Clamp (Float32.round (h + 25600)) 0 51200 / 51200) * 65535
        ≤ 65535 := by linarith
    have := Float32.round_mono _ _ this
    rwa [Float32.round_65535] at this

theorem ueValue_mono (h1 h2 : ℚ) (h : h1 ≤ h2) : ueValue h1 ≤ ueValue h2 := by
  unfold ueValue
  have a := Float32.round_mono (h1 + 25600) (h2 + 25600) (by linarith)
  have b := Clamp_mono _ _ a
  have c : Clamp (Float32.round (h1 + 25600)) 0 51200 / 51200
      ≤ Clamp (Float32.round (h2 + 25600)) 0 51200 / 51200 := by gcongr
  have d := Float32.round_mono _ _ c
  exact Float32.round_mono _ _ (by linarith)

theorem ueValue_low (h : ℚ) (hh : h ≤ -25600) : ueValue h = 0 := by
  unfold ueValue
  rw [Clamp_of_nonpos _ (Float32.round_nonpos _ (by linarith))]
  norm_num [Float32.round_zero]

theorem ueValue_high (h : ℚ) (hh : 25600 ≤ h) : ueValue h = 65535 := by
  unfold ueValue
  have a := Float32.round_mono 51200 (h + 25600) (by linarith)
  rw [Float32.round_51200] at a
  rw [Clamp_of_ge _ a]
  norm_num [Float32.round_one, Float32.round_65535]

theorem ueValue_zero : ueValue 0 = 65535 / 2 := by
  unfold ueValue
  rw [zero_add, Float32.round_25600, Clamp_of_mem _ (by norm_num) (by norm_num)]
  have e1 : (25600 : ℚ) / 51200 = 1 / 2 := by norm_num
  rw [e1, Float32.round_half]
  have e2 : (1 / 2 : ℚ) * 65535 = 65535 / 2 := by norm_num
  rw [e2, Float32.round_32767_half]

theorem truncate_of_nonneg (x : ℚ) (h : 0 ≤ x) : truncate x = ⌊x⌋ := by
  unfold truncate
  rw [if_pos h]

theorem toUint16_of_mem (x : ℚ) (h0 : 0 ≤ x) (h1 : x ≤ 65535) :
    0 ≤ truncate x ∧ truncate x ≤ 65535 ∧ (toUint16 x : Int) = truncate x := by
  have t := truncate_of_nonneg x h0
  have f0 : 0 ≤ ⌊x⌋ := Int.floor_nonneg.mpr h0
  have f1 : ⌊x⌋ ≤ 65535 := by
    have : ⌊x⌋ ≤ ⌊(65535 : ℚ)⌋ := Int.floor_mono h1
    simpa using this
  refine ⟨by rw [t]; exact f0, by rw [t]; exact f1, ?_⟩
  unfold toUint16
  rw [t]
  omega

theorem toUint16_ueValue (h : ℚ) : (toUint16 (ueValue h) : Int) = ⌊ueValue h⌋ := by
  obtain ⟨a, b⟩ := ueValue_range h
  rw [(toUint16_of_mem _ a b).2.2, truncate_of_nonneg _ a]

theorem toUint16_exact (h : ℚ) : (toUint16 (ueValue.exact h) : Int) = ⌊ueValue.exact h⌋ := by
  obtain ⟨a, b⟩ := ueValue.exact_range h
  rw [(toUint16_of_mem _ a b).2.2, truncate_of_nonneg _ a]

theorem ueValue_error (h : ℚ) (h0 : -25600 ≤ h) (h1 : h ≤ 25600) :
    |ueValue h - ueValue.exact h| ≤ 196605 / 16777216 := by
  have x0 : 0 ≤ h + 25600 := by linarith
  have x1 : h + 25600 ≤ 51200 := by linarith
  have r0a : 0 ≤ Float32.round (h + 25600) := Float32.round_nonneg _ x0
  have r0b : Float32.round (h + 25600) ≤ 51200 := by
    have := Float32.round_mono _ _ x1
    rwa [Float32.round_51200] at this
  have e0 := Float32.round_error (h + 25600)
  rw [abs_of_nonneg x0] at e0
  obtain ⟨q1a, q1b⟩ := ueValue.quotient_range h
  have e1 := Float32.round_error (Clamp (Float32.round (h + 25600)) 0 51200 / 51200)
  have e2 := Float32.round_error
    (Float32.round (Clamp (Float32.round (h + 25600)) 0 51200 / 51200) * 65535)
  unfold ueValue ueValue.exact
  rw [Clamp_of_mem _ x0 x1]
  rw [Clamp_of_mem _ r0a r0b] at e1 e2 q1a q1b ⊢
  have qn : 0 ≤ Float32.round (h + 25600) / 51200 := by positivity
  have qb : Float32.round (h + 25600) / 51200 ≤ 1 := by
    rw [div_le_iff₀ (by norm_num)]
    linarith
  rw [abs_of_nonneg qn] at e1
  have pn : 0 ≤ Float32.round (Float32.round (h + 25600) / 51200) * 65535 := by positivity
  rw [abs_of_nonneg pn] at e2
  generalize Float32.round (h + 25600) = r0 at *
  generalize Float32.round (r0 / 51200) = r1 at *
  generalize Float32.round (r1 * 65535) = r2 at *
  rw [abs_sub_le_iff] at e0 e1 e2 ⊢
  obtain ⟨a1, a2⟩ := e0
  obtain ⟨b1, b2⟩ := e1
  obtain ⟨c1, c2⟩ := e2
  have k1 : r0 / 51200 = r0 * (1 / 51200) := by ring
  have k2 : (h + 25600) / 51200 * 65535 = (h + 25600) * (65535 / 51200) := by ring
  rw [k1] at b1 b2 qb
  rw [k2]
  constructor <;> linarith

theorem ueValue_at_21489 : ueValue (-21489) = 5262 := by
  unfold ueValue
  have s0 : (-21489 : ℚ) + 25600 = 4111 := by norm_num
  have r0 : Float32.round 4111 = 4111 := by
    rw [Float32.round_eq 4111 12 8419328 (by norm_num) (by norm_num)
      (by
        have : (4111 : ℚ) / 2 ^ ((12 : ℤ) - 23) = ((8419328 : ℤ) : ℚ) := by norm_num
        rw [this, roundHalfEven_intCast])]
    norm_num
  have r1 : Float32.round (4111 / 51200) = 2694185 / 33554432 := by
    rw [Float32.round_eq (4111 / 51200) (-4) 10776740 (by norm_num) (by norm_num)
      (by
        have : (10776740 : ℤ) = 10776739 + 1 := by norm_num
        rw [this]
        apply roundHalfEven_eq_ceil <;> norm_num)]
    norm_num
  have r2 : Float32.round (2694185 / 33554432 * 65535) = 5262 := by
    rw [Float32.round_eq (2694185 / 33554432 * 65535) 12 10776576 (by norm_num) (by norm_num)
      (by
        have : (10776576 : ℤ) = 10776575 + 1 := by norm_num
        rw [this]
        apply roundHalfEven_eq_ceil <;> norm_num)]
    norm_num
  rw [s0, r0, Clamp_of_mem _ (by norm_num) (by norm_num), r1, r2]

theorem PluginButtonClicked.sampleBody_some (SizeX outBaseX outBaseY : Nat) (himData : Him)
    (sy sx : Nat) (st st' : TerrainState)
    (h : PluginButtonClicked.sampleBody SizeX outBaseX outBaseY himData sy sx st = some st') :
    ∃ hmValue, himData.heights[sy * 65 + sx]? = some hmValue ∧
      ((outBaseY + sy) * SizeX + (outBaseX + sx)) % 4294967296 < st.Data.length ∧
      st' = { st with
        Data := st.Data.set (((outBaseY + sy) * SizeX + (outBaseX + sx)) % 4294967296)
          (toUint16 (ueValue hmValue)),
        MinHeight := if hmValue < st.MinHeight then hmValue else st.MinHeight,
        MaxHeight := if hmValue > st.MaxHeight then hmValue else st.MaxHeight } := by
  unfold PluginButtonClicked.sampleBody at h
  simp only [Option.bind_eq_bind, Option.bind_eq_some] at h
  obtain ⟨hm, h1, D, h2, h3⟩ := h
  obtain ⟨h4, h5⟩ := (setAt_eq_some _ _ _ _).mp h2
  refine ⟨hm, h1, h4, ?_⟩
  rw [← Option.some.inj h3, h5]

/-- C11. The value stored for a Him sample of height `h` by the sample loop of
`PluginButtonClicked` is `toUint16 (ueValue h)`, the truncation of the
single-precision expression of line 1345. It is 0 at `-25600`, 65535 at
`+25600` and 32767 at 0; it is 0 for every `h ≤ -25600` and 65535 for every
`h ≥ 25600`; it is non-decreasing; and the truncated value always lies in
`[0, 65535]`, so the store into the `uint16` buffer keeps it as it is. The
same holds of `u(h) = trunc(clamp(h + 25600, 0, 51200) / 51200 * 65535)` taken
over exact rationals (`ueValue.exact`). -/
theorem PluginButtonClicked_height_conversion :
    (∀ (SizeX outBaseX outBaseY : Nat) (himData : Him) (sy sx : Nat) (st st' : TerrainState),
      PluginButtonClicked.sampleBody SizeX outBaseX outBaseY himData sy sx st = some st' →
      ∃ h, himData.heights[sy * 65 + sx]? = some h ∧
        st'.Data[((outBaseY + sy) * SizeX + (outBaseX + sx)) % 4294967296]?
          = some (toUint16 (ueValue h))) ∧
    toUint16 (ueValue (-25600)) = 0 ∧
    toUint16 (ueValue 25600) = 65535 ∧
    toUint16 (ueValue 0) = 32767 ∧
    (∀ h : ℚ, h ≤ -25600 → toUint16 (ueValue h) = 0) ∧
    (∀ h : ℚ, 25600 ≤ h → toUint16 (ueValue h) = 65535) ∧
    (∀ h1 h2 : ℚ, h1 ≤ h2 → toUint16 (ueValue h1) ≤ toUint16 (ueValue h2)) ∧
    (∀ h : ℚ, 0 ≤ truncate (ueValue h) ∧ truncate (ueValue h) ≤ 65535 ∧
      (toUint16 (ueValue h) : Int) = truncate (ueValue h)) ∧
    toUint16 (ueValue.exact (-25600)) = 0 ∧
    toUint16 (ueValue.exact 25600) = 65535 ∧
    toUint16 (ueValue.exact 0) = 32767 ∧
    (∀ h : ℚ, h ≤ -25600 → toUint16 (ueValue.exact h) = 0) ∧
    (∀ h : ℚ, 25600 ≤ h → toUint16 (ueValue.exact h) = 65535) ∧
    (∀ h1 h2 : ℚ, h1 ≤ h2 → toUint16 (ueValue.exact h1) ≤ toUint16 (ueValue.exact h2)) ∧
    (∀ h : ℚ, 0 ≤ truncate (ueValue.exact h) ∧ truncate (ueValue.exact h) ≤ 65535 ∧
      (toUint16 (ueValue.exact h) : Int) = truncate (ueValue.exact h)) := by
  have low : ∀ h : ℚ, h ≤ -25600 → toUint16 (ueValue h) = 0 := by
    intro h hh
    have key : (toUint16 (ueValue h) : Int) = ⌊(0 : ℚ)⌋ := by
      rw [toUint16_ueValue, ueValue_low h hh]
    simpa using key
  have high : ∀ h : ℚ, 25600 ≤ h → toUint16 (ueValue h) = 65535 := by
    intro h hh
    have key : (toUint16 (ueValue h) : Int) = ⌊(65535 : ℚ)⌋ := by
      rw [toUint16_ueValue, ueValue_high h hh]
    have e2 : ⌊(65535 : ℚ)⌋ = 65535 := by simp
    rw [e2] at key
    exact_mod_cast key
  have lowE : ∀ h : ℚ, h ≤ -25600 → toUint16 (ueValue.exact h) = 0 := by
    intro h hh
    have e : ueValue.exact h = 0 := by
      unfold ueValue.exact
      rw [Clamp_of_nonpos _ (by linarith)]
      norm_num
    have key : (toUint16 (ueValue.exact h) : Int) = ⌊(0 : ℚ)⌋ := by rw [toUint16_exact, e]
    simpa using key
  have highE : ∀ h : ℚ, 25600 ≤ h → toUint16 (ueValue.exact h) = 65535 := by
    intro h hh
    have e : ueValue.exact h = 65535 := by
      unfold ueValue.exact
      rw [Clamp_of_ge _ (by linarith)]
      norm_num
    have key : (toUint16 (ueValue.exact h) : Int) = ⌊(65535 : ℚ)⌋ := by
      rw [toUint16_exact, e]
    have e2 : ⌊(65535 : ℚ)⌋ = 65535 := by simp
    rw [e2] at key
    exact_mod_cast key
  have e2 : ⌊(65535 / 2 : ℚ)⌋ = 32767 := by norm_num [Int.floor_eq_iff]
  refine ⟨?_, low _ le_rfl, high _ le_rfl, ?_, low, high, ?_, ?_,
    lowE _ le_rfl, highE _ le_rfl, ?_, lowE, highE, ?_, ?_⟩
  · intro SizeX outBaseX outBaseY himData sy sx st st' hb
    obtain ⟨h, h1, h2, h3⟩ := PluginButtonClicked.sampleBody_some _ _ _ _ _ _ _ _ hb
    refine ⟨h, h1, ?_⟩
    rw [h3]
    simp only [List.getElem?_set_self h2]
  · have key : (toUint16 (ueValue 0) : Int) = ⌊(65535 / 2 : ℚ)⌋ := by
      rw [toUint16_ueValue, ueValue_zero]
    rw [e2] at key
    exact_mod_cast key
  · intro h1 h2 hh
    have a := toUint16_ueValue h1
    have b := toUint16_ueValue h2
    have c : ⌊ueValue h1⌋ ≤ ⌊ueValue h2⌋ := Int.floor_mono (ueValue_mono h1 h2 hh)
    omega
  · intro h
    obtain ⟨a, b⟩ := ueValue_range h
    exact toUint16_of_mem _ a b
  · have e : ueValue.exact 0 = 65535 / 2 := by
      unfold ueValue.exact
      rw [Clamp_of_mem _ (by norm_num) (by norm_num)]
      norm_num
    have key : (toUint16 (ueValue.exact 0) : Int) = ⌊(65535 / 2 : ℚ)⌋ := by
      rw [toUint16_exact, e]
    rw [e2] at key
    exact_mod_cast key
  · intro h1 h2 hh
    have a := toUint16_exact h1
    have b := toUint16_exact h2
    have c : ⌊ueValue.exact h1⌋ ≤ ⌊ueValue.exact h2⌋ :=
      Int.floor_mono (ueValue.exact_mono h1 h2 hh)
    omega
  · intro h
    obtain ⟨a, b⟩ := ueValue.exact_range h
    exact toUint16_of_mem _ a b

/-- C11, evaluation at heights outside the raw range and at two neighbouring
heights, for the single-precision value and for the exact one. -/
theorem PluginButtonClicked_height_conversion_witness :
    toUint16 (ueValue (-30000)) = 0 ∧ toUint16 (ueValue 25601) = 65535 ∧
    toUint16 (ueValue 1) ≤ toUint16 (ueValue 2) ∧
    toUint16 (ueValue.exact (-30000)) = 0 ∧ toUint16 (ueValue.exact 25601) = 65535 ∧
    toUint16 (ueValue.exact 1) ≤ toUint16 (ueValue.exact 2) :=
  ⟨PluginButtonClicked_height_conversion.2.2.2.2.1 (-30000) (by norm_num),
   PluginButtonClicked_height_conversion.2.2.2.2.2.1 25601 (by norm_num),
   PluginButtonClicked_height_conversion.2.2.2.2.2.2.1 1 2 (by norm_num),
   PluginButtonClicked_height_conversion.2.2.2.2.2.2.2.2.2.2.2.1 (-30000) (by norm_num),
   PluginButtonClicked_height_conversion.2.2.2.2.2.2.2.2.2.2.2.2.1 25601 (by norm_num),
   PluginButtonClicked_height_conversion.2.2.2.2.2.2.2.2.2.2.2.2.2.1 1 2 (by norm_num)⟩

/-! ## The weight painting of `PluginButtonClicked` -/

theorem PluginButtonClicked.pixelBody_total (T oX oY sx sy b py px L : Nat)
    (W : List (List Nat)) (hb : b < 8) (hW : W.length = 8) (hL : ∀ l ∈ W, l.length = L)
    (hidx : (((oY + sy) * 4 + py) * T + ((oX + sx) * 4 + px)) % 4294967296 < L) :
    ∃ W', PluginButtonClicked.pixelBody T oX oY sx sy b py px W = some W' ∧
      W'.length = 8 ∧ ∀ l ∈ W', l.length = L := by
  have hbW : b < W.length := by omega
  have hl : (W[b]).length = L := hL _ (List.getElem_mem hbW)
  refine ⟨W.set b ((W[b]).set ((((oY + sy) * 4 + py) * T + ((oX + sx) * 4 + px)) % 4294967296) 50),
    ?_, ?_, ?_⟩
  · unfold PluginButtonClicked.pixelBody
    simp only [List.getElem?_eq_getElem hbW, Option.bind_eq_bind, Option.some_bind]
    rw [(setAt_eq_some _ _ _ _).mpr ⟨by rw [hl]; exact hidx, rfl⟩]
    simp only [Option.some_bind]
    exact (setAt_eq_some _ _ _ _).mpr ⟨hbW, rfl⟩
  · simpa using hW
  · intro l hl'
    rcases List.mem_or_eq_of_mem_set hl' with h | h
    · exact hL l h
    · rw [h]
      simpa using hl

theorem PluginButtonClicked.cellBody_total (T oX oY L : Nat) (tilData : Til) (sy sx : Nat)
    (W : List (List Nat)) (c : Til.Cell)
    (hc : tilData.Data[sy * 16 + sx]? = some c) (hB : 0 ≤ c.Brush ∧ c.Brush < 8)
    (hW : W.length = 8) (hL : ∀ l ∈ W, l.length = L)
    (hidx : ∀ py px, py < 5 → px < 5 →
      (((oY + sy) * 4 + py) * T + ((oX + sx) * 4 + px)) % 4294967296 < L) :
    ∃ W', PluginButtonClicked.cellBody T oX oY tilData sy sx W = some W' ∧
      W'.length = 8 ∧ ∀ l ∈ W', l.length = L := by
  unfold PluginButtonClicked.cellBody
  simp only [hc, Option.bind_eq_bind, Option.some_bind]
  rw [if_pos ⟨hB.1, hB.2⟩]
  exact forLoop_total 5 _ W (fun _ W' => W'.length = 8 ∧ ∀ l ∈ W', l.length = L) ⟨hW, hL⟩
    (by
      intro py W1 hpy ⟨g1, g2⟩
      exact forLoop_total 5 _ W1 (fun _ W' => W'.length = 8 ∧ ∀ l ∈ W', l.length = L) ⟨g1, g2⟩
        (by
          intro px W2 hpx ⟨k1, k2⟩
          exact PluginButtonClicked.pixelBody_total T oX oY sx sy _ py px L W2
            (by omega) k1 k2 (hidx py px hpy hpx)))

theorem PluginButtonClicked.paintTile_total (T oX oY L : Nat) (tilData : Til)
    (W : List (List Nat))
    (hD : 256 ≤ tilData.Data.length)
    (hB : ∀ (k : Nat) (c : Til.Cell), k < 256 → tilData.Data[k]? = some c →
      0 ≤ c.Brush ∧ c.Brush < 8)
    (hW : W.length = 8) (hL : ∀ l ∈ W, l.length = L)
    (hidx : ∀ sy sx py px, sy < 16 → sx < 16 → py < 5 → px < 5 →
      (((oY + sy) * 4 + py) * T + ((oX + sx) * 4 + px)) % 4294967296 < L) :
    ∃ W', PluginButtonClicked.paintTile T oX oY tilData W = some W' ∧
      W'.length = 8 ∧ ∀ l ∈ W', l.length = L := by
  unfold PluginButtonClicked.paintTile
  exact forLoop_total 16 _ W (fun _ W' => W'.length = 8 ∧ ∀ l ∈ W', l.length = L) ⟨hW, hL⟩
    (by
      intro sy W1 hsy ⟨g1, g2⟩
      exact forLoop_total 16 _ W1 (fun _ W' => W'.length = 8 ∧ ∀ l ∈ W', l.length = L) ⟨g1, g2⟩
        (by
          intro sx W2 hsx ⟨k1, k2⟩
          have hk : sy * 16 + sx < tilData.Data.length := by omega
          exact PluginButtonClicked.cellBody_total T oX oY L tilData sy sx W2 _
            (List.getElem?_eq_getElem hk)
            (hB _ _ (by omega) (List.getElem?_eq_getElem hk)) k1 k2
            (fun py px hpy hpx => hidx sy sx py px hsy hsx hpy hpx)))

/-! ## The height loops of `PluginButtonClicked` -/

theorem PluginButtonClicked.sampleBody_total (SizeX oX oY : Nat) (himData : Him) (sy sx : Nat)
    (st : TerrainState) (h : ℚ) (hh : himData.heights[sy * 65 + sx]? = some h)
    (hidx : ((oY + sy) * SizeX + (oX + sx)) % 4294967296 < st.Data.length) :
    PluginButtonClicked.sampleBody SizeX oX oY himData sy sx st
      = some { st with
          Data := st.Data.set (((oY + sy) * SizeX + (oX + sx)) % 4294967296)
            (toUint16 (ueValue h)),
          MinHeight := if h < st.MinHeight then h else st.MinHeight,
          MaxHeight := if h > st.MaxHeight then h else st.MaxHeight } := by
  unfold PluginButtonClicked.sampleBody
  simp only [hh, Option.bind_eq_bind, Option.some_bind]
  rw [(setAt_eq_some _ _ _ _).mpr ⟨hidx, rfl⟩]
  rfl

theorem PluginButtonClicked.outIdx_injective (SizeX oX oY : Nat) (hX : oX + 64 < SizeX)
    (sy sx sy2 sx2 : Nat) (h1 : sx < 65) (h2 : sx2 < 65)
    (h : (oY + sy) * SizeX + (oX + sx) = (oY + sy2) * SizeX + (oX + sx2)) :
    sy = sy2 ∧ sx = sx2 := by
  have a : oX + sx < SizeX := by omega
  have b : oX + sx2 < SizeX := by omega
  have hpos : 0 < SizeX := by omega
  have q1 : ((oY + sy) * SizeX + (oX + sx)) / SizeX = oY + sy := by
    rw [Nat.add_comm, Nat.add_mul_div_right _ _ hpos, Nat.div_eq_of_lt a]
    omega
  have q2 : ((oY + sy2) * SizeX + (oX + sx2)) / SizeX = oY + sy2 := by
    rw [Nat.add_comm, Nat.add_mul_div_right _ _ hpos, Nat.div_eq_of_lt b]
    omega
  have e : oY + sy = oY + sy2 := by rw [← q1, ← q2, h]
  have e2 : sy = sy2 := by omega
  subst e2
  exact ⟨rfl, by omega⟩

theorem PluginButtonClicked.sampleBody_step (SizeX oX oY : Nat) (himData : Him)
    (st s : TerrainState) (sy sx : Nat) (hsy : sy < 65) (hsx : sx < 65)
    (hH : 4225 ≤ himData.heights.length) (hX : oX + 64 < SizeX)
    (hD : (oY + 64) * SizeX + (oX + 64) < st.Data.length)
    (hM : st.Data.length ≤ 4294967296)
    (inv : PluginButtonClicked.heightsWritten SizeX oX oY himData st (sy * 65 + sx) s) :
    ∃ s', PluginButtonClicked.sampleBody SizeX oX oY himData sy sx s = some s' ∧
      PluginButtonClicked.heightsWritten SizeX oX oY himData st (sy * 65 + sx + 1) s' := by
  obtain ⟨i1, i2, i3, i4, i5⟩ := inv
  have hk : sy * 65 + sx < himData.heights.length := by omega
  have hle : (oY + sy) * SizeX ≤ (oY + 64) * SizeX := Nat.mul_le_mul_right _ (by omega)
  have ho : (oY + sy) * SizeX + (oX + sx) < st.Data.length := by omega
  have hmod : ((oY + sy) * SizeX + (oX + sx)) % 4294967296 = (oY + sy) * SizeX + (oX + sx) :=
    Nat.mod_eq_of_lt (by omega)
  have hb := PluginButtonClicked.sampleBody_total SizeX oX oY himData sy sx s _
    (List.getElem?_eq_getElem hk) (by rw [hmod, i3]; exact ho)
  rw [hmod] at hb
  refine ⟨_, hb, i1, i2, by simpa using i3, ?_, ?_⟩
  · intro sy2 sx2 h2 hlt
    by_cases hc : sy2 * 65 + sx2 = sy * 65 + sx
    · have e1 : sy2 = sy := by omega
      have e2 : sx2 = sx := by omega
      subst e1 e2
      exact ⟨_, List.getElem?_eq_getElem hk, by
        simp only [List.getElem?_set_self (by rw [i3]; exact ho)]⟩
    · obtain ⟨h, g1, g2⟩ := i4 sy2 sx2 h2 (by omega)
      refine ⟨h, g1, ?_⟩
      have hne : (oY + sy) * SizeX + (oX + sx) ≠ (oY + sy2) * SizeX + (oX + sx2) := by
        intro he
        obtain ⟨e1, e2⟩ := PluginButtonClicked.outIdx_injective SizeX oX oY hX _ _ _ _ hsx h2 he
        apply hc
        rw [e1, e2]
      simp only [List.getElem?_set_ne hne]
      exact g2
  · intro p hp
    have hne : (oY + sy) * SizeX + (oX + sx) ≠ p := fun he =>
      hp sy sx hsx (by omega) he.symm
    simp only [List.getElem?_set_ne hne]
    exact i5 p (fun sy2 sx2 h2 hlt => hp sy2 sx2 h2 (by omega))

theorem PluginButtonClicked.heightTile_total (SizeX oX oY : Nat) (himData : Him)
    (st : TerrainState)
    (hH : 4225 ≤ himData.heights.length) (hX : oX + 64 < SizeX)
    (hD : (oY + 64) * SizeX + (oX + 64) < st.Data.length)
    (hM : st.Data.length ≤ 4294967296) :
    ∃ st', PluginButtonClicked.heightTile SizeX oX oY himData st = some st' ∧
      PluginButtonClicked.heightsWritten SizeX oX oY himData st 4225 st' := by
  unfold PluginButtonClicked.heightTile
  have key := forLoop_total 65 (fun sy st =>
      forLoop 65 (fun sx st =>
        PluginButtonClicked.sampleBody SizeX oX oY himData sy sx st) st) st
    (fun sy s => PluginButtonClicked.heightsWritten SizeX oX oY himData st (sy * 65) s)
    (by
      refine ⟨rfl, rfl, rfl, ?_, ?_⟩
      · intro sy sx _ h
        omega
      · intro p _
        rfl)
    (by
      intro sy s hsy inv
      have inner := forLoop_total 65 (fun sx st =>
          PluginButtonClicked.sampleBody SizeX oX oY himData sy sx st) s
        (fun sx s => PluginButtonClicked.heightsWritten SizeX oX oY himData st (sy * 65 + sx) s)
        inv
        (by
          intro sx s2 hsx inv2
          exact PluginButtonClicked.sampleBody_step SizeX oX oY himData st s2 sy sx hsy hsx
            hH hX hD hM inv2)
      obtain ⟨r, hr, hinv⟩ := inner
      refine ⟨r, hr, ?_⟩
      have e : (sy + 1) * 65 = sy * 65 + 65 := by ring
      show PluginButtonClicked.heightsWritten SizeX oX oY himData st ((sy + 1) * 65) r
      rw [e]
      exact hinv)
  obtain ⟨r, hr, hinv⟩ := key
  exact ⟨r, hr, hinv⟩

/-! ## The tile loops of `PluginButtonClicked` -/

theorem PluginButtonClicked.RoseSize_eq (start stop : Nat) (h : start ≤ stop)
    (hb : stop - start < 1000) :
    PluginButtonClicked.RoseSize start stop = 64 * (stop - start + 1) := by
  unfold PluginButtonClicked.RoseSize toUint32
  omega

theorem PluginButtonClicked.Size_eq (R : Nat) (h : R ≤ 64000) :
    PluginButtonClicked.Size R = (R / 63 + 1) * 63 + 1 := by
  unfold PluginButtonClicked.Size
  omega

theorem flatIndex_lt (a b A B : Nat) (ha : a < A) (hb : b < B) : b * A + a < A * B := by
  have h1 : (b + 1) * A ≤ B * A := Nat.mul_le_mul_right _ hb
  have h2 : (b + 1) * A = b * A + A := by ring
  have h3 : B * A = A * B := Nat.mul_comm _ _
  omega

theorem PluginButtonClicked.fill_total (D : List Nat) :
    ∃ D', forLoop D.length (fun i Data => setAt Data i 0x8000) D = some D' ∧
      D'.length = D.length := by
  exact forLoop_total D.length _ D (fun _ D' => D'.length = D.length) rfl
    (by
      intro j D1 hj hlen
      exact ⟨D1.set j 0x8000, (setAt_eq_some _ _ _ _).mpr ⟨by omega, rfl⟩, by simpa using hlen⟩)

theorem PluginButtonClicked.layers_eq (L : Nat) :
    forLoop 8 (fun i (WeightData : List (List Nat)) =>
      modifyAt WeightData i (fun layer => layer ++ List.replicate L 0)) (List.replicate 8 [])
      = some (List.replicate 8 ([] ++ List.replicate L 0)) := by
  rfl

theorem PluginButtonClicked.buildingBody_total (host : Host) (assets : List UBlueprint)
    (ix iy i : Nat) (obj : Ifo.FBuildingBlock) (st : TerrainState) :
    ∃ st', PluginButtonClicked.buildingBody host assets ix iy i obj st = some st' ∧
      st'.Data = st.Data ∧ st'.WeightData = st.WeightData := by
  unfold PluginButtonClicked.buildingBody
  dsimp only
  split
  · exact ⟨_, rfl, rfl, rfl⟩
  · exact ⟨_, rfl, rfl, rfl⟩

theorem PluginButtonClicked.objectBody_total (host : Host) (assets : List UBlueprint)
    (ix iy i : Nat) (obj : Ifo.FObjectBlock) (st : TerrainState) :
    ∃ st', PluginButtonClicked.objectBody host assets ix iy i obj st = some st' ∧
      st'.Data = st.Data ∧ st'.WeightData = st.WeightData := by
  unfold PluginButtonClicked.objectBody
  dsimp only
  split
  · exact ⟨_, rfl, rfl, rfl⟩
  · exact ⟨_, rfl, rfl, rfl⟩

theorem PluginButtonClicked.spawn_total (host : Host) (assets : List UBlueprint) (ix iy : Nat)
    (ifoData : Ifo) (st : TerrainState) :
    ∃ st1 st2,
      forEachIdx ifoData.Buildings (PluginButtonClicked.buildingBody host assets ix iy) st
        = some st1 ∧
      forEachIdx ifoData.Objects (PluginButtonClicked.objectBody host assets ix iy) st1
        = some st2 ∧
      st2.Data = st.Data ∧ st2.WeightData = st.WeightData := by
  obtain ⟨st1, h1, a1, a2⟩ := forEachIdx_total ifoData.Buildings
    (PluginButtonClicked.buildingBody host assets ix iy) st
    (fun _ s => s.Data = st.Data ∧ s.WeightData = st.WeightData) ⟨rfl, rfl⟩
    (by
      intro j obj s _ ⟨g1, g2⟩
      obtain ⟨s', e, k1, k2⟩ := PluginButtonClicked.buildingBody_total host assets ix iy j obj s
      exact ⟨s', e, by rw [k1, g1], by rw [k2, g2]⟩)
  obtain ⟨st2, h2, b1, b2⟩ := forEachIdx_total ifoData.Objects
    (PluginButtonClicked.objectBody host assets ix iy) st1
    (fun _ s => s.Data = st.Data ∧ s.WeightData = st.WeightData) ⟨a1, a2⟩
    (by
      intro j obj s _ ⟨g1, g2⟩
      obtain ⟨s', e, k1, k2⟩ := PluginButtonClicked.objectBody_total host assets ix iy j obj s
      exact ⟨s', e, by rw [k1, g1], by rw [k2, g2]⟩)
  exact ⟨st1, st2, h1, h2, b1, b2⟩

theorem PluginButtonClicked.tileBody_total (host : Host) (files : MapFiles)
    (assets : List UBlueprint) (startX startY SizeX SizeY n m kx ky : Nat) (st : TerrainState)
    (hkx : kx < n) (hky : ky < m) (hnX : 64 * n < SizeX) (hmY : 64 * m < SizeY)
    (hM : SizeX * SizeY ≤ 4294967296)
    (hTil : ∀ p : String, 256 ≤ (files.loadTil p).Data.length ∧
      ∀ (k : Nat) (c : Til.Cell), k < 256 → (files.loadTil p).Data[k]? = some c →
        0 ≤ c.Brush ∧ c.Brush < 8)
    (hHim : ∀ p : String, 4225 ≤ (files.loadHim p).heights.length)
    (hD : st.Data.length = SizeX * SizeY) (hW : st.WeightData.length = 8)
    (hL : ∀ l ∈ st.WeightData, l.length = SizeX * SizeY) :
    ∃ st', PluginButtonClicked.tileBody host files assets startX startY SizeX SizeX
        (startY + ky) (startX + kx) st = some st' ∧
      st'.Data.length = SizeX * SizeY ∧ st'.WeightData.length = 8 ∧
      ∀ l ∈ st'.WeightData, l.length = SizeX * SizeY := by
  have ex : startX + kx - startX = kx := by omega
  have ey : startY + ky - startY = ky := by omega
  obtain ⟨W', hp, w1, w2⟩ := PluginButtonClicked.paintTile_total SizeX (kx * 16) (ky * 16)
    (SizeX * SizeY)
    (files.loadTil (host.RoseBasePath ++ ("3DDATA/MAPS/JUNON/JDT01/" ++ toString (startX + kx)
      ++ "_" ++ toString (startY + ky) ++ ".til")))
    st.WeightData (hTil _).1 (hTil _).2 hW hL
    (by
      intro sy sx py px hsy hsx hpy hpx
      have a : (kx * 16 + sx) * 4 + px < SizeX := by omega
      have b : (ky * 16 + sy) * 4 + py < SizeY := by omega
      have c := flatIndex_lt _ _ _ _ a b
      rw [Nat.mod_eq_of_lt (by omega)]
      exact c)
  obtain ⟨s2, hh, q1, q2, q3, _, _⟩ := PluginButtonClicked.heightTile_total SizeX (kx * 64)
    (ky * 64)
    (files.loadHim (host.RoseBasePath ++ ("3DDATA/MAPS/JUNON/JDT01/" ++ toString (startX + kx)
      ++ "_" ++ toString (startY + ky) ++ ".him")))
    { st with WeightData := W' } (hHim _) (by omega)
    (by
      have a : kx * 64 + 64 < SizeX := by omega
      have b : ky * 64 + 64 < SizeY := by omega
      have c := flatIndex_lt _ _ _ _ a b
      show (ky * 64 + 64) * SizeX + (kx * 64 + 64) < st.Data.length
      rw [hD]
      exact c)
    (by
      show st.Data.length ≤ 4294967296
      rw [hD]
      exact hM)
  obtain ⟨s3, s4, hb, ho, r1, r2⟩ := PluginButtonClicked.spawn_total host assets (startX + kx)
    (startY + ky)
    (files.loadIfo (host.RoseBasePath ++ ("3DDATA/MAPS/JUNON/JDT01/" ++ toString (startX + kx)
      ++ "_" ++ toString (startY + ky) ++ ".ifo"))) s2
  refine ⟨s4, ?_, ?_, ?_, ?_⟩
  · unfold PluginButtonClicked.tileBody
    simp only [ex, ey, Option.bind_eq_bind]
    rw [hp]
    simp only [Option.some_bind]
    rw [hh]
    simp only [Option.some_bind]
    rw [hb]
    simp only [Option.some_bind]
    exact ho
  · rw [r1, q3]
    exact hD
  · rw [r2, q1]
    exact w1
  · rw [r2, q1]
    exact w2

theorem PluginButtonClicked.terrain_total (host : Host) (files : MapFiles)
    (assets : List UBlueprint) (startX startY endX endY : Nat)
    (hx : startX ≤ endX) (hy : startY ≤ endY)
    (bx : endX - startX < 1000) (bY : endY - startY < 1000)
    (hTil : ∀ p : String, 256 ≤ (files.loadTil p).Data.length ∧
      ∀ (k : Nat) (c : Til.Cell), k < 256 → (files.loadTil p).Data[k]? = some c →
        0 ≤ c.Brush ∧ c.Brush < 8)
    (hHim : ∀ p : String, 4225 ≤ (files.loadHim p).heights.length) :
    ∃ t, PluginButtonClicked.terrain host files assets startX startY endX endY = some t ∧
      t.SizeX = (64 * (endX - startX + 1) / 63 + 1) * 63 + 1 ∧
      t.SizeY = (64 * (endY - startY + 1) / 63 + 1) * 63 + 1 ∧
      t.state.Data.length = t.SizeX * t.SizeY ∧ t.state.WeightData.length = 8 ∧
      ∀ l ∈ t.state.WeightData, l.length = t.SizeX * t.SizeY := by
  have rx := PluginButtonClicked.RoseSize_eq startX endX hx bx
  have ry := PluginButtonClicked.RoseSize_eq startY endY hy bY
  have sx := PluginButtonClicked.Size_eq (64 * (endX - startX + 1)) (by omega)
  have sy := PluginButtonClicked.Size_eq (64 * (endY - startY + 1)) (by omega)
  generalize hSX : (64 * (endX - startX + 1) / 63 + 1) * 63 + 1 = SX at sx
  generalize hSY : (64 * (endY - startY + 1) / 63 + 1) * 63 + 1 = SY at sy
  have bSX : SX ≤ 65000 := by omega
  have bSY : SY ≤ 65000 := by omega
  have gX : 64 * (endX + 1 - startX) < SX := by omega
  have gY : 64 * (endY + 1 - startY) < SY := by omega
  have hM : SX * SY < 4294967296 := by
    have := Nat.mul_le_mul bSX bSY
    omega
  have hmod : SX * SY % 4294967296 = SX * SY := Nat.mod_eq_of_lt hM
  obtain ⟨D, hD, lD⟩ := PluginButtonClicked.fill_total ([] ++ List.replicate (SX * SY) 0)
  have lD2 : D.length = SX * SY := by simpa using lD
  obtain ⟨st, hloop, i1, i2, i3⟩ := forLoop_total (endY + 1 - startY) (fun ky st =>
      forLoop (endX + 1 - startX) (fun kx st =>
        PluginButtonClicked.tileBody host files assets startX startY SX SX
          (startY + ky) (startX + kx) st) st)
    ({ Data := D, WeightData := List.replicate 8 ([] ++ List.replicate (SX * SY) 0),
       MinHeight := 1000000, MaxHeight := -1000000, actors := [] } : TerrainState)
    (fun _ s => s.Data.length = SX * SY ∧ s.WeightData.length = 8 ∧
      ∀ l ∈ s.WeightData, l.length = SX * SY)
    (by
      refine ⟨lD2, by simp, ?_⟩
      intro l hl
      rw [List.eq_of_mem_replicate hl]
      simp)
    (by
      intro ky s hky ⟨g1, g2, g3⟩
      exact forLoop_total (endX + 1 - startX) _ s
        (fun _ s => s.Data.length = SX * SY ∧ s.WeightData.length = 8 ∧
          ∀ l ∈ s.WeightData, l.length = SX * SY) ⟨g1, g2, g3⟩
        (by
          intro kx s2 hkx ⟨k1, k2, k3⟩
          exact PluginButtonClicked.tileBody_total host files assets startX startY SX SY
            (endX + 1 - startX) (endY + 1 - startY) kx ky s2 hkx hky gX gY (by omega)
            hTil hHim k1 k2 k3))
  refine ⟨{ SizeX := SX, SizeY := SY, state := st }, ?_, rfl, rfl, i1, i2, i3⟩
  unfold PluginButtonClicked.terrain
  simp only [rx, ry, sx, sy, hmod, Option.bind_eq_bind]
  rw [hD]
  simp only [Option.some_bind]
  rw [PluginButtonClicked.layers_eq]
  simp only [Option.some_bind]
  rw [hloop]
  rfl

theorem PluginButtonClicked.blockPixel_lt (ix iy sx sy px py : Nat)
    (h1 : 31 ≤ ix) (h2 : ix ≤ 34) (h3 : 30 ≤ iy) (h4 : iy ≤ 33)
    (h5 : sx < 16) (h6 : sy < 16) (h7 : px < 5) (h8 : py < 5) :
    ((ix - 31) * 16 + sx) * 4 + px < 316 ∧ ((iy - 30) * 16 + sy) * 4 + py < 316 ∧
    (((iy - 30) * 16 + sy) * 4 + py) * 316 + (((ix - 31) * 16 + sx) * 4 + px) < 316 * 316 ∧
    ((((iy - 30) * 16 + sy) * 4 + py) * 316 + (((ix - 31) * 16 + sx) * 4 + px)) % 4294967296
      < 316 * 316 := by
  have a : ((ix - 31) * 16 + sx) * 4 + px < 316 := by omega
  have b : ((iy - 30) * 16 + sy) * 4 + py < 316 := by omega
  have c : (((iy - 30) * 16 + sy) * 4 + py) * 316 + (((ix - 31) * 16 + sx) * 4 + px)
      < 316 * 316 := by omega
  refine ⟨a, b, c, ?_⟩
  rw [Nat.mod_eq_of_lt (by omega)]
  exact c

/-- C13. In the terrain-weight painting of `PluginButtonClicked` the tile size
of the block 31..34 x 30..33 is 316 in both directions. For every tile
`(ix, iy)` of the block, every Til cell `(sx, sy)` with `sx, sy < 16` and every
pixel `px, py < 5`: the cell index `sy * 16 + sx` is below 256, `PixelX` and
`PixelY` are below the tile size, the flat index is below
`TileSizeX * TileSizeY`, and for a brush index below 8 the write
`WeightData[BrushIdx][PixelY * TileSizeX + PixelX] = 50` succeeds on eight
layers of that size. Hence the painting of a whole tile succeeds when the
Til grid has its 256 cells, each with a brush index in `[0, 8)`; a cell whose
brush index is outside `[0, 8)` fails the `check` and ends the run. -/
theorem PluginButtonClicked_weight_writes_in_range :
    PluginButtonClicked.Size (PluginButtonClicked.RoseSize 31 34) = 316 ∧
    PluginButtonClicked.Size (PluginButtonClicked.RoseSize 30 33) = 316 ∧
    (∀ ix iy sx sy px py : Nat, 31 ≤ ix → ix ≤ 34 → 30 ≤ iy → iy ≤ 33 →
      sx < 16 → sy < 16 → px < 5 → py < 5 →
      sy * 16 + sx < 256 ∧
      ((ix - 31) * 16 + sx) * 4 + px < 316 ∧
      ((iy - 30) * 16 + sy) * 4 + py < 316 ∧
      (((iy - 30) * 16 + sy) * 4 + py) * 316 + (((ix - 31) * 16 + sx) * 4 + px) < 316 * 316 ∧
      ∀ (BrushIdx : Nat) (W : List (List Nat)), BrushIdx < 8 → W.length = 8 →
        (∀ l ∈ W, l.length = 316 * 316) →
        ∃ W', PluginButtonClicked.pixelBody 316 ((ix - 31) * 16) ((iy - 30) * 16) sx sy
            BrushIdx py px W = some W' ∧
          W'.length = 8 ∧ ∀ l ∈ W', l.length = 316 * 316) ∧
    (∀ (ix iy : Nat) (tilData : Til) (W : List (List Nat)),
      31 ≤ ix → ix ≤ 34 → 30 ≤ iy → iy ≤ 33 →
      256 ≤ tilData.Data.length →
      (∀ (k : Nat) (c : Til.Cell), k < 256 → tilData.Data[k]? = some c →
        0 ≤ c.Brush ∧ c.Brush < 8) →
      W.length = 8 → (∀ l ∈ W, l.length = 316 * 316) →
      ∃ W', PluginButtonClicked.paintTile 316 ((ix - 31) * 16) ((iy - 30) * 16) tilData W
          = some W' ∧
        W'.length = 8 ∧ ∀ l ∈ W', l.length = 316 * 316) ∧
    (∀ (T oX oY : Nat) (tilData : Til) (sy sx : Nat) (W : List (List Nat)) (c : Til.Cell),
      tilData.Data[sy * 16 + sx]? = some c → ¬ (0 ≤ c.Brush ∧ c.Brush < 8) →
      PluginButtonClicked.cellBody T oX oY tilData sy sx W = none) := by
  refine ⟨by decide, by decide, ?_, ?_, ?_⟩
  · intro ix iy sx sy px py h1 h2 h3 h4 h5 h6 h7 h8
    obtain ⟨a, b, c, d⟩ := PluginButtonClicked.blockPixel_lt ix iy sx sy px py h1 h2 h3 h4 h5 h6 h7 h8
    refine ⟨by omega, a, b, c, ?_⟩
    intro BrushIdx W hb hW hL
    exact PluginButtonClicked.pixelBody_total 316 _ _ sx sy BrushIdx py px (316 * 316) W hb hW hL d
  · intro ix iy tilData W h1 h2 h3 h4 hD hB hW hL
    exact PluginButtonClicked.paintTile_total 316 _ _ (316 * 316) tilData W hD hB hW hL
      (fun sy sx py px h6 h5 h8 h7 =>
        (PluginButtonClicked.blockPixel_lt ix iy sx sy px py h1 h2 h3 h4 h5 h6 h7 h8).2.2.2)
  · intro T oX oY tilData sy sx W c hc hb
    unfold PluginButtonClicked.cellBody
    simp only [hc, Option.bind_eq_bind, Option.some_bind]
    rw [if_neg]
    intro h
    exact hb ⟨h.1, h.2⟩

theorem PluginButtonClicked_weight_writes_in_range_witness :
    ∃ W', PluginButtonClicked.pixelBody 316 ((34 - 31) * 16) ((33 - 30) * 16) 15 15 7 4 4
        (List.replicate 8 (List.replicate (316 * 316) 0)) = some W' ∧
      W'.length = 8 ∧ ∀ l ∈ W', l.length = 316 * 316 :=
  (PluginButtonClicked_weight_writes_in_range.2.2.1 34 33 15 15 4 4 (by decide) (by decide)
    (by decide) (by decide) (by decide) (by decide) (by decide) (by decide)).2.2.2.2 7 _
    (by decide) (List.length_replicate 8 _)
    (by
      intro l hl
      rw [List.eq_of_mem_replicate hl]
      exact List.length_replicate _ _)

/-! ## Decimal formatting (`%d`) -/

theorem digitChar_toNat (m : Nat) (h : m < 10) : (Nat.digitChar m).toNat - 48 = m := by
  interval_cases m <;> rfl

theorem toDigitsCore_append (fuel n : Nat) (ds : List Char) :
    Nat.toDigitsCore 10 fuel n ds = Nat.toDigitsCore 10 fuel n [] ++ ds := by
  induction fuel generalizing n ds with
  | zero => simp [Nat.toDigitsCore]
  | succ fuel ih =>
    simp only [Nat.toDigitsCore]
    split
    · simp
    · rw [ih (n / 10) (Nat.digitChar (n % 10) :: ds), ih (n / 10) [Nat.digitChar (n % 10)]]
      simp

theorem toDigitsCore_value (fuel n : Nat) (h : n < fuel) :
    (Nat.toDigitsCore 10 fuel n []).foldl (fun a c => a * 10 + (c.toNat - 48)) 0 = n := by
  induction fuel generalizing n with
  | zero => omega
  | succ fuel ih =>
    simp only [Nat.toDigitsCore]
    split
    · rename_i h0
      simp only [List.foldl_cons, List.foldl_nil, Nat.zero_mul, Nat.zero_add]
      rw [digitChar_toNat _ (Nat.mod_lt _ (by decide))]
      omega
    · rename_i h0
      rw [toDigitsCore_append, List.foldl_append, ih (n / 10) (by omega)]
      simp only [List.foldl_cons, List.foldl_nil]
      rw [digitChar_toNat _ (Nat.mod_lt _ (by decide))]
      omega

theorem toString_nat_injective (a b : Nat) (h : toString a = toString b) : a = b := by
  have h2 : (Nat.toDigits 10 a) = (Nat.toDigits 10 b) := by
    have := congrArg String.data h
    simpa [toString, Nat.repr, List.asString] using this
  have va := toDigitsCore_value (a + 1) a (by omega)
  have vb := toDigitsCore_value (b + 1) b (by omega)
  unfold Nat.toDigits at h2
  rw [h2] at va
  omega

/-! ## C14: asset names of the map objects -/

theorem ImportWorldZscModel.body_names (host : Host) (meshs : Zsc) (modelIdx j : Nat)
    (part : Zsc.Part) (bp bp' : UBlueprint)
    (h : ImportWorldZscModel.body host meshs modelIdx j part bp = some bp') :
    bp'.PackageName = bp.PackageName ∧ bp'.AssetName = bp.AssetName := by
  unfold ImportWorldZscModel.body at h
  simp only [Option.bind_eq_bind, Option.bind_eq_some] at h
  obtain ⟨_, _, _, _, _, _, _, _, _, _, _, _, _, _, h⟩ := h
  split at h
  · obtain ⟨y, _, h⟩ := Option.bind_eq_some.mp h
    cases h
    exact ⟨rfl, rfl⟩
  · obtain ⟨y, _, h⟩ := Option.bind_eq_some.mp h
    cases h
    exact ⟨rfl, rfl⟩

theorem ImportWorldZscModel_names (host : Host) (MdlTypeName : String) (meshs : Zsc)
    (modelIdx : Nat) (bp : UBlueprint)
    (h : ImportWorldZscModel host MdlTypeName meshs modelIdx = some bp) :
    bp.PackageName = "/MAPS" ∧ bp.AssetName = MdlTypeName ++ "_" ++ toString modelIdx := by
  unfold ImportWorldZscModel at h
  simp only [Option.bind_eq_bind, Option.bind_eq_some] at h
  obtain ⟨model, _, h⟩ := h
  exact forEachIdx_induction model.parts (ImportWorldZscModel.body host meshs modelIdx) _
    (fun _ b => b.PackageName = "/MAPS" ∧ b.AssetName = MdlTypeName ++ "_" ++ toString modelIdx)
    ⟨rfl, rfl⟩
    (by
      intro j part b b' _ ⟨g1, g2⟩ hb
      obtain ⟨k1, k2⟩ := ImportWorldZscModel.body_names host meshs modelIdx j part b b' hb
      exact ⟨by rw [k1, g1], by rw [k2, g2]⟩)
    bp h

theorem PluginButtonClicked.importModels_spec (host : Host) (MdlTypeName : String) (meshs : Zsc)
    (acc out : List UBlueprint)
    (h : PluginButtonClicked.importModels host MdlTypeName meshs acc = some out) :
    ∃ bps, out = acc ++ bps ∧
      (∀ bp ∈ bps, ∃ (i : Nat) (model : Zsc.Model), meshs.models[i]? = some model ∧
        model.parts.length > 0 ∧ ImportWorldZscModel host MdlTypeName meshs i = some bp) ∧
      (∀ (i : Nat) (model : Zsc.Model), meshs.models[i]? = some model →
        model.parts.length > 0 →
        ∃ bp ∈ bps, ImportWorldZscModel host MdlTypeName meshs i = some bp) := by
  unfold PluginButtonClicked.importModels at h
  have key := forEachIdx_induction meshs.models _ acc
    (fun n (s : List UBlueprint) => ∃ bps, s = acc ++ bps ∧
      (∀ bp ∈ bps, ∃ (i : Nat) (model : Zsc.Model), meshs.models[i]? = some model ∧
        model.parts.length > 0 ∧ ImportWorldZscModel host MdlTypeName meshs i = some bp) ∧
      (∀ (i : Nat) (model : Zsc.Model), i < n → meshs.models[i]? = some model →
        model.parts.length > 0 →
        ∃ bp ∈ bps, ImportWorldZscModel host MdlTypeName meshs i = some bp))
    ⟨[], by simp, by simp, by
      intro i model hi
      omega⟩
    (by
      intro j model s s' hj ⟨bps, e, g1, g2⟩ hb
      by_cases hp : model.parts.length > 0
      · rw [if_pos hp] at hb
        obtain ⟨bp, hbp, hs⟩ := Option.bind_eq_some.mp hb
        cases hs
        refine ⟨bps ++ [bp], by rw [e, List.append_assoc], ?_, ?_⟩
        · intro b hb2
          rcases List.mem_append.mp hb2 with hb3 | hb3
          · exact g1 b hb3
          · rw [List.mem_singleton] at hb3
            subst hb3
            exact ⟨j, model, hj, hp, hbp⟩
        · intro i m hi hm hmp
          by_cases hij : i = j
          · subst hij
            exact ⟨bp, by simp, hbp⟩
          · obtain ⟨b, hb2, hb3⟩ := g2 i m (by omega) hm hmp
            exact ⟨b, List.mem_append_left _ hb2, hb3⟩
      · rw [if_neg hp] at hb
        cases hb
        refine ⟨bps, e, g1, ?_⟩
        intro i m hi hm hmp
        by_cases hij : i = j
        · subst hij
          rw [hj] at hm
          cases hm
          exact absurd hmp hp
        · exact g2 i m (by omega) hm hmp)
    out h
  obtain ⟨bps, e, g1, g2⟩ := key
  refine ⟨bps, e, g1, ?_⟩
  intro i model hm hmp
  exact g2 i model (List.getElem?_eq_some.mp hm).1 hm hmp

theorem buildingAssetName_injective (a b : Nat)
    (h : PluginButtonClicked.buildingAssetName a = PluginButtonClicked.buildingAssetName b) :
    a = b := by
  unfold PluginButtonClicked.buildingAssetName at h
  apply toString_nat_injective
  have := congrArg String.data h
  simp only [String.data_append, List.append_cancel_left_eq] at this
  exact String.ext this

theorem objectAssetName_injective (a b : Nat)
    (h : PluginButtonClicked.objectAssetName a = PluginButtonClicked.objectAssetName b) :
    a = b := by
  unfold PluginButtonClicked.objectAssetName at h
  apply toString_nat_injective
  have := congrArg String.data h
  simp only [String.data_append, List.append_cancel_left_eq] at this
  exact String.ext this

theorem buildingAssetName_ne_objectAssetName (a b : Nat) :
    PluginButtonClicked.buildingAssetName a ≠ PluginButtonClicked.objectAssetName b := by
  unfold PluginButtonClicked.buildingAssetName PluginButtonClicked.objectAssetName
  intro h
  have := congrArg String.data h
  simp only [String.data_append] at this
  simp at this

theorem buildingAssetName_eq (n : Nat) :
    "JDTC" ++ "_" ++ toString n = PluginButtonClicked.buildingAssetName n := rfl

theorem objectAssetName_eq (n : Nat) :
    "JDTD" ++ "_" ++ toString n = PluginButtonClicked.objectAssetName n := rfl

theorem GetExistingAsset_spec (assets : List UBlueprint) (name : String)
    (target : Option UBlueprint)
    (h1 : ∀ bp ∈ assets, bp.PackageName = "/MAPS" → bp.AssetName = name → target = some bp)
    (h2 : ∀ bp, target = some bp → bp ∈ assets ∧ bp.PackageName = "/MAPS" ∧ bp.AssetName = name) :
    GetExistingAsset assets "/MAPS" name = target := by
  unfold GetExistingAsset
  cases hf : assets.find? (fun bp => bp.PackageName = "/MAPS" ∧ bp.AssetName = name) with
  | some bp =>
    have hm := List.mem_of_find?_eq_some hf
    have hp := List.find?_some hf
    simp only [decide_eq_true_eq] at hp
    exact (h1 bp hm hp.1 hp.2).symm
  | none =>
    cases ht : target with
    | none => rfl
    | some bp =>
      exfalso
      obtain ⟨a, b, c⟩ := h2 bp ht
      have := List.find?_eq_none.mp hf bp a
      simp [b, c] at this

theorem PluginButtonClicked.catalogTarget_spec (host : Host) (MdlTypeName : String)
    (meshs : Zsc) (n : Nat) (bp : UBlueprint) :
    (match meshs.models[n]? with
      | some model =>
        if model.parts.length > 0 then ImportWorldZscModel host MdlTypeName meshs n else none
      | none => none) = some bp ↔
    ∃ model, meshs.models[n]? = some model ∧ model.parts.length > 0 ∧
      ImportWorldZscModel host MdlTypeName meshs n = some bp := by
  cases hm : meshs.models[n]? with
  | none => simp
  | some model =>
    by_cases hp : model.parts.length > 0
    · simp [hp]
    · simp [hp]

theorem PluginButtonClicked.resolve_building (host : Host) (meshsc meshsd : Zsc)
    (cn dc : List UBlueprint)
    (c1 : ∀ bp ∈ cn, ∃ (i : Nat) (model : Zsc.Model), meshsc.models[i]? = some model ∧
        model.parts.length > 0 ∧ ImportWorldZscModel host "JDTC" meshsc i = some bp)
    (c2 : ∀ (i : Nat) (model : Zsc.Model), meshsc.models[i]? = some model →
        model.parts.length > 0 →
        ∃ bp ∈ cn, ImportWorldZscModel host "JDTC" meshsc i = some bp)
    (d1 : ∀ bp ∈ dc, ∃ (i : Nat) (model : Zsc.Model), meshsd.models[i]? = some model ∧
        model.parts.length > 0 ∧ ImportWorldZscModel host "JDTD" meshsd i = some bp)
    (n : Nat) :
    GetExistingAsset (cn ++ dc) "/MAPS" (PluginButtonClicked.buildingAssetName n)
      = (match meshsc.models[n]? with
        | some model =>
          if model.parts.length > 0 then ImportWorldZscModel host "JDTC" meshsc n else none
        | none => none) := by
  apply GetExistingAsset_spec
  · intro bp hbp hP hA
    rw [PluginButtonClicked.catalogTarget_spec]
    rcases List.mem_append.mp hbp with hm | hm
    · obtain ⟨i, model, g1, g2, g3⟩ := c1 bp hm
      have hn := (ImportWorldZscModel_names host "JDTC" meshsc i bp g3).2
      rw [buildingAssetName_eq, hA] at hn
      have e := buildingAssetName_injective _ _ hn
      subst e
      exact ⟨model, g1, g2, g3⟩
    · exfalso
      obtain ⟨i, model, g1, g2, g3⟩ := d1 bp hm
      have hn := (ImportWorldZscModel_names host "JDTD" meshsd i bp g3).2
      rw [objectAssetName_eq, hA] at hn
      exact buildingAssetName_ne_objectAssetName _ _ hn
  · intro bp ht
    rw [PluginButtonClicked.catalogTarget_spec] at ht
    obtain ⟨model, g1, g2, g3⟩ := ht
    obtain ⟨bp', hm, g4⟩ := c2 n model g1 g2
    rw [g3] at g4
    cases g4
    obtain ⟨k1, k2⟩ := ImportWorldZscModel_names host "JDTC" meshsc n bp g3
    exact ⟨List.mem_append_left _ hm, k1, by rw [k2, buildingAssetName_eq]⟩

theorem PluginButtonClicked.resolve_object (host : Host) (meshsc meshsd : Zsc)
    (cn dc : List UBlueprint)
    (c1 : ∀ bp ∈ cn, ∃ (i : Nat) (model : Zsc.Model), meshsc.models[i]? = some model ∧
        model.parts.length > 0 ∧ ImportWorldZscModel host "JDTC" meshsc i = some bp)
    (d1 : ∀ bp ∈ dc, ∃ (i : Nat) (model : Zsc.Model), meshsd.models[i]? = some model ∧
        model.parts.length > 0 ∧ ImportWorldZscModel host "JDTD" meshsd i = some bp)
    (d2 : ∀ (i : Nat) (model : Zsc.Model), meshsd.models[i]? = some model →
        model.parts.length > 0 →
        ∃ bp ∈ dc, ImportWorldZscModel host "JDTD" meshsd i = some bp)
    (n : Nat) :
    GetExistingAsset (cn ++ dc) "/MAPS" (PluginButtonClicked.objectAssetName n)
      = (match meshsd.models[n]? with
        | some model =>
          if model.parts.length > 0 then ImportWorldZscModel host "JDTD" meshsd n else none
        | none => none) := by
  apply GetExistingAsset_spec
  · intro bp hbp hP hA
    rw [PluginButtonClicked.catalogTarget_spec]
    rcases List.mem_append.mp hbp with hm | hm
    · exfalso
      obtain ⟨i, model, g1, g2, g3⟩ := c1 bp hm
      have hn := (ImportWorldZscModel_names host "JDTC" meshsc i bp g3).2
      rw [buildingAssetName_eq, hA] at hn
      exact buildingAssetName_ne_objectAssetName _ _ hn.symm
    · obtain ⟨i, model, g1, g2, g3⟩ := d1 bp hm
      have hn := (ImportWorldZscModel_names host "JDTD" meshsd i bp g3).2
      rw [objectAssetName_eq, hA] at hn
      have e := objectAssetName_injective _ _ hn
      subst e
      exact ⟨model, g1, g2, g3⟩
  · intro bp ht
    rw [PluginButtonClicked.catalogTarget_spec] at ht
    obtain ⟨model, g1, g2, g3⟩ := ht
    obtain ⟨bp', hm, g4⟩ := d2 n model g1 g2
    rw [g3] at g4
    cases g4
    obtain ⟨k1, k2⟩ := ImportWorldZscModel_names host "JDTD" meshsd n bp g3
    exact ⟨List.mem_append_right _ hm, k1, by rw [k2, objectAssetName_eq]⟩

/-- C14. `ImportWorldZscModel` stores model `n` of the construction catalog
under the pair `("/MAPS", "JDTC_n")` and model `n` of the decoration catalog
under `("/MAPS", "JDTD_n")`; the building loop of `PluginButtonClicked` looks a
building with ObjectID `n` up under `("/MAPS", "JDTC_n")` and the decoration
loop looks a decoration up under `("/MAPS", "JDTD_n")`. Both names are
injective in `n` and no building name is a decoration name. So in every run of
`PluginButtonClicked` that returns, the blueprint found for a building with
ObjectID `n` is the one made from model `n` of the construction catalog (none
when that model is absent or has no part), and the blueprint found for a
decoration is the one made from model `n` of the decoration catalog. -/
theorem PluginButtonClicked_objectID_own_catalog :
    (∀ (host : Host) (meshs : Zsc) (n : Nat) (bp : UBlueprint),
      ImportWorldZscModel host "JDTC" meshs n = some bp →
      (bp.PackageName, bp.AssetName) = ("/MAPS", PluginButtonClicked.buildingAssetName n)) ∧
    (∀ (host : Host) (meshs : Zsc) (n : Nat) (bp : UBlueprint),
      ImportWorldZscModel host "JDTD" meshs n = some bp →
      (bp.PackageName, bp.AssetName) = ("/MAPS", PluginButtonClicked.objectAssetName n)) ∧
    (∀ (host : Host) (assets : List UBlueprint) (ix iy i : Nat) (obj : Ifo.FBuildingBlock)
        (st : TerrainState),
      PluginButtonClicked.buildingBody host assets ix iy i obj st
        = match GetExistingAsset assets "/MAPS"
            (PluginButtonClicked.buildingAssetName obj.ObjectID) with
          | some Model => some { st with actors := st.actors ++
              [{ Name := "Bldg_" ++ toString ix ++ "_" ++ toString iy ++ "_" ++ toString i,
                 Model := Model, Pos := obj.Position, Rot := host.Rotator obj.Rotation,
                 Scale := obj.Scale }] }
          | none => some st) ∧
    (∀ (host : Host) (assets : List UBlueprint) (ix iy i : Nat) (obj : Ifo.FObjectBlock)
        (st : TerrainState),
      PluginButtonClicked.objectBody host assets ix iy i obj st
        = match GetExistingAsset assets "/MAPS"
            (PluginButtonClicked.objectAssetName obj.ObjectID) with
          | some Model => some { st with actors := st.actors ++
              [{ Name := "Deco_" ++ toString ix ++ "_" ++ toString iy ++ "_" ++ toString i,
                 Model := Model, Pos := obj.Position, Rot := host.Rotator obj.Rotation,
                 Scale := obj.Scale }] }
          | none => some st) ∧
    (∀ a b : Nat, PluginButtonClicked.buildingAssetName a = PluginButtonClicked.buildingAssetName b →
      a = b) ∧
    (∀ a b : Nat, PluginButtonClicked.objectAssetName a = PluginButtonClicked.objectAssetName b →
      a = b) ∧
    (∀ a b : Nat, PluginButtonClicked.buildingAssetName a ≠ PluginButtonClicked.objectAssetName b) ∧
    (∀ (host : Host) (files : MapFiles) (r : MapImport),
      PluginButtonClicked host files = some r →
      ∀ n : Nat,
        GetExistingAsset r.assets "/MAPS" (PluginButtonClicked.buildingAssetName n)
          = (match (files.loadZsc
                (host.RoseBasePath ++ "3DDATA/JUNON/LIST_CNST_JDT.ZSC")).models[n]? with
            | some model =>
              if model.parts.length > 0 then
                ImportWorldZscModel host "JDTC"
                  (files.loadZsc (host.RoseBasePath ++ "3DDATA/JUNON/LIST_CNST_JDT.ZSC")) n
              else none
            | none => none) ∧
        GetExistingAsset r.assets "/MAPS" (PluginButtonClicked.objectAssetName n)
          = (match (files.loadZsc
                (host.RoseBasePath ++ "3DDATA/JUNON/LIST_DECO_JDT.ZSC")).models[n]? with
            | some model =>
              if model.parts.length > 0 then
                ImportWorldZscModel host "JDTD"
                  (files.loadZsc (host.RoseBasePath ++ "3DDATA/JUNON/LIST_DECO_JDT.ZSC")) n
              else none
            | none => none)) := by
  refine ⟨?_, ?_, ?_, ?_, buildingAssetName_injective, objectAssetName_injective,
    buildingAssetName_ne_objectAssetName, ?_⟩
  · intro host meshs n bp h
    obtain ⟨k1, k2⟩ := ImportWorldZscModel_names host "JDTC" meshs n bp h
    rw [k1, k2, buildingAssetName_eq]
  · intro host meshs n bp h
    obtain ⟨k1, k2⟩ := ImportWorldZscModel_names host "JDTD" meshs n bp h
    rw [k1, k2, objectAssetName_eq]
  · intro host assets ix iy i obj st
    unfold PluginButtonClicked.buildingBody SpawnWorldModel
    dsimp only
    cases GetExistingAsset assets "/MAPS" (PluginButtonClicked.buildingAssetName obj.ObjectID)
      <;> rfl
  · intro host assets ix iy i obj st
    unfold PluginButtonClicked.objectBody SpawnWorldModel
    dsimp only
    cases GetExistingAsset assets "/MAPS" (PluginButtonClicked.objectAssetName obj.ObjectID)
      <;> rfl
  · intro host files r h n
    unfold PluginButtonClicked at h
    simp only [Option.bind_eq_bind, Option.bind_eq_some] at h
    obtain ⟨cn, hcn, all, hall, t, _, hr⟩ := h
    cases hr
    obtain ⟨bps1, e1, c1, c2⟩ := PluginButtonClicked.importModels_spec _ _ _ _ _ hcn
    obtain ⟨bps2, e2, d1, d2⟩ := PluginButtonClicked.importModels_spec _ _ _ _ _ hall
    simp only [List.nil_append] at e1
    subst e1
    subst e2
    exact ⟨PluginButtonClicked.resolve_building host _ _ cn bps2 c1 c2 d1 n,
      PluginButtonClicked.resolve_object host _ _ cn bps2 c1 d1 d2 n⟩

theorem PluginButtonClicked_objectID_own_catalog_witness :
    (∃ bp, ImportWorldZscModel sampleHost "JDTC" sampleCatalog 0 = some bp ∧
      (bp.PackageName, bp.AssetName) = ("/MAPS", PluginButtonClicked.buildingAssetName 0)) ∧
    PluginButtonClicked.buildingAssetName 7 ≠ PluginButtonClicked.objectAssetName 7 := by
  obtain ⟨bp, h⟩ := Option.isSome_iff_exists.mp
    (show (ImportWorldZscModel sampleHost "JDTC" sampleCatalog 0).isSome by decide)
  exact ⟨⟨bp, h, PluginButtonClicked_objectID_own_catalog.1 _ _ _ _ h⟩,
    PluginButtonClicked_objectID_own_catalog.2.2.2.2.2.2.1 7 7⟩

/-! ## C15: channels of an unknown type -/

theorem ImportWorldZscModel.timelineBody_other (host : Host) (anim : Zmo) (i : Nat)
    (c : Zmo.Channel) (st : TimelineState) (h : c.isOther = true) :
    ImportWorldZscModel.channelBody host anim i c st
      = some { st with breaks := st.breaks + (if c.index ≠ 0 then 1 else 0) + 1 } := by
  cases c with
  | Other k tag =>
    unfold ImportWorldZscModel.channelBody
    by_cases hk : k = 0
    · simp [Zmo.Channel.index, hk]
    · simp [Zmo.Channel.index, hk]
  | Position k frames => simp [Zmo.Channel.isOther] at h
  | Rotation k frames => simp [Zmo.Channel.isOther] at h
  | Scale k frames => simp [Zmo.Channel.isOther] at h

theorem ImportWorldZscModel.timelineBody_typed (host : Host) (anim : Zmo) (i : Nat)
    (c : Zmo.Channel) (st st' : TimelineState) (h : c.isOther = false)
    (hb : ImportWorldZscModel.channelBody host anim i c st = some st') :
    st'.breaks = st.breaks + (if c.index ≠ 0 then 1 else 0) := by
  cases c with
  | Other k tag => simp [Zmo.Channel.isOther] at h
  | Position k frames =>
    unfold ImportWorldZscModel.channelBody at hb
    simp only [Option.bind_eq_bind, Option.bind_eq_some] at hb
    obtain ⟨C, _, hb⟩ := hb
    cases hb
    by_cases hk : k = 0 <;> simp [Zmo.Channel.index, hk]
  | Rotation k frames =>
    unfold ImportWorldZscModel.channelBody at hb
    simp only [Option.bind_eq_bind, Option.bind_eq_some] at hb
    obtain ⟨C, _, hb⟩ := hb
    cases hb
    by_cases hk : k = 0 <;> simp [Zmo.Channel.index, hk]
  | Scale k frames =>
    unfold ImportWorldZscModel.channelBody at hb
    simp only [Option.bind_eq_bind, Option.bind_eq_some] at hb
    obtain ⟨C, _, hb⟩ := hb
    cases hb
    by_cases hk : k = 0 <;> simp [Zmo.Channel.index, hk]

theorem ImportWorldZscModel.timelineBody_breaks (host : Host) (anim : Zmo) (i : Nat)
    (c : Zmo.Channel) (st st' : TimelineState)
    (hb : ImportWorldZscModel.channelBody host anim i c st = some st') :
    st'.breaks = st.breaks + (if c.index ≠ 0 then 1 else 0) + (if c.isOther then 1 else 0) := by
  cases hc : c.isOther with
  | true =>
    rw [ImportWorldZscModel.timelineBody_other host anim i c st hc] at hb
    cases hb
    simp
  | false =>
    rw [ImportWorldZscModel.timelineBody_typed host anim i c st st' hc hb]
    simp

theorem ImportWorldZscModel.timeline_breaks (host : Host) (j : Nat) (anim : Zmo) (tl : Timeline)
    (h : ImportWorldZscModel.timeline host j anim = some tl) :
    tl.curves.breaks = anim.channels.countP (fun c => decide (c.index ≠ 0))
      + anim.channels.countP Zmo.Channel.isOther := by
  unfold ImportWorldZscModel.timeline at h
  simp only [Option.bind_eq_bind, Option.bind_eq_some] at h
  obtain ⟨st, hst, htl⟩ := h
  cases htl
  have key := forEachIdx_induction anim.channels (ImportWorldZscModel.channelBody host anim) _
    (fun n (s : TimelineState) =>
      s.breaks = (anim.channels.take n).countP (fun c => decide (c.index ≠ 0))
        + (anim.channels.take n).countP Zmo.Channel.isOther)
    (by simp)
    (by
      intro n c s s' hc hP hb
      have hn : n < anim.channels.length := (List.getElem?_eq_some.mp hc).1
      have hget : anim.channels[n] = c := (List.getElem?_eq_some.mp hc).2
      rw [ImportWorldZscModel.timelineBody_breaks host anim n c s s' hb, hP,
        List.take_succ, hc]
      simp only [Option.toList, List.countP_append, List.countP_cons, List.countP_nil]
      by_cases h1 : c.index = 0 <;> cases h2 : c.isOther <;> simp [h1] <;> omega)
    st hst
  simpa using key

theorem ImportSkeletalAnim.channelBody_breaks (j : Nat) (c : Zmo.Channel) (st st' : AnimState)
    (h : ImportSkeletalAnim.channelBody j c st = some st') :
    st'.breaks = st.breaks + (if c.isOther then 1 else 0) := by
  by_cases hc : c.index < st.tracks.length
  · rw [ImportSkeletalAnim.channelBody_eq j c st hc] at h
    cases h
    rfl
  · rw [ImportSkeletalAnim.channelBody_none j c st (by omega)] at h
    cases h

theorem ImportSkeletalAnim.channelBody_other (j : Nat) (c : Zmo.Channel) (st : AnimState)
    (h : c.isOther = true) (hc : c.index < st.tracks.length) :
    ImportSkeletalAnim.channelBody j c st = some { st with breaks := st.breaks + 1 } := by
  cases c with
  | Other k tag =>
    unfold ImportSkeletalAnim.channelBody
    simp only [Zmo.Channel.index] at hc ⊢
    simp [List.getElem?_eq_getElem hc]
  | Position k frames => simp [Zmo.Channel.isOther] at h
  | Rotation k frames => simp [Zmo.Channel.isOther] at h
  | Scale k frames => simp [Zmo.Channel.isOther] at h

/-- C15. In the channel loop of `ImportSkeletalAnim` a channel whose type tag
is none of Position, Rotation, Scale meets the break of line 688 (once its
track has been looked up at line 665, which needs its bone index below the
number of tracks) and leaves every track as it was; a channel of one of the
three kinds never meets that break. So in every run that returns the break was
met once per channel of an unknown type. In the timeline loop of
`ImportWorldZscModel` a channel of an unknown type meets the break of line
1119 and leaves the three curves and the three `Uses` flags as they were; a
channel of one of the three kinds does not meet it: the only break it can
meet is the one of line 1065 for a channel index other than 0, which is
counted apart. -/
theorem ImportSkeletalAnim_unknown_channel_breaks :
    (∀ (j : Nat) (c : Zmo.Channel) (st : AnimState), c.isOther = true →
      c.index < st.tracks.length →
      ImportSkeletalAnim.channelBody j c st = some { st with breaks := st.breaks + 1 }) ∧
    (∀ (j : Nat) (c : Zmo.Channel) (st st' : AnimState),
      ImportSkeletalAnim.channelBody j c st = some st' → c.isOther = true →
      st'.tracks = st.tracks ∧ st'.breaks = st.breaks + 1) ∧
    (∀ (j : Nat) (c : Zmo.Channel) (st st' : AnimState),
      ImportSkeletalAnim.channelBody j c st = some st' → c.isOther = false →
      st'.breaks = st.breaks) ∧
    (∀ (skelData : ImportSkelData) (anim : Zmo) (r : UAnimSequence),
      ImportSkeletalAnim skelData anim = some r →
      r.breaks = anim.channels.countP Zmo.Channel.isOther) ∧
    (∀ (host : Host) (anim : Zmo) (i : Nat) (c : Zmo.Channel) (st : TimelineState),
      c.isOther = true →
      ImportWorldZscModel.channelBody host anim i c st
        = some { st with breaks := st.breaks + (if c.index ≠ 0 then 1 else 0) + 1 }) ∧
    (∀ (host : Host) (anim : Zmo) (i : Nat) (c : Zmo.Channel) (st st' : TimelineState),
      c.isOther = false →
      ImportWorldZscModel.channelBody host anim i c st = some st' →
      st'.breaks = st.breaks + (if c.index ≠ 0 then 1 else 0)) ∧
    (∀ (host : Host) (j : Nat) (anim : Zmo) (tl : Timeline),
      ImportWorldZscModel.timeline host j anim = some tl →
      tl.curves.breaks = anim.channels.countP (fun c => decide (c.index ≠ 0))
        + anim.channels.countP Zmo.Channel.isOther) := by
  refine ⟨ImportSkeletalAnim.channelBody_other, ?_, ?_, ?_,
    ImportWorldZscModel.timelineBody_other, ImportWorldZscModel.timelineBody_typed,
    ImportWorldZscModel.timeline_breaks⟩
  · intro j c st st' h hc
    have hin : c.index < st.tracks.length := by
      by_contra hlt
      rw [ImportSkeletalAnim.channelBody_none j c st (by omega)] at h
      cases h
    rw [ImportSkeletalAnim.channelBody_other j c st hc hin] at h
    cases h
    exact ⟨rfl, rfl⟩
  · intro j c st st' h hc
    rw [ImportSkeletalAnim.channelBody_breaks j c st st' h, hc]
    simp
  · intro skelData anim r h
    have hin := ImportSkeletalAnim_some_inRange skelData anim r h
    rw [ImportSkeletalAnim_eq skelData anim hin] at h
    cases h
    rfl

theorem ImportSkeletalAnim_unknown_channel_breaks_witness :
    ImportSkeletalAnim.channelBody 0 (.Other 1 9)
        { tracks := [bindPoseTrack ⟨"Root", 0, ⟨0, 0, 0⟩, ⟨0, 0, 0, 1⟩⟩,
                     bindPoseTrack ⟨"child", 0, ⟨1, 0, 0⟩, ⟨0, 0, 0, 1⟩⟩], breaks := 0 }
      = some { tracks := [bindPoseTrack ⟨"Root", 0, ⟨0, 0, 0⟩, ⟨0, 0, 0, 1⟩⟩,
                          bindPoseTrack ⟨"child", 0, ⟨1, 0, 0⟩, ⟨0, 0, 0, 1⟩⟩],
               breaks := 0 + 1 } :=
  ImportSkeletalAnim_unknown_channel_breaks.1 0 (.Other 1 9) _ (by decide) (by decide)

theorem PluginButtonClicked.heightTile_none (SizeX oX oY : Nat) (himData : Him)
    (st : TerrainState) (h : himData.heights.length < 4225) :
    PluginButtonClicked.heightTile SizeX oX oY himData st = none := by
  unfold PluginButtonClicked.heightTile
  apply forLoop_none_of_bad 65 _ st (himData.heights.length / 65) (by omega)
  intro s
  apply forLoop_none_of_bad 65 _ s (himData.heights.length % 65) (by omega)
  intro s2
  unfold PluginButtonClicked.sampleBody
  have e : himData.heights.length / 65 * 65 + himData.heights.length % 65
      = himData.heights.length := by omega
  rw [e]
  simp

/-- C16. The sample loops of `PluginButtonClicked` read the Him grid at
`heights[sy * 65 + sx]` for `sy, sx < 65`. That index map is a bijection from
`[0, 65) x [0, 65)` onto `[0, 4225)`. On a heights array of at least 4225
samples the loops of a tile return, every read being in range, and sample
`(sy, sx)` is converted and stored in its own cell
`(outBaseY + sy) * SizeX + (outBaseX + sx)` of the height buffer (the tile
fitting in the buffer); on a shorter array the loops fail, so every one of the
4225 samples is read. For the tile block 31..34 x 30..33 of the source the
tiles do fit: the tile loops return when every Him file holds 4225 samples and
every Til file its 256 cells with brushes in `[0, 8)`. -/
theorem PluginButtonClicked_him_row_major :
    (∀ sy sx : Nat, sy < 65 → sx < 65 → sy * 65 + sx < 4225) ∧
    (∀ sy sx sy2 sx2 : Nat, sy < 65 → sx < 65 → sy2 < 65 → sx2 < 65 →
      sy * 65 + sx = sy2 * 65 + sx2 → sy = sy2 ∧ sx = sx2) ∧
    (∀ k : Nat, k < 4225 → ∃ sy sx : Nat, sy < 65 ∧ sx < 65 ∧ sy * 65 + sx = k) ∧
    (∀ (SizeX outBaseX outBaseY : Nat) (himData : Him) (st : TerrainState),
      4225 ≤ himData.heights.length → outBaseX + 64 < SizeX →
      (outBaseY + 64) * SizeX + (outBaseX + 64) < st.Data.length →
      st.Data.length ≤ 4294967296 →
      ∃ st', PluginButtonClicked.heightTile SizeX outBaseX outBaseY himData st = some st' ∧
        st'.Data.length = st.Data.length ∧
        ∀ sy sx : Nat, sy < 65 → sx < 65 →
          ∃ h, himData.heights[sy * 65 + sx]? = some h ∧
            st'.Data[(outBaseY + sy) * SizeX + (outBaseX + sx)]?
              = some (toUint16 (ueValue h))) ∧
    (∀ (SizeX outBaseX outBaseY : Nat) (himData : Him) (st : TerrainState),
      himData.heights.length < 4225 →
      PluginButtonClicked.heightTile SizeX outBaseX outBaseY himData st = none) ∧
    (∀ (host : Host) (files : MapFiles) (assets : List UBlueprint),
      (∀ p : String, 256 ≤ (files.loadTil p).Data.length ∧
        ∀ (k : Nat) (c : Til.Cell), k < 256 → (files.loadTil p).Data[k]? = some c →
          0 ≤ c.Brush ∧ c.Brush < 8) →
      (∀ p : String, 4225 ≤ (files.loadHim p).heights.length) →
      (PluginButtonClicked.terrain host files assets 31 30 34 33).isSome) := by
  refine ⟨by omega, by omega, ?_, ?_, PluginButtonClicked.heightTile_none, ?_⟩
  · intro k hk
    exact ⟨k / 65, k % 65, by omega, by omega, by omega⟩
  · intro SizeX oX oY himData st hH hX hD hM
    obtain ⟨st', hs, _, _, q3, q4, _⟩ :=
      PluginButtonClicked.heightTile_total SizeX oX oY himData st hH hX hD hM
    refine ⟨st', hs, q3, ?_⟩
    intro sy sx hsy hsx
    exact q4 sy sx hsx (by omega)
  · intro host files assets hTil hHim
    obtain ⟨t, ht, _⟩ := PluginButtonClicked.terrain_total host files assets 31 30 34 33
      (by decide) (by decide) (by decide) (by decide) hTil hHim
    rw [ht]
    rfl

theorem PluginButtonClicked_him_row_major_witness :
    (∃ sy sx : Nat, sy < 65 ∧ sx < 65 ∧ sy * 65 + sx = 4224) ∧
    (∃ st', PluginButtonClicked.heightTile 127 0 0 { heights := List.replicate 4225 0 }
        { Data := List.replicate 16129 0, WeightData := [], MinHeight := 0, MaxHeight := 0,
          actors := [] } = some st' ∧
      st'.Data.length = (List.replicate 16129 0).length ∧
      ∀ sy sx : Nat, sy < 65 → sx < 65 →
        ∃ h, (List.replicate 4225 (0 : ℚ))[sy * 65 + sx]? = some h ∧
          st'.Data[(0 + sy) * 127 + (0 + sx)]? = some (toUint16 (ueValue h))) ∧
    PluginButtonClicked.heightTile 127 0 0 { heights := List.replicate 4224 0 }
      { Data := [], WeightData := [], MinHeight := 0, MaxHeight := 0, actors := [] } = none :=
  ⟨PluginButtonClicked_him_row_major.2.2.1 4224 (by decide),
   PluginButtonClicked_him_row_major.2.2.2.1 127 0 0 { heights := List.replicate 4225 0 }
     { Data := List.replicate 16129 0, WeightData := [], MinHeight := 0, MaxHeight := 0,
       actors := [] }
     (by
       show 4225 ≤ (List.replicate 4225 (0 : ℚ)).length
       rw [List.length_replicate])
     (by decide)
     (by
       show (0 + 64) * 127 + (0 + 64) < (List.replicate 16129 0).length
       rw [List.length_replicate]
       decide)
     (by
       show (List.replicate 16129 0).length ≤ 4294967296
       rw [List.length_replicate]
       decide),
   PluginButtonClicked_him_row_major.2.2.2.2.1 127 0 0 { heights := List.replicate 4224 0 } _
     (by
       show (List.replicate 4224 (0 : ℚ)).length < 4225
       rw [List.length_replicate]
       decide)⟩

/-! ## C17: the copy loops of `ImportSkeletalMesh` stay in range -/

theorem ImportSkeletalMesh.meshBody_flag (total : Nat) (skelData : ImportSkelData) (i : Nat)
    (item : ImportMeshData.Item) (st st' : SkelMeshState)
    (h : ImportSkeletalMesh.meshBody total skelData i item st = some st') :
    st'.hasNormals = (st.hasNormals && decide (item.data.vertexNormals.length ≠ 0)) := by
  unfold ImportSkeletalMesh.meshBody at h
  simp only [Option.bind_eq_bind, Option.bind_eq_some] at h
  obtain ⟨s1, h1, s2, h2, s3, h3, h4⟩ := h
  obtain ⟨a, b, e1, _, _⟩ := ImportSkeletalMesh.pointLoop_some item _ _ s1 h1
  obtain ⟨W, wb, e2, _⟩ := ImportSkeletalMesh.wedgeLoop_some total item s1 s2 h2
  obtain ⟨F, e3, _⟩ := ImportSkeletalMesh.faceLoop_some item _ s2 s3 h3
  obtain ⟨I, vb, bb, e4⟩ := ImportSkeletalMesh.influenceLoop_some total skelData item _ s3 st' h4
  rw [e4, e3, e2, e1]
  by_cases hn : item.data.vertexNormals.length = 0
  · simp [hn]
  · simp [hn]

theorem ImportSkeletalMesh.meshBody_total_flag (total : Nat) (skelData : ImportSkelData)
    (i : Nat) (item : ImportMeshData.Item) (st : SkelMeshState)
    (hp1 : item.vertOffset + item.data.vertexPositions.length ≤ st.LODPoints.length)
    (hp2 : item.vertOffset + item.data.vertexPositions.length ≤ st.LODPointToRawMap.length)
    (hw : item.indexOffset + item.data.indexes.length ≤ st.LODWedges.length)
    (hf : item.faceOffset + item.data.indexes.length / 3 ≤ st.LODFaces.length)
    (huv : ∀ index ∈ item.data.indexes, index < item.data.vertexUvs0.length)
    (hbw : item.data.vertexPositions.length ≤ item.data.boneWeights.length)
    (hnorm : st.hasNormals = true → item.data.vertexNormals.length ≠ 0 →
      ∀ index ∈ item.data.indexes, index < item.data.vertexNormals.length) :
    ∃ st', ImportSkeletalMesh.meshBody total skelData i item st = some st' ∧
      st'.LODPoints.length = st.LODPoints.length ∧
      st'.LODPointToRawMap.length = st.LODPointToRawMap.length := by
  have hst0 : ∃ st0 : SkelMeshState,
      st0 = (if item.data.vertexNormals.length = 0 then { st with hasNormals := false } else st) ∧
      st0.LODPoints = st.LODPoints ∧ st0.LODPointToRawMap = st.LODPointToRawMap ∧
      st0.LODWedges = st.LODWedges ∧ st0.LODFaces = st.LODFaces ∧
      (st0.hasNormals = true →
        item.data.vertexNormals.length ≠ 0 ∧ st.hasNormals = true) := by
    refine ⟨_, rfl, ?_, ?_, ?_, ?_, ?_⟩
    · split <;> rfl
    · split <;> rfl
    · split <;> rfl
    · split <;> rfl
    · split
      · intro h; cases h
      · intro h; exact ⟨by assumption, h⟩
  obtain ⟨st0, hdef, z1, z2, z3, z4, z5⟩ := hst0
  obtain ⟨s1, h1⟩ := ImportSkeletalMesh.pointLoop_total item item.data.vertexPositions st0
    (by rw [z1]; exact hp1) (by rw [z2]; exact hp2)
  obtain ⟨a, b, e1, la, lb⟩ := ImportSkeletalMesh.pointLoop_some item _ st0 s1 h1
  obtain ⟨s2, h2⟩ := ImportSkeletalMesh.wedgeLoop_total total item s1
    (by rw [e1]; simpa [z3] using hw) huv
  obtain ⟨W, wb, e2, lW, _⟩ := ImportSkeletalMesh.wedgeLoop_some total item s1 s2 h2
  obtain ⟨s3, h3⟩ := ImportSkeletalMesh.faceLoop_total item s2
    (by rw [e2, e1]; simpa [z4] using hf)
    (by
      intro hN
      rw [e2, e1] at hN
      obtain ⟨k1, k2⟩ := z5 hN
      exact hnorm k2 k1)
  obtain ⟨F, e3, _⟩ := ImportSkeletalMesh.faceLoop_some item _ s2 s3 h3
  obtain ⟨s4, h4⟩ := ImportSkeletalMesh.influenceLoop_total total skelData item
    item.data.vertexPositions.length s3 hbw
  obtain ⟨I, vb, bb, e4⟩ := ImportSkeletalMesh.influenceLoop_some total skelData item _ s3 s4 h4
  refine ⟨s4, ?_, ?_, ?_⟩
  · unfold ImportSkeletalMesh.meshBody
    simp only [Option.bind_eq_bind]
    rw [← hdef, h1]
    simp only [Option.some_bind]
    rw [h2]
    simp only [Option.some_bind]
    rw [h3]
    simp only [Option.some_bind]
    exact h4
  · rw [e4, e3, e2, e1]
    simpa [z1] using la
  · rw [e4, e3, e2, e1]
    simpa [z2] using lb

theorem ImportSkeletalMesh.meshLoop_total_flag (skelData : ImportSkelData)
    (meshes : List ImportMeshData.Item) (st : SkelMeshState)
    (l1 : st.LODPoints.length = vertsBefore meshes meshes.length)
    (l2 : st.LODPointToRawMap.length = vertsBefore meshes meshes.length)
    (l3 : st.LODWedges.length = indexesBefore meshes meshes.length)
    (l4 : st.LODFaces.length = facesBefore meshes meshes.length)
    (l5 : st.hasNormals = true)
    (huv : ∀ it ∈ meshes, ∀ index ∈ it.data.indexes, index < it.data.vertexUvs0.length)
    (hbw : ∀ it ∈ meshes, it.data.vertexPositions.length ≤ it.data.boneWeights.length)
    (hnorm : ∀ (i : Nat) (it : ImportMeshData.Item), meshes[i]? = some it →
      (meshes.take (i + 1)).all (fun m => decide (m.data.vertexNormals.length ≠ 0)) = true →
      ∀ index ∈ it.data.indexes, index < it.data.vertexNormals.length) :
    ∃ st', forEachIdx (withOffsets meshes meshes.length)
      (ImportSkeletalMesh.meshBody (vertsBefore meshes meshes.length) skelData) st
        = some st' ∧
      st'.hasNormals = meshes.all (fun m => decide (m.data.vertexNormals.length ≠ 0)) := by
  obtain ⟨r, hr, _, _, _, _, hflag⟩ := forEachIdx_total (withOffsets meshes meshes.length)
    (ImportSkeletalMesh.meshBody (vertsBefore meshes meshes.length) skelData) st
    (fun n s => s.LODPoints.length = vertsBefore meshes meshes.length ∧
      s.LODPointToRawMap.length = vertsBefore meshes meshes.length ∧
      s.LODWedges.length = indexesBefore meshes meshes.length ∧
      s.LODFaces.length = facesBefore meshes meshes.length ∧
      s.hasNormals
        = (meshes.take n).all (fun m => decide (m.data.vertexNormals.length ≠ 0)))
    ⟨l1, l2, l3, l4, by simpa using l5⟩
    (by
      intro n item s hx ⟨g1, g2, g3, g4, g5⟩
      obtain ⟨it0, hit0, hdata, _, hvo, hio, hfo⟩ := withOffsets_item meshes n item hx
      have hmem : it0 ∈ meshes := List.mem_iff_getElem?.mpr ⟨n, hit0⟩
      have hn : n + 1 ≤ meshes.length := by
        have := (List.getElem?_eq_some.mp hit0).1
        omega
      have v1 := vertsBefore_succ meshes n it0 hit0
      have v2 : vertsBefore meshes (n + 1) ≤ vertsBefore meshes meshes.length :=
        prefixSum_mono _ meshes (n + 1) meshes.length hn
      have i1 := indexesBefore_succ meshes n it0 hit0
      have i2 : indexesBefore meshes (n + 1) ≤ indexesBefore meshes meshes.length :=
        prefixSum_mono _ meshes (n + 1) meshes.length hn
      have f1 := facesBefore_succ meshes n it0 hit0
      have f2 : facesBefore meshes (n + 1) ≤ facesBefore meshes meshes.length :=
        prefixSum_mono _ meshes (n + 1) meshes.length hn
      have htake : (meshes.take (n + 1)).all
            (fun m => decide (m.data.vertexNormals.length ≠ 0))
          = ((meshes.take n).all (fun m => decide (m.data.vertexNormals.length ≠ 0))
              && decide (it0.data.vertexNormals.length ≠ 0)) := by
        rw [List.take_succ, hit0]
        simp [Option.toList, List.all_append]
      obtain ⟨s', hb, q1, q2⟩ := ImportSkeletalMesh.meshBody_total_flag
        (vertsBefore meshes meshes.length) skelData n item s
        (by rw [hdata, g1]; omega) (by rw [hdata, g2]; omega) (by rw [hdata, g3]; omega)
        (by rw [hdata, g4]; omega) (by rw [hdata]; exact huv it0 hmem)
        (by rw [hdata]; exact hbw it0 hmem)
        (by
          rw [hdata]
          intro hN hlen
          apply hnorm n it0 hit0
          rw [htake, ← g5, hN]
          simpa using hlen)
      obtain ⟨m1, _, _, _, m5, _, _⟩ := ImportSkeletalMesh.meshBody_some
        (vertsBefore meshes meshes.length) skelData n item s s' hb
      have hf := ImportSkeletalMesh.meshBody_flag _ skelData n item s s' hb
      refine ⟨s', hb, by rw [q1, g1], by rw [q2, g2], by rw [m1, g3], by rw [m5, g4], ?_⟩
      rw [hf, htake, g5, hdata])
  refine ⟨r, hr, ?_⟩
  have hlen : (withOffsets meshes meshes.length).length = meshes.length := by
    simp [withOffsets]
  rw [hlen, List.take_length] at hflag
  exact hflag

theorem ImportSkeletalMesh_total_flag (meshData : ImportMeshData) (skelData : ImportSkelData)
    (huv : ∀ it ∈ meshData.meshes, ∀ index ∈ it.data.indexes,
      index < it.data.vertexUvs0.length)
    (hbw : ∀ it ∈ meshData.meshes,
      it.data.vertexPositions.length ≤ it.data.boneWeights.length)
    (hnorm : ∀ (i : Nat) (it : ImportMeshData.Item), meshData.meshes[i]? = some it →
      (meshData.meshes.take (i + 1)).all
        (fun m => decide (m.data.vertexNormals.length ≠ 0)) = true →
      ∀ index ∈ it.data.indexes, index < it.data.vertexNormals.length) :
    ∃ r, ImportSkeletalMesh.copyLoops meshData skelData = some r ∧
      r.lod.hasNormals
        = meshData.meshes.all (fun m => decide (m.data.vertexNormals.length ≠ 0)) := by
  rw [ImportSkeletalMesh_unfold]
  obtain ⟨st', h, hflag⟩ := ImportSkeletalMesh.meshLoop_total_flag skelData meshData.meshes
    { LODPoints := List.replicate (vertsBefore meshData.meshes meshData.meshes.length)
        ⟨0, 0, 0⟩,
      LODWedges := List.replicate (indexesBefore meshData.meshes meshData.meshes.length)
        ⟨0, ⟨0, 0⟩⟩,
      LODFaces := List.replicate (facesBefore meshData.meshes meshData.meshes.length)
        ⟨0, 0, 0, ⟨0, 0, 0⟩, ⟨0, 0, 0⟩, ⟨0, 0, 0⟩, 0⟩,
      LODInfluences := [],
      LODPointToRawMap := List.replicate
        (vertsBefore meshData.meshes meshData.meshes.length) 0,
      hasNormals := true, wedgeBreaks := 0, vertBreaks := 0, boneBreaks := 0 }
    (by simp) (by simp) (by simp) (by simp) rfl huv hbw hnorm
  rw [h]
  exact ⟨_, rfl, hflag⟩

theorem ImportSkeletalMesh.faceBody_without_normals (item : ImportMeshData.Item) (j : Nat)
    (st : SkelMeshState) (ns : List FVector) (h : st.hasNormals = false) :
    ImportSkeletalMesh.faceBody { item with data := { item.data with vertexNormals := ns } } j st
      = ImportSkeletalMesh.faceBody item j st := by
  unfold ImportSkeletalMesh.faceBody
  simp [h]

/-- C17. For every list of meshes in which each mesh's UV channel 0 and
bone-weight array are as long as its positions, its normals array is empty or
as long as its positions, and each index is below its vertex count, the copy
loops of `ImportSkeletalMesh` (lines 483-566) return: every read and write of
the copy loops is in range. The flag `hasNormals` after mesh `i` is the flag before it, cleared when
mesh `i` has no normals, so at the face loop of mesh `i` it says that the
meshes `0..i` all have normals; the face loop does not read the normals when
the flag is cleared (its outcome is the same whatever the normals array), and
the loops return even when the normals are in range only for the meshes `i`
for which the meshes `0..i` all have normals. The function as a whole returns
`NULL` at line 461, before the loops. -/
theorem ImportSkeletalMesh_copy_loops_in_range (meshData : ImportMeshData)
    (skelData : ImportSkelData)
    (h : ∀ it ∈ meshData.meshes,
      it.data.vertexUvs0.length = it.data.vertexPositions.length ∧
      it.data.boneWeights.length = it.data.vertexPositions.length ∧
      (it.data.vertexNormals.length = 0 ∨
        it.data.vertexNormals.length = it.data.vertexPositions.length) ∧
      ∀ index ∈ it.data.indexes, index < it.data.vertexPositions.length) :
    ImportSkeletalMesh meshData skelData = none ∧
    (∃ r, ImportSkeletalMesh.copyLoops meshData skelData = some r ∧
      r.lod.hasNormals
        = meshData.meshes.all (fun m => decide (m.data.vertexNormals.length ≠ 0))) ∧
    (∀ (total i : Nat) (item : ImportMeshData.Item) (st st' : SkelMeshState),
      ImportSkeletalMesh.meshBody total skelData i item st = some st' →
      st'.hasNormals = (st.hasNormals && decide (item.data.vertexNormals.length ≠ 0))) ∧
    (∀ (item : ImportMeshData.Item) (j : Nat) (st : SkelMeshState) (ns : List FVector),
      st.hasNormals = false →
      ImportSkeletalMesh.faceBody { item with data := { item.data with vertexNormals := ns } }
          j st
        = ImportSkeletalMesh.faceBody item j st) ∧
    (∀ other : ImportMeshData,
      (∀ it ∈ other.meshes, ∀ index ∈ it.data.indexes, index < it.data.vertexUvs0.length) →
      (∀ it ∈ other.meshes, it.data.vertexPositions.length ≤ it.data.boneWeights.length) →
      (∀ (i : Nat) (it : ImportMeshData.Item), other.meshes[i]? = some it →
        (other.meshes.take (i + 1)).all
          (fun m => decide (m.data.vertexNormals.length ≠ 0)) = true →
        ∀ index ∈ it.data.indexes, index < it.data.vertexNormals.length) →
      (ImportSkeletalMesh.copyLoops other skelData).isSome) := by
  refine ⟨ImportSkeletalMesh_returns_NULL meshData skelData, ?_, ?_, ?_, ?_⟩
  · apply ImportSkeletalMesh_total_flag
    · intro it hit index hidx
      obtain ⟨a, _, _, d⟩ := h it hit
      rw [a]
      exact d index hidx
    · intro it hit
      obtain ⟨_, b, _, _⟩ := h it hit
      omega
    · intro i it hi hall index hidx
      have hit : it ∈ meshData.meshes := List.mem_iff_getElem?.mpr ⟨i, hi⟩
      obtain ⟨_, _, c, d⟩ := h it hit
      have hmem : it ∈ meshData.meshes.take (i + 1) := by
        rw [List.mem_iff_getElem?]
        refine ⟨i, ?_⟩
        rw [List.getElem?_take]
        simp [hi]
      have hne := List.all_eq_true.mp hall it hmem
      simp only [ne_eq, decide_eq_true_eq] at hne
      rcases c with c | c
      · exact absurd c hne
      · rw [c]
        exact d index hidx
  · intro total i item st st' hb
    exact ImportSkeletalMesh.meshBody_flag total skelData i item st st' hb
  · intro item j st ns hN
    exact ImportSkeletalMesh.faceBody_without_normals item j st ns hN
  · intro other huv hbw hnorm
    obtain ⟨r, hr, _⟩ := ImportSkeletalMesh_total_flag other skelData huv hbw hnorm
    rw [hr]
    rfl

theorem ImportSkeletalMesh_copy_loops_in_range_witness :
    ∃ r, ImportSkeletalMesh.copyLoops sampleMeshData sampleSkel = some r ∧
      r.lod.hasNormals
        = sampleMeshData.meshes.all (fun m => decide (m.data.vertexNormals.length ≠ 0)) :=
  (ImportSkeletalMesh_copy_loops_in_range sampleMeshData sampleSkel (by decide)).2.1

/-! ## C18: the material index of an avatar item -/

/-- C18, evaluation at the failing input: on the sample catalog, whose model 0
has an attachment-only part between two renderable parts, `ImportAvatarItem`
gives its two mesh items the material indices 0 and 2 (the part indices) while
`meshData.materials` holds two materials, so the index of the second item is
not below the number of materials. On the same model `ImportChar` gives the
items the indices 0 and 1, each below the number of materials. -/
theorem ImportAvatarItem_matIdx_is_part_index :
    (ImportAvatarItem sampleHost "BODY" sampleCatalog 0).map
        (fun r => (r.meshData.meshes.map (fun it => it.matIdx), r.meshData.materials.length))
      = some ([0, 2], 2) ∧
    (ImportAvatarItem sampleHost "BODY" sampleCatalog 0).map
        (fun r => r.meshData.meshes.map
          (fun it => decide (it.matIdx < r.meshData.materials.length)))
      = some [true, false] ∧
    (ImportChar sampleHost sampleChars sampleCatalog 0).map
        (fun r => (r.meshData.meshes.map (fun it => it.matIdx), r.meshData.materials.length))
      = some ([0, 1], 2) ∧
    (ImportChar sampleHost sampleChars sampleCatalog 0).map
        (fun r => r.meshData.meshes.map
          (fun it => decide (it.matIdx < r.meshData.materials.length)))
      = some [true, true] := by
  decide

/-! ## C19: `BuildAssetPath` against its reference description -/

theorem ofNat_upper_ne (d : Char) (hd : d.toNat < 65 ∨ 90 < d.toNat) (n : Nat)
    (h1 : 97 ≤ n) (h2 : n ≤ 122) : Char.ofNat (n - 32) ≠ d := by
  intro h
  have e : (Char.ofNat (n - 32)).toNat = n - 32 := by
    interval_cases n <;> rfl
  rw [h] at e
  omega

theorem toUpper_eq_iff (d : Char) (hd : d.toNat < 65 ∨ 90 < d.toNat)
    (hd2 : d.toNat < 97 ∨ 122 < d.toNat) (c : Char) : Char.toUpper c = d ↔ c = d := by
  unfold Char.toUpper
  dsimp only
  split
  · rename_i h
    constructor
    · intro h2
      exact absurd h2 (ofNat_upper_ne d hd _ h.1 h.2)
    · intro h2
      subst h2
      omega
  · exact Iff.rfl

theorem toUpper_eq_slash (c : Char) : Char.toUpper c = '/' ↔ c = '/' :=
  toUpper_eq_iff '/' (by decide) (by decide) c

theorem toUpper_eq_backslash (c : Char) : Char.toUpper c = '\\' ↔ c = '\\' :=
  toUpper_eq_iff '\\' (by decide) (by decide) c

theorem toUpper_eq_dot (c : Char) : Char.toUpper c = '.' ↔ c = '.' :=
  toUpper_eq_iff '.' (by decide) (by decide) c

theorem splitSlash_canonical (cs : List Char) :
    splitSlash ((cs.map Char.toUpper).map (fun c => if c = '\\' then '/' else c))
      = (splitSeparators cs).map (fun p => p.map Char.toUpper) := by
  induction cs with
  | nil => rfl
  | cons c cs ih =>
    simp only [List.map_cons, splitSlash, splitSeparators]
    rw [ih]
    cases hs : splitSeparators cs with
    | nil => rfl
    | cons p ps =>
      simp only [List.map_cons]
      by_cases h1 : c = '/'
      · subst h1
        simp
      · by_cases h2 : c = '\\'
        · subst h2
          simp
        · have a1 : ¬ Char.toUpper c = '\\' := fun h => h2 ((toUpper_eq_backslash c).mp h)
          have a2 : ¬ Char.toUpper c = '/' := fun h => h1 ((toUpper_eq_slash c).mp h)
          simp [h1, h2, a1, a2]

theorem ParseIntoArray_canonical (s : String) :
    ParseIntoArray (NormalizeFilename (ToUpper s)) = (pathComponents s).map ToUpper := by
  have e1 : (NormalizeFilename (ToUpper s)).data
      = (s.data.map Char.toUpper).map (fun c => if c = '\\' then '/' else c) := rfl
  have e2 : ∀ l : List (List Char),
      (l.map (fun p => p.map Char.toUpper)).filter (fun p => !p.isEmpty)
        = (l.filter (fun p => !p.isEmpty)).map (fun p => p.map Char.toUpper) := by
    intro l
    induction l with
    | nil => rfl
    | cons p ps ih =>
      cases p with
      | nil => simpa using ih
      | cons c cs => simpa using ih
  unfold ParseIntoArray pathComponents
  rw [e1, splitSlash_canonical, e2, List.map_map, List.map_map]
  rfl

theorem Pop_append_singleton {α : Type} (xs : List α) (x : α) :
    Pop (xs ++ [x]) = some (x, xs) := by
  unfold Pop
  simp

theorem dropWhile_map_toUpper (l : List Char) :
    (l.map Char.toUpper).dropWhile (fun c => decide (c ≠ '.'))
      = (l.dropWhile (fun c => decide (c ≠ '.'))).map Char.toUpper := by
  induction l with
  | nil => rfl
  | cons c cs ih =>
    rw [List.map_cons, List.dropWhile_cons, List.dropWhile_cons]
    by_cases h : c = '.'
    · subst h
      rfl
    · have a : ¬ Char.toUpper c = '.' := fun e => h ((toUpper_eq_dot c).mp e)
      rw [if_pos (by simpa using a), if_pos (by simpa using h), ih]

theorem GetBaseFilename_ToUpper (f : String) :
    GetBaseFilename (ToUpper f) = ToUpper (GetBaseFilename f) := by
  unfold GetBaseFilename ToUpper
  by_cases h : '.' ∈ f.data
  · have h2 : '.' ∈ f.data.map Char.toUpper :=
      List.mem_map.mpr ⟨'.', h, rfl⟩
    simp only [h, h2, if_true]
    rw [← List.map_reverse, dropWhile_map_toUpper, ← List.map_drop, ← List.map_reverse]
  · have h2 : '.' ∉ f.data.map Char.toUpper := by
      intro hm
      obtain ⟨c, hc, e⟩ := List.mem_map.mp hm
      rw [(toUpper_eq_dot c).mp e] at hc
      exact h hc
    simp only [h, h2, if_false]

theorem BuildAssetPath_of_components (RosePath Postfix : String) (d0 d1 : String)
    (rest : List String) (file : String)
    (hc : pathComponents RosePath = d0 :: d1 :: rest ++ [file]) :
    BuildAssetPath RosePath Postfix
      = some { PackageName := "/" ++ Join
                (if ToUpper d1 = "JUNON" ∨ ToUpper d1 = "LUNAR" ∨ ToUpper d1 = "ORO" then
                  "MAPS" :: (d1 :: rest).map ToUpper
                else (d1 :: rest).map ToUpper),
               AssetName := if !Postfix.isEmpty then GetBaseFilename (ToUpper file) ++ Postfix
                 else GetBaseFilename (ToUpper file),
               breaks := 0 + (if ToUpper d0 ≠ "3DDATA" then 1 else 0) } := by
  unfold BuildAssetPath
  dsimp only
  rw [ParseIntoArray_canonical, hc]
  have e : List.map ToUpper (d0 :: d1 :: rest ++ [file])
      = (ToUpper d0 :: ToUpper d1 :: rest.map ToUpper) ++ [ToUpper file] := by
    simp
  rw [e, Pop_append_singleton]
  simp only [Option.bind_eq_bind, Option.some_bind, List.length_cons, List.getElem?_cons_zero,
    List.eraseIdx_cons_zero, List.map_cons]
  rw [if_neg (show ¬ ((List.map ToUpper rest).length + 1 + 1 ≤ 0) by omega)]

theorem append_of_isEmpty (a Postfix : String) (h : (!Postfix.isEmpty) = false) :
    a ++ Postfix = a := by
  have e : Postfix = "" := by
    simp only [Bool.not_eq_false', String.isEmpty_iff] at h
    exact h
  rw [e]
  exact String.append_empty a

theorem BuildAssetPath_of_components_3DDATA (RosePath Postfix : String) (d0 d1 : String)
    (rest : List String) (file : String)
    (hc : pathComponents RosePath = d0 :: d1 :: rest ++ [file])
    (h0 : ToUpper d0 = "3DDATA") :
    BuildAssetPath RosePath Postfix
      = some { PackageName := "/" ++ "/".intercalate
                (if ToUpper d1 = "JUNON" ∨ ToUpper d1 = "LUNAR" ∨ ToUpper d1 = "ORO" then
                  "MAPS" :: (d1 :: rest).map ToUpper
                else (d1 :: rest).map ToUpper),
               AssetName := ToUpper (GetBaseFilename file) ++ Postfix,
               breaks := 0 } := by
  rw [BuildAssetPath_of_components RosePath Postfix d0 d1 rest file hc]
  have e1 : (0 + if ToUpper d0 ≠ "3DDATA" then 1 else 0) = 0 := by
    rw [if_neg (by simpa using h0)]
  have e2 : (if (!Postfix.isEmpty) = true then GetBaseFilename (ToUpper file) ++ Postfix
      else GetBaseFilename (ToUpper file)) = ToUpper (GetBaseFilename file) ++ Postfix := by
    rw [GetBaseFilename_ToUpper]
    cases hp : !Postfix.isEmpty with
    | true => rfl
    | false =>
      rw [append_of_isEmpty _ _ hp]
      rfl
  rw [e1, e2]
  rfl

theorem BuildAssetPath.reference_of_components (RosePath Postfix : String) (d0 d1 : String)
    (rest : List String) (file : String)
    (hc : pathComponents RosePath = d0 :: d1 :: rest ++ [file])
    (h0 : ToUpper d0 = "3DDATA") :
    BuildAssetPath.reference RosePath Postfix
      = some ("/" ++ "/".intercalate
                (if ToUpper d1 = "JUNON" ∨ ToUpper d1 = "LUNAR" ∨ ToUpper d1 = "ORO" then
                  "MAPS" :: (d1 :: rest).map ToUpper
                else (d1 :: rest).map ToUpper),
              ToUpper (GetBaseFilename file) ++ Postfix) := by
  unfold BuildAssetPath.reference
  have e : (pathComponents RosePath).reverse = file :: (d0 :: d1 :: rest).reverse := by
    rw [hc]
    simp
  rw [e]
  simp only [List.reverse_reverse, h0, if_true]

theorem BuildAssetPath.reference_some (RosePath Postfix pkg name : String)
    (h : BuildAssetPath.reference RosePath Postfix = some (pkg, name)) :
    ∃ (d0 d1 : String) (rest : List String) (file : String),
      pathComponents RosePath = d0 :: d1 :: rest ++ [file] ∧ ToUpper d0 = "3DDATA" := by
  unfold BuildAssetPath.reference at h
  cases hr : (pathComponents RosePath).reverse with
  | nil =>
    rw [hr] at h
    cases h
  | cons file dr =>
    rw [hr] at h
    simp only at h
    have hc : pathComponents RosePath = dr.reverse ++ [file] := by
      have := congrArg List.reverse hr
      simpa using this
    cases hd : dr.reverse with
    | nil =>
      rw [hd] at h
      cases h
    | cons d0 t =>
      cases t with
      | nil =>
        rw [hd] at h
        cases h
      | cons d1 rest =>
        rw [hd] at h
        simp only at h
        by_cases h0 : ToUpper d0 = "3DDATA"
        · exact ⟨d0, d1, rest, file, by rw [hc, hd], h0⟩
        · rw [if_neg h0] at h
          cases h

theorem BuildAssetPath_congr (p1 p2 Postfix : String)
    (h : NormalizeFilename (ToUpper p1) = NormalizeFilename (ToUpper p2)) :
    BuildAssetPath p1 Postfix = BuildAssetPath p2 Postfix := by
  unfold BuildAssetPath
  dsimp only
  rw [h]

theorem NormalizeFilename_ToUpper (p : String) :
    NormalizeFilename (ToUpper p) = ToUpper (NormalizeFilename p) := by
  unfold NormalizeFilename ToUpper
  simp only [List.map_map]
  congr 1
  apply List.map_congr_left
  intro c _
  simp only [Function.comp]
  by_cases h : c = '\\'
  · subst h
    rfl
  · have a : ¬ Char.toUpper c = '\\' := fun e => h ((toUpper_eq_backslash c).mp e)
    rw [if_neg a, if_neg h]

theorem BuildAssetPath_PackageName_postfix (p post1 post2 : String) :
    (BuildAssetPath p post1).map (fun r => r.PackageName)
      = (BuildAssetPath p post2).map (fun r => r.PackageName) := by
  unfold BuildAssetPath
  dsimp only
  cases Pop (ParseIntoArray (NormalizeFilename (ToUpper p))) with
  | none => rfl
  | some fp =>
    obtain ⟨f, parts⟩ := fp
    simp only [Option.bind_eq_bind, Option.some_bind]
    cases parts[0]? with
    | none => rfl
    | some p0 =>
      simp only [Option.some_bind]
      cases (parts.eraseIdx 0)[0]? with
      | none => rfl
      | some q0 => rfl

theorem GetBaseFilename_extension (base ext : String) (h : '.' ∉ ext.data) :
    GetBaseFilename (base ++ "." ++ ext) = base := by
  unfold GetBaseFilename
  have e : (base ++ "." ++ ext).data = base.data ++ '.' :: ext.data := by
    simp [String.data_append]
  rw [e]
  have hm : '.' ∈ base.data ++ '.' :: ext.data := by simp
  rw [if_pos hm]
  have hr : (base.data ++ '.' :: ext.data).reverse = ext.data.reverse ++ '.' :: base.data.reverse := by
    simp
  rw [hr]
  have hd : ∀ (l : List Char) (t : List Char), '.' ∉ l →
      (l ++ '.' :: t).dropWhile (fun c => decide (c ≠ '.')) = '.' :: t := by
    intro l t hl
    induction l with
    | nil => simp [List.dropWhile]
    | cons c cs ih =>
      have hc : c ≠ '.' := fun e => hl (by simp [e])
      have hcs : '.' ∉ cs := fun e => hl (by simp [e])
      rw [List.cons_append, List.dropWhile_cons, if_pos (by simpa using hc)]
      exact ih hcs
  rw [hd _ _ (by simpa using h)]
  simp

theorem GetBaseFilename_no_extension (f : String) (h : '.' ∉ f.data) :
    GetBaseFilename f = f := by
  unfold GetBaseFilename
  rw [if_neg h]

/-- C19. `BuildAssetPath` agrees with its reference description: for every
path whose components (split on slash or backslash, empty components dropped)
are at least two directories `d0, d1, ...` followed by a file name, with
`uppercase(d0) = "3DDATA"`, it returns without a debug break, `PackageName` is
`"/"` followed by the uppercased directories from `d1` on joined by `"/"`, with
`"MAPS"` in front exactly when `uppercase(d1)` is `JUNON`, `LUNAR` or `ORO`,
and `AssetName` is the uppercased file name without its extension followed by
`Postfix`. The file name without its extension is the name up to its last dot,
or the whole name when it has no dot. Two paths that differ only in letter
case, or only in the direction of their slashes, give the same result, and
`Postfix` never affects `PackageName`. The path
`"3DDATA/JUNON/LIST_CNST_JDT.ZSC"` gives `("/MAPS/JUNON", "LIST_CNST_JDT")`. -/
theorem BuildAssetPath_eq_reference :
    (∀ RosePath Postfix pkg name : String,
      BuildAssetPath.reference RosePath Postfix = some (pkg, name) →
      BuildAssetPath RosePath Postfix
        = some { PackageName := pkg, AssetName := name, breaks := 0 }) ∧
    (∀ (RosePath Postfix d0 d1 : String) (rest : List String) (file : String),
      pathComponents RosePath = d0 :: d1 :: rest ++ [file] → ToUpper d0 = "3DDATA" →
      BuildAssetPath RosePath Postfix
        = some { PackageName := "/" ++ "/".intercalate
                  (if ToUpper d1 = "JUNON" ∨ ToUpper d1 = "LUNAR" ∨ ToUpper d1 = "ORO" then
                    "MAPS" :: (d1 :: rest).map ToUpper
                  else (d1 :: rest).map ToUpper),
                 AssetName := ToUpper (GetBaseFilename file) ++ Postfix,
                 breaks := 0 }) ∧
    (∀ base ext : String, '.' ∉ ext.data → GetBaseFilename (base ++ "." ++ ext) = base) ∧
    (∀ f : String, '.' ∉ f.data → GetBaseFilename f = f) ∧
    (∀ p1 p2 Postfix : String, ToUpper p1 = ToUpper p2 →
      BuildAssetPath p1 Postfix = BuildAssetPath p2 Postfix) ∧
    (∀ p1 p2 Postfix : String, NormalizeFilename p1 = NormalizeFilename p2 →
      BuildAssetPath p1 Postfix = BuildAssetPath p2 Postfix) ∧
    (∀ p post1 post2 : String,
      (BuildAssetPath p post1).map (fun r => r.PackageName)
        = (BuildAssetPath p post2).map (fun r => r.PackageName)) ∧
    BuildAssetPath "3DDATA/JUNON/LIST_CNST_JDT.ZSC" ""
      = some { PackageName := "/MAPS/JUNON", AssetName := "LIST_CNST_JDT", breaks := 0 } := by
  refine ⟨?_, BuildAssetPath_of_components_3DDATA, GetBaseFilename_extension,
    GetBaseFilename_no_extension, ?_, ?_, BuildAssetPath_PackageName_postfix, by decide⟩
  · intro RosePath Postfix pkg name h
    obtain ⟨d0, d1, rest, file, hc, h0⟩ := BuildAssetPath.reference_some _ _ _ _ h
    rw [BuildAssetPath.reference_of_components _ Postfix _ _ _ _ hc h0] at h
    rw [BuildAssetPath_of_components_3DDATA _ Postfix _ _ _ _ hc h0]
    cases h
    rfl
  · intro p1 p2 Postfix h
    exact BuildAssetPath_congr p1 p2 Postfix (by rw [h])
  · intro p1 p2 Postfix h
    exact BuildAssetPath_congr p1 p2 Postfix
      (by rw [NormalizeFilename_ToUpper, NormalizeFilename_ToUpper, h])

theorem BuildAssetPath_eq_reference_witness :
    BuildAssetPath "3ddata\\Avatar\\Body.zms" "_Texture"
      = some { PackageName := "/AVATAR", AssetName := "BODY_Texture", breaks := 0 } ∧
    BuildAssetPath "3ddata/junon/list_cnst_jdt.zsc" ""
      = BuildAssetPath "3DDATA/JUNON/LIST_CNST_JDT.ZSC" "" :=
  ⟨BuildAssetPath_eq_reference.1 "3ddata\\Avatar\\Body.zms" "_Texture" "/AVATAR" "BODY_Texture"
     (by decide),
   BuildAssetPath_eq_reference.2.2.2.2.1 "3ddata/junon/list_cnst_jdt.zsc"
     "3DDATA/JUNON/LIST_CNST_JDT.ZSC" "" (by decide)⟩

/-! ## C20: the array accesses of `BuildAssetPath` -/

theorem BuildAssetPath_eq_checked (RosePath Postfix : String) :
    BuildAssetPath RosePath Postfix = (BuildAssetPath.checked RosePath Postfix).toOption := by
  unfold BuildAssetPath BuildAssetPath.checked
  dsimp only
  cases Pop (ParseIntoArray (NormalizeFilename (ToUpper RosePath))) with
  | none => rfl
  | some fp =>
    obtain ⟨f, parts⟩ := fp
    simp only [Option.bind_eq_bind, Option.some_bind]
    cases parts[0]? with
    | none => rfl
    | some p0 =>
      simp only [Option.some_bind]
      cases (parts.eraseIdx 0)[0]? with
      | none => rfl
      | some q0 => rfl

theorem BuildAssetPath.checked_of_components (RosePath Postfix : String) (ds : List String)
    (file : String) (hc : pathComponents RosePath = ds ++ [file]) :
    BuildAssetPath.checked RosePath Postfix
      = match (ds.map ToUpper)[0]? with
        | none => .error (.firstRead (if (ds.map ToUpper).length ≤ 0 then 1 else 0))
        | some p0 =>
          match ((ds.map ToUpper).eraseIdx 0)[0]? with
          | none => .error (.secondRead ((if (ds.map ToUpper).length ≤ 0 then 1 else 0)
              + (if p0 ≠ "3DDATA" then 1 else 0)))
          | some q0 =>
            .ok { PackageName := "/" ++ Join
                    (if q0 = "JUNON" ∨ q0 = "LUNAR" ∨ q0 = "ORO" then
                      "MAPS" :: (ds.map ToUpper).eraseIdx 0
                    else (ds.map ToUpper).eraseIdx 0),
                  AssetName := if !Postfix.isEmpty then GetBaseFilename (ToUpper file) ++ Postfix
                    else GetBaseFilename (ToUpper file),
                  breaks := (if (ds.map ToUpper).length ≤ 0 then 1 else 0)
                    + (if p0 ≠ "3DDATA" then 1 else 0) } := by
  unfold BuildAssetPath.checked
  dsimp only
  rw [ParseIntoArray_canonical, hc, List.map_append, List.map_singleton, Pop_append_singleton]

/-- C20. With the failing access of `BuildAssetPath` told apart: for every
path that has a file name preceded by at least two non-empty directory
components, every array access is in range and the function returns. For a
path with exactly one directory component, such as `"3DDATA/X.ZMS"`, the read
`PathParts[0]` of the JUNON/LUNAR/ORO test (line 151) is made on the array
emptied by `RemoveAt(0)` and fails. For a path with no directory component,
such as `"X.ZMS"`, the emptiness check of line 142 meets its debug break and
the read `PathParts[0]` of line 146 is made all the same, on an empty array,
and fails. -/
theorem BuildAssetPath_array_accesses :
    (∀ RosePath Postfix : String,
      BuildAssetPath RosePath Postfix = (BuildAssetPath.checked RosePath Postfix).toOption) ∧
    (∀ (RosePath Postfix : String) (ds : List String) (file : String),
      pathComponents RosePath = ds ++ [file] → 2 ≤ ds.length →
      ∃ r, BuildAssetPath.checked RosePath Postfix = .ok r ∧
        BuildAssetPath RosePath Postfix = some r) ∧
    (∀ (RosePath Postfix : String) (d0 file : String),
      pathComponents RosePath = [d0, file] →
      BuildAssetPath.checked RosePath Postfix
        = .error (.secondRead (if ToUpper d0 ≠ "3DDATA" then 1 else 0)) ∧
      BuildAssetPath RosePath Postfix = none) ∧
    (∀ (RosePath Postfix : String) (file : String),
      pathComponents RosePath = [file] →
      BuildAssetPath.checked RosePath Postfix = .error (.firstRead 1) ∧
      BuildAssetPath RosePath Postfix = none) ∧
    BuildAssetPath.checked "3DDATA/X.ZMS" "" = .error (.secondRead 0) ∧
    BuildAssetPath.checked "X.ZMS" "" = .error (.firstRead 1) := by
  refine ⟨BuildAssetPath_eq_checked, ?_, ?_, ?_, rfl, rfl⟩
  · intro RosePath Postfix ds file hc hlen
    have hchk := BuildAssetPath.checked_of_components RosePath Postfix ds file hc
    cases ds with
    | nil => simp at hlen
    | cons d0 t =>
      cases t with
      | nil => simp at hlen
      | cons d1 rest =>
        simp only [List.map_cons, List.getElem?_cons_zero, List.eraseIdx_cons_zero] at hchk
        refine ⟨_, hchk, ?_⟩
        rw [BuildAssetPath_eq_checked, hchk]
        rfl
  · intro RosePath Postfix d0 file hc
    have hchk := BuildAssetPath.checked_of_components RosePath Postfix [d0] file
      (by rw [hc]; rfl)
    simp only [List.map_cons, List.map_nil, List.getElem?_cons_zero, List.eraseIdx_cons_zero,
      List.getElem?_nil, List.length_singleton] at hchk
    have e : (if 1 ≤ 0 then 1 else 0) + (if ToUpper d0 ≠ "3DDATA" then 1 else 0)
        = (if ToUpper d0 ≠ "3DDATA" then 1 else 0) := by
      simp
    rw [e] at hchk
    refine ⟨hchk, ?_⟩
    rw [BuildAssetPath_eq_checked, hchk]
    rfl
  · intro RosePath Postfix file hc
    have hchk := BuildAssetPath.checked_of_components RosePath Postfix [] file
      (by rw [hc]; rfl)
    simp only [List.map_nil, List.getElem?_nil, List.length_nil] at hchk
    have e : (if 0 ≤ 0 then 1 else 0) = 1 := rfl
    refine ⟨by rw [hchk]; rfl, ?_⟩
    rw [BuildAssetPath_eq_checked, hchk]
    rfl

theorem BuildAssetPath_array_accesses_witness :
    (∃ r, BuildAssetPath.checked "3DDATA/AVATAR/BODY.ZMS" "" = .ok r ∧
      BuildAssetPath "3DDATA/AVATAR/BODY.ZMS" "" = some r) ∧
    (BuildAssetPath.checked "3DDATA/X.ZMS" ""
        = .error (.secondRead (if ToUpper "3DDATA" ≠ "3DDATA" then 1 else 0)) ∧
      BuildAssetPath "3DDATA/X.ZMS" "" = none) ∧
    (BuildAssetPath.checked "X.ZMS" "" = .error (.firstRead 1) ∧
      BuildAssetPath "X.ZMS" "" = none) :=
  ⟨BuildAssetPath_array_accesses.2.1 "3DDATA/AVATAR/BODY.ZMS" "" ["3DDATA", "AVATAR"] "BODY.ZMS"
     (by decide) (by decide),
   BuildAssetPath_array_accesses.2.2.1 "3DDATA/X.ZMS" "" "3DDATA" "X.ZMS" (by decide),
   BuildAssetPath_array_accesses.2.2.2.1 "X.ZMS" "" "X.ZMS" (by decide)⟩

/-! ## C12: the round trip of the height conversion -/

theorem ueValue.exact_of_mem (h : ℚ) (h0 : -25600 ≤ h) (h1 : h ≤ 25600) :
    ueValue.exact h = (h + 25600) / 51200 * 65535 := by
  unfold ueValue.exact
  rw [Clamp_of_mem _ (by linarith) (by linarith)]

theorem heightOfUe_sub (h : ℚ) (v : ℚ) :
    h - heightOfUe v = ((h + 25600) / 51200 * 65535 - v) * (51200 / 65535) := by
  unfold heightOfUe
  ring

/-- C12, a height at which the stated bound fails. At the raw height `h = -21489` the exact conversion
gives `5261.9997...`, whose truncation is 5261, while the single-precision
expression of line 1345 gives `5262.0`, so 5262 is stored; the inverse map takes
5262 to a height `h'` above `h`: `h - h' = -1/4369`, and `0 <= h - h'` fails. -/
theorem PluginButtonClicked_height_round_trip_fails :
    ueValue (-21489) = 5262 ∧
    toUint16 (ueValue (-21489)) = 5262 ∧
    ⌊((-21489 : ℚ) + 25600) / 51200 * 65535⌋ = 5261 ∧
    (toUint16 (ueValue (-21489)) : Int) ≠ ⌊((-21489 : ℚ) + 25600) / 51200 * 65535⌋ ∧
    (-21489 : ℚ) - heightOfUe (toUint16 (ueValue (-21489))) = -1 / 4369 ∧
    ¬ (0 ≤ (-21489 : ℚ) - heightOfUe (toUint16 (ueValue (-21489)))) := by
  have e := ueValue_at_21489
  have t : toUint16 (ueValue (-21489)) = 5262 := by
    have key : (toUint16 (ueValue (-21489)) : Int) = ⌊(5262 : ℚ)⌋ := by
      rw [toUint16_ueValue, e]
    have e2 : ⌊(5262 : ℚ)⌋ = 5262 := by simp
    rw [e2] at key
    exact_mod_cast key
  have f : ⌊((-21489 : ℚ) + 25600) / 51200 * 65535⌋ = 5261 := by
    norm_num [Int.floor_eq_iff]
  have d : (-21489 : ℚ) - heightOfUe (toUint16 (ueValue (-21489))) = -1 / 4369 := by
    rw [t]
    unfold heightOfUe
    norm_num
  refine ⟨e, t, f, ?_, d, ?_⟩
  · rw [t, f]
    norm_num
  · rw [d]
    norm_num

/-- C12, with the bounds that hold of the value stored. For every raw height
`h` in `[-25600, 25600]` the
single-precision value of line 1345 is within `196605 / 2^24` (about 0.0117) of
the exact `(h + 25600) / 51200 * 65535`, so the value stored differs from the
truncation of the exact one by at most 1, and the inverse map
`v / 65535 * 51200 - 25600` takes it to a height `h'` with
`-75/8192 <= h - h' < 51200/65535 + 75/8192`, hence `|h - h'| < 1`, less than one
raw height unit. Over exact rationals the stored value would be the truncation
of the exact one, with `0 <= h - h' < 51200 / 65535`, and applied to the exact
value before truncation the inverse map returns `h`. -/
theorem PluginButtonClicked_height_round_trip (h : ℚ) (h0 : -25600 ≤ h) (h1 : h ≤ 25600) :
    |ueValue h - (h + 25600) / 51200 * 65535| ≤ 196605 / 16777216 ∧
    ⌊(h + 25600) / 51200 * 65535⌋ - 1 ≤ (toUint16 (ueValue h) : Int) ∧
    (toUint16 (ueValue h) : Int) ≤ ⌊(h + 25600) / 51200 * 65535⌋ + 1 ∧
    -(75 / 8192) ≤ h - heightOfUe (toUint16 (ueValue h)) ∧
    h - heightOfUe (toUint16 (ueValue h)) < 51200 / 65535 + 75 / 8192 ∧
    |h - heightOfUe (toUint16 (ueValue h))| < 1 ∧
    (toUint16 (ueValue.exact h) : Int) = ⌊(h + 25600) / 51200 * 65535⌋ ∧
    0 ≤ h - heightOfUe (toUint16 (ueValue.exact h)) ∧
    h - heightOfUe (toUint16 (ueValue.exact h)) < 51200 / 65535 ∧
    (51200 / 65535 : ℚ) < 1 ∧
    heightOfUe (ueValue.exact h) = h := by
  have ex := ueValue.exact_of_mem h h0 h1
  have err := ueValue_error h h0 h1
  rw [ex] at err
  have t := toUint16_ueValue h
  have c : ((toUint16 (ueValue h) : ℕ) : ℚ) = ((⌊ueValue h⌋ : Int) : ℚ) := by
    rw [← t]
    simp
  have f1 := Int.floor_le (ueValue h)
  have f2 := Int.lt_floor_add_one (ueValue h)
  have g1 := Int.floor_le ((h + 25600) / 51200 * 65535)
  have g2 := Int.lt_floor_add_one ((h + 25600) / 51200 * 65535)
  obtain ⟨a1, a2⟩ := abs_sub_le_iff.mp err
  have tE : (toUint16 (ueValue.exact h) : Int) = ⌊(h + 25600) / 51200 * 65535⌋ := by
    rw [toUint16_exact, ex]
  have cE : ((toUint16 (ueValue.exact h) : ℕ) : ℚ)
      = ((⌊(h + 25600) / 51200 * 65535⌋ : Int) : ℚ) := by
    rw [← tE]
    simp
  have lo : -(75 / 8192) ≤ h - heightOfUe (toUint16 (ueValue h)) := by
    rw [heightOfUe_sub, c]
    have : -(196605 / 16777216 : ℚ) ≤ (h + 25600) / 51200 * 65535 - (⌊ueValue h⌋ : ℚ) := by
      linarith
    have := mul_le_mul_of_nonneg_right this (by norm_num : (0 : ℚ) ≤ 51200 / 65535)
    linarith
  have hi : h - heightOfUe (toUint16 (ueValue h)) < 51200 / 65535 + 75 / 8192 := by
    rw [heightOfUe_sub, c]
    have : (h + 25600) / 51200 * 65535 - (⌊ueValue h⌋ : ℚ) < 1 + 196605 / 16777216 := by
      linarith
    have := mul_lt_mul_of_pos_right this (by norm_num : (0 : ℚ) < 51200 / 65535)
    linarith
  refine ⟨err, ?_, ?_, lo, hi, ?_, tE, ?_, ?_, by norm_num, ?_⟩
  · rw [t]
    have : (⌊(h + 25600) / 51200 * 65535⌋ : ℚ) - 1 < (⌊ueValue h⌋ : ℚ) + 1 := by linarith
    have : ⌊(h + 25600) / 51200 * 65535⌋ - 1 < ⌊ueValue h⌋ + 1 := by exact_mod_cast this
    omega
  · rw [t]
    have : (⌊ueValue h⌋ : ℚ) < (⌊(h + 25600) / 51200 * 65535⌋ : ℚ) + 1 + 1 := by linarith
    have : ⌊ueValue h⌋ < ⌊(h + 25600) / 51200 * 65535⌋ + 1 + 1 := by exact_mod_cast this
    omega
  · rw [abs_lt]
    constructor
    · linarith
    · have : (51200 / 65535 + 75 / 8192 : ℚ) < 1 := by norm_num
      linarith
  · rw [heightOfUe_sub, cE]
    have : 0 ≤ (h + 25600) / 51200 * 65535 - (⌊(h + 25600) / 51200 * 65535⌋ : ℚ) := by
      linarith
    positivity
  · rw [heightOfUe_sub, cE]
    have : (h + 25600) / 51200 * 65535 - (⌊(h + 25600) / 51200 * 65535⌋ : ℚ) < 1 := by
      linarith
    have := mul_lt_mul_of_pos_right this (by norm_num : (0 : ℚ) < 51200 / 65535)
    linarith
  · rw [ex]
    unfold heightOfUe
    ring

/-- C12, the bounds at the height `h = -21489`: the stored value 5262 is one
above the truncation 5261 of the exact value, and `h - h' = -1/4369` lies
between `-75/8192` and 1. -/
theorem PluginButtonClicked_height_round_trip_witness :
    ⌊((-21489 : ℚ) + 25600) / 51200 * 65535⌋ - 1 ≤ (toUint16 (ueValue (-21489)) : Int) ∧
    (toUint16 (ueValue (-21489)) : Int) ≤ ⌊((-21489 : ℚ) + 25600) / 51200 * 65535⌋ + 1 ∧
    -(75 / 8192) ≤ (-21489 : ℚ) - heightOfUe (toUint16 (ueValue (-21489))) ∧
    |(-21489 : ℚ) - heightOfUe (toUint16 (ueValue (-21489)))| < 1 :=
  ⟨(PluginButtonClicked_height_round_trip (-21489) (by norm_num) (by norm_num)).2.1,
   (PluginButtonClicked_height_round_trip (-21489) (by norm_num) (by norm_num)).2.2.1,
   (PluginButtonClicked_height_round_trip (-21489) (by norm_num) (by norm_num)).2.2.2.1,
   (PluginButtonClicked_height_round_trip (-21489) (by norm_num) (by norm_num)).2.2.2.2.2.1⟩

/-! ## C21: the base material is determined by its name -/

theorem GetOrMakeBaseMaterial.MaterialName_cases (t : Zsc.Texture) :
    GetOrMakeBaseMaterial.MaterialName t
      = (if t.alphaTestEnabled then "AlphaRefMaterial"
          else if t.alphaEnabled then "AlphaMaterial" else "BaseMaterial")
        ++ (if t.twoSided then "_DS" else "") := by
  unfold GetOrMakeBaseMaterial.MaterialName
  cases t.alphaTestEnabled <;> cases t.alphaEnabled <;> cases t.twoSided <;> rfl

theorem GetOrMakeBaseMaterial.MaterialName_determines (t1 t2 : Zsc.Texture)
    (h : GetOrMakeBaseMaterial.MaterialName t1 = GetOrMakeBaseMaterial.MaterialName t2) :
    t1.alphaTestEnabled = t2.alphaTestEnabled ∧
    (t1.alphaTestEnabled = false → t1.alphaEnabled = t2.alphaEnabled) ∧
    t1.twoSided = t2.twoSided := by
  rw [GetOrMakeBaseMaterial.MaterialName_cases, GetOrMakeBaseMaterial.MaterialName_cases] at h
  revert h
  cases t1.alphaTestEnabled <;> cases t1.alphaEnabled <;> cases t1.twoSided <;>
    cases t2.alphaTestEnabled <;> cases t2.alphaEnabled <;> cases t2.twoSided <;> decide

theorem GetOrMakeBaseMaterial.create_of_flags (defaults : UMaterial) (t1 t2 : Zsc.Texture)
    (h1 : t1.alphaTestEnabled = t2.alphaTestEnabled)
    (h2 : t1.alphaTestEnabled = false → t1.alphaEnabled = t2.alphaEnabled)
    (h3 : t1.twoSided = t2.twoSided) :
    GetOrMakeBaseMaterial.create defaults t1 = GetOrMakeBaseMaterial.create defaults t2 := by
  unfold GetOrMakeBaseMaterial.create GetOrMakeBaseMaterial.MaterialName
  cases ha : t1.alphaTestEnabled with
  | true =>
    rw [ha] at h1
    simp only [← h1, ← h3, if_true]
  | false =>
    rw [ha] at h1
    have h4 := h2 ha
    simp only [← h1, ← h3, ← h4]

theorem GetOrMakeBaseMaterial.create_Name (defaults : UMaterial) (t : Zsc.Texture) :
    (GetOrMakeBaseMaterial.create defaults t).Name = GetOrMakeBaseMaterial.MaterialName t := by
  unfold GetOrMakeBaseMaterial.create
  cases t.alphaTestEnabled <;> cases t.alphaEnabled <;> cases t.twoSided <;> rfl

/-- C21. In `GetOrMakeBaseMaterial` the material name is `AlphaRefMaterial`,
`AlphaMaterial` or `BaseMaterial` (`alphaTestEnabled` taking precedence over
`alphaEnabled`), followed by `_DS` exactly when `twoSided`. A freshly made
material has blend mode Masked, Translucent or Opaque accordingly, the clip
value 0.5 and a connected opacity mask exactly for `alphaTestEnabled`, and the
two-sided flag set for `twoSided`. Two texture records that yield the same name
yield the same freshly made material. So on a store that holds only materials
made by this function, the material returned, found or made, is the one that
would be made for the record, and the store stays such a store. The fields
`alphaReference` and `filePath` never influence the result. -/
theorem GetOrMakeBaseMaterial_determined_by_name :
    (∀ t : Zsc.Texture,
      GetOrMakeBaseMaterial.MaterialName t
        = (if t.alphaTestEnabled then "AlphaRefMaterial"
            else if t.alphaEnabled then "AlphaMaterial" else "BaseMaterial")
          ++ (if t.twoSided then "_DS" else "")) ∧
    (∀ (defaults : UMaterial) (t : Zsc.Texture),
      (GetOrMakeBaseMaterial.create defaults t).Name = GetOrMakeBaseMaterial.MaterialName t ∧
      (GetOrMakeBaseMaterial.create defaults t).BlendMode
        = (if t.alphaTestEnabled then EBlendMode.BLEND_Masked
            else if t.alphaEnabled then EBlendMode.BLEND_Translucent
            else EBlendMode.BLEND_Opaque) ∧
      (GetOrMakeBaseMaterial.create defaults t).OpacityMaskClipValue
        = (if t.alphaTestEnabled then mkRat 1 2 else defaults.OpacityMaskClipValue) ∧
      (GetOrMakeBaseMaterial.create defaults t).OpacityMask
        = (if t.alphaTestEnabled then some 4 else defaults.OpacityMask) ∧
      (GetOrMakeBaseMaterial.create defaults t).TwoSided
        = (if t.twoSided then true else defaults.TwoSided)) ∧
    (∀ (defaults : UMaterial) (t1 t2 : Zsc.Texture),
      GetOrMakeBaseMaterial.MaterialName t1 = GetOrMakeBaseMaterial.MaterialName t2 →
      GetOrMakeBaseMaterial.create defaults t1 = GetOrMakeBaseMaterial.create defaults t2) ∧
    (∀ (defaults : UMaterial) (store : List UMaterial) (t : Zsc.Texture),
      (∀ m ∈ store, ∃ t0, m = GetOrMakeBaseMaterial.create defaults t0) →
      (GetOrMakeBaseMaterial defaults store t).1 = GetOrMakeBaseMaterial.create defaults t ∧
      ∀ m ∈ (GetOrMakeBaseMaterial defaults store t).2,
        ∃ t0, m = GetOrMakeBaseMaterial.create defaults t0) ∧
    (∀ (defaults : UMaterial) (store : List UMaterial) (t : Zsc.Texture) (r : Nat)
        (path : String),
      GetOrMakeBaseMaterial defaults store { t with alphaReference := r, filePath := path }
        = GetOrMakeBaseMaterial defaults store t) := by
  refine ⟨GetOrMakeBaseMaterial.MaterialName_cases, ?_, ?_, ?_, ?_⟩
  · intro defaults t
    refine ⟨GetOrMakeBaseMaterial.create_Name defaults t, ?_, ?_, ?_, ?_⟩ <;>
    · unfold GetOrMakeBaseMaterial.create
      cases t.alphaTestEnabled <;> cases t.alphaEnabled <;> cases t.twoSided <;> rfl
  · intro defaults t1 t2 h
    obtain ⟨a, b, c⟩ := GetOrMakeBaseMaterial.MaterialName_determines t1 t2 h
    exact GetOrMakeBaseMaterial.create_of_flags defaults t1 t2 a b c
  · intro defaults store t hstore
    unfold GetOrMakeBaseMaterial
    dsimp only
    cases hf : store.find? (fun m => m.Name = GetOrMakeBaseMaterial.MaterialName t) with
    | some m =>
      have hm := List.mem_of_find?_eq_some hf
      have hp := List.find?_some hf
      simp only [decide_eq_true_eq] at hp
      obtain ⟨t0, e⟩ := hstore m hm
      refine ⟨?_, hstore⟩
      show m = GetOrMakeBaseMaterial.create defaults t
      rw [e, GetOrMakeBaseMaterial.create_Name] at hp
      obtain ⟨a, b, c⟩ := GetOrMakeBaseMaterial.MaterialName_determines t0 t hp
      rw [e]
      exact GetOrMakeBaseMaterial.create_of_flags defaults t0 t a b c
    | none =>
      refine ⟨rfl, ?_⟩
      intro m hm
      rcases List.mem_append.mp hm with h | h
      · exact hstore m h
      · rw [List.mem_singleton] at h
        exact ⟨t, h⟩
  · intro defaults store t r path
    rfl

theorem GetOrMakeBaseMaterial_determined_by_name_witness :
    GetOrMakeBaseMaterial.create sampleNewMaterial ⟨"A.DDS", true, true, 100, true⟩
      = GetOrMakeBaseMaterial.create sampleNewMaterial ⟨"B.DDS", false, true, 7, true⟩ :=
  GetOrMakeBaseMaterial_determined_by_name.2.2.1 sampleNewMaterial
    ⟨"A.DDS", true, true, 100, true⟩ ⟨"B.DDS", false, true, 7, true⟩ (by decide)

/-! ## C22: the landscape buffer holds the tile block -/

theorem PluginButtonClicked.Size_smallest (R : Nat) (h : R ≤ 64000) :
    PluginButtonClicked.Size R = (R / 63 + 1) * 63 + 1 ∧
    63 ∣ PluginButtonClicked.Size R - 1 ∧ R < PluginButtonClicked.Size R - 1 ∧
    ∀ m : Nat, 63 ∣ m → R < m → PluginButtonClicked.Size R - 1 ≤ m := by
  have e := PluginButtonClicked.Size_eq R h
  refine ⟨e, ?_, ?_, ?_⟩
  · rw [e]
    exact ⟨R / 63 + 1, by omega⟩
  · rw [e]
    omega
  · intro m hm hlt
    obtain ⟨q, hq⟩ := hm
    rw [e]
    subst hq
    have : R / 63 < q := by
      by_contra hc
      have : q ≤ R / 63 := by omega
      have := Nat.mul_le_mul_left 63 this
      omega
    have := Nat.mul_le_mul_left 63 (show R / 63 + 1 ≤ q by omega)
    omega

theorem PluginButtonClicked.blockSample_lt (startX startY endX endY ix iy sx sy : Nat)
    (hx : startX ≤ endX) (hy : startY ≤ endY)
    (bx : endX - startX < 1000) (bY : endY - startY < 1000)
    (h1 : startX ≤ ix) (h2 : ix ≤ endX) (h3 : startY ≤ iy) (h4 : iy ≤ endY)
    (h5 : sx < 65) (h6 : sy < 65) :
    (ix - startX) * 64 + sx
      < PluginButtonClicked.Size (PluginButtonClicked.RoseSize startX endX) ∧
    (iy - startY) * 64 + sy
      < PluginButtonClicked.Size (PluginButtonClicked.RoseSize startY endY) ∧
    ((iy - startY) * 64 + sy) * PluginButtonClicked.Size (PluginButtonClicked.RoseSize startX endX)
        + ((ix - startX) * 64 + sx)
      < PluginButtonClicked.Size (PluginButtonClicked.RoseSize startX endX)
        * PluginButtonClicked.Size (PluginButtonClicked.RoseSize startY endY) ∧
    (((iy - startY) * 64 + sy)
        * PluginButtonClicked.Size (PluginButtonClicked.RoseSize startX endX)
        + ((ix - startX) * 64 + sx)) % 4294967296
      = ((iy - startY) * 64 + sy)
        * PluginButtonClicked.Size (PluginButtonClicked.RoseSize startX endX)
        + ((ix - startX) * 64 + sx) := by
  rw [PluginButtonClicked.RoseSize_eq startX endX hx bx,
    PluginButtonClicked.RoseSize_eq startY endY hy bY,
    PluginButtonClicked.Size_eq _ (by omega), PluginButtonClicked.Size_eq _ (by omega)]
  generalize hSX : (64 * (endX - startX + 1) / 63 + 1) * 63 + 1 = SX
  generalize hSY : (64 * (endY - startY + 1) / 63 + 1) * 63 + 1 = SY
  have a : (ix - startX) * 64 + sx < SX := by omega
  have b : (iy - startY) * 64 + sy < SY := by omega
  have c := flatIndex_lt _ _ _ _ a b
  have bSX : SX ≤ 65000 := by omega
  have bSY : SY ≤ 65000 := by omega
  have hM : SX * SY < 4294967296 := by
    have := Nat.mul_le_mul bSX bSY
    omega
  exact ⟨a, b, c, Nat.mod_eq_of_lt (by omega)⟩

/-- C22. For a tile block `startX..endX` x `startY..endY` of `PluginButtonClicked`
(at most 1000 tiles a side, so that no 32-bit size wraps): `RoseSize` is 64
times the number of tiles per side; `Size = (RoseSize / 63 + 1) * 63 + 1`, and
`Size - 1` is the smallest multiple of 63 strictly greater than `RoseSize`; for
every tile `(ix, iy)` of the block and every sample `(sx, sy)` with
`sx, sy < 65` the column `outBaseX + sx` is below `SizeX`, the row
`outBaseY + sy` is below `SizeY`, and the write index
`(outBaseY + sy) * SizeX + (outBaseX + sx)` is below `SizeX * SizeY`, the
length of the height buffer. The tile loops return when every Him file holds
4225 samples and every Til file its 256 cells with brushes in `[0, 8)`. For
the 4 x 4 block of the source `RoseSize = 256` and `Size = 316`. -/
theorem PluginButtonClicked_buffer_holds_block (startX startY endX endY : Nat)
    (hx : startX ≤ endX) (hy : startY ≤ endY)
    (bx : endX - startX < 1000) (bY : endY - startY < 1000) :
    PluginButtonClicked.RoseSize startX endX = 64 * (endX - startX + 1) ∧
    PluginButtonClicked.RoseSize startY endY = 64 * (endY - startY + 1) ∧
    (∀ R : Nat, R = PluginButtonClicked.RoseSize startX endX ∨
        R = PluginButtonClicked.RoseSize startY endY →
      PluginButtonClicked.Size R = (R / 63 + 1) * 63 + 1 ∧
      63 ∣ PluginButtonClicked.Size R - 1 ∧ R < PluginButtonClicked.Size R - 1 ∧
      ∀ m : Nat, 63 ∣ m → R < m → PluginButtonClicked.Size R - 1 ≤ m) ∧
    (∀ ix iy sx sy : Nat, startX ≤ ix → ix ≤ endX → startY ≤ iy → iy ≤ endY →
      sx < 65 → sy < 65 →
      (ix - startX) * 64 + sx
        < PluginButtonClicked.Size (PluginButtonClicked.RoseSize startX endX) ∧
      (iy - startY) * 64 + sy
        < PluginButtonClicked.Size (PluginButtonClicked.RoseSize startY endY) ∧
      ((iy - startY) * 64 + sy)
          * PluginButtonClicked.Size (PluginButtonClicked.RoseSize startX endX)
          + ((ix - startX) * 64 + sx)
        < PluginButtonClicked.Size (PluginButtonClicked.RoseSize startX endX)
          * PluginButtonClicked.Size (PluginButtonClicked.RoseSize startY endY)) ∧
    (∀ (host : Host) (files : MapFiles) (assets : List UBlueprint),
      (∀ p : String, 256 ≤ (files.loadTil p).Data.length ∧
        ∀ (k : Nat) (c : Til.Cell), k < 256 → (files.loadTil p).Data[k]? = some c →
          0 ≤ c.Brush ∧ c.Brush < 8) →
      (∀ p : String, 4225 ≤ (files.loadHim p).heights.length) →
      ∃ t, PluginButtonClicked.terrain host files assets startX startY endX endY = some t ∧
        t.SizeX = PluginButtonClicked.Size (PluginButtonClicked.RoseSize startX endX) ∧
        t.SizeY = PluginButtonClicked.Size (PluginButtonClicked.RoseSize startY endY) ∧
        t.state.Data.length = t.SizeX * t.SizeY) ∧
    PluginButtonClicked.RoseSize 31 34 = 256 ∧ PluginButtonClicked.Size 256 = 316 := by
  have rx := PluginButtonClicked.RoseSize_eq startX endX hx bx
  have ry := PluginButtonClicked.RoseSize_eq startY endY hy bY
  refine ⟨rx, ry, ?_, ?_, ?_, by decide, by decide⟩
  · intro R hR
    apply PluginButtonClicked.Size_smallest
    rcases hR with h | h
    · rw [h, rx]
      omega
    · rw [h, ry]
      omega
  · intro ix iy sx sy h1 h2 h3 h4 h5 h6
    obtain ⟨a, b, c, _⟩ := PluginButtonClicked.blockSample_lt startX startY endX endY ix iy sx sy
      hx hy bx bY h1 h2 h3 h4 h5 h6
    exact ⟨a, b, c⟩
  · intro host files assets hTil hHim
    obtain ⟨t, ht, s1, s2, s3, _⟩ := PluginButtonClicked.terrain_total host files assets
      startX startY endX endY hx hy bx bY hTil hHim
    refine ⟨t, ht, ?_, ?_, s3⟩
    · rw [s1, rx, PluginButtonClicked.Size_eq _ (by omega)]
    · rw [s2, ry, PluginButtonClicked.Size_eq _ (by omega)]

theorem PluginButtonClicked_buffer_holds_block_witness :
    (34 - 31) * 64 + 64 < PluginButtonClicked.Size (PluginButtonClicked.RoseSize 31 34) ∧
    (33 - 30) * 64 + 64 < PluginButtonClicked.Size (PluginButtonClicked.RoseSize 30 33) ∧
    ((33 - 30) * 64 + 64) * PluginButtonClicked.Size (PluginButtonClicked.RoseSize 31 34)
        + ((34 - 31) * 64 + 64)
      < PluginButtonClicked.Size (PluginButtonClicked.RoseSize 31 34)
        * PluginButtonClicked.Size (PluginButtonClicked.RoseSize 30 33) :=
  (PluginButtonClicked_buffer_holds_block 31 30 34 33 (by decide) (by decide) (by decide)
    (by decide)).2.2.2.1 34 33 64 64 (by decide) (by decide) (by decide) (by decide)
    (by decide) (by decide)

/-! ## C23: tiles share their border samples -/

theorem PluginButtonClicked.tileBody_spec (host : Host) (files : MapFiles)
    (assets : List UBlueprint) (startX startY SizeX SizeY n m kx ky : Nat) (st : TerrainState)
    (hkx : kx < n) (hky : ky < m) (hnX : 64 * n < SizeX) (hmY : 64 * m < SizeY)
    (hM : SizeX * SizeY ≤ 4294967296)
    (hTil : ∀ p : String, 256 ≤ (files.loadTil p).Data.length ∧
      ∀ (k : Nat) (c : Til.Cell), k < 256 → (files.loadTil p).Data[k]? = some c →
        0 ≤ c.Brush ∧ c.Brush < 8)
    (hHim : ∀ p : String, 4225 ≤ (files.loadHim p).heights.length)
    (hD : st.Data.length = SizeX * SizeY) (hW : st.WeightData.length = 8)
    (hL : ∀ l ∈ st.WeightData, l.length = SizeX * SizeY) :
    ∃ st', PluginButtonClicked.tileBody host files assets startX startY SizeX SizeX
        (startY + ky) (startX + kx) st = some st' ∧
      st'.Data.length = SizeX * SizeY ∧ st'.WeightData.length = 8 ∧
      (∀ l ∈ st'.WeightData, l.length = SizeX * SizeY) ∧
      (∀ sy sx : Nat, sy < 65 → sx < 65 →
        ∃ h, (PluginButtonClicked.himOf host files (startX + kx) (startY + ky)).heights[
            sy * 65 + sx]? = some h ∧
          st'.Data[PluginButtonClicked.cellOf SizeX kx ky sx sy]?
            = some (toUint16 (ueValue h))) ∧
      (∀ p : Nat, (∀ sy sx : Nat, sy < 65 → sx < 65 →
          p ≠ PluginButtonClicked.cellOf SizeX kx ky sx sy) →
        st'.Data[p]? = st.Data[p]?) := by
  have ex : startX + kx - startX = kx := by omega
  have ey : startY + ky - startY = ky := by omega
  obtain ⟨W', hp, w1, w2⟩ := PluginButtonClicked.paintTile_total SizeX (kx * 16) (ky * 16)
    (SizeX * SizeY)
    (files.loadTil (host.RoseBasePath ++ ("3DDATA/MAPS/JUNON/JDT01/" ++ toString (startX + kx)
      ++ "_" ++ toString (startY + ky) ++ ".til")))
    st.WeightData (hTil _).1 (hTil _).2 hW hL
    (by
      intro sy sx py px hsy hsx hpy hpx
      have a : (kx * 16 + sx) * 4 + px < SizeX := by omega
      have b : (ky * 16 + sy) * 4 + py < SizeY := by omega
      have c := flatIndex_lt _ _ _ _ a b
      rw [Nat.mod_eq_of_lt (by omega)]
      exact c)
  obtain ⟨s2, hh, q1, q2, q3, q4, q5⟩ := PluginButtonClicked.heightTile_total SizeX (kx * 64)
    (ky * 64)
    (files.loadHim (host.RoseBasePath ++ ("3DDATA/MAPS/JUNON/JDT01/" ++ toString (startX + kx)
      ++ "_" ++ toString (startY + ky) ++ ".him")))
    { st with WeightData := W' } (hHim _) (by omega)
    (by
      have a : kx * 64 + 64 < SizeX := by omega
      have b : ky * 64 + 64 < SizeY := by omega
      have c := flatIndex_lt _ _ _ _ a b
      show (ky * 64 + 64) * SizeX + (kx * 64 + 64) < st.Data.length
      rw [hD]
      exact c)
    (by
      show st.Data.length ≤ 4294967296
      rw [hD]
      exact hM)
  obtain ⟨s3, s4, hb, ho, r1, r2⟩ := PluginButtonClicked.spawn_total host assets (startX + kx)
    (startY + ky)
    (files.loadIfo (host.RoseBasePath ++ ("3DDATA/MAPS/JUNON/JDT01/" ++ toString (startX + kx)
      ++ "_" ++ toString (startY + ky) ++ ".ifo"))) s2
  refine ⟨s4, ?_, ?_, ?_, ?_, ?_, ?_⟩
  · unfold PluginButtonClicked.tileBody
    simp only [ex, ey, Option.bind_eq_bind]
    rw [hp]
    simp only [Option.some_bind]
    rw [hh]
    simp only [Option.some_bind]
    rw [hb]
    simp only [Option.some_bind]
    exact ho
  · rw [r1, q3]
    exact hD
  · rw [r2, q1]
    exact w1
  · rw [r2, q1]
    exact w2
  · intro sy sx hsy hsx
    obtain ⟨h, g1, g2⟩ := q4 sy sx hsx (by omega)
    refine ⟨h, g1, ?_⟩
    rw [r1]
    exact g2
  · intro p hp2
    rw [r1]
    exact q5 p (fun sy sx hsx hlt => hp2 sy sx (by omega) hsx)

theorem PluginButtonClicked.blockWritten_step (host : Host) (files : MapFiles)
    (startX startY SizeX n ky kx : Nat) (s s' : TerrainState) (hkx : kx < n)
    (inv : PluginButtonClicked.blockWritten host files startX startY SizeX n ky kx s)
    (hin : ∀ sy sx : Nat, sy < 65 → sx < 65 →
      ∃ h, (PluginButtonClicked.himOf host files (startX + kx) (startY + ky)).heights[
          sy * 65 + sx]? = some h ∧
        s'.Data[PluginButtonClicked.cellOf SizeX kx ky sx sy]? = some (toUint16 (ueValue h)))
    (hout : ∀ p : Nat, (∀ sy sx : Nat, sy < 65 → sx < 65 →
        p ≠ PluginButtonClicked.cellOf SizeX kx ky sx sy) →
      s'.Data[p]? = s.Data[p]?) :
    PluginButtonClicked.blockWritten host files startX startY SizeX n ky (kx + 1) s' := by
  intro ky1 kx1 sy sx hk1 hbef hsy hsx hlast
  by_cases hc : ky1 = ky ∧ kx1 = kx
  · obtain ⟨e1, e2⟩ := hc
    subst e1 e2
    exact hin sy sx hsy hsx
  · have hbef0 : PluginButtonClicked.tileBefore ky1 kx1 ky kx := by
      unfold PluginButtonClicked.tileBefore at hbef ⊢
      omega
    have hne : ∀ sy2 sx2 : Nat, sy2 < 65 → sx2 < 65 →
        PluginButtonClicked.cellOf SizeX kx1 ky1 sx sy
          ≠ PluginButtonClicked.cellOf SizeX kx ky sx2 sy2 := by
      intro sy2 sx2 h1 h2 he
      exact hlast ky kx sy2 sx2 hkx
        (by unfold PluginButtonClicked.tileBefore; omega) hbef0 h1 h2 he.symm
    obtain ⟨h, g1, g2⟩ := inv ky1 kx1 sy sx hk1 hbef0 hsy hsx
      (by
        intro ky2 kx2 sy2 sx2 hk2 hb2 haft h1 h2
        exact hlast ky2 kx2 sy2 sx2 hk2
          (by
            unfold PluginButtonClicked.tileBefore at hb2 ⊢
            omega) haft h1 h2)
    exact ⟨h, g1, by rw [hout _ hne]; exact g2⟩

theorem PluginButtonClicked.blockWritten_row (host : Host) (files : MapFiles)
    (startX startY SizeX n ky : Nat) (s : TerrainState)
    (inv : PluginButtonClicked.blockWritten host files startX startY SizeX n ky n s) :
    PluginButtonClicked.blockWritten host files startX startY SizeX n (ky + 1) 0 s := by
  intro ky1 kx1 sy sx hk1 hbef hsy hsx hlast
  exact inv ky1 kx1 sy sx hk1
    (by
      unfold PluginButtonClicked.tileBefore at hbef ⊢
      omega) hsy hsx
    (by
      intro ky2 kx2 sy2 sx2 hk2 hb2 haft h1 h2
      exact hlast ky2 kx2 sy2 sx2 hk2
        (by
          unfold PluginButtonClicked.tileBefore at hb2 ⊢
          omega) haft h1 h2)

theorem PluginButtonClicked.terrain_spec (host : Host) (files : MapFiles)
    (assets : List UBlueprint) (startX startY endX endY : Nat)
    (hx : startX ≤ endX) (hy : startY ≤ endY)
    (bx : endX - startX < 1000) (bY : endY - startY < 1000)
    (hTil : ∀ p : String, 256 ≤ (files.loadTil p).Data.length ∧
      ∀ (k : Nat) (c : Til.Cell), k < 256 → (files.loadTil p).Data[k]? = some c →
        0 ≤ c.Brush ∧ c.Brush < 8)
    (hHim : ∀ p : String, 4225 ≤ (files.loadHim p).heights.length) :
    ∃ t, PluginButtonClicked.terrain host files assets startX startY endX endY = some t ∧
      t.SizeX = PluginButtonClicked.Size (PluginButtonClicked.RoseSize startX endX) ∧
      64 * (endX + 1 - startX) < t.SizeX ∧
      PluginButtonClicked.blockWritten host files startX startY t.SizeX (endX + 1 - startX)
        (endY + 1 - startY) 0 t.state := by
  have rx := PluginButtonClicked.RoseSize_eq startX endX hx bx
  have ry := PluginButtonClicked.RoseSize_eq startY endY hy bY
  have sx := PluginButtonClicked.Size_eq (64 * (endX - startX + 1)) (by omega)
  have sy := PluginButtonClicked.Size_eq (64 * (endY - startY + 1)) (by omega)
  generalize hSX : (64 * (endX - startX + 1) / 63 + 1) * 63 + 1 = SX at sx
  generalize hSY : (64 * (endY - startY + 1) / 63 + 1) * 63 + 1 = SY at sy
  have bSX : SX ≤ 65000 := by omega
  have bSY : SY ≤ 65000 := by omega
  have gX : 64 * (endX + 1 - startX) < SX := by omega
  have gY : 64 * (endY + 1 - startY) < SY := by omega
  have hM : SX * SY < 4294967296 := by
    have := Nat.mul_le_mul bSX bSY
    omega
  have hmod : SX * SY % 4294967296 = SX * SY := Nat.mod_eq_of_lt hM
  obtain ⟨D, hD, lD⟩ := PluginButtonClicked.fill_total ([] ++ List.replicate (SX * SY) 0)
  have lD2 : D.length = SX * SY := by simpa using lD
  obtain ⟨st, hloop, i1, i2, i3, i4⟩ := forLoop_total (endY + 1 - startY) (fun ky st =>
      forLoop (endX + 1 - startX) (fun kx st =>
        PluginButtonClicked.tileBody host files assets startX startY SX SX
          (startY + ky) (startX + kx) st) st)
    ({ Data := D, WeightData := List.replicate 8 ([] ++ List.replicate (SX * SY) 0),
       MinHeight := 1000000, MaxHeight := -1000000, actors := [] } : TerrainState)
    (fun ky s => s.Data.length = SX * SY ∧ s.WeightData.length = 8 ∧
      (∀ l ∈ s.WeightData, l.length = SX * SY) ∧
      PluginButtonClicked.blockWritten host files startX startY SX (endX + 1 - startX) ky 0 s)
    (by
      refine ⟨lD2, by simp, ?_, ?_⟩
      · intro l hl
        rw [List.eq_of_mem_replicate hl]
        simp
      · intro ky1 kx1 sy sx _ hbef
        unfold PluginButtonClicked.tileBefore at hbef
        omega)
    (by
      intro ky s hky ⟨g1, g2, g3, g4⟩
      obtain ⟨r, hr, k1, k2, k3, k4⟩ := forLoop_total (endX + 1 - startX)
        (fun kx st =>
          PluginButtonClicked.tileBody host files assets startX startY SX SX
            (startY + ky) (startX + kx) st) s
        (fun kx s => s.Data.length = SX * SY ∧ s.WeightData.length = 8 ∧
          (∀ l ∈ s.WeightData, l.length = SX * SY) ∧
          PluginButtonClicked.blockWritten host files startX startY SX (endX + 1 - startX)
            ky kx s) ⟨g1, g2, g3, g4⟩
        (by
          intro kx s2 hkx ⟨k1, k2, k3, k4⟩
          obtain ⟨s', hb, a1, a2, a3, a4, a5⟩ := PluginButtonClicked.tileBody_spec host files
            assets startX startY SX SY (endX + 1 - startX) (endY + 1 - startY) kx ky s2
            hkx hky gX gY (by omega) hTil hHim k1 k2 k3
          exact ⟨s', hb, a1, a2, a3,
            PluginButtonClicked.blockWritten_step host files startX startY SX _ ky kx s2 s'
              hkx k4 a4 a5⟩)
      exact ⟨r, hr, k1, k2, k3,
        PluginButtonClicked.blockWritten_row host files startX startY SX _ ky r k4⟩)
  refine ⟨{ SizeX := SX, SizeY := SY, state := st }, ?_, ?_, gX, i4⟩
  · unfold PluginButtonClicked.terrain
    simp only [rx, ry, sx, sy, hmod, Option.bind_eq_bind]
    rw [hD]
    simp only [Option.some_bind]
    rw [PluginButtonClicked.layers_eq]
    simp only [Option.some_bind]
    rw [hloop]
    rfl
  · show SX = _
    rw [rx, sx]

theorem flatIndex_injective (A a b a2 b2 : Nat) (ha : a < A) (ha2 : a2 < A)
    (h : b * A + a = b2 * A + a2) : b = b2 ∧ a = a2 := by
  have hpos : 0 < A := by omega
  have q1 : (b * A + a) / A = b := by
    rw [Nat.add_comm, Nat.add_mul_div_right _ _ hpos, Nat.div_eq_of_lt ha]
    omega
  have q2 : (b2 * A + a2) / A = b2 := by
    rw [Nat.add_comm, Nat.add_mul_div_right _ _ hpos, Nat.div_eq_of_lt ha2]
    omega
  have e : b = b2 := by rw [← q1, ← q2, h]
  subst e
  exact ⟨rfl, by omega⟩

theorem PluginButtonClicked.cellOf_eq_iff (SizeX n kx ky sx sy kx2 ky2 sx2 sy2 : Nat)
    (hS : 64 * n < SizeX) (hk : kx < n) (hk2 : kx2 < n) (h1 : sx < 65) (h2 : sx2 < 65) :
    PluginButtonClicked.cellOf SizeX kx ky sx sy = PluginButtonClicked.cellOf SizeX kx2 ky2 sx2 sy2
      ↔ (kx * 64 + sx = kx2 * 64 + sx2 ∧ ky * 64 + sy = ky2 * 64 + sy2) := by
  unfold PluginButtonClicked.cellOf
  constructor
  · intro h
    obtain ⟨a, b⟩ := flatIndex_injective SizeX _ _ _ _ (by omega) (by omega) h
    exact ⟨b, a⟩
  · intro ⟨a, b⟩
    rw [a, b]

theorem PluginButtonClicked.cellOf_shared_iff (SizeX n kx ky sx sy kx2 ky2 sx2 sy2 : Nat)
    (hS : 64 * n < SizeX) (hk : kx < n) (hk2 : kx2 < n) (h1 : sx < 65) (h2 : sx2 < 65)
    (h3 : sy < 65) (h4 : sy2 < 65) :
    PluginButtonClicked.cellOf SizeX kx ky sx sy = PluginButtonClicked.cellOf SizeX kx2 ky2 sx2 sy2
      ↔ ((kx = kx2 ∧ sx = sx2) ∨ (kx2 = kx + 1 ∧ sx = 64 ∧ sx2 = 0)
          ∨ (kx = kx2 + 1 ∧ sx = 0 ∧ sx2 = 64)) ∧
        ((ky = ky2 ∧ sy = sy2) ∨ (ky2 = ky + 1 ∧ sy = 64 ∧ sy2 = 0)
          ∨ (ky = ky2 + 1 ∧ sy = 0 ∧ sy2 = 64)) := by
  rw [PluginButtonClicked.cellOf_eq_iff SizeX n kx ky sx sy kx2 ky2 sx2 sy2 hS hk hk2 h1 h2]
  omega

/-- C23. In the height buffer of `PluginButtonClicked` adjacent tiles share
their border samples and nothing else. With `n` tiles per row and row length
`SizeX = Size (RoseSize startX endX)`: within one tile two samples with the
same cell are the same sample; two samples of tiles of the block have the same
cell exactly when, in each direction, they are in the same tile position with
the same coordinate, or in neighbouring positions with coordinate 64 in the
first and 0 in the second tile; in the returned buffer the cell of a sample
holds the converted sample of the tile processed last among those with a
sample in that cell, so on a common edge the right tile and the lower tile
overwrite the value of the left and the upper one. -/
theorem PluginButtonClicked_tiles_share_borders (host : Host) (files : MapFiles)
    (assets : List UBlueprint) (startX startY endX endY : Nat)
    (hx : startX ≤ endX) (hy : startY ≤ endY)
    (bx : endX - startX < 1000) (bY : endY - startY < 1000) :
    (∀ kx ky sx sy sx2 sy2 : Nat, kx < endX + 1 - startX → sx < 65 → sx2 < 65 →
      PluginButtonClicked.cellOf (PluginButtonClicked.Size
          (PluginButtonClicked.RoseSize startX endX)) kx ky sx sy
        = PluginButtonClicked.cellOf (PluginButtonClicked.Size
          (PluginButtonClicked.RoseSize startX endX)) kx ky sx2 sy2 →
      sx = sx2 ∧ sy = sy2) ∧
    (∀ kx ky sx sy kx2 ky2 sx2 sy2 : Nat, kx < endX + 1 - startX → kx2 < endX + 1 - startX →
      sx < 65 → sy < 65 → sx2 < 65 → sy2 < 65 →
      (PluginButtonClicked.cellOf (PluginButtonClicked.Size
          (PluginButtonClicked.RoseSize startX endX)) kx ky sx sy
        = PluginButtonClicked.cellOf (PluginButtonClicked.Size
          (PluginButtonClicked.RoseSize startX endX)) kx2 ky2 sx2 sy2
        ↔ ((kx = kx2 ∧ sx = sx2) ∨ (kx2 = kx + 1 ∧ sx = 64 ∧ sx2 = 0)
            ∨ (kx = kx2 + 1 ∧ sx = 0 ∧ sx2 = 64)) ∧
          ((ky = ky2 ∧ sy = sy2) ∨ (ky2 = ky + 1 ∧ sy = 64 ∧ sy2 = 0)
            ∨ (ky = ky2 + 1 ∧ sy = 0 ∧ sy2 = 64)))) ∧
    ((∀ p : String, 256 ≤ (files.loadTil p).Data.length ∧
        ∀ (k : Nat) (c : Til.Cell), k < 256 → (files.loadTil p).Data[k]? = some c →
          0 ≤ c.Brush ∧ c.Brush < 8) →
      (∀ p : String, 4225 ≤ (files.loadHim p).heights.length) →
      ∃ t, PluginButtonClicked.terrain host files assets startX startY endX endY = some t ∧
        t.SizeX = PluginButtonClicked.Size (PluginButtonClicked.RoseSize startX endX) ∧
        (∀ kx ky sx sy : Nat, kx < endX + 1 - startX → ky < endY + 1 - startY →
          sx < 65 → sy < 65 →
          (∀ kx2 ky2 sx2 sy2 : Nat, kx2 < endX + 1 - startX → ky2 < endY + 1 - startY →
            PluginButtonClicked.tileBefore ky kx ky2 kx2 → sx2 < 65 → sy2 < 65 →
            PluginButtonClicked.cellOf t.SizeX kx2 ky2 sx2 sy2
              ≠ PluginButtonClicked.cellOf t.SizeX kx ky sx sy) →
          ∃ h, (PluginButtonClicked.himOf host files (startX + kx) (startY + ky)).heights[
              sy * 65 + sx]? = some h ∧
            t.state.Data[PluginButtonClicked.cellOf t.SizeX kx ky sx sy]?
              = some (toUint16 (ueValue h))) ∧
        (∀ kx ky s : Nat, kx + 1 < endX + 1 - startX → ky < endY + 1 - startY →
          0 < s → s < 64 →
          ∃ h, (PluginButtonClicked.himOf host files (startX + (kx + 1))
              (startY + ky)).heights[s * 65 + 0]? = some h ∧
            t.state.Data[PluginButtonClicked.cellOf t.SizeX kx ky 64 s]?
              = some (toUint16 (ueValue h))) ∧
        (∀ kx ky s : Nat, kx < endX + 1 - startX → ky + 1 < endY + 1 - startY →
          0 < s → s < 64 →
          ∃ h, (PluginButtonClicked.himOf host files (startX + kx)
              (startY + (ky + 1))).heights[0 * 65 + s]? = some h ∧
            t.state.Data[PluginButtonClicked.cellOf t.SizeX kx ky s 64]?
              = some (toUint16 (ueValue h)))) := by
  have rx := PluginButtonClicked.RoseSize_eq startX endX hx bx
  have sx := PluginButtonClicked.Size_eq (64 * (endX - startX + 1)) (by omega)
  have gX : 64 * (endX + 1 - startX)
      < PluginButtonClicked.Size (PluginButtonClicked.RoseSize startX endX) := by
    rw [rx, sx]
    omega
  refine ⟨?_, ?_, ?_⟩
  · intro kx ky sx sy sx2 sy2 hk h1 h2 h
    have := (PluginButtonClicked.cellOf_eq_iff _ _ kx ky sx sy kx ky sx2 sy2 gX hk hk h1 h2).mp h
    omega
  · intro kx ky sx sy kx2 ky2 sx2 sy2 hk hk2 h1 h3 h2 h4
    exact PluginButtonClicked.cellOf_shared_iff _ _ kx ky sx sy kx2 ky2 sx2 sy2 gX hk hk2
      h1 h2 h3 h4
  · intro hTil hHim
    obtain ⟨t, ht, e, g, hw⟩ := PluginButtonClicked.terrain_spec host files assets startX startY
      endX endY hx hy bx bY hTil hHim
    have main : ∀ kx ky sx sy : Nat, kx < endX + 1 - startX → ky < endY + 1 - startY →
        sx < 65 → sy < 65 →
        (∀ kx2 ky2 sx2 sy2 : Nat, kx2 < endX + 1 - startX → ky2 < endY + 1 - startY →
          PluginButtonClicked.tileBefore ky kx ky2 kx2 → sx2 < 65 → sy2 < 65 →
          PluginButtonClicked.cellOf t.SizeX kx2 ky2 sx2 sy2
            ≠ PluginButtonClicked.cellOf t.SizeX kx ky sx sy) →
        ∃ h, (PluginButtonClicked.himOf host files (startX + kx) (startY + ky)).heights[
            sy * 65 + sx]? = some h ∧
          t.state.Data[PluginButtonClicked.cellOf t.SizeX kx ky sx sy]?
            = some (toUint16 (ueValue h)) := by
      intro kx ky sx sy hk hky h1 h2 hno
      apply hw ky kx sy sx hk (by unfold PluginButtonClicked.tileBefore; omega) h2 h1
      intro ky2 kx2 sy2 sx2 hk2 hb2 haft g1 g2
      apply hno kx2 ky2 sx2 sy2 hk2 _ haft g2 g1
      unfold PluginButtonClicked.tileBefore at hb2
      omega
    refine ⟨t, ht, e, main, ?_, ?_⟩
    · intro kx ky s hk hky s0 s64
      obtain ⟨h, a, b⟩ := main (kx + 1) ky 0 s hk hky (by omega) (by omega) (by
        intro kx2 ky2 sx2 sy2 hk2 hky2 haft g1 g2 hc
        have := (PluginButtonClicked.cellOf_shared_iff t.SizeX _ kx2 ky2 sx2 sy2 (kx + 1) ky 0 s
          g hk2 hk g1 (by omega) g2 (by omega)).mp hc
        unfold PluginButtonClicked.tileBefore at haft
        omega)
      refine ⟨h, a, ?_⟩
      rw [← b]
      congr 1
      exact (PluginButtonClicked.cellOf_shared_iff t.SizeX _ kx ky 64 s (kx + 1) ky 0 s
        g (by omega) hk (by omega) (by omega) (by omega) (by omega)).mpr (by omega)
    · intro kx ky s hk hky s0 s64
      obtain ⟨h, a, b⟩ := main kx (ky + 1) s 0 hk hky (by omega) (by omega) (by
        intro kx2 ky2 sx2 sy2 hk2 hky2 haft g1 g2 hc
        have := (PluginButtonClicked.cellOf_shared_iff t.SizeX _ kx2 ky2 sx2 sy2 kx (ky + 1) s 0
          g hk2 hk g1 (by omega) g2 (by omega)).mp hc
        unfold PluginButtonClicked.tileBefore at haft
        omega)
      refine ⟨h, a, ?_⟩
      rw [← b]
      congr 1
      exact (PluginButtonClicked.cellOf_shared_iff t.SizeX _ kx ky s 64 kx (ky + 1) s 0
        g hk hk (by omega) (by omega) (by omega) (by omega)).mpr (by omega)

theorem PluginButtonClicked_tiles_share_borders_witness :
    PluginButtonClicked.cellOf (PluginButtonClicked.Size (PluginButtonClicked.RoseSize 31 34))
        0 0 64 5
      = PluginButtonClicked.cellOf (PluginButtonClicked.Size (PluginButtonClicked.RoseSize 31 34))
        1 0 0 5 :=
  ((PluginButtonClicked_tiles_share_borders sampleHost sampleMapFiles [] 31 30 34 33 (by decide)
    (by decide) (by decide) (by decide)).2.1 0 0 64 5 1 0 0 5 (by decide) (by decide)
    (by decide) (by decide) (by decide) (by decide)).mpr (by decide)

/-! ## C24: the influence list -/

theorem ImportWorldZscModel.keyStep (frames : List FVector) (sel : FVector → ℚ) (k : Nat)
    (frame : FVector) (hk : frames[k]? = some frame) :
    (if k = 0 then some true
      else (frames[k - 1]?).map (fun prev => decide (sel frame ≠ sel prev)))
      = some (ImportWorldZscModel.isKeyFrame (frames.map sel) k) := by
  unfold ImportWorldZscModel.isKeyFrame
  by_cases h0 : k = 0
  · simp [h0]
  · have hlen : k < frames.length := (List.getElem?_eq_some.mp hk).1
    have hp : k - 1 < frames.length := by omega
    rw [if_neg h0, List.getElem?_eq_getElem hp]
    simp only [Option.map_some', List.getElem?_map, hk, List.getElem?_eq_getElem hp,
      Option.some.injEq, h0, false_or]
    congr 1
    simp

theorem ImportWorldZscModel.keysUpTo_succ (framesPerSecond : Nat) (vals : List ℚ) (m : Nat)
    (v : ℚ) (hv : vals[m]? = some v) :
    ((List.range (m + 1)).filter (ImportWorldZscModel.isKeyFrame vals)).map
        (fun (k : Nat) => ({ Time := Float32.div (Float32.ofInt k) (Float32.ofInt framesPerSecond), Value := (vals[k]?).getD 0 } : FKey))
      = ((List.range m).filter (ImportWorldZscModel.isKeyFrame vals)).map
          (fun (k : Nat) => ({ Time := Float32.div (Float32.ofInt k) (Float32.ofInt framesPerSecond), Value := (vals[k]?).getD 0 } : FKey))
        ++ (if ImportWorldZscModel.isKeyFrame vals m = true
            then [{ Time := Float32.div (Float32.ofInt m) (Float32.ofInt framesPerSecond), Value := v }] else []) := by
  rw [List.range_succ, List.filter_append, List.map_append]
  congr 1
  cases h : ImportWorldZscModel.isKeyFrame vals m
  · simp [h]
  · simp [h, hv]

theorem ImportWorldZscModel.vectorKeys_eq (framesPerSecond : Nat) (frames : List FVector)
    (Curve : UCurveVector) :
    ImportWorldZscModel.vectorKeys framesPerSecond frames Curve
      = some { FloatCurves0 := Curve.FloatCurves0
                 ++ ImportWorldZscModel.componentKeys framesPerSecond (frames.map FVector.X),
               FloatCurves1 := Curve.FloatCurves1
                 ++ ImportWorldZscModel.componentKeys framesPerSecond (frames.map FVector.Y),
               FloatCurves2 := Curve.FloatCurves2
                 ++ ImportWorldZscModel.componentKeys framesPerSecond (frames.map FVector.Z) } := by
  unfold ImportWorldZscModel.vectorKeys
  obtain ⟨r, hr, hP⟩ := forEachIdx_total frames (fun k frame (Curve : UCurveVector) => do
    let t := Float32.div (Float32.ofInt k) (Float32.ofInt framesPerSecond)
    let addX ← if k = 0 then some true else (frames[k - 1]?).map (fun prev => decide (frame.X ≠ prev.X))
    let Curve := if addX then { Curve with FloatCurves0 := Curve.FloatCurves0 ++ [⟨t, frame.X⟩] }
      else Curve
    let addY ← if k = 0 then some true else (frames[k - 1]?).map (fun prev => decide (frame.Y ≠ prev.Y))
    let Curve := if addY then { Curve with FloatCurves1 := Curve.FloatCurves1 ++ [⟨t, frame.Y⟩] }
      else Curve
    let addZ ← if k = 0 then some true else (frames[k - 1]?).map (fun prev => decide (frame.Z ≠ prev.Z))
    let Curve := if addZ then { Curve with FloatCurves2 := Curve.FloatCurves2 ++ [⟨t, frame.Z⟩] }
      else Curve
    some Curve) Curve
    (fun m C => C =
      { FloatCurves0 := Curve.FloatCurves0
          ++ ((List.range m).filter (ImportWorldZscModel.isKeyFrame (frames.map FVector.X))).map
            (fun (k : Nat) => ({ Time := Float32.div (Float32.ofInt k) (Float32.ofInt framesPerSecond),
                                 Value := ((frames.map FVector.X)[k]?).getD 0 } : FKey)),
        FloatCurves1 := Curve.FloatCurves1
          ++ ((List.range m).filter (ImportWorldZscModel.isKeyFrame (frames.map FVector.Y))).map
            (fun (k : Nat) => ({ Time := Float32.div (Float32.ofInt k) (Float32.ofInt framesPerSecond),
                                 Value := ((frames.map FVector.Y)[k]?).getD 0 } : FKey)),
        FloatCurves2 := Curve.FloatCurves2
          ++ ((List.range m).filter (ImportWorldZscModel.isKeyFrame (frames.map FVector.Z))).map
            (fun (k : Nat) => ({ Time := Float32.div (Float32.ofInt k) (Float32.ofInt framesPerSecond),
                                 Value := ((frames.map FVector.Z)[k]?).getD 0 } : FKey)) })
    (by simp)
    (by
      intro k frame C hk hC
      have eX := ImportWorldZscModel.keyStep frames FVector.X k frame hk
      have eY := ImportWorldZscModel.keyStep frames FVector.Y k frame hk
      have eZ := ImportWorldZscModel.keyStep frames FVector.Z k frame hk
      have vX : (frames.map FVector.X)[k]? = some frame.X := by simp [hk]
      have vY : (frames.map FVector.Y)[k]? = some frame.Y := by simp [hk]
      have vZ : (frames.map FVector.Z)[k]? = some frame.Z := by simp [hk]
      dsimp only
      rw [ImportWorldZscModel.keysUpTo_succ framesPerSecond _ k _ vX,
        ImportWorldZscModel.keysUpTo_succ framesPerSecond _ k _ vY,
        ImportWorldZscModel.keysUpTo_succ framesPerSecond _ k _ vZ, hC]
      by_cases h0 : k = 0
      · rw [if_pos h0] at eX eY eZ
        rw [← Option.some.inj eX, ← Option.some.inj eY, ← Option.some.inj eZ]
        simp only [if_pos h0, Option.bind_eq_bind, Option.some_bind]
        exact ⟨_, rfl, by simp⟩
      · rw [if_neg h0] at eX eY eZ
        simp only [if_neg h0, Option.bind_eq_bind, eX, eY, eZ, Option.some_bind]
        refine ⟨_, rfl, ?_⟩
        cases ImportWorldZscModel.isKeyFrame (frames.map FVector.X) k <;>
          cases ImportWorldZscModel.isKeyFrame (frames.map FVector.Y) k <;>
          cases ImportWorldZscModel.isKeyFrame (frames.map FVector.Z) k <;> simp)
  rw [hr, hP]
  simp only [ImportWorldZscModel.componentKeys, ImportWorldZscModel.keyFrames, List.length_map]

theorem ImportWorldZscModel.rotationKeys_eq (host : Host) (framesPerSecond : Nat)
    (frames : List FQuat) (Curve : UCurveVector) :
    ImportWorldZscModel.rotationKeys host framesPerSecond frames Curve
      = some { FloatCurves0 := Curve.FloatCurves0 ++ frames.enum.map (fun kq =>
                 { Time := Float32.div (Float32.ofInt kq.1) (Float32.ofInt framesPerSecond), Value := (host.Rotator kq.2).Pitch }),
               FloatCurves1 := Curve.FloatCurves1 ++ frames.enum.map (fun kq =>
                 { Time := Float32.div (Float32.ofInt kq.1) (Float32.ofInt framesPerSecond), Value := (host.Rotator kq.2).Yaw }),
               FloatCurves2 := Curve.FloatCurves2 ++ frames.enum.map (fun kq =>
                 { Time := Float32.div (Float32.ofInt kq.1) (Float32.ofInt framesPerSecond), Value := (host.Rotator kq.2).Roll }) } := by
  unfold ImportWorldZscModel.rotationKeys
  obtain ⟨r, hr, hP⟩ := forEachIdx_total frames (fun k q (Curve : UCurveVector) =>
    let t := Float32.div (Float32.ofInt k) (Float32.ofInt framesPerSecond)
    let frame := host.Rotator q
    some { FloatCurves0 := Curve.FloatCurves0 ++ [⟨t, frame.Pitch⟩],
           FloatCurves1 := Curve.FloatCurves1 ++ [⟨t, frame.Yaw⟩],
           FloatCurves2 := Curve.FloatCurves2 ++ [⟨t, frame.Roll⟩] }) Curve
    (fun m C => C =
      { FloatCurves0 := Curve.FloatCurves0 ++ (frames.take m).enum.map (fun kq =>
          ({ Time := Float32.div (Float32.ofInt kq.1) (Float32.ofInt framesPerSecond), Value := (host.Rotator kq.2).Pitch } : FKey)),
        FloatCurves1 := Curve.FloatCurves1 ++ (frames.take m).enum.map (fun kq =>
          ({ Time := Float32.div (Float32.ofInt kq.1) (Float32.ofInt framesPerSecond), Value := (host.Rotator kq.2).Yaw } : FKey)),
        FloatCurves2 := Curve.FloatCurves2 ++ (frames.take m).enum.map (fun kq =>
          ({ Time := Float32.div (Float32.ofInt kq.1) (Float32.ofInt framesPerSecond), Value := (host.Rotator kq.2).Roll } : FKey)) })
    (by simp)
    (by
      intro k q C hk hC
      have hlen : k < frames.length := (List.getElem?_eq_some.mp hk).1
      have hmin : min k frames.length = k := by omega
      refine ⟨_, rfl, ?_⟩
      dsimp only
      rw [hC, List.take_succ, hk]
      simp [List.enum_append, List.enumFrom_cons, hmin])
  rw [hr, hP, List.take_length]

theorem ImportWorldZscModel.mem_keyFrames (vals : List ℚ) (k : Nat) :
    k ∈ ImportWorldZscModel.keyFrames vals ↔
      k < vals.length ∧ (k = 0 ∨ vals[k]? ≠ vals[k - 1]?) := by
  unfold ImportWorldZscModel.keyFrames ImportWorldZscModel.isKeyFrame
  simp [List.mem_filter]

theorem ImportWorldZscModel.keyFrames_pairwise (vals : List ℚ) :
    (ImportWorldZscModel.keyFrames vals).Pairwise (fun a b => a < b) := by
  unfold ImportWorldZscModel.keyFrames
  exact List.Pairwise.filter _ (List.pairwise_lt_range _)

theorem ImportWorldZscModel.keyFrames_zero (vals : List ℚ) (h : vals ≠ []) :
    0 ∈ ImportWorldZscModel.keyFrames vals := by
  rw [ImportWorldZscModel.mem_keyFrames]
  exact ⟨List.length_pos.mpr h, Or.inl rfl⟩

theorem ImportWorldZscModel.keyFrames_hold (vals : List ℚ) (k : Nat) (hk : k < vals.length) :
    ∃ m, m ∈ ImportWorldZscModel.keyFrames vals ∧ m ≤ k ∧
      (∀ m2, m2 ∈ ImportWorldZscModel.keyFrames vals → m2 ≤ k → m2 ≤ m) ∧
      vals[m]? = vals[k]? := by
  induction k with
  | zero =>
    exact ⟨0, (ImportWorldZscModel.mem_keyFrames vals 0).mpr ⟨hk, Or.inl rfl⟩, Nat.le_refl 0,
      fun m2 _ h => h, rfl⟩
  | succ k ih =>
    by_cases hkey : vals[k + 1]? ≠ vals[k + 1 - 1]?
    · exact ⟨k + 1, (ImportWorldZscModel.mem_keyFrames vals (k + 1)).mpr ⟨hk, Or.inr hkey⟩,
        Nat.le_refl _, fun m2 _ h => h, rfl⟩
    · obtain ⟨m, hm, hle, hmax, hval⟩ := ih (by omega)
      have heq : vals[k + 1]? = vals[k]? := by
        have := not_not.mp hkey
        simpa using this
      refine ⟨m, hm, by omega, ?_, by rw [hval, heq]⟩
      intro m2 hm2 hle2
      by_cases h2 : m2 = k + 1
      · exfalso
        subst h2
        obtain ⟨_, hor⟩ := (ImportWorldZscModel.mem_keyFrames vals (k + 1)).mp hm2
        rcases hor with h0 | hne
        · omega
        · exact hkey hne
      · exact hmax m2 hm2 (by omega)

theorem ImportWorldZscModel.mem_componentKeys (framesPerSecond : Nat) (vals : List ℚ)
    (key : FKey) :
    key ∈ ImportWorldZscModel.componentKeys framesPerSecond vals ↔
      ∃ (k : Nat) (v : ℚ), vals[k]? = some v ∧ (k = 0 ∨ vals[k - 1]? ≠ some v) ∧
        key = { Time := Float32.div (Float32.ofInt k) (Float32.ofInt framesPerSecond), Value := v } := by
  unfold ImportWorldZscModel.componentKeys
  rw [List.mem_map]
  constructor
  · rintro ⟨k, hk, e⟩
    obtain ⟨hlen, hor⟩ := (ImportWorldZscModel.mem_keyFrames vals k).mp hk
    have hv : vals[k]? = some vals[k] := List.getElem?_eq_getElem hlen
    refine ⟨k, vals[k], hv, ?_, ?_⟩
    · rcases hor with h0 | hne
      · exact Or.inl h0
      · right
        rw [← hv]
        exact fun h => hne h.symm
    · rw [← e, hv]
      rfl
  · rintro ⟨k, v, hv, hor, e⟩
    refine ⟨k, (ImportWorldZscModel.mem_keyFrames vals k).mpr
      ⟨(List.getElem?_eq_some.mp hv).1, ?_⟩, ?_⟩
    · rcases hor with h0 | hne
      · exact Or.inl h0
      · right
        rw [hv]
        exact fun h => hne h.symm
    · rw [e, hv]
      rfl

theorem ImportWorldZscModel.componentKeys_length (framesPerSecond : Nat) (vals : List ℚ)
    (h : vals ≠ []) : 1 ≤ (ImportWorldZscModel.componentKeys framesPerSecond vals).length := by
  unfold ImportWorldZscModel.componentKeys
  rw [List.length_map]
  exact List.length_pos_of_mem (ImportWorldZscModel.keyFrames_zero vals h)

theorem ImportWorldZscModel.channelBody_curves (host : Host) (anim : Zmo) (i : Nat)
    (c : Zmo.Channel) (st : TimelineState) :
    ∃ r, ImportWorldZscModel.channelBody host anim i c st = some r ∧
      r.PCurve =
        { FloatCurves0 := st.PCurve.FloatCurves0
            ++ ImportWorldZscModel.positionKeysOf anim.framesPerSecond FVector.X c,
          FloatCurves1 := st.PCurve.FloatCurves1
            ++ ImportWorldZscModel.positionKeysOf anim.framesPerSecond FVector.Y c,
          FloatCurves2 := st.PCurve.FloatCurves2
            ++ ImportWorldZscModel.positionKeysOf anim.framesPerSecond FVector.Z c } ∧
      r.SCurve =
        { FloatCurves0 := st.SCurve.FloatCurves0
            ++ ImportWorldZscModel.scaleKeysOf anim.framesPerSecond FVector.X c,
          FloatCurves1 := st.SCurve.FloatCurves1
            ++ ImportWorldZscModel.scaleKeysOf anim.framesPerSecond FVector.Y c,
          FloatCurves2 := st.SCurve.FloatCurves2
            ++ ImportWorldZscModel.scaleKeysOf anim.framesPerSecond FVector.Z c } ∧
      r.RCurve =
        { FloatCurves0 := st.RCurve.FloatCurves0
            ++ ImportWorldZscModel.rotationKeysOf host anim.framesPerSecond FRotator.Pitch c,
          FloatCurves1 := st.RCurve.FloatCurves1
            ++ ImportWorldZscModel.rotationKeysOf host anim.framesPerSecond FRotator.Yaw c,
          FloatCurves2 := st.RCurve.FloatCurves2
            ++ ImportWorldZscModel.rotationKeysOf host anim.framesPerSecond FRotator.Roll c } := by
  cases c with
  | Position index frames =>
    unfold ImportWorldZscModel.channelBody
    simp only [Option.bind_eq_bind]
    by_cases h0 : index = 0
    · simp [Zmo.Channel.index, h0, ImportWorldZscModel.vectorKeys_eq,
        ImportWorldZscModel.positionKeysOf, ImportWorldZscModel.scaleKeysOf,
        ImportWorldZscModel.rotationKeysOf]
    · simp [Zmo.Channel.index, h0, ImportWorldZscModel.vectorKeys_eq,
        ImportWorldZscModel.positionKeysOf, ImportWorldZscModel.scaleKeysOf,
        ImportWorldZscModel.rotationKeysOf]
  | Scale index frames =>
    unfold ImportWorldZscModel.channelBody
    simp only [Option.bind_eq_bind]
    by_cases h0 : index = 0
    · simp [Zmo.Channel.index, h0, ImportWorldZscModel.vectorKeys_eq,
        ImportWorldZscModel.positionKeysOf, ImportWorldZscModel.scaleKeysOf,
        ImportWorldZscModel.rotationKeysOf]
    · simp [Zmo.Channel.index, h0, ImportWorldZscModel.vectorKeys_eq,
        ImportWorldZscModel.positionKeysOf, ImportWorldZscModel.scaleKeysOf,
        ImportWorldZscModel.rotationKeysOf]
  | Rotation index frames =>
    unfold ImportWorldZscModel.channelBody
    simp only [Option.bind_eq_bind]
    by_cases h0 : index = 0
    · simp [Zmo.Channel.index, h0, ImportWorldZscModel.rotationKeys_eq,
        ImportWorldZscModel.positionKeysOf, ImportWorldZscModel.scaleKeysOf,
        ImportWorldZscModel.rotationKeysOf]
    · simp [Zmo.Channel.index, h0, ImportWorldZscModel.rotationKeys_eq,
        ImportWorldZscModel.positionKeysOf, ImportWorldZscModel.scaleKeysOf,
        ImportWorldZscModel.rotationKeysOf]
  | Other index tag =>
    unfold ImportWorldZscModel.channelBody
    simp only [Option.bind_eq_bind]
    by_cases h0 : index = 0
    · simp [Zmo.Channel.index, h0,
        ImportWorldZscModel.positionKeysOf, ImportWorldZscModel.scaleKeysOf,
        ImportWorldZscModel.rotationKeysOf]
    · simp [Zmo.Channel.index, h0,
        ImportWorldZscModel.positionKeysOf, ImportWorldZscModel.scaleKeysOf,
        ImportWorldZscModel.rotationKeysOf]

theorem ImportWorldZscModel.channelLoop_curves (host : Host) (anim : Zmo)
    (channels : List Zmo.Channel) (st : TimelineState) :
    ∃ r, forEachIdx channels (ImportWorldZscModel.channelBody host anim) st = some r ∧
      r.PCurve =
        { FloatCurves0 := st.PCurve.FloatCurves0 ++ channels.flatMap
            (ImportWorldZscModel.positionKeysOf anim.framesPerSecond FVector.X),
          FloatCurves1 := st.PCurve.FloatCurves1 ++ channels.flatMap
            (ImportWorldZscModel.positionKeysOf anim.framesPerSecond FVector.Y),
          FloatCurves2 := st.PCurve.FloatCurves2 ++ channels.flatMap
            (ImportWorldZscModel.positionKeysOf anim.framesPerSecond FVector.Z) } ∧
      r.SCurve =
        { FloatCurves0 := st.SCurve.FloatCurves0 ++ channels.flatMap
            (ImportWorldZscModel.scaleKeysOf anim.framesPerSecond FVector.X),
          FloatCurves1 := st.SCurve.FloatCurves1 ++ channels.flatMap
            (ImportWorldZscModel.scaleKeysOf anim.framesPerSecond FVector.Y),
          FloatCurves2 := st.SCurve.FloatCurves2 ++ channels.flatMap
            (ImportWorldZscModel.scaleKeysOf anim.framesPerSecond FVector.Z) } ∧
      r.RCurve =
        { FloatCurves0 := st.RCurve.FloatCurves0 ++ channels.flatMap
            (ImportWorldZscModel.rotationKeysOf host anim.framesPerSecond FRotator.Pitch),
          FloatCurves1 := st.RCurve.FloatCurves1 ++ channels.flatMap
            (ImportWorldZscModel.rotationKeysOf host anim.framesPerSecond FRotator.Yaw),
          FloatCurves2 := st.RCurve.FloatCurves2 ++ channels.flatMap
            (ImportWorldZscModel.rotationKeysOf host anim.framesPerSecond FRotator.Roll) } := by
  obtain ⟨r, hr, hP⟩ := forEachIdx_total channels (ImportWorldZscModel.channelBody host anim) st
    (fun n r =>
      r.PCurve =
        { FloatCurves0 := st.PCurve.FloatCurves0 ++ (channels.take n).flatMap
            (ImportWorldZscModel.positionKeysOf anim.framesPerSecond FVector.X),
          FloatCurves1 := st.PCurve.FloatCurves1 ++ (channels.take n).flatMap
            (ImportWorldZscModel.positionKeysOf anim.framesPerSecond FVector.Y),
          FloatCurves2 := st.PCurve.FloatCurves2 ++ (channels.take n).flatMap
            (ImportWorldZscModel.positionKeysOf anim.framesPerSecond FVector.Z) } ∧
      r.SCurve =
        { FloatCurves0 := st.SCurve.FloatCurves0 ++ (channels.take n).flatMap
            (ImportWorldZscModel.scaleKeysOf anim.framesPerSecond FVector.X),
          FloatCurves1 := st.SCurve.FloatCurves1 ++ (channels.take n).flatMap
            (ImportWorldZscModel.scaleKeysOf anim.framesPerSecond FVector.Y),
          FloatCurves2 := st.SCurve.FloatCurves2 ++ (channels.take n).flatMap
            (ImportWorldZscModel.scaleKeysOf anim.framesPerSecond FVector.Z) } ∧
      r.RCurve =
        { FloatCurves0 := st.RCurve.FloatCurves0 ++ (channels.take n).flatMap
            (ImportWorldZscModel.rotationKeysOf host anim.framesPerSecond FRotator.Pitch),
          FloatCurves1 := st.RCurve.FloatCurves1 ++ (channels.take n).flatMap
            (ImportWorldZscModel.rotationKeysOf host anim.framesPerSecond FRotator.Yaw),
          FloatCurves2 := st.RCurve.FloatCurves2 ++ (channels.take n).flatMap
            (ImportWorldZscModel.rotationKeysOf host anim.framesPerSecond FRotator.Roll) })
    (by simp)
    (by
      intro n c s hc ⟨p1, p2, p3⟩
      obtain ⟨r, hr, q1, q2, q3⟩ := ImportWorldZscModel.channelBody_curves host anim n c s
      refine ⟨r, hr, ?_, ?_, ?_⟩
      · rw [q1, p1, List.take_succ, hc]
        simp [List.flatMap_append]
      · rw [q2, p2, List.take_succ, hc]
        simp [List.flatMap_append]
      · rw [q3, p3, List.take_succ, hc]
        simp [List.flatMap_append])
  simp only [List.take_length] at hP
  exact ⟨r, hr, hP⟩

theorem Float32.ofInt_natCast_eq_zero (n : Nat) : Float32.ofInt (n : Int) = 0 ↔ n = 0 := by
  unfold Float32.ofInt
  constructor
  · intro h
    by_contra hn
    have hpos : (0 : ℚ) < ((n : Int) : ℚ) := by
      have : 0 < n := Nat.pos_of_ne_zero hn
      exact_mod_cast this
    have := Float32.roundPos_pos _ hpos
    rw [Float32.round_of_pos _ hpos] at h
    linarith
  · intro h
    subst h
    simp [Float32.round_zero]

theorem Float32.div_ofInt (k n : Nat) :
    Float32.div (Float32.ofInt k) (Float32.ofInt n)
      = if n = 0 then
          (if k = 0 then Float32.Quotient.nan else Float32.Quotient.infinity false)
        else Float32.Quotient.finite
          (Float32.round (Float32.round (k : ℚ) / Float32.round (n : ℚ))) := by
  unfold Float32.div
  by_cases hn : n = 0
  · rw [if_pos ((Float32.ofInt_natCast_eq_zero n).mpr hn), if_pos hn]
    by_cases hk : k = 0
    · rw [if_pos ((Float32.ofInt_natCast_eq_zero k).mpr hk), if_pos hk]
    · rw [if_neg (fun h => hk ((Float32.ofInt_natCast_eq_zero k).mp h)), if_neg hk]
      have : ¬ Float32.ofInt (k : Int) < 0 := by
        unfold Float32.ofInt
        exact not_lt.mpr (Float32.round_nonneg _ (by positivity))
      simp [this]
  · rw [if_neg (fun h => hn ((Float32.ofInt_natCast_eq_zero n).mp h)), if_neg hn]
    unfold Float32.ofInt
    push_cast
    rfl

theorem Float32.round_30 : Float32.round 30 = 30 := by
  rw [Float32.round_eq 30 4 15728640 (by norm_num) (by norm_num)
    (by
      have : (30 : ℚ) / 2 ^ ((4 : ℤ) - 23) = ((15728640 : ℤ) : ℚ) := by norm_num
      rw [this, roundHalfEven_intCast])]
  norm_num

theorem Float32.round_two : Float32.round 2 = 2 := by
  rw [Float32.round_eq 2 1 8388608 (by norm_num) (by norm_num)
    (by
      have : (2 : ℚ) / 2 ^ ((1 : ℤ) - 23) = ((8388608 : ℤ) : ℚ) := by norm_num
      rw [this, roundHalfEven_intCast])]
  norm_num

theorem Float32.round_one_thirtieth : Float32.round (1 / 30) = 8947849 / 268435456 := by
  rw [Float32.round_eq (1 / 30) (-5) 8947849 (by norm_num) (by norm_num)
    (by
      have : (8947849 : ℤ) = 8947848 + 1 := by norm_num
      rw [this]
      apply roundHalfEven_eq_ceil <;> norm_num)]
  norm_num

theorem Float32.round_one_fifteenth : Float32.round (2 / 30) = 8947849 / 134217728 := by
  rw [Float32.round_eq (2 / 30) (-4) 8947849 (by norm_num) (by norm_num)
    (by
      have : (8947849 : ℤ) = 8947848 + 1 := by norm_num
      rw [this]
      apply roundHalfEven_eq_ceil <;> norm_num)]
  norm_num

theorem Float32.div_at_30 :
    Float32.div (Float32.ofInt (0 : Nat)) (Float32.ofInt (30 : Nat)) = Float32.Quotient.finite 0 ∧
    Float32.div (Float32.ofInt (1 : Nat)) (Float32.ofInt (30 : Nat))
      = Float32.Quotient.finite (8947849 / 268435456) ∧
    Float32.div (Float32.ofInt (2 : Nat)) (Float32.ofInt (30 : Nat))
      = Float32.Quotient.finite (8947849 / 134217728) := by
  refine ⟨?_, ?_, ?_⟩
  · rw [Float32.div_ofInt]
    norm_num [Float32.round_zero, Float32.round_30]
  · rw [Float32.div_ofInt]
    norm_num [Float32.round_one, Float32.round_30, Float32.round_one_thirtieth]
  · rw [Float32.div_ofInt]
    norm_num [Float32.round_two, Float32.round_30]
    have := Float32.round_one_fifteenth
    norm_num at this
    exact this

/-- C25. The timeline import of `ImportWorldZscModel` always returns, and its
curves hold, channel after channel, the keys of the description: the three
curves of `PCurve` those of the X, Y and Z values of the Position channels,
the curves of `SCurve` those of the Scale channels, and the curves of `RCurve`
one key per frame of the Rotation channels. For every component, with `vals`
its values by frame: a key is emitted exactly for a frame `k` with `k = 0` or
a value other than that of frame `k - 1`, and it is
`((float)k / (float)framesPerSecond, value)`; a non-empty channel gives at least
one key; the key frames are strictly increasing; for every frame `k` the
latest key frame at or before `k` has the value of frame `k`, and its key is
in the curve. The key time is the single-precision quotient: the rounded
`k / framesPerSecond`, or with `framesPerSecond = 0` a NaN at frame 0 and
`+infinity` at every later frame. -/
theorem ImportWorldZscModel_timeline_keys (host : Host) (j : Nat) (anim : Zmo) :
    (∃ tl, ImportWorldZscModel.timeline host j anim = some tl ∧
      tl.curves.PCurve =
        { FloatCurves0 := anim.channels.flatMap
            (ImportWorldZscModel.positionKeysOf anim.framesPerSecond FVector.X),
          FloatCurves1 := anim.channels.flatMap
            (ImportWorldZscModel.positionKeysOf anim.framesPerSecond FVector.Y),
          FloatCurves2 := anim.channels.flatMap
            (ImportWorldZscModel.positionKeysOf anim.framesPerSecond FVector.Z) } ∧
      tl.curves.SCurve =
        { FloatCurves0 := anim.channels.flatMap
            (ImportWorldZscModel.scaleKeysOf anim.framesPerSecond FVector.X),
          FloatCurves1 := anim.channels.flatMap
            (ImportWorldZscModel.scaleKeysOf anim.framesPerSecond FVector.Y),
          FloatCurves2 := anim.channels.flatMap
            (ImportWorldZscModel.scaleKeysOf anim.framesPerSecond FVector.Z) } ∧
      tl.curves.RCurve =
        { FloatCurves0 := anim.channels.flatMap
            (ImportWorldZscModel.rotationKeysOf host anim.framesPerSecond FRotator.Pitch),
          FloatCurves1 := anim.channels.flatMap
            (ImportWorldZscModel.rotationKeysOf host anim.framesPerSecond FRotator.Yaw),
          FloatCurves2 := anim.channels.flatMap
            (ImportWorldZscModel.rotationKeysOf host anim.framesPerSecond FRotator.Roll) }) ∧
    (∀ (index : Nat) (frames : List FVector) (sel : FVector → ℚ),
      ImportWorldZscModel.positionKeysOf anim.framesPerSecond sel (.Position index frames)
        = ImportWorldZscModel.componentKeys anim.framesPerSecond (frames.map sel) ∧
      ImportWorldZscModel.scaleKeysOf anim.framesPerSecond sel (.Scale index frames)
        = ImportWorldZscModel.componentKeys anim.framesPerSecond (frames.map sel) ∧
      ImportWorldZscModel.positionKeysOf anim.framesPerSecond sel (.Scale index frames) = [] ∧
      ImportWorldZscModel.scaleKeysOf anim.framesPerSecond sel (.Position index frames) = []) ∧
    (∀ vals : List ℚ,
      (∀ key : FKey, key ∈ ImportWorldZscModel.componentKeys anim.framesPerSecond vals ↔
        ∃ (k : Nat) (v : ℚ), vals[k]? = some v ∧ (k = 0 ∨ vals[k - 1]? ≠ some v) ∧
          key = { Time := Float32.div (Float32.ofInt k) (Float32.ofInt anim.framesPerSecond),
                  Value := v }) ∧
      (ImportWorldZscModel.componentKeys anim.framesPerSecond vals).length
        = (ImportWorldZscModel.keyFrames vals).length ∧
      (∀ k : Nat, k ∈ ImportWorldZscModel.keyFrames vals ↔
        k < vals.length ∧ (k = 0 ∨ vals[k]? ≠ vals[k - 1]?)) ∧
      (vals ≠ [] →
        1 ≤ (ImportWorldZscModel.componentKeys anim.framesPerSecond vals).length) ∧
      (ImportWorldZscModel.keyFrames vals).Pairwise (fun a b => a < b) ∧
      (∀ (k : Nat) (v : ℚ), vals[k]? = some v →
        ∃ m, m ∈ ImportWorldZscModel.keyFrames vals ∧ m ≤ k ∧
          (∀ m2, m2 ∈ ImportWorldZscModel.keyFrames vals → m2 ≤ k → m2 ≤ m) ∧
          vals[m]? = some v ∧
          ({ Time := Float32.div (Float32.ofInt m) (Float32.ofInt anim.framesPerSecond),
             Value := v } : FKey)
            ∈ ImportWorldZscModel.componentKeys anim.framesPerSecond vals)) ∧
    (∀ (index : Nat) (frames : List FQuat) (sel : FRotator → ℚ),
      ImportWorldZscModel.rotationKeysOf host anim.framesPerSecond sel (.Rotation index frames)
        = frames.enum.map (fun kq =>
            { Time := Float32.div (Float32.ofInt kq.1) (Float32.ofInt anim.framesPerSecond),
              Value := sel (host.Rotator kq.2) }) ∧
      (ImportWorldZscModel.rotationKeysOf host anim.framesPerSecond sel
        (.Rotation index frames)).length = frames.length ∧
      ImportWorldZscModel.positionKeysOf anim.framesPerSecond FVector.X
        (.Rotation index frames) = [] ∧
      ImportWorldZscModel.scaleKeysOf anim.framesPerSecond FVector.X
        (.Rotation index frames) = []) ∧
    (∀ k : Nat, Float32.div (Float32.ofInt k) (Float32.ofInt anim.framesPerSecond)
      = if anim.framesPerSecond = 0 then
          (if k = 0 then Float32.Quotient.nan else Float32.Quotient.infinity false)
        else Float32.Quotient.finite
          (Float32.round (Float32.round (k : ℚ) / Float32.round (anim.framesPerSecond : ℚ)))) := by
  refine ⟨?_, ?_, ?_, ?_, ?_⟩
  · obtain ⟨st, hst, p1, p2, p3⟩ := ImportWorldZscModel.channelLoop_curves host anim
      anim.channels
      { RCurve := UCurveVector.empty, PCurve := UCurveVector.empty,
        SCurve := UCurveVector.empty, UsesRotation := false, UsesPosition := false,
        UsesScale := false, breaks := 0 }
    have ht : ImportWorldZscModel.timeline host j anim
        = some { TimelineName := "Part_" ++ toString j ++ "_Anim",
                 TimelineLength := Float32.div (Float32.ofInt anim.frameCount)
                   (Float32.ofInt anim.framesPerSecond),
                 curves := st,
                 VectorTracks := (if st.UsesRotation then ["Rotation"] else [])
                   ++ (if st.UsesPosition then ["Position"] else [])
                   ++ (if st.UsesScale then ["Scale"] else []) } := by
      unfold ImportWorldZscModel.timeline
      rw [hst]
      rfl
    refine ⟨_, ht, ?_, ?_, ?_⟩
    · simpa [UCurveVector.empty] using p1
    · simpa [UCurveVector.empty] using p2
    · simpa [UCurveVector.empty] using p3
  · intro index frames sel
    exact ⟨rfl, rfl, rfl, rfl⟩
  · intro vals
    refine ⟨ImportWorldZscModel.mem_componentKeys _ vals, ?_,
      ImportWorldZscModel.mem_keyFrames vals, ImportWorldZscModel.componentKeys_length _ vals,
      ImportWorldZscModel.keyFrames_pairwise vals, ?_⟩
    · unfold ImportWorldZscModel.componentKeys
      rw [List.length_map]
    · intro k v hv
      obtain ⟨m, hm, hle, hmax, hval⟩ :=
        ImportWorldZscModel.keyFrames_hold vals k (List.getElem?_eq_some.mp hv).1
      rw [hv] at hval
      refine ⟨m, hm, hle, hmax, hval, ?_⟩
      unfold ImportWorldZscModel.componentKeys
      rw [List.mem_map]
      exact ⟨m, hm, by rw [hval]; rfl⟩
  · intro index frames sel
    refine ⟨rfl, ?_, rfl, rfl⟩
    simp [ImportWorldZscModel.rotationKeysOf]
  · intro k
    exact Float32.div_ofInt k anim.framesPerSecond

/-- C25, evaluation on the sample motion (one Position channel of the frames
`(1,1,1)`, `(1,2,1)`, `(1,2,3)` at 30 frames per second): X gets the key of
frame 0 only, Y the keys of the frames 0 and 1, Z the keys of the frames 0 and
2; the key times are 0, `(float)1 / (float)30 = 8947849 / 2^28` and
`(float)2 / (float)30 = 8947849 / 2^27`. -/
theorem ImportWorldZscModel_timeline_keys_witness :
    ∃ tl, ImportWorldZscModel.timeline sampleHost 0 sampleTimelineAnim = some tl ∧
      tl.curves.PCurve =
        { FloatCurves0 := [⟨Float32.Quotient.finite 0, 1⟩],
          FloatCurves1 := [⟨Float32.Quotient.finite 0, 1⟩,
            ⟨Float32.Quotient.finite (8947849 / 268435456), 2⟩],
          FloatCurves2 := [⟨Float32.Quotient.finite 0, 1⟩,
            ⟨Float32.Quotient.finite (8947849 / 134217728), 3⟩] } ∧
      tl.curves.SCurve = UCurveVector.empty ∧ tl.curves.RCurve = UCurveVector.empty := by
  obtain ⟨tl, htl, p1, p2, p3⟩ :=
    (ImportWorldZscModel_timeline_keys sampleHost 0 sampleTimelineAnim).1
  have k1 : ImportWorldZscModel.keyFrames [1, 1, 1] = [0] := by decide
  have k2 : ImportWorldZscModel.keyFrames [1, 2, 2] = [0, 1] := by decide
  have k3 : ImportWorldZscModel.keyFrames [1, 1, 3] = [0, 2] := by decide
  obtain ⟨t0, t1, t2⟩ := Float32.div_at_30
  refine ⟨tl, htl, ?_, ?_, ?_⟩
  · rw [p1]
    simp only [sampleTimelineAnim, List.flatMap_cons, List.flatMap_nil, List.append_nil,
      ImportWorldZscModel.positionKeysOf, ImportWorldZscModel.componentKeys, List.map_cons,
      List.map_nil, k1, k2, k3]
    rw [t0, t1, t2]
    rfl
  · rw [p2]
    rfl
  · rw [p3]
    rfl

end UnrealRose
